import Mathlib

/-!
# y4mdenoise: the denoising pipeline orchestrator (`newdenoise.cc`)

A shallow embedding of `src/y4mdenoise/newdenoise.cc`:

* the pixel kernels (`PixelY`, `PixelCbCr`: `MakeTolerance`, `IsWithinTolerance`);
* the frame pool of `ReadWriteThread`, with the reader (`DenoiserThreadRead`) and the
  writer (`DenoiserThreadWrite`) as step machines whose atomic steps are the
  mutex-protected sections of the source;
* the facade (`output_frame`, `output_field`, the per-plane routines and
  `newdenoise_frame` / `newdenoise_interlaced_frame`) over a motion-search engine that is
  taken as a parameter;
* the denoise worker (`DenoiserThread`, `DenoiserThreadCbCr`) as a step machine;
* `newdenoise_init` and `newdenoise_shutdown` over the globals and the thread objects.

Definitions come first, theorems after them.
-/

namespace NewDenoise

/-! ## Machine integers -/

/-- An 8-bit unsigned value (`uint8_t`). -/
abbrev uint8_t := Fin 256

/-- Two's-complement wrap of an integer into the range of `int32_t`. -/
def wrap32 (x : Int) : Int := (x + 2147483648) % 4294967296 - 2147483648

/-- The conversion `int32_t (v)` of an 8-bit value. -/
def int32_of_uint8 (v : uint8_t) : Int := (v.val : Int)

/-- Subtraction in `int32_t`. -/
def int32_sub (x y : Int) : Int := wrap32 (x - y)

/-- Addition in `int32_t`. -/
def int32_add (x y : Int) : Int := wrap32 (x + y)

/-- Multiplication in `int32_t`. -/
def int32_mul (x y : Int) : Int := wrap32 (x * y)

/-- Unary minus in `int32_t`. -/
def int32_neg (x : Int) : Int := wrap32 (-x)

/-- Modelled from the spec: `AbsoluteValue` is a helper template declared in a header that
is not part of the sources; the spec writes its result as `|a − b|`. It is embedded as the
usual `(x < 0) ? -x : x` on `int32_t`. -/
def AbsoluteValue (x : Int) : Int := if x < 0 then int32_neg x else x

/-! ## Pixel kernels -/

/-- The type `Pixel<uint8_t,1,int32_t>`: one component, `m_atnVal[0]`. -/
structure PixelY where
  m_atnVal0 : uint8_t
  deriving DecidableEq, Repr

/-- The type `Pixel<uint8_t,2,int32_t>`: two components, `m_atnVal[0]` (Cb) and
`m_atnVal[1]` (Cr). -/
structure PixelCbCr where
  m_atnVal0 : uint8_t
  m_atnVal1 : uint8_t
  deriving DecidableEq, Repr

/-- `PixelY::MakeTolerance`: for a one-dimensional pixel, just the given number. -/
def PixelY.MakeTolerance (a_tnTolerance : uint8_t) : Int :=
  int32_of_uint8 a_tnTolerance

/-- `PixelCbCr::MakeTolerance`: for a two-dimensional pixel, the square of the number. -/
def PixelCbCr.MakeTolerance (a_tnTolerance : uint8_t) : Int :=
  int32_mul (int32_of_uint8 a_tnTolerance) (int32_of_uint8 a_tnTolerance)

/-- `PixelY::IsWithinTolerance (a_rOther, a_tnTolerance)`. -/
def PixelY.IsWithinTolerance (self a_rOther : PixelY) (a_tnTolerance : Int) : Bool :=
  decide (AbsoluteValue (int32_sub (int32_of_uint8 self.m_atnVal0)
    (int32_of_uint8 a_rOther.m_atnVal0)) ≤ a_tnTolerance)

/-- `PixelY::IsWithinTolerance (a_rOther, a_tnTolerance, a_rtnSAD)`: the returned pair
is (result, value stored in `a_rtnSAD`). -/
def PixelY.IsWithinToleranceSAD (self a_rOther : PixelY) (a_tnTolerance : Int) :
    Bool × Int :=
  let a_rtnSAD := AbsoluteValue (int32_sub (int32_of_uint8 self.m_atnVal0)
    (int32_of_uint8 a_rOther.m_atnVal0))
  (decide (a_rtnSAD ≤ a_tnTolerance), a_rtnSAD)

/-- `PixelCbCr::IsWithinTolerance (a_rOther, a_tnTolerance)`. -/
def PixelCbCr.IsWithinTolerance (self a_rOther : PixelCbCr) (a_tnTolerance : Int) :
    Bool :=
  let tnX := int32_sub (int32_of_uint8 self.m_atnVal0) (int32_of_uint8 a_rOther.m_atnVal0)
  let tnY := int32_sub (int32_of_uint8 self.m_atnVal1) (int32_of_uint8 a_rOther.m_atnVal1)
  decide (int32_add (int32_mul tnX tnX) (int32_mul tnY tnY) ≤ a_tnTolerance)

/-- `PixelCbCr::IsWithinTolerance (a_rOther, a_tnTolerance, a_rtnSAD)`: the returned
pair is (result, value stored in `a_rtnSAD`). -/
def PixelCbCr.IsWithinToleranceSAD (self a_rOther : PixelCbCr) (a_tnTolerance : Int) :
    Bool × Int :=
  let tnX := int32_sub (int32_of_uint8 self.m_atnVal0) (int32_of_uint8 a_rOther.m_atnVal0)
  let tnY := int32_sub (int32_of_uint8 self.m_atnVal1) (int32_of_uint8 a_rOther.m_atnVal1)
  let a_rtnSAD := int32_add (int32_mul tnX tnX) (int32_mul tnY tnY)
  (decide (a_rtnSAD ≤ a_tnTolerance), a_rtnSAD)

/-! ## The frame pool (`ReadWriteThread` on top of `BasicThread`)

The intrusive singly-linked lists of the source (`m_pValidFramesHead` /
`m_pValidFramesTail`, `m_pFreeFramesHead`, chained through `Frame::next`) are embedded as
lists of frames, head first; the same transitions on the pointer fields themselves
follow below (`FramePointers`), and are proved to act on the chains as these act on the
lists. A frame is named by its index in `m_apFrames`. The mutex is embedded by taking
every locked section of the source as one atomic step, so the `assert (IsLocked())`
checks hold by construction. An `assert` that fails makes the operation return `none`.
-/

/-- Modelled from the spec: the status `Y4M_OK` of the raw-video library, whose header
`yuv4mpeg.h` is not part of the sources. -/
def Y4M_OK : Int := 0

/-- Modelled from the spec: the status `Y4M_ERR_EOF` of the raw-video library, whose
header `yuv4mpeg.h` is not part of the sources; only its being different from `Y4M_OK`
is relied on. -/
def Y4M_ERR_EOF : Int := 6

/-- A frame of the pool: its index in `m_apFrames`. -/
abbrev Frame := Nat

/-- The video data held in the three planes of one frame, as an abstract value. -/
abbrev Content := Nat

/-- The enumerator `m_kNumFrames`. -/
def m_kNumFrames : Nat := 4

/-- The data members of `BasicThread` and `ReadWriteThread` that the pool logic uses. -/
structure ReadWriteThread where
  /-- `BasicThread::m_bWaitingForInput` -/
  m_bWaitingForInput : Bool
  /-- `BasicThread::m_bWaitingForOutput` -/
  m_bWaitingForOutput : Bool
  /-- `BasicThread::m_bWorkLoop` -/
  m_bWorkLoop : Bool
  /-- `BasicThread::m_nWorkRetval` -/
  m_nWorkRetval : Int
  /-- The data in `m_apFrames[i].planes`, by frame index. -/
  planes : List Content
  /-- The valid-frame list, from `m_pValidFramesHead` to `m_pValidFramesTail`. -/
  m_pValidFrames : List Frame
  /-- `m_pCurrentFrame` (`none` is `NULL`). -/
  m_pCurrentFrame : Option Frame
  /-- The free-frame list, from `m_pFreeFramesHead`. -/
  m_pFreeFrames : List Frame
  deriving DecidableEq, Repr

/-- The state left by the constructors `BasicThread()` and `ReadWriteThread()`. -/
def ReadWriteThread.constructed : ReadWriteThread :=
  { m_bWaitingForInput := false, m_bWaitingForOutput := false, m_bWorkLoop := false,
    m_nWorkRetval := Y4M_OK, planes := [], m_pValidFrames := [],
    m_pCurrentFrame := none, m_pFreeFrames := [] }

/-- `ReadWriteThread::GetFirstValidFrame`. -/
def ReadWriteThread.GetFirstValidFrame (t : ReadWriteThread) :
    Option (Frame × ReadWriteThread) :=
  match t.m_pValidFrames with
  | [] => none
  | pFrame :: rest => some (pFrame, { t with m_pValidFrames := rest })

/-- `ReadWriteThread::AddFrameToValidList`. -/
def ReadWriteThread.AddFrameToValidList (t : ReadWriteThread) (a_pFrame : Frame) :
    ReadWriteThread :=
  { t with m_pValidFrames := t.m_pValidFrames ++ [a_pFrame] }

/-- `ReadWriteThread::GetFreeFrame`. -/
def ReadWriteThread.GetFreeFrame (t : ReadWriteThread) :
    Option (Frame × ReadWriteThread) :=
  match t.m_pFreeFrames with
  | [] => none
  | pFrame :: rest => some (pFrame, { t with m_pFreeFrames := rest })

/-- `ReadWriteThread::AddFrameToFreeList`. -/
def ReadWriteThread.AddFrameToFreeList (t : ReadWriteThread) (a_pFrame : Frame) :
    ReadWriteThread :=
  { t with m_pFreeFrames := a_pFrame :: t.m_pFreeFrames }

/-- `ReadWriteThread::MoveValidFrameToCurrent`. -/
def ReadWriteThread.MoveValidFrameToCurrent (t : ReadWriteThread) :
    Option ReadWriteThread :=
  match t.m_pCurrentFrame with
  | some _ => none
  | none =>
    match t.GetFirstValidFrame with
    | none => none
    | some (pFrame, t1) => some { t1 with m_pCurrentFrame := some pFrame }

/-- `ReadWriteThread::MoveCurrentFrameToValidList`. -/
def ReadWriteThread.MoveCurrentFrameToValidList (t : ReadWriteThread) :
    Option ReadWriteThread :=
  match t.m_pCurrentFrame with
  | none => none
  | some pFrame => some { t.AddFrameToValidList pFrame with m_pCurrentFrame := none }

/-- `ReadWriteThread::MoveFreeFrameToCurrent`. -/
def ReadWriteThread.MoveFreeFrameToCurrent (t : ReadWriteThread) :
    Option ReadWriteThread :=
  match t.m_pCurrentFrame with
  | some _ => none
  | none =>
    match t.GetFreeFrame with
    | none => none
    | some (pFrame, t1) => some { t1 with m_pCurrentFrame := some pFrame }

/-- `ReadWriteThread::MoveCurrentFrameToFreeList`. -/
def ReadWriteThread.MoveCurrentFrameToFreeList (t : ReadWriteThread) :
    Option ReadWriteThread :=
  match t.m_pCurrentFrame with
  | none => none
  | some pFrame => some { t.AddFrameToFreeList pFrame with m_pCurrentFrame := none }

/-- `BasicThread::SignalInput`. -/
def ReadWriteThread.SignalInput (t : ReadWriteThread) : ReadWriteThread :=
  { t with m_bWaitingForInput := false }

/-- `BasicThread::SignalOutput`. -/
def ReadWriteThread.SignalOutput (t : ReadWriteThread) : ReadWriteThread :=
  { t with m_bWaitingForOutput := false }

/-- The entry of `BasicThread::WaitForInput`: the flag is raised and the caller blocks in
`m_oInputCondition.Wait()` with the mutex released. -/
def ReadWriteThread.WaitForInput (t : ReadWriteThread) : Option ReadWriteThread :=
  if t.m_bWaitingForInput then none else some { t with m_bWaitingForInput := true }

/-- The entry of `BasicThread::WaitForOutput`: the flag is raised and the caller blocks
in `m_oOutputCondition.Wait()` with the mutex released. -/
def ReadWriteThread.WaitForOutput (t : ReadWriteThread) : Option ReadWriteThread :=
  if t.m_bWaitingForOutput then none else some { t with m_bWaitingForOutput := true }

/-- The body shared by `BasicThread::Shutdown` and `BasicThread::WorkLoopExit`: stop the
loop and release whoever is waiting. -/
def ReadWriteThread.stopAndSignal (t : ReadWriteThread) : ReadWriteThread :=
  let t1 := { t with m_bWorkLoop := false }
  let t2 := if t1.m_bWaitingForInput then t1.SignalInput else t1
  if t2.m_bWaitingForOutput then t2.SignalOutput else t2

/-- The loop of `ReadWriteThread::Initialize` that puts each new frame at the head of the
free list, for `i` from `0` below `n`. -/
def ReadWriteThread.allocateFrames (t : ReadWriteThread) : Nat → ReadWriteThread
  | 0 => t
  | i + 1 =>
    let t1 := t.allocateFrames i
    { t1 with planes := t1.planes ++ [0], m_pFreeFrames := i :: t1.m_pFreeFrames }

/-- `ReadWriteThread::Initialize` followed by `BasicThread::Initialize`: the frames are
allocated (their data is not yet meaningful, written as `0`) and the worker is started. -/
def ReadWriteThread.Initialize : ReadWriteThread :=
  { ReadWriteThread.constructed.allocateFrames m_kNumFrames with m_bWorkLoop := true }

/-- The number of buffers the pool itself accounts for:
`|free list| + |valid list| + (1 if there is a current frame)`. -/
def ReadWriteThread.poolCount (t : ReadWriteThread) : Nat :=
  t.m_pFreeFrames.length + t.m_pValidFrames.length
    + (if t.m_pCurrentFrame.isSome then 1 else 0)

/-- The data currently held by frame `f`. -/
def ReadWriteThread.dataOf (t : ReadWriteThread) (f : Frame) : Content :=
  t.planes.getD f 0

/-! ### The lists as the source stores them

The same eight transitions on the pointer fields themselves: every frame's `next`, the
head and the tail of the valid list, the head of the free list and the current frame.
The theorems `refines_...` show that they act on the chains reachable from the heads as
the list operations above act on lists. -/

/-- The pointer fields of `ReadWriteThread` (`none` is `NULL`). -/
structure FramePointers where
  /-- `m_apFrames[i].next`, by frame index. -/
  next : Frame → Option Frame
  m_pValidFramesHead : Option Frame
  m_pValidFramesTail : Option Frame
  m_pCurrentFrame : Option Frame
  m_pFreeFramesHead : Option Frame

/-- The assignment `pFrame->next = v`. -/
def setNext (next : Frame → Option Frame) (pFrame : Frame) (v : Option Frame) :
    Frame → Option Frame :=
  fun g => if g = pFrame then v else next g

/-- `ReadWriteThread::GetFirstValidFrame` on the pointers. -/
def FramePointers.GetFirstValidFrame (p : FramePointers) :
    Option (Frame × FramePointers) :=
  -- assert (m_pValidFramesHead != NULL);
  match p.m_pValidFramesHead with
  | none => none
  | some pFrame =>
    let head := p.next pFrame
    some (pFrame,
      { p with m_pValidFramesHead := head,
               m_pValidFramesTail := if head.isNone then none else p.m_pValidFramesTail })

/-- `ReadWriteThread::AddFrameToValidList` on the pointers. -/
def FramePointers.AddFrameToValidList (p : FramePointers) (a_pFrame : Frame) :
    Option FramePointers :=
  -- a_pFrame->next = NULL;
  let next1 := setNext p.next a_pFrame none
  match p.m_pValidFramesHead with
  | none =>
    some { p with next := next1, m_pValidFramesHead := some a_pFrame,
                  m_pValidFramesTail := some a_pFrame }
  | some _ =>
    match p.m_pValidFramesTail with
    | none => none
    | some pTail =>
      -- assert (m_pValidFramesTail->next == NULL);
      if (next1 pTail).isSome then none
      else
        let next2 := setNext next1 pTail (some a_pFrame)
        some { p with next := next2, m_pValidFramesTail := next2 pTail }

/-- `ReadWriteThread::GetFreeFrame` on the pointers. -/
def FramePointers.GetFreeFrame (p : FramePointers) : Option (Frame × FramePointers) :=
  -- assert (m_pFreeFramesHead != NULL);
  match p.m_pFreeFramesHead with
  | none => none
  | some pFrame => some (pFrame, { p with m_pFreeFramesHead := p.next pFrame })

/-- `ReadWriteThread::AddFrameToFreeList` on the pointers. -/
def FramePointers.AddFrameToFreeList (p : FramePointers) (a_pFrame : Frame) :
    FramePointers :=
  { p with next := setNext p.next a_pFrame p.m_pFreeFramesHead,
           m_pFreeFramesHead := some a_pFrame }

/-- `ReadWriteThread::MoveValidFrameToCurrent` on the pointers. -/
def FramePointers.MoveValidFrameToCurrent (p : FramePointers) : Option FramePointers :=
  -- assert (m_pValidFramesHead != NULL); assert (m_pCurrentFrame == NULL);
  if p.m_pValidFramesHead.isNone || p.m_pCurrentFrame.isSome then none
  else
    match p.GetFirstValidFrame with
    | none => none
    | some (pFrame, p1) => some { p1 with m_pCurrentFrame := some pFrame }

/-- `ReadWriteThread::MoveCurrentFrameToValidList` on the pointers. -/
def FramePointers.MoveCurrentFrameToValidList (p : FramePointers) :
    Option FramePointers :=
  -- assert (m_pCurrentFrame != NULL);
  match p.m_pCurrentFrame with
  | none => none
  | some pFrame =>
    match p.AddFrameToValidList pFrame with
    | none => none
    | some p1 => some { p1 with m_pCurrentFrame := none }

/-- `ReadWriteThread::MoveFreeFrameToCurrent` on the pointers. -/
def FramePointers.MoveFreeFrameToCurrent (p : FramePointers) : Option FramePointers :=
  -- assert (m_pFreeFramesHead != NULL); assert (m_pCurrentFrame == NULL);
  if p.m_pFreeFramesHead.isNone || p.m_pCurrentFrame.isSome then none
  else
    match p.GetFreeFrame with
    | none => none
    | some (pFrame, p1) => some { p1 with m_pCurrentFrame := some pFrame }

/-- `ReadWriteThread::MoveCurrentFrameToFreeList` on the pointers. -/
def FramePointers.MoveCurrentFrameToFreeList (p : FramePointers) :
    Option FramePointers :=
  -- assert (m_pCurrentFrame != NULL);
  match p.m_pCurrentFrame with
  | none => none
  | some pFrame => some { p.AddFrameToFreeList pFrame with m_pCurrentFrame := none }

/-- The pointer fields left by the constructor `ReadWriteThread()`; the `next` fields of
the frames are not yet allocated and are written as `NULL`. -/
def FramePointers.constructed : FramePointers :=
  { next := fun _ => none, m_pValidFramesHead := none, m_pValidFramesTail := none,
    m_pCurrentFrame := none, m_pFreeFramesHead := none }

/-- The loop of `ReadWriteThread::Initialize` on the pointers:
`m_apFrames[i].next = m_pFreeFramesHead; m_pFreeFramesHead = &(m_apFrames[i]);`
for `i` from `0` below `n`. -/
def FramePointers.allocateFrames (p : FramePointers) : Nat → FramePointers
  | 0 => p
  | i + 1 =>
    let p1 := p.allocateFrames i
    { p1 with next := setNext p1.next i p1.m_pFreeFramesHead,
              m_pFreeFramesHead := some i }

/-- The chain of frames reached from `head` by following `next` up to `NULL` is the
list `l`. -/
def Chain (next : Frame → Option Frame) : Option Frame → List Frame → Prop
  | head, [] => head = none
  | head, f :: l => head = some f ∧ Chain next (next f) l

/-- The pointer fields `p` store the lists and the current frame of `t`: the valid chain
and the free chain are its two lists, and the tail pointer is the last valid frame. -/
def Represents (p : FramePointers) (t : ReadWriteThread) : Prop :=
  Chain p.next p.m_pValidFramesHead t.m_pValidFrames
    ∧ p.m_pValidFramesTail = t.m_pValidFrames.getLast?
    ∧ p.m_pCurrentFrame = t.m_pCurrentFrame
    ∧ Chain p.next p.m_pFreeFramesHead t.m_pFreeFrames

/-- No frame occurs twice in the valid list, the free list and the current slot taken
together. -/
def ReadWriteThread.Separate (t : ReadWriteThread) : Prop :=
  (t.m_pCurrentFrame.toList ++ (t.m_pValidFrames ++ t.m_pFreeFrames)).Nodup

/-! ### The worker and client threads

Where a thread stands between two atomic steps. -/

/-- Where the worker thread of a pool stands. -/
inductive WorkerPC where
  /-- In `WorkLoop`, about to evaluate the loop condition. -/
  | loopHead
  /-- In `Work`, about to take the mutex for its first locked section. -/
  | workStart
  /-- In `Work`, blocked in `WaitForInput` / `WaitForOutput` with the mutex released. -/
  | waiting
  /-- In `Work`, between its two locked sections: `pFrame` has been taken out of the
  pool and is being read into or written out, with the mutex released. -/
  | holding (pFrame : Frame)
  /-- `Work` has returned `nErr`; `m_nWorkRetval` is not assigned yet. -/
  | returned (nErr : Int)
  /-- `WorkLoop` has been left; `WorkLoopExit` is still to run. -/
  | exiting
  /-- The thread function has returned. -/
  | done
  deriving DecidableEq, Repr

/-- The frame the worker holds in its local variable `pFrame`, outside the pool. -/
def WorkerPC.held : WorkerPC → List Frame
  | .holding pFrame => [pFrame]
  | _ => []

/-- Where the client thread (the caller of the public methods) stands. -/
inductive ClientPC where
  /-- Outside every method of the pool. -/
  | idle
  /-- Blocked in `WaitForOutput` (reader) or `WaitForInput` (writer) inside
  `ReadFrame` / `GetSpaceToWriteFrame`, with the mutex released. -/
  | waiting
  /-- After `Unlock()` with no frame in hand: about to check and return
  `m_nWorkRetval`. -/
  | failing
  /-- In `Shutdown`, blocked in `pthread_join`. -/
  | joining
  deriving DecidableEq, Repr

/-! ### The reader (`DenoiserThreadRead`)

The state of the reader pool together with its two threads. Every step is one locked
section of the source, or one unlocked action between two of them. -/

/-- The reader pool, its worker thread and its client. The last three fields record
what has happened so far; the program does not read them. -/
structure ReaderSys where
  /-- The object `g_oDenoiserThreadRead`. -/
  thread : ReadWriteThread
  /-- Where the worker thread stands. -/
  worker : WorkerPC
  /-- Where the client stands. -/
  client : ClientPC
  /-- `pthread_join` has returned in `Shutdown`. -/
  joined : Bool
  /-- An `assert` has failed. -/
  aborted : Bool
  /-- History: the data of the frames `y4m_read_frame` has read successfully, oldest
  first. -/
  framesRead : List Content
  /-- History: the data of the frames handed out by `ReadFrame` calls that returned
  `Y4M_OK`, oldest first. -/
  handedOut : List Content
  /-- History: the values returned by the `ReadFrame` calls so far, oldest first. -/
  statuses : List Int
  deriving DecidableEq, Repr

/-- The reader right after `Initialize`: the worker thread has been created and stands at
the head of `WorkLoop`. -/
def ReaderSys.init : ReaderSys :=
  { thread := ReadWriteThread.Initialize, worker := .loopHead, client := .idle,
    joined := false, aborted := false, framesRead := [], handedOut := [],
    statuses := [] }

/-- What can happen next in the reader. -/
inductive ReaderAction where
  /-- The worker thread takes its next step. -/
  | workerStep
  /-- The worker's call `y4m_read_frame (..., pFrame->planes)` returns `nErr`, leaving
  `data` in the planes of `pFrame`; the worker then runs the second locked section of
  `Work`. -/
  | workerRead (nErr : Int) (data : Content)
  /-- The client calls `ReadFrame`. -/
  | ReadFrame
  /-- The client goes on: it wakes from its wait, returns the final status, or returns
  from `pthread_join`. -/
  | clientStep
  /-- The client calls `ForceShutdown`. -/
  | ForceShutdown
  deriving DecidableEq, Repr

/-- `DenoiserThreadRead::Work`, from after the optional wait to the first `Unlock()`:
with no free frame the result is `Y4M_ERR_EOF`, otherwise a free frame is taken. -/
def ReaderSys.workTakeFree (s : ReaderSys) : ReaderSys :=
  if s.thread.m_pFreeFrames.isEmpty then
    { s with worker := .returned Y4M_ERR_EOF }
  else
    match s.thread.GetFreeFrame with
    | none => { s with aborted := true }
    | some (pFrame, t) => { s with thread := t, worker := .holding pFrame }

/-- One step of the reader's worker thread: `BasicThread::WorkLoop`,
`DenoiserThreadRead::Work` and `BasicThread::WorkLoopExit`. -/
def ReaderSys.workerStep (s : ReaderSys) : Option ReaderSys :=
  match s.worker with
  | .loopHead =>
    -- while (m_bWorkLoop)
    some (if s.thread.m_bWorkLoop then { s with worker := .workStart }
      else { s with worker := .exiting })
  | .workStart =>
    -- Lock(); if (m_pFreeFramesHead == NULL) ...
    if s.thread.m_pFreeFrames.isEmpty then
      if !s.thread.m_bWorkLoop then
        some { s with worker := .returned Y4M_ERR_EOF }
      else
        match s.thread.WaitForInput with
        | none => some { s with aborted := true }
        | some t => some { s with thread := t, worker := .waiting }
    else some s.workTakeFree
  | .waiting =>
    -- woken by SignalInput, which has cleared the flag
    if s.thread.m_bWaitingForInput then none else some s.workTakeFree
  | .holding _ => none
  | .returned nErr =>
    -- m_nWorkRetval = Work(); if (m_nWorkRetval != Y4M_OK) break;
    let t := { s.thread with m_nWorkRetval := nErr }
    some (if nErr != Y4M_OK then { s with thread := t, worker := .exiting }
      else { s with thread := t, worker := .loopHead })
  | .exiting =>
    -- WorkLoopExit()
    some (if s.thread.m_nWorkRetval != Y4M_OK
      then { s with thread := s.thread.stopAndSignal, worker := .done }
      else { s with worker := .done })
  | .done => none

/-- The return of `y4m_read_frame` and the second locked section of
`DenoiserThreadRead::Work`. -/
def ReaderSys.workerRead (s : ReaderSys) (nErr : Int) (data : Content) :
    Option ReaderSys :=
  match s.worker with
  | .holding pFrame =>
    let t := { s.thread with planes := s.thread.planes.set pFrame data }
    if nErr == Y4M_OK then
      let t1 := t.AddFrameToValidList pFrame
      let t2 := if t1.m_bWaitingForOutput then t1.SignalOutput else t1
      some { s with thread := t2, worker := .returned nErr,
                    framesRead := s.framesRead ++ [data] }
    else
      some { s with thread := t.AddFrameToFreeList pFrame, worker := .returned nErr }
  | _ => none

/-- `DenoiserThreadRead::ReadFrame` from after the optional wait: promote the first valid
frame if there is one, release the mutex, and hand out the current frame or go on to
return the final status. -/
def ReaderSys.readFrameFinish (s : ReaderSys) : ReaderSys :=
  let promoted : Option ReadWriteThread :=
    if !s.thread.m_pValidFrames.isEmpty then s.thread.MoveValidFrameToCurrent
    else some s.thread
  match promoted with
  | none => { s with aborted := true }
  | some t =>
    match t.m_pCurrentFrame with
    | some pCurrentFrame =>
      { s with thread := t, client := .idle,
               handedOut := s.handedOut ++ [t.dataOf pCurrentFrame],
               statuses := s.statuses ++ [Y4M_OK] }
    | none => { s with thread := t, client := .failing }

/-- The call of `DenoiserThreadRead::ReadFrame`, up to its wait or its return. -/
def ReaderSys.readFrame (s : ReaderSys) : Option ReaderSys :=
  match s.client with
  | .idle =>
    -- if (m_pCurrentFrame != NULL) { MoveCurrentFrameToFreeList(); ... SignalInput(); }
    let recycled : Option ReadWriteThread :=
      if s.thread.m_pCurrentFrame.isSome then
        match s.thread.MoveCurrentFrameToFreeList with
        | none => none
        | some t => some (if t.m_bWaitingForInput then t.SignalInput else t)
      else some s.thread
    match recycled with
    | none => some { s with aborted := true }
    | some t =>
      -- if (m_pValidFramesHead == NULL && m_bWorkLoop) WaitForOutput();
      if t.m_pValidFrames.isEmpty && t.m_bWorkLoop then
        match t.WaitForOutput with
        | none => some { s with aborted := true }
        | some t1 => some { s with thread := t1, client := .waiting }
      else some ({ s with thread := t }).readFrameFinish
  | _ => none

/-- The client's next step inside `ReadFrame` or `Shutdown`. -/
def ReaderSys.clientStep (s : ReaderSys) : Option ReaderSys :=
  match s.client with
  | .idle => none
  | .waiting =>
    -- woken by SignalOutput, which has cleared the flag
    if s.thread.m_bWaitingForOutput then none else some s.readFrameFinish
  | .failing =>
    -- assert (m_nWorkRetval != Y4M_OK); return m_nWorkRetval;
    if s.thread.m_nWorkRetval != Y4M_OK then
      some { s with client := .idle, statuses := s.statuses ++ [s.thread.m_nWorkRetval] }
    else some { s with aborted := true }
  | .joining =>
    -- pthread_join returns once the thread function has returned
    if s.worker = .done then some { s with client := .idle, joined := true } else none

/-- `BasicThread::ForceShutdown` up to the `pthread_join` in `Shutdown`. -/
def ReaderSys.forceShutdown (s : ReaderSys) : Option ReaderSys :=
  match s.client with
  | .idle =>
    if s.joined then none
    else some { s with thread := s.thread.stopAndSignal, client := .joining }
  | _ => none

/-- One step of the reader; `none` when the action cannot happen in this state. After a
failed `assert` nothing happens any more. -/
def ReaderSys.step (s : ReaderSys) (a : ReaderAction) : Option ReaderSys :=
  if s.aborted then none
  else
    match a with
    | .workerStep => s.workerStep
    | .workerRead nErr data => s.workerRead nErr data
    | .ReadFrame => s.readFrame
    | .clientStep => s.clientStep
    | .ForceShutdown => s.forceShutdown

/-- A run of the reader: the actions of the list happen one after the other. -/
def ReaderSys.run (s : ReaderSys) : List ReaderAction → Option ReaderSys
  | [] => some s
  | a :: rest =>
    match s.step a with
    | none => none
    | some s1 => s1.run rest

/-- The states of the reader that some interleaving reaches after `Initialize`. -/
def ReaderSys.Reachable (s : ReaderSys) : Prop :=
  ∃ acts : List ReaderAction, ReaderSys.init.run acts = some s

/-! ### The writer (`DenoiserThreadWrite`) -/

/-- The writer pool, its worker thread and its client. The last three fields record
what has happened so far; the program does not read them. -/
structure WriterSys where
  /-- The object `g_oDenoiserThreadWrite`. -/
  thread : ReadWriteThread
  /-- Where the worker thread stands. -/
  worker : WorkerPC
  /-- Where the client stands. -/
  client : ClientPC
  /-- `pthread_join` has returned in `Shutdown`. -/
  joined : Bool
  /-- An `assert` has failed. -/
  aborted : Bool
  /-- History: the data of the frames published by `WriteFrame`, oldest first. -/
  published : List Content
  /-- History: the data of the frames passed to `y4m_write_frame`, oldest first. -/
  written : List Content
  /-- History: the values returned by the `GetSpaceToWriteFrame` calls so far, oldest
  first. -/
  statuses : List Int
  deriving DecidableEq, Repr

/-- The writer right after `Initialize`: the worker thread has been created and stands at
the head of `WorkLoop`. -/
def WriterSys.init : WriterSys :=
  { thread := ReadWriteThread.Initialize, worker := .loopHead, client := .idle,
    joined := false, aborted := false, published := [], written := [],
    statuses := [] }

/-- What can happen next in the writer. -/
inductive WriterAction where
  /-- The worker thread takes its next step. -/
  | workerStep
  /-- The worker's call `y4m_write_frame (..., pFrame->planes)` returns `nErr`; the
  worker then runs the second locked section of `Work`. -/
  | workerWrite (nErr : Int)
  /-- The client calls `GetSpaceToWriteFrame`. -/
  | GetSpaceToWriteFrame
  /-- The client fills the planes it was given with `data` and calls `WriteFrame`. -/
  | WriteFrame (data : Content)
  /-- The client goes on: it wakes from its wait, returns the final status, or returns
  from `pthread_join`. -/
  | clientStep
  /-- The client calls `ForceShutdown`. -/
  | ForceShutdown
  deriving DecidableEq, Repr

/-- `DenoiserThreadWrite::Work`, from after the optional wait to the first `Unlock()`:
with no valid frame the result is `Y4M_ERR_EOF`, otherwise the first valid frame is
taken. -/
def WriterSys.workTakeValid (s : WriterSys) : WriterSys :=
  if s.thread.m_pValidFrames.isEmpty then
    { s with worker := .returned Y4M_ERR_EOF }
  else
    match s.thread.GetFirstValidFrame with
    | none => { s with aborted := true }
    | some (pFrame, t) => { s with thread := t, worker := .holding pFrame }

/-- One step of the writer's worker thread: `DenoiserThreadWrite::WorkLoop`,
`DenoiserThreadWrite::Work` and `BasicThread::WorkLoopExit`. -/
def WriterSys.workerStep (s : WriterSys) : Option WriterSys :=
  match s.worker with
  | .loopHead =>
    -- Lock(); bContinue = (m_bWorkLoop || m_pValidFramesHead != NULL); Unlock();
    let bContinue := s.thread.m_bWorkLoop || !s.thread.m_pValidFrames.isEmpty
    some (if !bContinue then { s with worker := .exiting }
      else { s with worker := .workStart })
  | .workStart =>
    -- Lock(); if (m_pValidFramesHead == NULL) ...
    if s.thread.m_pValidFrames.isEmpty then
      if !s.thread.m_bWorkLoop then
        some { s with worker := .returned Y4M_ERR_EOF }
      else
        match s.thread.WaitForOutput with
        | none => some { s with aborted := true }
        | some t => some { s with thread := t, worker := .waiting }
    else some s.workTakeValid
  | .waiting =>
    -- woken by SignalOutput, which has cleared the flag
    if s.thread.m_bWaitingForOutput then none else some s.workTakeValid
  | .holding _ => none
  | .returned nErr =>
    -- m_nWorkRetval = Work(); if (m_nWorkRetval != Y4M_OK) break;
    let t := { s.thread with m_nWorkRetval := nErr }
    some (if nErr != Y4M_OK then { s with thread := t, worker := .exiting }
      else { s with thread := t, worker := .loopHead })
  | .exiting =>
    -- WorkLoopExit()
    some (if s.thread.m_nWorkRetval != Y4M_OK
      then { s with thread := s.thread.stopAndSignal, worker := .done }
      else { s with worker := .done })
  | .done => none

/-- The call of `y4m_write_frame` on `pFrame`, its return, and the second locked section
of `DenoiserThreadWrite::Work`. -/
def WriterSys.workerWrite (s : WriterSys) (nErr : Int) : Option WriterSys :=
  match s.worker with
  | .holding pFrame =>
    -- whether or not that succeeds, put the frame into the free-frames list
    let t1 := s.thread.AddFrameToFreeList pFrame
    let t2 := if t1.m_bWaitingForInput then t1.SignalInput else t1
    some { s with thread := t2, worker := .returned nErr,
                  written := s.written ++ [s.thread.dataOf pFrame] }
  | _ => none

/-- `DenoiserThreadWrite::GetSpaceToWriteFrame` from after the optional wait: make a free
frame the current one if there is one, release the mutex, and hand out the current frame
or go on to return the final status. -/
def WriterSys.getSpaceFinish (s : WriterSys) : WriterSys :=
  let promoted : Option ReadWriteThread :=
    if !s.thread.m_pFreeFrames.isEmpty then s.thread.MoveFreeFrameToCurrent
    else some s.thread
  match promoted with
  | none => { s with aborted := true }
  | some t =>
    match t.m_pCurrentFrame with
    | some _ =>
      { s with thread := t, client := .idle, statuses := s.statuses ++ [Y4M_OK] }
    | none => { s with thread := t, client := .failing }

/-- The call of `DenoiserThreadWrite::GetSpaceToWriteFrame`, up to its wait or its
return. -/
def WriterSys.getSpaceToWriteFrame (s : WriterSys) : Option WriterSys :=
  match s.client with
  | .idle =>
    -- assert (m_pCurrentFrame == NULL);
    if s.thread.m_pCurrentFrame.isSome then some { s with aborted := true }
    -- if (m_pFreeFramesHead == NULL && m_bWorkLoop) WaitForInput();
    else if s.thread.m_pFreeFrames.isEmpty && s.thread.m_bWorkLoop then
      match s.thread.WaitForInput with
      | none => some { s with aborted := true }
      | some t1 => some { s with thread := t1, client := .waiting }
    else some s.getSpaceFinish
  | _ => none

/-- The client stores `data` in the planes of the current frame and calls
`DenoiserThreadWrite::WriteFrame`. -/
def WriterSys.writeFrame (s : WriterSys) (data : Content) : Option WriterSys :=
  match s.client with
  | .idle =>
    match s.thread.m_pCurrentFrame with
    | none => some { s with aborted := true }
    | some pFrame =>
      let t := { s.thread with planes := s.thread.planes.set pFrame data }
      match t.MoveCurrentFrameToValidList with
      | none => some { s with aborted := true }
      | some t1 =>
        let t2 := if t1.m_bWaitingForOutput then t1.SignalOutput else t1
        some { s with thread := t2, published := s.published ++ [data] }
  | _ => none

/-- The client's next step inside `GetSpaceToWriteFrame` or `Shutdown`. -/
def WriterSys.clientStep (s : WriterSys) : Option WriterSys :=
  match s.client with
  | .idle => none
  | .waiting =>
    -- woken by SignalInput, which has cleared the flag
    if s.thread.m_bWaitingForInput then none else some s.getSpaceFinish
  | .failing =>
    -- assert (m_nWorkRetval != Y4M_OK); return m_nWorkRetval;
    if s.thread.m_nWorkRetval != Y4M_OK then
      some { s with client := .idle, statuses := s.statuses ++ [s.thread.m_nWorkRetval] }
    else some { s with aborted := true }
  | .joining =>
    -- pthread_join returns once the thread function has returned
    if s.worker = .done then some { s with client := .idle, joined := true } else none

/-- `BasicThread::ForceShutdown` up to the `pthread_join` in `Shutdown`. -/
def WriterSys.forceShutdown (s : WriterSys) : Option WriterSys :=
  match s.client with
  | .idle =>
    if s.joined then none
    else some { s with thread := s.thread.stopAndSignal, client := .joining }
  | _ => none

/-- One step of the writer; `none` when the action cannot happen in this state. After a
failed `assert` nothing happens any more. -/
def WriterSys.step (s : WriterSys) (a : WriterAction) : Option WriterSys :=
  if s.aborted then none
  else
    match a with
    | .workerStep => s.workerStep
    | .workerWrite nErr => s.workerWrite nErr
    | .GetSpaceToWriteFrame => s.getSpaceToWriteFrame
    | .WriteFrame data => s.writeFrame data
    | .clientStep => s.clientStep
    | .ForceShutdown => s.forceShutdown

/-- A run of the writer: the actions of the list happen one after the other. -/
def WriterSys.run (s : WriterSys) : List WriterAction → Option WriterSys
  | [] => some s
  | a :: rest =>
    match s.step a with
    | none => none
    | some s1 => s1.run rest

/-- The states of the writer that some interleaving reaches after `Initialize`. -/
def WriterSys.Reachable (s : WriterSys) : Prop :=
  ∃ acts : List WriterAction, WriterSys.init.run acts = some s

/-! ### Pool invariants -/

/-- Every frame the pool or its worker holds: the frame in the worker's local `pFrame`
(if any), the current frame (if any), the valid list and the free list. -/
def ReadWriteThread.allFrames (t : ReadWriteThread) (w : WorkerPC) : List Frame :=
  w.held ++ (t.m_pCurrentFrame.toList ++ (t.m_pValidFrames ++ t.m_pFreeFrames))

/-- The data held by the frames of a list, in the order of the list. -/
def contentsOf (planes : List Content) (frames : List Frame) : List Content :=
  frames.map (fun f => planes.getD f 0)

/-- The frames of `m_apFrames` are each in exactly one place (worker's `pFrame`, current,
valid list, free list), and each has its planes. -/
def ReadWriteThread.WellFormed (t : ReadWriteThread) (w : WorkerPC) : Prop :=
  (t.allFrames w).Perm (List.range m_kNumFrames) ∧ t.planes.length = m_kNumFrames

/-- The invariant of the reader: the pool is well formed, the frames read so far are
those handed out followed by those waiting in the valid list, and a client blocked inside
`ReadFrame` has already recycled its current frame. -/
def ReaderSys.Inv (s : ReaderSys) : Prop :=
  s.thread.WellFormed s.worker
    ∧ s.handedOut ++ contentsOf s.thread.planes s.thread.m_pValidFrames = s.framesRead
    ∧ (s.client = .waiting → s.thread.m_pCurrentFrame = none)

/-- The invariant of the writer: the pool is well formed, and the frames published so
far are those passed to `y4m_write_frame` followed by the one the worker holds and those
waiting in the valid list. -/
def WriterSys.Inv (s : WriterSys) : Prop :=
  s.thread.WellFormed s.worker
    ∧ s.written ++ contentsOf s.thread.planes (s.worker.held ++ s.thread.m_pValidFrames)
        = s.published

/-! ## The motion-search engine and the globals of the facade

The engine (`MotionSearcher.hh`) is not part of the sources: the facade is embedded over
an arbitrary engine, given by its state type and the five operations the facade calls.
`int` dimensions and counts are natural numbers; index arithmetic is assumed not to leave
the range of `int`. A failed `assert`, a `NULL` dereference and a division by zero make a
routine return `none`. -/

/-- The bytes reached through a `uint8_t *`, by offset. A pointer that may be `NULL` is
an `Option Plane`. -/
abbrev Plane := Nat → uint8_t

/-- The assignment `p[i] = v`. -/
def Plane.write (p : Plane) (i : Nat) (v : uint8_t) : Plane :=
  fun j => if j = i then v else p j

/-- Modelled from the spec: the status type `Status_t` of the engine, declared in a header
that is not part of the sources; the facade only compares it with `g_kNoError`. -/
abbrev Status_t := Int

/-- Modelled from the spec: the status `g_kNoError`. -/
def g_kNoError : Status_t := 0

/-- Modelled from the spec: the part of `ReferencePixel` the facade uses,
`GetValue ()`, the final pixel. -/
structure ReferencePixel (Pixel_t : Type) where
  GetValue : Pixel_t

/-- Modelled from the spec: the part of `ReferenceFrame` the facade uses,
`GetPixel (i)`, a pointer to a reference pixel (`none` is `NULL`). -/
structure ReferenceFrame (Pixel_t : Type) where
  GetPixel : Nat → Option (ReferencePixel Pixel_t)

/-- Modelled from the spec: the operations of a `MotionSearcher` the per-frame routines
call, over an engine state `σ`. `AddFrame` gets the staging array and yields the status
it stores in `eStatus`; the two queries yield a pointer to a reference frame (`none` is
`NULL`). -/
structure MotionSearcher (Pixel_t : Type) (σ : Type) where
  Purge : σ → σ
  AddFrame : σ → (Nat → Pixel_t) → Status_t × σ
  GetFrameReadyForOutput : σ → Option (ReferenceFrame Pixel_t) × σ
  GetRemainingFrames : σ → Option (ReferenceFrame Pixel_t) × σ

/-- The two engines, `MotionSearcherY` and `MotionSearcherCbCr`. -/
structure Engines (σY σC : Type) where
  Y : MotionSearcher PixelY σY
  CbCr : MotionSearcher PixelCbCr σC

/-- Modelled from the spec: the fields of the configuration `denoiser` (declared in a
header that is not part of the sources) that `newdenoise.cc` reads. -/
structure DenoiserConfig where
  interlaced : Int := 0
  threads : Int := 0
  frames : Int := 1
  radiusY : Int := 0
  radiusCbCr : Int := 0
  zThresholdY : Int := 0
  thresholdY : Int := 0
  zThresholdCbCr : Int := 0
  thresholdCbCr : Int := 0
  matchCountThrottle : Int := 0
  matchSizeThrottle : Int := 0
  frame_ss_h : Int := 1
  frame_ss_v : Int := 1
  frame_Cw : Int := 0
  frame_Ch : Int := 0
  deriving DecidableEq, Repr

/-- The globals of `newdenoise.cc` the per-frame routines use, with the configuration
`denoiser` and the frame counter `frame`, which are owned by the caller. -/
structure Globals (σY σC : Type) where
  denoiser : DenoiserConfig
  /-- `extern int frame` -/
  frame : Int
  g_oMotionSearcherY : σY
  g_oMotionSearcherCbCr : σC
  g_bMotionSearcherY : Bool
  g_bMotionSearcherCbCr : Bool
  g_nPixelsY : Nat
  g_nWidthY : Nat
  g_nHeightY : Nat
  /-- The array `g_pPixelsY`, by index. -/
  g_pPixelsY : Nat → PixelY
  g_nPixelsCbCr : Nat
  g_nWidthCbCr : Nat
  g_nHeightCbCr : Nat
  /-- The array `g_pPixelsCbCr`, by index. -/
  g_pPixelsCbCr : Nat → PixelCbCr

/-! ### Loops -/

/-- The loop `for (i = 0; i < n; ++i) body (i)` over a state; `none` as soon as the body
fails. -/
def forLoop {α : Type} (body : Nat → α → Option α) : Nat → α → Option α
  | 0, st => some st
  | n + 1, st =>
    match forLoop body n st with
    | none => none
    | some st1 => body n st1

/-- The inner loop `for (x = 0; x < width; ++x, ++i) body (y * width + x, i)` of the
field loops; the state carries `i`. -/
def fieldRow {α : Type} (body : Nat → Nat → α → Option α) (width y : Nat) :
    Nat × α → Option (Nat × α) :=
  forLoop (fun x st =>
    match body (y * width + x) st.1 st.2 with
    | none => none
    | some a => some (st.1 + 1, a)) width

/-- The outer loop `for (...; y < height; y += 2)` of the field loops, from row `y`. The
first argument bounds the number of rows still to run; `none` if it does not suffice. -/
def fieldRows {α : Type} (body : Nat → Nat → α → Option α) (width height : Nat) :
    Nat → Nat → Nat × α → Option (Nat × α)
  | 0, y, st => if y < height then none else some st
  | fuel + 1, y, st =>
    if y < height then
      match fieldRow body width y st with
      | none => none
      | some st1 => fieldRows body width height fuel (y + 2) st1
    else some st

/-- The field loop
`for (i = 0, y = a_nMask; y < height; y += 2) for (x = 0; x < width; ++x, ++i)`
`body (y * width + x, i)`: the result is the final `i` and the final state. -/
def fieldLoop {α : Type} (body : Nat → Nat → α → Option α) (width height a_nMask : Nat)
    (st : α) : Option (Nat × α) :=
  fieldRows body width height height a_nMask (0, st)

/-! ### Output re-materialisation -/

/-- The body of the luma output loops: `pY = a_pFrameY->GetPixel (i)`,
`assert (pY != NULL)`, `a_pOutputY[index] = pY->GetValue()[0]`. -/
def storeY (a_pFrameY : ReferenceFrame PixelY) (index i : Nat) (a_pOutputY : Plane) :
    Option Plane :=
  match a_pFrameY.GetPixel i with
  | none => none
  | some pY => some (a_pOutputY.write index pY.GetValue.m_atnVal0)

/-- The body of the chroma output loops: `pCbCr = a_pFrameCbCr->GetPixel (i)`,
`assert (pCbCr != NULL)`, `a_pOutputCb[index] = pCbCr->GetValue()[0]`,
`a_pOutputCr[index] = pCbCr->GetValue()[1]`. The state is the pair of the two output
planes. -/
def storeCbCr (a_pFrameCbCr : ReferenceFrame PixelCbCr) (index i : Nat)
    (out : Plane × Plane) : Option (Plane × Plane) :=
  match a_pFrameCbCr.GetPixel i with
  | none => none
  | some pCbCr =>
    some (out.1.write index pCbCr.GetValue.m_atnVal0,
      out.2.write index pCbCr.GetValue.m_atnVal1)

/-- The first block of `output_frame`, `if (a_pFrameY != NULL) { ... }`: the result is
the luma output buffer after it. -/
def output_frame_luma (g_nPixelsY : Nat) (a_pFrameY : Option (ReferenceFrame PixelY))
    (a_pOutputY : Option Plane) : Option (Option Plane) :=
  match a_pFrameY with
  | none => some a_pOutputY
  | some frameY =>
    -- assert (a_pOutputY != NULL);
    match a_pOutputY with
    | none => none
    | some outY =>
      match forLoop (fun i out => storeY frameY i i out) g_nPixelsY outY with
      | none => none
      | some outY1 => some (some outY1)

/-- The second block of `output_frame`, `if (a_pFrameCbCr != NULL) { ... }`: the result
is the pair of the chroma output buffers after it. -/
def output_frame_chroma (g_nPixelsCbCr : Nat)
    (a_pFrameCbCr : Option (ReferenceFrame PixelCbCr))
    (a_pOutputCb a_pOutputCr : Option Plane) : Option (Option Plane × Option Plane) :=
  match a_pFrameCbCr with
  | none => some (a_pOutputCb, a_pOutputCr)
  | some frameCbCr =>
    -- assert (a_pOutputCb != NULL && a_pOutputCr != NULL);
    match a_pOutputCb, a_pOutputCr with
    | some outCb, some outCr =>
      match forLoop (fun i out => storeCbCr frameCbCr i i out) g_nPixelsCbCr
          (outCb, outCr) with
      | none => none
      | some out1 => some (some out1.1, some out1.2)
    | _, _ => none

/-- `output_frame`: the result holds the contents of the three output buffers after the
call. The pixel counts are the globals `g_nPixelsY` and `g_nPixelsCbCr`. -/
def output_frame (g_nPixelsY g_nPixelsCbCr : Nat)
    (a_pFrameY : Option (ReferenceFrame PixelY))
    (a_pFrameCbCr : Option (ReferenceFrame PixelCbCr))
    (a_pOutputY a_pOutputCb a_pOutputCr : Option Plane) :
    Option (Option Plane × Option Plane × Option Plane) :=
  match output_frame_luma g_nPixelsY a_pFrameY a_pOutputY with
  | none => none
  | some outY1 =>
    match output_frame_chroma g_nPixelsCbCr a_pFrameCbCr a_pOutputCb a_pOutputCr with
    | none => none
    | some outC1 => some (outY1, outC1.1, outC1.2)

/-- The first block of `output_field`, `if (a_pFrameY != NULL) { ... }`: the result is
the luma output buffer after it. -/
def output_field_luma (g_nWidthY g_nHeightY a_nMask : Nat)
    (a_pFrameY : Option (ReferenceFrame PixelY)) (a_pOutputY : Option Plane) :
    Option (Option Plane) :=
  match a_pFrameY with
  | none => some a_pOutputY
  | some frameY =>
    -- assert (a_pOutputY != NULL);
    match a_pOutputY with
    | none => none
    | some outY =>
      match fieldLoop (storeY frameY) g_nWidthY g_nHeightY a_nMask outY with
      | none => none
      | some res => some (some res.2)

/-- The second block of `output_field`, `if (a_pFrameCbCr != NULL) { ... }`: the result
is the pair of the chroma output buffers after it. -/
def output_field_chroma (g_nWidthCbCr g_nHeightCbCr a_nMask : Nat)
    (a_pFrameCbCr : Option (ReferenceFrame PixelCbCr))
    (a_pOutputCb a_pOutputCr : Option Plane) : Option (Option Plane × Option Plane) :=
  match a_pFrameCbCr with
  | none => some (a_pOutputCb, a_pOutputCr)
  | some frameCbCr =>
    -- assert (a_pOutputCb != NULL && a_pOutputCr != NULL);
    match a_pOutputCb, a_pOutputCr with
    | some outCb, some outCr =>
      match fieldLoop (storeCbCr frameCbCr) g_nWidthCbCr g_nHeightCbCr a_nMask
          (outCb, outCr) with
      | none => none
      | some res => some (some res.2.1, some res.2.2)
    | _, _ => none

/-- `output_field`: the result holds the contents of the three output buffers after the
call. The widths and heights are the globals `g_nWidthY`, `g_nHeightY`, `g_nWidthCbCr`
and `g_nHeightCbCr`. -/
def output_field (g_nWidthY g_nHeightY g_nWidthCbCr g_nHeightCbCr : Nat) (a_nMask : Nat)
    (a_pFrameY : Option (ReferenceFrame PixelY))
    (a_pFrameCbCr : Option (ReferenceFrame PixelCbCr))
    (a_pOutputY a_pOutputCb a_pOutputCr : Option Plane) :
    Option (Option Plane × Option Plane × Option Plane) :=
  match output_field_luma g_nWidthY g_nHeightY a_nMask a_pFrameY a_pOutputY with
  | none => none
  | some outY1 =>
    match output_field_chroma g_nWidthCbCr g_nHeightCbCr a_nMask a_pFrameCbCr
        a_pOutputCb a_pOutputCr with
    | none => none
    | some outC1 => some (outY1, outC1.1, outC1.2)

/-! ### The per-plane routines -/

/-- What a luma routine leaves behind: its return value, the globals and the contents of
the output buffer. -/
structure LumaResult (σY σC : Type) where
  ret : Int
  globals : Globals σY σC
  a_pOutputY : Option Plane

/-- What a chroma routine leaves behind: its return value, the globals and the contents
of the two output buffers. -/
structure ChromaResult (σY σC : Type) where
  ret : Int
  globals : Globals σY σC
  a_pOutputCb : Option Plane
  a_pOutputCr : Option Plane

/-- What a facade call leaves behind: its return value, the globals and the contents of
the three output buffers. -/
structure FrameResult (σY σC : Type) where
  ret : Int
  globals : Globals σY σC
  a_pOutputY : Option Plane
  a_pOutputCb : Option Plane
  a_pOutputCr : Option Plane

/-- The operands for which the expression `frame % denoiser.frames` on `int` has a value:
the divisor is not zero, and the expression is not `INT_MIN % -1`, whose quotient
overflows. -/
def PurgeTestDefined {σY σC : Type} (g : Globals σY σC) : Prop :=
  ¬ (g.denoiser.frames = 0 ∨ (g.frame = -2147483648 ∧ g.denoiser.frames = -1))

instance {σY σC : Type} (g : Globals σY σC) : Decidable (PurgeTestDefined g) :=
  inferInstanceAs (Decidable (¬ (g.denoiser.frames = 0
    ∨ (g.frame = -2147483648 ∧ g.denoiser.frames = -1))))

/-- The test `frame % denoiser.frames == 0`; `none` is the division by zero and the
overflow of `INT_MIN % -1`. -/
def timeToPurge {σY σC : Type} (g : Globals σY σC) : Option Bool :=
  if g.denoiser.frames = 0 ∨ (g.frame = -2147483648 ∧ g.denoiser.frames = -1) then none
  else some (Int.tmod g.frame g.denoiser.frames == 0)

/-- The loop `for (i = 0; i < g_nPixelsY; ++i) g_pPixelsY[i] = PixelY (a_pInputY + i)`.
-/
def stageFrameY (a_pInputY : Plane) : Nat → (Nat → PixelY) → (Nat → PixelY)
  | 0, pixels => pixels
  | n + 1, pixels =>
    let pixels1 := stageFrameY a_pInputY n pixels
    fun j => if j = n then PixelY.mk (a_pInputY n) else pixels1 j

/-- The loop `for (i = 0; i < g_nPixelsCbCr; ++i)` that stores
`PixelCbCr ({a_pInputCb[i], a_pInputCr[i]})` in `g_pPixelsCbCr[i]`. -/
def stageFrameCbCr (a_pInputCb a_pInputCr : Plane) :
    Nat → (Nat → PixelCbCr) → (Nat → PixelCbCr)
  | 0, pixels => pixels
  | n + 1, pixels =>
    let pixels1 := stageFrameCbCr a_pInputCb a_pInputCr n pixels
    fun j => if j = n then PixelCbCr.mk (a_pInputCb n) (a_pInputCr n) else pixels1 j

/-- The chroma staging loop of the progressive routines when `a_pInputCb` may be `NULL`.
The pointer is read only in the body of the loop: a loop over no pixels reads nothing and
leaves the staging array as it is, any other loop reads through `NULL` (`none`). -/
def stageFrameCbCrFrom (a_pInputCb : Option Plane) (inputCr : Plane) (n : Nat)
    (pixels : Nat → PixelCbCr) : Option (Nat → PixelCbCr) :=
  match a_pInputCb with
  | some inputCb => some (stageFrameCbCr inputCb inputCr n pixels)
  | none => if n = 0 then some pixels else none

/-- The body of the luma field-extraction loop:
`g_pPixelsY[i] = PixelY (a_pInputY + (y * g_nWidthY + x))`. -/
def stageFieldY (a_pInputY : Plane) (index i : Nat) (pixels : Nat → PixelY) :
    Option (Nat → PixelY) :=
  some (fun j => if j = i then PixelY.mk (a_pInputY index) else pixels j)

/-- The body of the chroma field-extraction loop. -/
def stageFieldCbCr (a_pInputCb a_pInputCr : Plane) (index i : Nat)
    (pixels : Nat → PixelCbCr) : Option (Nat → PixelCbCr) :=
  some (fun j =>
    if j = i then PixelCbCr.mk (a_pInputCb index) (a_pInputCr index) else pixels j)

/-- `newdenoise_frame_intensity`. -/
def newdenoise_frame_intensity {σY σC : Type} (E : Engines σY σC) (g : Globals σY σC)
    (a_pInputY a_pOutputY : Option Plane) : Option (LumaResult σY σC) :=
  -- assert (g_bMotionSearcherY);
  if !g.g_bMotionSearcherY then none
  else
    match timeToPurge g with
    | none => none
    | some purge =>
      let g1 := if purge
        then { g with g_oMotionSearcherY := E.Y.Purge g.g_oMotionSearcherY } else g
      match a_pInputY with
      | none =>
        let r := E.Y.GetRemainingFrames g1.g_oMotionSearcherY
        let pFrameY := r.1
        let g2 := { g1 with g_oMotionSearcherY := r.2 }
        match output_frame g2.g_nPixelsY g2.g_nPixelsCbCr pFrameY none
            a_pOutputY none none with
        | none => none
        | some out =>
          some { ret := if pFrameY.isSome then 0 else 1, globals := g2,
                 a_pOutputY := out.1 }
      | some inputY =>
        let r := E.Y.GetFrameReadyForOutput g1.g_oMotionSearcherY
        let pFrameY := r.1
        let g2 := { g1 with g_oMotionSearcherY := r.2 }
        match output_frame g2.g_nPixelsY g2.g_nPixelsCbCr pFrameY none
            a_pOutputY none none with
        | none => none
        | some out =>
          let staged := stageFrameY inputY g2.g_nPixelsY g2.g_pPixelsY
          let g3 := { g2 with g_pPixelsY := staged }
          let added := E.Y.AddFrame g3.g_oMotionSearcherY g3.g_pPixelsY
          let eStatus := added.1
          let g4 := { g3 with g_oMotionSearcherY := added.2 }
          if eStatus != g_kNoError then
            some { ret := -1, globals := g4, a_pOutputY := out.1 }
          else
            some { ret := if pFrameY.isSome then 0 else 1, globals := g4,
                   a_pOutputY := out.1 }

/-- `newdenoise_frame_color`. The flush test is `a_pInputCr == NULL`; on the submit path
`a_pInputCb` is read in the staging loop, whatever it is. -/
def newdenoise_frame_color {σY σC : Type} (E : Engines σY σC) (g : Globals σY σC)
    (a_pInputCb a_pInputCr a_pOutputCb a_pOutputCr : Option Plane) :
    Option (ChromaResult σY σC) :=
  -- assert (g_bMotionSearcherCbCr);
  if !g.g_bMotionSearcherCbCr then none
  else
    match timeToPurge g with
    | none => none
    | some purge =>
      let g1 := if purge
        then { g with g_oMotionSearcherCbCr := E.CbCr.Purge g.g_oMotionSearcherCbCr }
        else g
      match a_pInputCr with
      | none =>
        let r := E.CbCr.GetRemainingFrames g1.g_oMotionSearcherCbCr
        let pFrameCbCr := r.1
        let g2 := { g1 with g_oMotionSearcherCbCr := r.2 }
        match output_frame g2.g_nPixelsY g2.g_nPixelsCbCr none pFrameCbCr
            none a_pOutputCb a_pOutputCr with
        | none => none
        | some out =>
          some { ret := if pFrameCbCr.isSome then 0 else 1, globals := g2,
                 a_pOutputCb := out.2.1, a_pOutputCr := out.2.2 }
      | some inputCr =>
        let r := E.CbCr.GetFrameReadyForOutput g1.g_oMotionSearcherCbCr
        let pFrameCbCr := r.1
        let g2 := { g1 with g_oMotionSearcherCbCr := r.2 }
        match output_frame g2.g_nPixelsY g2.g_nPixelsCbCr none pFrameCbCr
            none a_pOutputCb a_pOutputCr with
        | none => none
        | some out =>
          match stageFrameCbCrFrom a_pInputCb inputCr g2.g_nPixelsCbCr g2.g_pPixelsCbCr
          with
          | none => none
          | some staged =>
            let g3 := { g2 with g_pPixelsCbCr := staged }
            let added := E.CbCr.AddFrame g3.g_oMotionSearcherCbCr g3.g_pPixelsCbCr
            let eStatus := added.1
            let g4 := { g3 with g_oMotionSearcherCbCr := added.2 }
            if eStatus != g_kNoError then
              some { ret := -1, globals := g4, a_pOutputCb := out.2.1,
                     a_pOutputCr := out.2.2 }
            else
              some { ret := if pFrameCbCr.isSome then 0 else 1, globals := g4,
                     a_pOutputCb := out.2.1, a_pOutputCr := out.2.2 }

/-- `nMask = (denoiser.interlaced == 2) ? 1 : 0`. -/
def fieldMask {σY σC : Type} (g : Globals σY σC) : Nat :=
  if g.denoiser.interlaced = 2 then 1 else 0

/-- One sub-event of `newdenoise_interlaced_frame_intensity` on the submit path: the
field of mask `a_nMask` is staged, `assert (i == g_nPixelsY)`, and passed to `AddFrame`.
The result is the status and the globals. -/
def addFieldY {σY σC : Type} (E : Engines σY σC) (g : Globals σY σC) (inputY : Plane)
    (a_nMask : Nat) : Option (Status_t × Globals σY σC) :=
  match fieldLoop (stageFieldY inputY) g.g_nWidthY g.g_nHeightY a_nMask g.g_pPixelsY with
  | none => none
  | some staged =>
    if staged.1 != g.g_nPixelsY then none
    else
      let g1 := { g with g_pPixelsY := staged.2 }
      let added := E.Y.AddFrame g1.g_oMotionSearcherY g1.g_pPixelsY
      some (added.1, { g1 with g_oMotionSearcherY := added.2 })

/-- One sub-event of `newdenoise_interlaced_frame_color` on the submit path. -/
def addFieldCbCr {σY σC : Type} (E : Engines σY σC) (g : Globals σY σC)
    (inputCb inputCr : Plane) (a_nMask : Nat) : Option (Status_t × Globals σY σC) :=
  match fieldLoop (stageFieldCbCr inputCb inputCr) g.g_nWidthCbCr g.g_nHeightCbCr a_nMask
      g.g_pPixelsCbCr with
  | none => none
  | some staged =>
    if staged.1 != g.g_nPixelsCbCr then none
    else
      let g1 := { g with g_pPixelsCbCr := staged.2 }
      let added := E.CbCr.AddFrame g1.g_oMotionSearcherCbCr g1.g_pPixelsCbCr
      some (added.1, { g1 with g_oMotionSearcherCbCr := added.2 })

/-- The body of the chroma field-extraction loop when `a_pInputCb` may be `NULL`: with a
`NULL` pointer the read of `a_pInputCb[y * g_nWidthCbCr + x]` goes through `NULL`
(`none`). -/
def stageFieldCbCrFrom (a_pInputCb : Option Plane) (inputCr : Plane) (index i : Nat)
    (pixels : Nat → PixelCbCr) : Option (Nat → PixelCbCr) :=
  match a_pInputCb with
  | some inputCb => stageFieldCbCr inputCb inputCr index i pixels
  | none => none

/-- One sub-event of `newdenoise_interlaced_frame_color` on the submit path when
`a_pInputCb` may be `NULL`: as `addFieldCbCr`. The pointer is read only in the body of
the field loop, so a loop that visits no pixel reads nothing, and any other loop reads
through `NULL`. -/
def addFieldCbCrFrom {σY σC : Type} (E : Engines σY σC) (g : Globals σY σC)
    (a_pInputCb : Option Plane) (inputCr : Plane) (a_nMask : Nat) :
    Option (Status_t × Globals σY σC) :=
  match fieldLoop (stageFieldCbCrFrom a_pInputCb inputCr) g.g_nWidthCbCr g.g_nHeightCbCr
      a_nMask g.g_pPixelsCbCr with
  | none => none
  | some staged =>
    if staged.1 != g.g_nPixelsCbCr then none
    else
      let g1 := { g with g_pPixelsCbCr := staged.2 }
      let added := E.CbCr.AddFrame g1.g_oMotionSearcherCbCr g1.g_pPixelsCbCr
      some (added.1, { g1 with g_oMotionSearcherCbCr := added.2 })

/-- The luma call `output_field (a_nMask, pFrameY, NULL, a_pOutputY, NULL, NULL)`. -/
def outputFieldY {σY σC : Type} (g : Globals σY σC) (a_nMask : Nat)
    (pFrameY : Option (ReferenceFrame PixelY)) (a_pOutputY : Option Plane) :
    Option (Option Plane) :=
  match output_field g.g_nWidthY g.g_nHeightY g.g_nWidthCbCr g.g_nHeightCbCr a_nMask
      pFrameY none a_pOutputY none none with
  | none => none
  | some out => some out.1

/-- The chroma call
`output_field (a_nMask, NULL, pFrameCbCr, NULL, a_pOutputCb, a_pOutputCr)`. -/
def outputFieldCbCr {σY σC : Type} (g : Globals σY σC) (a_nMask : Nat)
    (pFrameCbCr : Option (ReferenceFrame PixelCbCr))
    (a_pOutputCb a_pOutputCr : Option Plane) : Option (Option Plane × Option Plane) :=
  match output_field g.g_nWidthY g.g_nHeightY g.g_nWidthCbCr g.g_nHeightCbCr a_nMask
      none pFrameCbCr none a_pOutputCb a_pOutputCr with
  | none => none
  | some out => some out.2

/-- `newdenoise_interlaced_frame_intensity`. -/
def newdenoise_interlaced_frame_intensity {σY σC : Type} (E : Engines σY σC)
    (g : Globals σY σC) (a_pInputY a_pOutputY : Option Plane) :
    Option (LumaResult σY σC) :=
  -- assert (g_bMotionSearcherY);
  if !g.g_bMotionSearcherY then none
  else
    match timeToPurge g with
    | none => none
    | some purge =>
      let g1 := if purge
        then { g with g_oMotionSearcherY := E.Y.Purge g.g_oMotionSearcherY } else g
      let nMask := fieldMask g1
      match a_pInputY with
      | none =>
        let r1 := E.Y.GetRemainingFrames g1.g_oMotionSearcherY
        let g2 := { g1 with g_oMotionSearcherY := r1.2 }
        match outputFieldY g2 (nMask ^^^ 0) r1.1 a_pOutputY with
        | none => none
        | some out1 =>
          let r2 := E.Y.GetRemainingFrames g2.g_oMotionSearcherY
          let pFrameY := r2.1
          let g3 := { g2 with g_oMotionSearcherY := r2.2 }
          match outputFieldY g3 (nMask ^^^ 1) pFrameY out1 with
          | none => none
          | some out2 =>
            some { ret := if pFrameY.isSome then 0 else 1, globals := g3,
                   a_pOutputY := out2 }
      | some inputY =>
        let r1 := E.Y.GetFrameReadyForOutput g1.g_oMotionSearcherY
        let g2 := { g1 with g_oMotionSearcherY := r1.2 }
        match outputFieldY g2 (nMask ^^^ 0) r1.1 a_pOutputY with
        | none => none
        | some out1 =>
          match addFieldY E g2 inputY (nMask ^^^ 0) with
          | none => none
          | some (eStatus1, g3) =>
            if eStatus1 != g_kNoError then
              some { ret := -1, globals := g3, a_pOutputY := out1 }
            else
              let r2 := E.Y.GetFrameReadyForOutput g3.g_oMotionSearcherY
              let pFrameY := r2.1
              let g4 := { g3 with g_oMotionSearcherY := r2.2 }
              match outputFieldY g4 (nMask ^^^ 1) pFrameY out1 with
              | none => none
              | some out2 =>
                match addFieldY E g4 inputY (nMask ^^^ 1) with
                | none => none
                | some (eStatus2, g5) =>
                  if eStatus2 != g_kNoError then
                    some { ret := -1, globals := g5, a_pOutputY := out2 }
                  else
                    some { ret := if pFrameY.isSome then 0 else 1, globals := g5,
                           a_pOutputY := out2 }

/-- `newdenoise_interlaced_frame_color`. The flush test is `a_pInputCr == NULL`; on the
submit path `a_pInputCb` is read in the two field loops, whatever it is. -/
def newdenoise_interlaced_frame_color {σY σC : Type} (E : Engines σY σC)
    (g : Globals σY σC) (a_pInputCb a_pInputCr a_pOutputCb a_pOutputCr : Option Plane) :
    Option (ChromaResult σY σC) :=
  -- assert (g_bMotionSearcherCbCr);
  if !g.g_bMotionSearcherCbCr then none
  else
    match timeToPurge g with
    | none => none
    | some purge =>
      let g1 := if purge
        then { g with g_oMotionSearcherCbCr := E.CbCr.Purge g.g_oMotionSearcherCbCr }
        else g
      let nMask := fieldMask g1
      match a_pInputCr with
      | none =>
        let r1 := E.CbCr.GetRemainingFrames g1.g_oMotionSearcherCbCr
        let g2 := { g1 with g_oMotionSearcherCbCr := r1.2 }
        match outputFieldCbCr g2 (nMask ^^^ 0) r1.1 a_pOutputCb a_pOutputCr with
        | none => none
        | some out1 =>
          let r2 := E.CbCr.GetRemainingFrames g2.g_oMotionSearcherCbCr
          let pFrameCbCr := r2.1
          let g3 := { g2 with g_oMotionSearcherCbCr := r2.2 }
          match outputFieldCbCr g3 (nMask ^^^ 1) pFrameCbCr out1.1 out1.2 with
          | none => none
          | some out2 =>
            some { ret := if pFrameCbCr.isSome then 0 else 1, globals := g3,
                   a_pOutputCb := out2.1, a_pOutputCr := out2.2 }
      | some inputCr =>
        let r1 := E.CbCr.GetFrameReadyForOutput g1.g_oMotionSearcherCbCr
        let g2 := { g1 with g_oMotionSearcherCbCr := r1.2 }
        match outputFieldCbCr g2 (nMask ^^^ 0) r1.1 a_pOutputCb a_pOutputCr with
        | none => none
        | some out1 =>
          match addFieldCbCrFrom E g2 a_pInputCb inputCr (nMask ^^^ 0) with
          | none => none
          | some (eStatus1, g3) =>
            if eStatus1 != g_kNoError then
              some { ret := -1, globals := g3, a_pOutputCb := out1.1,
                     a_pOutputCr := out1.2 }
            else
              let r2 := E.CbCr.GetFrameReadyForOutput g3.g_oMotionSearcherCbCr
              let pFrameCbCr := r2.1
              let g4 := { g3 with g_oMotionSearcherCbCr := r2.2 }
              match outputFieldCbCr g4 (nMask ^^^ 1) pFrameCbCr out1.1 out1.2 with
              | none => none
              | some out2 =>
                match addFieldCbCrFrom E g4 a_pInputCb inputCr (nMask ^^^ 1) with
                | none => none
                | some (eStatus2, g5) =>
                  if eStatus2 != g_kNoError then
                    some { ret := -1, globals := g5, a_pOutputCb := out2.1,
                           a_pOutputCr := out2.2 }
                  else
                    some { ret := if pFrameCbCr.isSome then 0 else 1, globals := g5,
                           a_pOutputCb := out2.1, a_pOutputCr := out2.2 }

/-! ### The facade entry points -/

/-- One round of the chroma worker as the facade sees it: `DenoiserThreadCbCr::AddFrame`
(with its assertions on the pointers), `DenoiserThreadCbCr::Work` in the worker thread,
and `WaitForAddFrame`, which returns the result of `Work`. The worker runs the chroma
routine while the caller runs the luma routine; the two touch disjoint globals and
buffers, so the round is embedded as one call of the chroma routine. -/
def chromaWorkerRound {σY σC : Type} (E : Engines σY σC) (g : Globals σY σC)
    (a_pInputCb a_pInputCr a_pOutputCb a_pOutputCr : Option Plane) :
    Option (ChromaResult σY σC) :=
  -- assert ((a_pInputCb == NULL && a_pInputCr == NULL)
  --   || (a_pInputCb != NULL && a_pInputCr != NULL));
  if !((a_pInputCb.isNone && a_pInputCr.isNone)
      || (a_pInputCb.isSome && a_pInputCr.isSome)) then none
  -- assert (a_pOutputCb != NULL && a_pOutputCr != NULL);
  else if !(a_pOutputCb.isSome && a_pOutputCr.isSome) then none
  else if g.denoiser.interlaced != 0 then
    newdenoise_interlaced_frame_color E g a_pInputCb a_pInputCr a_pOutputCb a_pOutputCr
  else
    newdenoise_frame_color E g a_pInputCb a_pInputCr a_pOutputCb a_pOutputCr

/-- The condition asserted at the end of `newdenoise_frame` and of
`newdenoise_interlaced_frame`. -/
def sanityCheck {σY σC : Type} (g : Globals σY σC) (bY bCbCr : Int) : Bool :=
  !g.g_bMotionSearcherY || !g.g_bMotionSearcherCbCr
    || (bY != 0 && bCbCr != 0) || (bY == 0 && bCbCr == 0)

/-- The common shape of `newdenoise_frame` and `newdenoise_interlaced_frame`: the luma
routine in the calling thread, the chroma routine in the calling thread or through the
worker, the assertion, and the return value `(bY) ? bY : bCbCr`. -/
def facadeFrame {σY σC : Type}
    (intensity : Globals σY σC → Option Plane → Option Plane → Option (LumaResult σY σC))
    (color : Globals σY σC → Option Plane → Option Plane → Option Plane → Option Plane →
      Option (ChromaResult σY σC))
    (worker : Globals σY σC → Option Plane → Option Plane → Option Plane → Option Plane →
      Option (ChromaResult σY σC))
    (g : Globals σY σC)
    (a_pInputY a_pInputCb a_pInputCr a_pOutputY a_pOutputCb a_pOutputCr : Option Plane) :
    Option (FrameResult σY σC) :=
  -- bY = bCbCr = 0;
  let luma : Option (LumaResult σY σC) :=
    if g.g_bMotionSearcherY then intensity g a_pInputY a_pOutputY
    else some { ret := 0, globals := g, a_pOutputY := a_pOutputY }
  match luma with
  | none => none
  | some rY =>
    let g1 := rY.globals
    let chroma : Option (ChromaResult σY σC) :=
      if g1.g_bMotionSearcherCbCr then
        if Int.land g1.denoiser.threads 2 != 0 then
          worker g1 a_pInputCb a_pInputCr a_pOutputCb a_pOutputCr
        else color g1 a_pInputCb a_pInputCr a_pOutputCb a_pOutputCr
      else some { ret := 0, globals := g1, a_pOutputCb := a_pOutputCb,
                  a_pOutputCr := a_pOutputCr }
    match chroma with
    | none => none
    | some rC =>
      if !sanityCheck rC.globals rY.ret rC.ret then none
      else
        some { ret := if rY.ret != 0 then rY.ret else rC.ret, globals := rC.globals,
               a_pOutputY := rY.a_pOutputY, a_pOutputCb := rC.a_pOutputCb,
               a_pOutputCr := rC.a_pOutputCr }

/-- `newdenoise_frame`. -/
def newdenoise_frame {σY σC : Type} (E : Engines σY σC) (g : Globals σY σC)
    (a_pInputY a_pInputCb a_pInputCr a_pOutputY a_pOutputCb a_pOutputCr : Option Plane) :
    Option (FrameResult σY σC) :=
  facadeFrame (newdenoise_frame_intensity E) (newdenoise_frame_color E)
    (chromaWorkerRound E) g
    a_pInputY a_pInputCb a_pInputCr a_pOutputY a_pOutputCb a_pOutputCr

/-- `newdenoise_interlaced_frame`. -/
def newdenoise_interlaced_frame {σY σC : Type} (E : Engines σY σC) (g : Globals σY σC)
    (a_pInputY a_pInputCb a_pInputCr a_pOutputY a_pOutputCb a_pOutputCr : Option Plane) :
    Option (FrameResult σY σC) :=
  facadeFrame (newdenoise_interlaced_frame_intensity E)
    (newdenoise_interlaced_frame_color E) (chromaWorkerRound E) g
    a_pInputY a_pInputCb a_pInputCr a_pOutputY a_pOutputCb a_pOutputCr

/-! ### What the engine answers during one call of a per-plane routine -/

/-- The state of the luma engine when a per-plane luma routine queries it: after the
purge, if one is due. -/
def lumaEngineAtQuery {σY σC : Type} (E : Engines σY σC) (g : Globals σY σC) : σY :=
  if timeToPurge g = some true then E.Y.Purge g.g_oMotionSearcherY
  else g.g_oMotionSearcherY

/-- The reference frame the luma engine returns during one call of
`newdenoise_frame_intensity`: that of `GetRemainingFrames` on the flush path (input
`NULL`), that of `GetFrameReadyForOutput` otherwise. -/
def lumaFrameReturned {σY σC : Type} (E : Engines σY σC) (g : Globals σY σC)
    (a_pInputY : Option Plane) : Option (ReferenceFrame PixelY) :=
  match a_pInputY with
  | none => (E.Y.GetRemainingFrames (lumaEngineAtQuery E g)).1
  | some _ => (E.Y.GetFrameReadyForOutput (lumaEngineAtQuery E g)).1

/-- The status the luma engine's `AddFrame` reports during one call of
`newdenoise_frame_intensity` with input plane `inputY`. -/
def lumaAddFrameStatus {σY σC : Type} (E : Engines σY σC) (g : Globals σY σC)
    (inputY : Plane) : Status_t :=
  (E.Y.AddFrame (E.Y.GetFrameReadyForOutput (lumaEngineAtQuery E g)).2
    (stageFrameY inputY g.g_nPixelsY g.g_pPixelsY)).1

/-- The state of the chroma engine when a per-plane chroma routine queries it: after the
purge, if one is due. -/
def chromaEngineAtQuery {σY σC : Type} (E : Engines σY σC) (g : Globals σY σC) : σC :=
  if timeToPurge g = some true then E.CbCr.Purge g.g_oMotionSearcherCbCr
  else g.g_oMotionSearcherCbCr

/-- The reference frame the chroma engine returns during one call of
`newdenoise_frame_color`: that of `GetRemainingFrames` on the flush path (`a_pInputCr`
is `NULL`), that of `GetFrameReadyForOutput` otherwise. -/
def chromaFrameReturned {σY σC : Type} (E : Engines σY σC) (g : Globals σY σC)
    (a_pInputCr : Option Plane) : Option (ReferenceFrame PixelCbCr) :=
  match a_pInputCr with
  | none => (E.CbCr.GetRemainingFrames (chromaEngineAtQuery E g)).1
  | some _ => (E.CbCr.GetFrameReadyForOutput (chromaEngineAtQuery E g)).1

/-- The status the chroma engine's `AddFrame` reports during one call of
`newdenoise_frame_color` with input planes `inputCb` and `inputCr`. -/
def chromaAddFrameStatus {σY σC : Type} (E : Engines σY σC) (g : Globals σY σC)
    (inputCb inputCr : Plane) : Status_t :=
  (E.CbCr.AddFrame (E.CbCr.GetFrameReadyForOutput (chromaEngineAtQuery E g)).2
    (stageFrameCbCr inputCb inputCr g.g_nPixelsCbCr g.g_pPixelsCbCr)).1

/-- Every pixel a routine reads from a reference frame the engine returned is there:
`GetPixel (i)` is not `NULL` for `i` below `n`. -/
def FrameComplete {Pixel_t : Type} (n : Nat) (frame : Option (ReferenceFrame Pixel_t)) :
    Prop :=
  ∀ f, frame = some f → ∀ i, i < n → (f.GetPixel i).isSome = true

/-! ### Reading a reference frame -/

/-- Component 0 of the value of reference pixel `i` of a luma frame: `GetPixel (i)`, then
`GetValue ()[0]`; `none` if the pixel pointer is `NULL`. -/
def lumaOf (frame : ReferenceFrame PixelY) (i : Nat) : Option uint8_t :=
  (frame.GetPixel i).map (fun p => p.GetValue.m_atnVal0)

/-- Component 0 (Cb) of the value of reference pixel `i` of a chroma frame; `none` if the
pixel pointer is `NULL`. -/
def cbOf (frame : ReferenceFrame PixelCbCr) (i : Nat) : Option uint8_t :=
  (frame.GetPixel i).map (fun p => p.GetValue.m_atnVal0)

/-- Component 1 (Cr) of the value of reference pixel `i` of a chroma frame; `none` if the
pixel pointer is `NULL`. -/
def crOf (frame : ReferenceFrame PixelCbCr) (i : Nat) : Option uint8_t :=
  (frame.GetPixel i).map (fun p => p.GetValue.m_atnVal1)

/-- The hypothesis of the loop lemmas: below `N`, a step of the body succeeds, stores
the value `v i` at `index` (as seen through `obs`) and leaves the rest as it is. -/
def StoresAt {α β : Type} (body : Nat → Nat → α → Option α) (obs : α → Nat → β)
    (v : Nat → Option β) (N : Nat) : Prop :=
  ∀ i, i < N → ∀ index s, ∃ s1 b, body index i s = some s1 ∧ v i = some b
    ∧ ∀ j, obs s1 j = if j = index then b else obs s j

/-- The number of pixels a field loop visits: the rows `a_nMask`, `a_nMask + 2`, ...
below `height`, `width` pixels each. -/
def fieldPixels (width height a_nMask : Nat) : Nat :=
  ((height + 1 - a_nMask) / 2) * width

/-! ### The stores of a field loop -/

/-- A loop body together with the record of the output indices it has stored to, oldest
first: each run of the body adds its `index` to the record. -/
def logged {α : Type} (body : Nat → Nat → α → Option α) :
    Nat → Nat → α × List Nat → Option (α × List Nat) :=
  fun index i st =>
    match body index i st.1 with
    | none => none
    | some a => some (a, st.2 ++ [index])

/-- The luma block of `output_field` with the record of its stores: the result is the
luma output buffer after it and the indices of `a_pOutputY` stored to, in order. -/
def output_field_luma_logged (g_nWidthY g_nHeightY a_nMask : Nat)
    (a_pFrameY : Option (ReferenceFrame PixelY)) (a_pOutputY : Option Plane) :
    Option (Option Plane × List Nat) :=
  match a_pFrameY with
  | none => some (a_pOutputY, [])
  | some frameY =>
    -- assert (a_pOutputY != NULL);
    match a_pOutputY with
    | none => none
    | some outY =>
      match fieldLoop (logged (storeY frameY)) g_nWidthY g_nHeightY a_nMask (outY, []) with
      | none => none
      | some res => some (some res.2.1, res.2.2)

/-- The chroma block of `output_field` with the record of its stores: the result is the
pair of the chroma output buffers after it and the indices stored to, in order (each is
stored to in `a_pOutputCb` and in `a_pOutputCr`). -/
def output_field_chroma_logged (g_nWidthCbCr g_nHeightCbCr a_nMask : Nat)
    (a_pFrameCbCr : Option (ReferenceFrame PixelCbCr))
    (a_pOutputCb a_pOutputCr : Option Plane) :
    Option ((Option Plane × Option Plane) × List Nat) :=
  match a_pFrameCbCr with
  | none => some ((a_pOutputCb, a_pOutputCr), [])
  | some frameCbCr =>
    -- assert (a_pOutputCb != NULL && a_pOutputCr != NULL);
    match a_pOutputCb, a_pOutputCr with
    | some outCb, some outCr =>
      match fieldLoop (logged (storeCbCr frameCbCr)) g_nWidthCbCr g_nHeightCbCr a_nMask
          ((outCb, outCr), []) with
      | none => none
      | some res => some ((some res.2.1.1, some res.2.1.2), res.2.2)
    | _, _ => none

/-- What one `output_field` sub-event leaves behind: the three output buffers and the
records of the indices stored to in the luma buffer and in the chroma buffers. -/
structure FieldStores where
  a_pOutputY : Option Plane
  a_pOutputCb : Option Plane
  a_pOutputCr : Option Plane
  storesY : List Nat
  storesCbCr : List Nat

/-- `output_field` with the record of its stores. -/
def output_field_logged (g_nWidthY g_nHeightY g_nWidthCbCr g_nHeightCbCr : Nat)
    (a_nMask : Nat) (a_pFrameY : Option (ReferenceFrame PixelY))
    (a_pFrameCbCr : Option (ReferenceFrame PixelCbCr))
    (a_pOutputY a_pOutputCb a_pOutputCr : Option Plane) : Option FieldStores :=
  match output_field_luma_logged g_nWidthY g_nHeightY a_nMask a_pFrameY a_pOutputY with
  | none => none
  | some resY =>
    match output_field_chroma_logged g_nWidthCbCr g_nHeightCbCr a_nMask a_pFrameCbCr
        a_pOutputCb a_pOutputCr with
    | none => none
    | some resC =>
      some { a_pOutputY := resY.1, a_pOutputCb := resC.1.1, a_pOutputCr := resC.1.2,
             storesY := resY.2, storesCbCr := resC.2 }

/-- The output indices of row `y` of a plane of width `width`, left to right. -/
def rowIndices (width y : Nat) : List Nat :=
  (List.range width).map (fun x => y * width + x)

/-- The output indices of the rows `y`, `y + 2`, ... below `height`, row by row; the
first argument bounds the number of rows, as in `fieldRows`. -/
def fieldIndices (width height : Nat) : Nat → Nat → List Nat
  | 0, _ => []
  | fuel + 1, y =>
    if y < height then rowIndices width y ++ fieldIndices width height fuel (y + 2)
    else []

/-! ### A small engine for sample runs -/

/-- The state of the sample engine: the frames it holds, oldest first, and the number of
`AddFrame` calls so far. -/
structure SampleState (Pixel_t : Type) where
  held : List (Nat → Pixel_t)
  added : Nat

/-- A staged frame as a reference frame. -/
def sampleFrame {Pixel_t : Type} (pixels : Nat → Pixel_t) : ReferenceFrame Pixel_t :=
  { GetPixel := fun i => some { GetValue := pixels i } }

/-- A pass-through engine with a window of `window` frames: `AddFrame` keeps the staged
frame, `GetFrameReadyForOutput` hands back the oldest frame held once `window` frames are
held, `GetRemainingFrames` hands back the oldest frame held, if any. Its call of
`AddFrame` number `failAt` (from 0) reports an error. -/
def sampleSearcher {Pixel_t : Type} (window : Nat) (failAt : Option Nat) :
    MotionSearcher Pixel_t (SampleState Pixel_t) :=
  { Purge := fun s => s
    AddFrame := fun s staged =>
      if failAt = some s.added then (1, { s with added := s.added + 1 })
      else (g_kNoError, { held := s.held ++ [staged], added := s.added + 1 })
    GetFrameReadyForOutput := fun s =>
      match s.held with
      | [] => (none, s)
      | f :: rest =>
        if window ≤ s.held.length then (some (sampleFrame f), { s with held := rest })
        else (none, s)
    GetRemainingFrames := fun s =>
      match s.held with
      | [] => (none, s)
      | f :: rest => (some (sampleFrame f), { s with held := rest }) }

/-- Two sample engines with the same window; `failY` and `failC` say which `AddFrame`
call of each fails. -/
def sampleEngines (window : Nat) (failY failC : Option Nat) :
    Engines (SampleState PixelY) (SampleState PixelCbCr) :=
  { Y := sampleSearcher window failY, CbCr := sampleSearcher window failC }

/-- The globals after `newdenoise_init` for a progressive 4x2 luma plane and a 2x1
chroma plane, both plane groups enabled, no threads, with the sample engines. -/
def sampleGlobals : Globals (SampleState PixelY) (SampleState PixelCbCr) :=
  { denoiser := { interlaced := 0, threads := 0, frames := 1 }
    frame := 0
    g_oMotionSearcherY := { held := [], added := 0 }
    g_oMotionSearcherCbCr := { held := [], added := 0 }
    g_bMotionSearcherY := true
    g_bMotionSearcherCbCr := true
    g_nPixelsY := 8, g_nWidthY := 4, g_nHeightY := 2
    g_pPixelsY := fun _ => PixelY.mk 0
    g_nPixelsCbCr := 2, g_nWidthCbCr := 2, g_nHeightCbCr := 1
    g_pPixelsCbCr := fun _ => PixelCbCr.mk 0 0 }

/-- A sample luma plane: `[10, 20, 30, 40, 50, 60, 70, 80]`, zero beyond. -/
def samplePlaneY : Plane :=
  fun i => ([10, 20, 30, 40, 50, 60, 70, 80] : List uint8_t).getD i 0

/-- A sample chroma plane: `[100, 110]`, zero beyond. -/
def samplePlaneCb : Plane := fun i => ([100, 110] : List uint8_t).getD i 0

/-- A sample chroma plane: `[200, 210]`, zero beyond. -/
def samplePlaneCr : Plane := fun i => ([200, 210] : List uint8_t).getD i 0

/-- An output buffer filled with the byte 255. -/
def blankPlane : Plane := fun _ => 255

/-- The sample luma plane as a reference frame: pixel `i` has the value
`samplePlaneY i`. -/
def sampleRefY : ReferenceFrame PixelY :=
  sampleFrame (fun i => PixelY.mk (samplePlaneY i))

/-- The sample chroma planes as a reference frame: pixel `i` has the value
`(samplePlaneCb i, samplePlaneCr i)`. -/
def sampleRefCbCr : ReferenceFrame PixelCbCr :=
  sampleFrame (fun i => PixelCbCr.mk (samplePlaneCb i) (samplePlaneCr i))

/-- The sample globals when each engine already holds one frame (the sample planes). -/
def sampleGlobalsLoaded : Globals (SampleState PixelY) (SampleState PixelCbCr) :=
  { sampleGlobals with
    g_oMotionSearcherY := { held := [fun i => PixelY.mk (samplePlaneY i)], added := 1 }
    g_oMotionSearcherCbCr :=
      { held := [fun i => PixelCbCr.mk (samplePlaneCb i) (samplePlaneCr i)], added := 1 } }

/-- The globals after `newdenoise_init` for an interlaced (top field first) 4x2 luma
plane and a 2x2 chroma plane: each field has 4 luma and 2 chroma pixels. -/
def sampleGlobalsInterlaced : Globals (SampleState PixelY) (SampleState PixelCbCr) :=
  { sampleGlobals with
    denoiser := { interlaced := 1, threads := 0, frames := 1 }
    g_nPixelsY := 4, g_nWidthY := 4, g_nHeightY := 2
    g_nPixelsCbCr := 2, g_nWidthCbCr := 2, g_nHeightCbCr := 2 }

/-- The loaded sample globals with the chroma plane group disabled: luma only. -/
def sampleGlobalsLumaOnly : Globals (SampleState PixelY) (SampleState PixelCbCr) :=
  { sampleGlobalsLoaded with g_bMotionSearcherCbCr := false }

/-- The interlaced sample globals with the chroma plane group disabled: luma only. -/
def sampleGlobalsInterlacedLumaOnly :
    Globals (SampleState PixelY) (SampleState PixelCbCr) :=
  { sampleGlobalsInterlaced with g_bMotionSearcherCbCr := false }

/-- The loaded sample globals with a chroma plane of no pixels (`g_nPixelsCbCr = 0`). -/
def sampleGlobalsNoChromaPixels : Globals (SampleState PixelY) (SampleState PixelCbCr) :=
  { sampleGlobalsLoaded with g_nPixelsCbCr := 0 }

/-! ### Sample runs -/

/-- The reader after its worker has run the first locked section of `Work`. -/
def readerHoldingState : ReaderSys :=
  (ReaderSys.init.run [.workerStep, .workerStep]).getD ReaderSys.init

/-- The writer after the client has published one frame and the worker has run the first
locked section of `Work`. -/
def writerHoldingState : WriterSys :=
  (WriterSys.init.run
    [.GetSpaceToWriteFrame, .WriteFrame 5, .workerStep, .workerStep]).getD WriterSys.init

/-- A run of the reader: three frames are read (data 7, 9 and 11) and `ReadFrame` is
called after the first and after the second. -/
def readerFifoRun : List ReaderAction :=
  [.workerStep, .workerStep, .workerRead Y4M_OK 7, .workerStep, .ReadFrame,
   .workerStep, .workerStep, .workerRead Y4M_OK 9, .ReadFrame,
   .workerStep, .workerStep, .workerStep, .workerRead Y4M_OK 11]

/-- The state the run `readerFifoRun` ends in. -/
def readerFifoState : ReaderSys :=
  (ReaderSys.init.run readerFifoRun).getD ReaderSys.init

/-- A run of the reader in which the worker reads four frames (data `d1` to `d4`) with
no `ReadFrame` call, and then enters `Work` once more. -/
def readerFourReads (d1 d2 d3 d4 : Content) : List ReaderAction :=
  [.workerStep, .workerStep, .workerRead Y4M_OK d1, .workerStep,
   .workerStep, .workerStep, .workerRead Y4M_OK d2, .workerStep,
   .workerStep, .workerStep, .workerRead Y4M_OK d3, .workerStep,
   .workerStep, .workerStep, .workerRead Y4M_OK d4, .workerStep,
   .workerStep, .workerStep]

/-- The invariant behind the writer's drain, for runs in which no `y4m_write_frame` call
fails. Before `ForceShutdown` the work loop is on, the worker is inside it, `Work` has
only returned `Y4M_OK`, and a worker woken from `WaitForOutput` finds a frame to write.
While the client is blocked in `pthread_join`, the work loop is off, and the worker
leaves the loop only with the valid list empty. -/
def WriterSys.DrainInv (s : WriterSys) : Prop :=
  (s.joined = false → s.client ≠ .joining →
      s.thread.m_bWorkLoop = true ∧ s.worker ≠ .exiting ∧ s.worker ≠ .done
      ∧ (∀ n, s.worker = .returned n → n = Y4M_OK)
      ∧ (s.worker = .waiting → s.thread.m_bWaitingForOutput = false →
          s.thread.m_pValidFrames ≠ []))
    ∧ (s.client = .joining →
      s.thread.m_bWorkLoop = false
      ∧ (∀ n, s.worker = .returned n → n ≠ Y4M_OK → s.thread.m_pValidFrames = [])
      ∧ (s.worker = .exiting ∨ s.worker = .done → s.thread.m_pValidFrames = []))

/-- A run of the writer: the client publishes two frames (data 5 and 6) and calls
`ForceShutdown`; the worker then writes both frames out and leaves its loop. -/
def writerDrainRun : List WriterAction :=
  [.GetSpaceToWriteFrame, .WriteFrame 5, .GetSpaceToWriteFrame, .WriteFrame 6,
   .ForceShutdown,
   .workerStep, .workerStep, .workerWrite Y4M_OK, .workerStep,
   .workerStep, .workerStep, .workerWrite Y4M_OK, .workerStep,
   .workerStep]

/-- A run of the writer: the client publishes two frames (data 5 and 6) and calls
`ForceShutdown`; the worker's first `y4m_write_frame` reports the error 1, the worker
leaves its loop and `pthread_join` returns. -/
def writerFailedWriteRun : List WriterAction :=
  [.GetSpaceToWriteFrame, .WriteFrame 5, .GetSpaceToWriteFrame, .WriteFrame 6,
   .ForceShutdown,
   .workerStep, .workerStep, .workerWrite 1, .workerStep, .workerStep,
   .clientStep]

/-- The reader has come to its end: the worker has finished with a status other than
`Y4M_OK` in `m_nWorkRetval`, the work loop is off, the valid list and the current frame
are empty, no `assert` has failed and the client is not waiting. -/
def ReaderSys.Terminal (s : ReaderSys) : Prop :=
  s.thread.m_nWorkRetval ≠ Y4M_OK ∧ s.worker = .done ∧ s.thread.m_bWorkLoop = false
    ∧ s.thread.m_pValidFrames = [] ∧ s.thread.m_pCurrentFrame = none
    ∧ s.aborted = false ∧ s.client ≠ .waiting

/-- The control invariant of the reader. The waiting-for-output flag is raised only
while the client waits; a status other than `Y4M_OK` is in `m_nWorkRetval` only once the
worker has left its loop; the work loop is off only while
the client is in `Shutdown` or once the worker has finished; a worker that finished with
an error has turned the work loop off; a client woken from `WaitForOutput` finds a valid
frame or a finished worker; and a client about to return the final status has a finished
worker, no valid frame and no current frame. -/
def ReaderSys.ControlInv (s : ReaderSys) : Prop :=
  (s.thread.m_bWaitingForOutput = true → s.client = .waiting)
    ∧ (s.thread.m_nWorkRetval ≠ Y4M_OK → s.worker = .exiting ∨ s.worker = .done)
    ∧ (s.thread.m_bWorkLoop = false → s.client = .joining ∨ s.worker = .done)
    ∧ (s.worker = .done → s.thread.m_nWorkRetval ≠ Y4M_OK → s.thread.m_bWorkLoop = false)
    ∧ (s.client = .waiting →
        s.thread.m_pCurrentFrame = none
        ∧ (s.thread.m_bWaitingForOutput = false →
            s.thread.m_pValidFrames ≠ [] ∨ s.worker = .done))
    ∧ (s.client = .failing →
        s.worker = .done ∧ s.thread.m_pValidFrames = []
        ∧ s.thread.m_pCurrentFrame = none)

/-- What one step does to the statuses returned by `ReadFrame`: it leaves them alone
(and a reader at its end stays there, with the same `m_nWorkRetval`), or a `ReadFrame`
call returns `Y4M_OK` (the reader was not at its end), or a `ReadFrame` call returns
`m_nWorkRetval` and the reader is at its end. -/
def ReaderSys.StatusStep (s s1 : ReaderSys) : Prop :=
  (s1.statuses = s.statuses
      ∧ (s.Terminal → s1.Terminal ∧ s1.thread.m_nWorkRetval = s.thread.m_nWorkRetval))
    ∨ (s1.statuses = s.statuses ++ [Y4M_OK] ∧ ¬ s.Terminal)
    ∨ (s1.statuses = s.statuses ++ [s.thread.m_nWorkRetval] ∧ s1.Terminal
      ∧ s1.thread.m_nWorkRetval = s.thread.m_nWorkRetval)

/-- The invariant behind the reader's terminal status: the control invariant, and once a
`ReadFrame` call has returned a status other than `Y4M_OK` the reader is at its end,
that status is `m_nWorkRetval`, and every later call has returned the same status. -/
def ReaderSys.StickyInv (s : ReaderSys) : Prop :=
  s.ControlInv
    ∧ ((∃ x ∈ s.statuses, x ≠ Y4M_OK) → s.Terminal)
    ∧ (∀ x ∈ s.statuses, x ≠ Y4M_OK → x = s.thread.m_nWorkRetval)
    ∧ s.statuses.Pairwise (fun x y => x ≠ Y4M_OK → y = x)

/-- A run of the reader in which the first `y4m_read_frame` returns `Y4M_ERR_EOF`: the
worker puts the frame back and leaves its loop, and the client calls `ReadFrame` twice.
-/
def readerEarlyEofRun : List ReaderAction :=
  [.workerStep, .workerStep, .workerRead Y4M_ERR_EOF 0, .workerStep, .workerStep,
   .ReadFrame, .clientStep, .ReadFrame, .clientStep]

/-- The state the run `readerEarlyEofRun` ends in. -/
def readerEarlyEofState : ReaderSys :=
  (ReaderSys.init.run readerEarlyEofRun).getD ReaderSys.init

/-- The status returned by the first `y4m_read_frame` call of a run, if there is one. -/
def firstRead : List ReaderAction → Option Int
  | [] => none
  | .workerRead nErr _ :: _ => some nErr
  | _ :: rest => firstRead rest

/-- The reader before its first `y4m_read_frame` has returned: nothing is valid or
current, `m_nWorkRetval` is still `Y4M_OK`, no `ReadFrame` call has returned, and the
four frames are in the free list or in the worker's hands. -/
def ReaderSys.BeforeFirstRead (s : ReaderSys) : Prop :=
  s.thread.m_pValidFrames = [] ∧ s.thread.m_pCurrentFrame = none
    ∧ s.thread.m_nWorkRetval = Y4M_OK ∧ s.statuses = []
    ∧ s.thread.m_pFreeFrames.length + s.worker.held.length = m_kNumFrames
    ∧ (∀ n, s.worker ≠ .returned n) ∧ s.worker ≠ .waiting

/-- The reader after its first `y4m_read_frame` has failed with the status `e`: nothing
is valid or current, the four frames are in the free list, no `assert` has failed, and
the worker is on its way out: `Work` has returned `e`, or `e` is in `m_nWorkRetval` and
the loop has been left. -/
def ReaderSys.AfterFailedRead (e : Int) (s : ReaderSys) : Prop :=
  s.thread.m_pValidFrames = [] ∧ s.thread.m_pCurrentFrame = none
    ∧ s.thread.m_pFreeFrames.length = m_kNumFrames ∧ s.aborted = false
    ∧ ((s.worker = .returned e ∧ s.thread.m_nWorkRetval = Y4M_OK ∧ s.statuses = [])
      ∨ ((s.worker = .exiting ∨ s.worker = .done) ∧ s.thread.m_nWorkRetval = e))

/-! ### An engine that records its calls -/

/-- One call of an engine operation, as a recording engine notes it: the operation, with
the staging array passed to `AddFrame` and the status it gave back, and with the frame a
query returned. -/
inductive EngineCall (Pixel_t : Type) where
  | Purge
  | AddFrame (a_pPixels : Nat → Pixel_t) (eStatus : Status_t)
  | GetFrameReadyForOutput (pFrame : Option (ReferenceFrame Pixel_t))
  | GetRemainingFrames (pFrame : Option (ReferenceFrame Pixel_t))

/-- The operation of a recorded call. -/
inductive CallKind where
  | Purge
  | AddFrame
  | GetFrameReadyForOutput
  | GetRemainingFrames
  deriving DecidableEq, Repr

/-- The operation a recorded call is a call of. -/
def EngineCall.kind {Pixel_t : Type} : EngineCall Pixel_t → CallKind
  | .Purge => .Purge
  | .AddFrame _ _ => .AddFrame
  | .GetFrameReadyForOutput _ => .GetFrameReadyForOutput
  | .GetRemainingFrames _ => .GetRemainingFrames

/-- The engine `M` with a record of the calls made to it: the state is that of `M`
together with the calls so far, oldest first; every operation does what it does in `M`
and adds itself to the record. -/
def MotionSearcher.recording {Pixel_t σ : Type} (M : MotionSearcher Pixel_t σ) :
    MotionSearcher Pixel_t (σ × List (EngineCall Pixel_t)) :=
  { Purge := fun s => (M.Purge s.1, s.2 ++ [.Purge])
    AddFrame := fun s a_pPixels =>
      ((M.AddFrame s.1 a_pPixels).1,
        ((M.AddFrame s.1 a_pPixels).2,
          s.2 ++ [.AddFrame a_pPixels (M.AddFrame s.1 a_pPixels).1]))
    GetFrameReadyForOutput := fun s =>
      ((M.GetFrameReadyForOutput s.1).1,
        ((M.GetFrameReadyForOutput s.1).2,
          s.2 ++ [.GetFrameReadyForOutput (M.GetFrameReadyForOutput s.1).1]))
    GetRemainingFrames := fun s =>
      ((M.GetRemainingFrames s.1).1,
        ((M.GetRemainingFrames s.1).2,
          s.2 ++ [.GetRemainingFrames (M.GetRemainingFrames s.1).1])) }

/-- The two engines, each with a record of its calls. -/
def Engines.recording {σY σC : Type} (E : Engines σY σC) :
    Engines (σY × List (EngineCall PixelY)) (σC × List (EngineCall PixelCbCr)) :=
  { Y := E.Y.recording, CbCr := E.CbCr.recording }

/-- The purge cadence, read off the record of an engine's calls before and after one
call of a per-plane routine: the calls the routine has added start with one `Purge` if
`frame` is a multiple of `denoiser.frames` and hold no other `Purge`. -/
def PurgeCadence {Pixel_t : Type} (frame frames : Int)
    (before after : List (EngineCall Pixel_t)) : Prop :=
  ∃ rest, after = before ++ (if frame % frames = 0 then [EngineCall.Purge] else []) ++ rest
    ∧ ∀ c ∈ rest, c.kind ≠ CallKind.Purge

/-- The globals `g` for recording engines: each engine state gets an empty record of
calls. -/
def Globals.withRecords {σY σC : Type} (g : Globals σY σC) :
    Globals (σY × List (EngineCall PixelY)) (σC × List (EngineCall PixelCbCr)) :=
  { denoiser := g.denoiser
    frame := g.frame
    g_oMotionSearcherY := (g.g_oMotionSearcherY, [])
    g_oMotionSearcherCbCr := (g.g_oMotionSearcherCbCr, [])
    g_bMotionSearcherY := g.g_bMotionSearcherY
    g_bMotionSearcherCbCr := g.g_bMotionSearcherCbCr
    g_nPixelsY := g.g_nPixelsY
    g_nWidthY := g.g_nWidthY
    g_nHeightY := g.g_nHeightY
    g_pPixelsY := g.g_pPixelsY
    g_nPixelsCbCr := g.g_nPixelsCbCr
    g_nWidthCbCr := g.g_nWidthCbCr
    g_nHeightCbCr := g.g_nHeightCbCr
    g_pPixelsCbCr := g.g_pPixelsCbCr }

/-! ### The field order of an interlaced call, read off its record -/

/-- The staging arrays passed to `AddFrame` in a record of calls, oldest first. -/
def stagedFields {Pixel_t : Type} (calls : List (EngineCall Pixel_t)) :
    List (Nat → Pixel_t) :=
  calls.filterMap (fun c =>
    match c with
    | .AddFrame a_pPixels _ => some a_pPixels
    | _ => none)

/-- The frames the queries `GetFrameReadyForOutput` and `GetRemainingFrames` returned in
a record of calls, oldest first (`none` is `NULL`). -/
def returnedFrames {Pixel_t : Type} (calls : List (EngineCall Pixel_t)) :
    List (Option (ReferenceFrame Pixel_t)) :=
  calls.filterMap (fun c =>
    match c with
    | .GetFrameReadyForOutput pFrame => some pFrame
    | .GetRemainingFrames pFrame => some pFrame
    | _ => none)

/-- The staging array holds the rows of parity `p` of a plane, row by row: pixel
`((y - p) / 2) * width + x` is the one read at index `y * width + x`. -/
def RowsStaged {Pixel_t : Type} (width height p : Nat) (read : Nat → Pixel_t)
    (staged : Nat → Pixel_t) : Prop :=
  ∀ y x, y < height → y % 2 = p → x < width →
    staged (((y - p) / 2) * width + x) = read (y * width + x)

/-- The rows of parity `p` of the buffer `out` hold a field, row by row: the byte at
index `y * width + x` is the value of pixel `((y - p) / 2) * width + x`. -/
def RowsWritten (width height p : Nat) (value : Nat → Option uint8_t) (out : Plane) :
    Prop :=
  ∀ y x, y < height → y % 2 = p → x < width →
    value (((y - p) / 2) * width + x) = some (out (y * width + x))

/-- The rows of parity `p` are the same in the buffers `before` and `after`. -/
def RowsKept (width height p : Nat) (before after : Plane) : Prop :=
  ∀ y x, y < height → y % 2 = p → x < width →
    after (y * width + x) = before (y * width + x)

/-- What sub-event number `k` of a call of `newdenoise_interlaced_frame_intensity` has
done if it handled the rows of parity `p`: the staging array of its `AddFrame` holds the
rows of parity `p` of the input; the frame its query returned is in the rows of parity
`p` of the output buffer `o`; and if the query returned `NULL`, or the sub-event did not
take place, these rows are as they were in `o0`. -/
def LumaSubEvent (width height k p : Nat) (a_pInputY : Option Plane) (o0 o : Plane)
    (calls : List (EngineCall PixelY)) : Prop :=
  (∀ staged inputY, (stagedFields calls)[k]? = some staged → a_pInputY = some inputY →
      RowsStaged width height p (fun i => PixelY.mk (inputY i)) staged)
    ∧ (∀ f, (returnedFrames calls)[k]? = some (some f) →
      RowsWritten width height p (lumaOf f) o)
    ∧ ((returnedFrames calls)[k]? = some none ∨ (returnedFrames calls)[k]? = none →
      RowsKept width height p o0 o)

/-- What sub-event number `k` of a call of `newdenoise_interlaced_frame_color` has done
if it handled the rows of parity `p`; as `LumaSubEvent`, for the two chroma planes. -/
def ChromaSubEvent (width height k p : Nat) (a_pInputCb a_pInputCr : Option Plane)
    (cb0 cr0 ocb ocr : Plane) (calls : List (EngineCall PixelCbCr)) : Prop :=
  (∀ staged inputCb inputCr, (stagedFields calls)[k]? = some staged →
      a_pInputCb = some inputCb → a_pInputCr = some inputCr →
      RowsStaged width height p (fun i => PixelCbCr.mk (inputCb i) (inputCr i)) staged)
    ∧ (∀ f, (returnedFrames calls)[k]? = some (some f) →
      RowsWritten width height p (cbOf f) ocb ∧ RowsWritten width height p (crOf f) ocr)
    ∧ ((returnedFrames calls)[k]? = some none ∨ (returnedFrames calls)[k]? = none →
      RowsKept width height p cb0 ocb ∧ RowsKept width height p cr0 ocr)

/-- The sub-events a record of calls shows: on the flush path (no input) two queries and
no `AddFrame`; on the submit path one or two queries, each followed by its `AddFrame`.
-/
def SubEventsShown {Pixel_t : Type} (flush : Bool) (calls : List (EngineCall Pixel_t)) :
    Prop :=
  if flush then stagedFields calls = [] ∧ (returnedFrames calls).length = 2
  else (stagedFields calls).length = (returnedFrames calls).length
    ∧ 1 ≤ (returnedFrames calls).length ∧ (returnedFrames calls).length ≤ 2

/-! ### The range of `int32_t` -/

/-- The value `x` is representable in `int32_t`. -/
def InInt32 (x : Int) : Prop := -2147483648 ≤ x ∧ x < 2147483648

/-! ### The buffers a pool holds -/

/-- The buffers held by the pool: the current frame, the valid list and the free list
together. -/
def ReadWriteThread.poolFrames (t : ReadWriteThread) : List Frame :=
  t.m_pCurrentFrame.toList ++ (t.m_pValidFrames ++ t.m_pFreeFrames)

/-- A pool with frame 0 as its current frame and nothing else. -/
def poolWithCurrent : ReadWriteThread :=
  { ReadWriteThread.constructed with m_pCurrentFrame := some 0 }

/-- A pool with the free list `[2, 3]`, the valid list `[1]` and the current frame 0. -/
def poolSample : ReadWriteThread :=
  { ReadWriteThread.constructed with
    m_pFreeFrames := [2, 3], m_pValidFrames := [1], m_pCurrentFrame := some 0 }

/-- The reader at the start of `Work`: after `Initialize` the worker has passed the loop
condition of `WorkLoop`. -/
def readerAtWorkStart : ReaderSys :=
  (ReaderSys.init.run [.workerStep]).getD ReaderSys.init

/-! ## The denoise worker (`DenoiserThread`, `DenoiserThreadCbCr`)

The chroma worker with its two threads: the worker thread running
`DenoiserThread::WorkLoop`, and the client calling `AddFrame`, `WaitForAddFrame` and
`ForceShutdown`. As for the pools, every step is one locked section of the source or one
unlocked action between two of them, and a thread blocked in a wait goes on only after
the matching signal. -/

/-- The enumerators of `DenoiserThread::m_eWorkStatus`. -/
inductive WorkStatus where
  | m_kWaitingForFrame
  | m_kGivenFrame
  | m_kFinishedFrame
  deriving DecidableEq, Repr

/-- The address held by a plane pointer that is not `NULL`. -/
abbrev Pointer := Nat

/-- The four plane pointers `m_pInputCb`, `m_pInputCr`, `m_pOutputCb`, `m_pOutputCr` of
`DenoiserThreadCbCr`, also the four arguments of its `AddFrame` (`none` is `NULL`). -/
structure PlanePointers where
  m_pInputCb : Option Pointer
  m_pInputCr : Option Pointer
  m_pOutputCb : Option Pointer
  m_pOutputCr : Option Pointer
  deriving DecidableEq, Repr

/-- All four pointers `NULL`. -/
def PlanePointers.null : PlanePointers :=
  { m_pInputCb := none, m_pInputCr := none, m_pOutputCb := none, m_pOutputCr := none }

/-- The condition asserted on the four pointers in `AddFrame`, `WaitForAddFrame` and
`Work`: the two input pointers are both `NULL` or both not, and the two output pointers
are not `NULL`. -/
def PlanePointers.valid (p : PlanePointers) : Bool :=
  ((p.m_pInputCb.isNone && p.m_pInputCr.isNone)
      || (p.m_pInputCb.isSome && p.m_pInputCr.isSome))
    && (p.m_pOutputCb.isSome && p.m_pOutputCr.isSome)

/-- The condition `m_pInputCb == NULL && m_pInputCr == NULL && m_pOutputCb == NULL
&& m_pOutputCr == NULL` asserted in `AddFrame`. -/
def PlanePointers.isNull (p : PlanePointers) : Bool :=
  p.m_pInputCb.isNone && p.m_pInputCr.isNone && p.m_pOutputCb.isNone
    && p.m_pOutputCr.isNone

/-- The data members of `BasicThread`, `DenoiserThread` and `DenoiserThreadCbCr`. -/
structure DenoiserThreadCbCr where
  /-- `BasicThread::m_bWaitingForInput` -/
  m_bWaitingForInput : Bool
  /-- `BasicThread::m_bWaitingForOutput` -/
  m_bWaitingForOutput : Bool
  /-- `BasicThread::m_bWorkLoop` -/
  m_bWorkLoop : Bool
  /-- `BasicThread::m_nWorkRetval` -/
  m_nWorkRetval : Int
  /-- `DenoiserThread::m_eWorkStatus` -/
  m_eWorkStatus : WorkStatus
  /-- The four plane pointers of `DenoiserThreadCbCr`. -/
  pointers : PlanePointers
  deriving DecidableEq, Repr

/-- The state left by the constructors `BasicThread()`, `DenoiserThread()` and
`DenoiserThreadCbCr()`. -/
def DenoiserThreadCbCr.constructed : DenoiserThreadCbCr :=
  { m_bWaitingForInput := false, m_bWaitingForOutput := false, m_bWorkLoop := false,
    m_nWorkRetval := Y4M_OK, m_eWorkStatus := .m_kWaitingForFrame,
    pointers := PlanePointers.null }

/-- `DenoiserThreadCbCr::Initialize`, that is `BasicThread::Initialize`: the loop flag is
set and the worker thread is created. -/
def DenoiserThreadCbCr.Initialize : DenoiserThreadCbCr :=
  { DenoiserThreadCbCr.constructed with m_bWorkLoop := true }

/-- `BasicThread::SignalInput`. -/
def DenoiserThreadCbCr.SignalInput (t : DenoiserThreadCbCr) : DenoiserThreadCbCr :=
  { t with m_bWaitingForInput := false }

/-- `BasicThread::SignalOutput`. -/
def DenoiserThreadCbCr.SignalOutput (t : DenoiserThreadCbCr) : DenoiserThreadCbCr :=
  { t with m_bWaitingForOutput := false }

/-- The body shared by `BasicThread::Shutdown` and `BasicThread::WorkLoopExit`: stop the
loop and release whoever is waiting. -/
def DenoiserThreadCbCr.stopAndSignal (t : DenoiserThreadCbCr) : DenoiserThreadCbCr :=
  let t1 := { t with m_bWorkLoop := false }
  let t2 := if t1.m_bWaitingForInput then t1.SignalInput else t1
  if t2.m_bWaitingForOutput then t2.SignalOutput else t2

/-- The kinds of `assert` in the worker's code. -/
inductive Assertion where
  /-- An assertion on the plane pointers, passed in or stored. -/
  | pointers
  /-- An assertion on `m_eWorkStatus`, in `AddFrame`, `WaitForAddFrame` or `WorkLoop`. -/
  | status
  /-- The assertion `!m_bWaitingForInput` / `!m_bWaitingForOutput` at the entry of a
  wait. -/
  | waiting
  deriving DecidableEq, Repr

/-- Where the worker thread of the denoise worker stands. -/
inductive DenoiserPC where
  /-- In `WorkLoop`, about to evaluate the loop condition. -/
  | loopHead
  /-- In the loop, about to take the mutex for the first locked section. -/
  | lockStart
  /-- Blocked in `WaitForInput` with the mutex released. -/
  | waiting
  /-- After the first `Unlock()`, with the snapshot `bWorkLoop`. -/
  | unlocked (bWorkLoop : Bool)
  /-- In `Work`, running the chroma routine with the mutex released. -/
  | working
  /-- `Work` has returned and `m_nWorkRetval` is assigned; about to take the mutex for
  the second locked section. -/
  | worked
  /-- `WorkLoop` has been left; `WorkLoopExit` is still to run. -/
  | exiting
  /-- The thread function has returned. -/
  | done
  deriving DecidableEq, Repr

/-- Where the client of the denoise worker stands. -/
inductive DenoiserClientPC where
  /-- Outside every method of the worker. -/
  | idle
  /-- In `WaitForAddFrame`, blocked in `WaitForOutput` with the mutex released. -/
  | waiting
  /-- In `Shutdown`, blocked in `pthread_join`. -/
  | joining
  deriving DecidableEq, Repr

/-- What a return of `WaitForAddFrame` has found: the value returned, the status and
the pointers on return, and the numbers of submissions and of finished frames so far. -/
structure ReturnRecord where
  retval : Int
  m_eWorkStatus : WorkStatus
  pointers : PlanePointers
  given : Nat
  finished : Nat
  deriving DecidableEq, Repr

/-- The denoise worker, its worker thread and its client. The last three fields record
what has happened so far; the program does not read them. -/
structure DenoiserSys where
  /-- The object `g_oDenoiserThreadCbCr`. -/
  thread : DenoiserThreadCbCr
  /-- Where the worker thread stands. -/
  worker : DenoiserPC
  /-- Where the client stands. -/
  client : DenoiserClientPC
  /-- `pthread_join` has returned in `Shutdown`. -/
  joined : Bool
  /-- The `assert` that has failed, if any. -/
  aborted : Option Assertion
  /-- History: the number of `AddFrame` calls that have returned. -/
  given : Nat
  /-- History: the number of times the worker has set `m_kFinishedFrame`. -/
  finished : Nat
  /-- History: one record for each return of `WaitForAddFrame`, oldest first. -/
  returns : List ReturnRecord
  deriving DecidableEq, Repr

/-- The worker right after `Initialize`: the worker thread has been created and stands at
the head of `WorkLoop`. -/
def DenoiserSys.init : DenoiserSys :=
  { thread := DenoiserThreadCbCr.Initialize, worker := .loopHead, client := .idle,
    joined := false, aborted := none, given := 0, finished := 0, returns := [] }

/-- What can happen next in the denoise worker. -/
inductive DenoiserAction where
  /-- The worker thread takes its next step. -/
  | workerStep
  /-- The worker's call of `Work` returns `nErr`, the result of the chroma routine, which
  is assigned to `m_nWorkRetval`. -/
  | workerWork (nErr : Int)
  /-- The client calls `AddFrame` with the four plane pointers. -/
  | AddFrame (a_pPlanes : PlanePointers)
  /-- The client calls `WaitForAddFrame`. -/
  | WaitForAddFrame
  /-- The client goes on: it wakes from its wait, or returns from `pthread_join`. -/
  | clientStep
  /-- The client calls `ForceShutdown`. -/
  | ForceShutdown
  deriving DecidableEq, Repr

/-- One step of the worker thread: `DenoiserThread::WorkLoop` and
`BasicThread::WorkLoopExit`. -/
def DenoiserSys.workerStep (s : DenoiserSys) : Option DenoiserSys :=
  match s.worker with
  | .loopHead =>
    -- while (m_bWorkLoop)
    some (if s.thread.m_bWorkLoop then { s with worker := .lockStart }
      else { s with worker := .exiting })
  | .lockStart =>
    -- Lock(); if (m_eWorkStatus != m_kGivenFrame) WaitForInput();
    if s.thread.m_eWorkStatus != .m_kGivenFrame then
      -- assert (!m_bWaitingForInput);
      if s.thread.m_bWaitingForInput then some { s with aborted := some .waiting }
      else
        some { s with thread := { s.thread with m_bWaitingForInput := true },
                      worker := .waiting }
    else
      -- bool bWorkLoop = m_bWorkLoop; Unlock();
      some { s with worker := .unlocked s.thread.m_bWorkLoop }
  | .waiting =>
    -- woken by SignalInput, which has cleared the flag;
    -- bool bWorkLoop = m_bWorkLoop; Unlock();
    if s.thread.m_bWaitingForInput then none
    else some { s with worker := .unlocked s.thread.m_bWorkLoop }
  | .unlocked bWorkLoop =>
    -- if (!bWorkLoop) break;
    if !bWorkLoop then some { s with worker := .exiting }
    -- assert (m_eWorkStatus == m_kGivenFrame);
    else if s.thread.m_eWorkStatus != .m_kGivenFrame then
      some { s with aborted := some .status }
    -- Work(): assert on the four pointers
    else if !s.thread.pointers.valid then some { s with aborted := some .pointers }
    else some { s with worker := .working }
  | .working => none
  | .worked =>
    -- Lock(); m_eWorkStatus = m_kFinishedFrame;
    -- if (m_bWaitingForOutput) SignalOutput(); Unlock();
    let t := { s.thread with m_eWorkStatus := .m_kFinishedFrame }
    some { s with thread := if t.m_bWaitingForOutput then t.SignalOutput else t,
                  worker := .loopHead, finished := s.finished + 1 }
  | .exiting =>
    -- WorkLoopExit()
    some (if s.thread.m_nWorkRetval != Y4M_OK
      then { s with thread := s.thread.stopAndSignal, worker := .done }
      else { s with worker := .done })
  | .done => none

/-- The return of `Work` in the worker thread: `m_nWorkRetval = Work();`. -/
def DenoiserSys.workerWork (s : DenoiserSys) (nErr : Int) : Option DenoiserSys :=
  match s.worker with
  | .working =>
    some { s with thread := { s.thread with m_nWorkRetval := nErr }, worker := .worked }
  | _ => none

/-- `DenoiserThreadCbCr::AddFrame` with `DenoiserThread::AddFrame`. -/
def DenoiserSys.addFrame (s : DenoiserSys) (a_pPlanes : PlanePointers) :
    Option DenoiserSys :=
  match s.client with
  | .idle =>
    -- assert on the four arguments
    if !a_pPlanes.valid then some { s with aborted := some .pointers }
    -- Lock(); assert (m_pInputCb == NULL && ... && m_pOutputCr == NULL);
    else if !s.thread.pointers.isNull then some { s with aborted := some .pointers }
    -- assert (m_eWorkStatus == m_kWaitingForFrame);
    else if s.thread.m_eWorkStatus != .m_kWaitingForFrame then
      some { s with aborted := some .status }
    else
      -- m_eWorkStatus = m_kGivenFrame; if (m_bWaitingForInput) SignalInput(); Unlock();
      let t := { s.thread with pointers := a_pPlanes, m_eWorkStatus := .m_kGivenFrame }
      some { s with thread := if t.m_bWaitingForInput then t.SignalInput else t,
                    given := s.given + 1 }
  | _ => none

/-- `WaitForAddFrame` from after the optional wait to its return:
`assert (m_eWorkStatus == m_kFinishedFrame)`, the status and the pointers are reset, and
`m_nWorkRetval` is returned. -/
def DenoiserSys.waitFinish (s : DenoiserSys) : DenoiserSys :=
  if s.thread.m_eWorkStatus != .m_kFinishedFrame then { s with aborted := some .status }
  else
    let t := { s.thread with m_eWorkStatus := .m_kWaitingForFrame,
                             pointers := PlanePointers.null }
    let r : ReturnRecord :=
      { retval := t.m_nWorkRetval, m_eWorkStatus := t.m_eWorkStatus,
        pointers := t.pointers, given := s.given, finished := s.finished }
    { s with thread := t, client := .idle, returns := s.returns ++ [r] }

/-- The call of `DenoiserThreadCbCr::WaitForAddFrame` with
`DenoiserThread::WaitForAddFrame`, up to its wait or its return. -/
def DenoiserSys.waitForAddFrame (s : DenoiserSys) : Option DenoiserSys :=
  match s.client with
  | .idle =>
    -- Lock(); assert on the four stored pointers
    if !s.thread.pointers.valid then some { s with aborted := some .pointers }
    -- assert (m_eWorkStatus != m_kWaitingForFrame);
    else if s.thread.m_eWorkStatus == .m_kWaitingForFrame then
      some { s with aborted := some .status }
    -- if (m_eWorkStatus != m_kFinishedFrame) WaitForOutput();
    else if s.thread.m_eWorkStatus != .m_kFinishedFrame then
      -- assert (!m_bWaitingForOutput);
      if s.thread.m_bWaitingForOutput then some { s with aborted := some .waiting }
      else
        some { s with thread := { s.thread with m_bWaitingForOutput := true },
                      client := .waiting }
    else some s.waitFinish
  | _ => none

/-- The client's next step inside `WaitForAddFrame` or `Shutdown`. -/
def DenoiserSys.clientStep (s : DenoiserSys) : Option DenoiserSys :=
  match s.client with
  | .idle => none
  | .waiting =>
    -- woken by SignalOutput, which has cleared the flag
    if s.thread.m_bWaitingForOutput then none else some s.waitFinish
  | .joining =>
    -- pthread_join returns once the thread function has returned
    if s.worker = .done then some { s with client := .idle, joined := true } else none

/-- `BasicThread::ForceShutdown` up to the `pthread_join` in `Shutdown`. -/
def DenoiserSys.forceShutdown (s : DenoiserSys) : Option DenoiserSys :=
  match s.client with
  | .idle =>
    if s.joined then none
    else some { s with thread := s.thread.stopAndSignal, client := .joining }
  | _ => none

/-- One step of the denoise worker; `none` when the action cannot happen in this state.
After a failed `assert` nothing happens any more. -/
def DenoiserSys.step (s : DenoiserSys) (a : DenoiserAction) : Option DenoiserSys :=
  if s.aborted.isSome then none
  else
    match a with
    | .workerStep => s.workerStep
    | .workerWork nErr => s.workerWork nErr
    | .AddFrame a_pPlanes => s.addFrame a_pPlanes
    | .WaitForAddFrame => s.waitForAddFrame
    | .clientStep => s.clientStep
    | .ForceShutdown => s.forceShutdown

/-- A run of the denoise worker: the actions of the list happen one after the other. -/
def DenoiserSys.run (s : DenoiserSys) : List DenoiserAction → Option DenoiserSys
  | [] => some s
  | a :: rest =>
    match s.step a with
    | none => none
    | some s1 => s1.run rest

/-- The states of the denoise worker that some interleaving reaches after `Initialize`.
-/
def DenoiserSys.Reachable (s : DenoiserSys) : Prop :=
  ∃ acts : List DenoiserAction, DenoiserSys.init.run acts = some s

/-- The client alternates `AddFrame` and `WaitForAddFrame` in the actions of a run;
`expectWait` says that the last call was an `AddFrame`. -/
def Alternates : Bool → List DenoiserAction → Bool
  | _, [] => true
  | expectWait, .AddFrame _ :: rest => !expectWait && Alternates true rest
  | expectWait, .WaitForAddFrame :: rest => expectWait && Alternates false rest
  | expectWait, _ :: rest => Alternates expectWait rest

/-- The change of `m_eWorkStatus` in a step by action `a` is none, or one of the three
transitions of the worker state machine, made by the thread it belongs to. -/
def StatusTransition (a : DenoiserAction) (before after : WorkStatus) : Prop :=
  after = before
    ∨ (before = .m_kWaitingForFrame ∧ after = .m_kGivenFrame ∧ ∃ p, a = .AddFrame p)
    ∨ (before = .m_kGivenFrame ∧ after = .m_kFinishedFrame ∧ a = .workerStep)
    ∨ (before = .m_kFinishedFrame ∧ after = .m_kWaitingForFrame
        ∧ (a = .WaitForAddFrame ∨ a = .clientStep))

/-- Plane pointers as `newdenoise_frame` passes them for a frame with input. -/
def samplePointers : PlanePointers :=
  { m_pInputCb := some 1, m_pInputCr := some 2, m_pOutputCb := some 3,
    m_pOutputCr := some 4 }

/-- Two calls of `newdenoise_frame` with the chroma worker: in the first the worker
finishes before `WaitForAddFrame` is called, in the second the client has to wait. -/
def denoiserTwoFrames : List DenoiserAction :=
  [.workerStep, .AddFrame samplePointers, .workerStep, .workerStep, .workerWork 1,
   .workerStep, .WaitForAddFrame,
   .workerStep, .workerStep, .AddFrame samplePointers, .WaitForAddFrame, .workerStep,
   .workerStep, .workerWork 0, .workerStep, .clientStep]

/-- What a return of `WaitForAddFrame` must have found for the per-frame barrier: every
submission so far has been finished by the worker, the status is back to
`m_kWaitingForFrame` and the four stored pointers are `NULL`. -/
def ReturnRecord.Barrier (r : ReturnRecord) : Prop :=
  r.finished = r.given ∧ r.m_eWorkStatus = .m_kWaitingForFrame
    ∧ r.pointers = PlanePointers.null

/-- The invariant of the denoise worker in every run: while the worker is in `Work` or
about to publish its result the status is `m_kGivenFrame`, and the number of submissions
is the number of finished frames, plus one while the status is `m_kGivenFrame`. -/
def DenoiserSys.BarrierInv (s : DenoiserSys) : Prop :=
  (s.worker = .working ∨ s.worker = .worked → s.thread.m_eWorkStatus = .m_kGivenFrame)
    ∧ (s.thread.m_eWorkStatus = .m_kGivenFrame → s.given = s.finished + 1)
    ∧ (s.thread.m_eWorkStatus ≠ .m_kGivenFrame → s.given = s.finished)

/-- The records of returns after a step: unchanged, or one more record, which satisfies
the barrier. -/
def DenoiserSys.ReturnStep (s s1 : DenoiserSys) : Prop :=
  s1.returns = s.returns ∨ ∃ r, s1.returns = s.returns ++ [r] ∧ r.Barrier

/-- The invariant of the denoise worker in the runs in which the client alternates
`AddFrame` and `WaitForAddFrame`; `expectWait` says that the last call was an
`AddFrame`. No assertion has failed; between `AddFrame` and the return of
`WaitForAddFrame` the status is not `m_kWaitingForFrame` and the stored pointers pass the
assertions, otherwise the status is `m_kWaitingForFrame` and the pointers are `NULL`; a
thread that has been woken finds what it waited for; and the loop flag is cleared only
by a client that is then blocked in `pthread_join` until the worker is done. -/
def DenoiserSys.OrderInv (expectWait : Bool) (s : DenoiserSys) : Prop :=
  s.aborted = none
    ∧ (expectWait = true → s.thread.m_eWorkStatus ≠ .m_kWaitingForFrame
        ∧ s.thread.pointers.valid = true ∧ s.client ≠ .waiting)
    ∧ (expectWait = false →
        (s.client = .waiting ∧ s.thread.m_eWorkStatus ≠ .m_kWaitingForFrame
          ∧ s.thread.pointers.valid = true)
        ∨ (s.client ≠ .waiting ∧ s.thread.m_eWorkStatus = .m_kWaitingForFrame
          ∧ s.thread.pointers = PlanePointers.null))
    ∧ (s.worker = .working ∨ s.worker = .worked ∨ s.worker = .unlocked true →
        s.thread.m_eWorkStatus = .m_kGivenFrame)
    ∧ (s.worker = .waiting → s.thread.m_bWaitingForInput = true
        ∨ s.thread.m_eWorkStatus = .m_kGivenFrame ∨ s.thread.m_bWorkLoop = false)
    ∧ (s.worker ≠ .waiting → s.thread.m_bWaitingForInput = false)
    ∧ (s.client = .waiting → s.thread.m_bWaitingForOutput = true
        ∨ s.thread.m_eWorkStatus = .m_kFinishedFrame)
    ∧ (s.client ≠ .waiting → s.thread.m_bWaitingForOutput = false)
    ∧ (s.thread.m_bWorkLoop = false → s.client = .joining ∨ s.worker = .done)
    ∧ (s.worker = .exiting ∨ s.worker = .unlocked false → s.thread.m_bWorkLoop = false)

/-- Whether the last call of the client in the actions of a run was an `AddFrame`;
`expectWait` is the answer before the run. -/
def expectAfter : Bool → List DenoiserAction → Bool
  | expectWait, [] => expectWait
  | _, .AddFrame _ :: rest => expectAfter true rest
  | _, .WaitForAddFrame :: rest => expectAfter false rest
  | expectWait, _ :: rest => expectAfter expectWait rest

/-! ## Initialisation and shutdown (`newdenoise_init`, `newdenoise_shutdown`)

The globals as these two routines see them: the dimensions as `int`, the staging arrays
by their allocation state, the engines by their state, and the three thread objects,
each with its threads once `Initialize` has been called on it. Products of `int` wrap
to 32 bits. The source tests the result of `new` against `NULL`, but `new` does not
yield `NULL`: an allocation that fails ends the program; whether the allocation of a
staging array fails is given from outside. The allocations of
`ReadWriteThread::Initialize` and the creation of threads are taken to succeed. -/

/-- What a pointer to a staging array (`g_pPixelsY`, `g_pPixelsCbCr`) holds. -/
inductive Storage where
  /-- `NULL`. -/
  | null
  /-- A live array of `n` pixels, the result of `new Pixel_t [n]`. -/
  | allocated (n : Int)
  /-- An array that has been passed to `delete[]`. -/
  | released
  deriving DecidableEq, Repr

/-- The statement `delete[] p`: nothing for `NULL`, the array is released, and releasing
an array twice is undefined (`none`). -/
def Storage.delete : Storage → Option Storage
  | .null => some .null
  | .allocated _ => some .released
  | .released => none

/-- The expression `new Pixel_t [n]`. It does not yield `NULL`: a negative count throws
`std::bad_array_new_length` and an allocation that fails throws `std::bad_alloc`; nothing
catches either, so the program ends there (`none`). `succeeds` says that the allocation
does not fail. -/
def Storage.new (succeeds : Bool) (n : Int) : Option Storage :=
  if n < 0 then none
  else if succeeds then some (.allocated n) else none

/-- The arguments of `MotionSearcher::Init` after the status. -/
structure InitArgs where
  a_nFrames : Int
  a_nWidth : Int
  a_nHeight : Int
  a_nSearchRadiusX : Int
  a_nSearchRadiusY : Int
  a_nZeroTolerance : Int
  a_nTolerance : Int
  a_nMatchCountThrottle : Int
  a_nMatchSizeThrottle : Int
  deriving DecidableEq, Repr

/-- Modelled from the spec: `MotionSearcher::Init`, of the engine header that is not part
of the sources, `init(interlace·frame_count, width, height, radius_x, radius_y,
z_threshold, threshold, count_throttle, size_throttle) → status`, over an engine state
`σ`. -/
structure EngineInit (σ : Type) where
  Init : σ → InitArgs → Status_t × σ

/-- The globals of `newdenoise.cc` that `newdenoise_init` and `newdenoise_shutdown` use.
A thread object on which `Initialize` has not been called has no threads (`none`). -/
structure FacadeState (σY σC : Type) where
  denoiser : DenoiserConfig
  g_oMotionSearcherY : σY
  g_oMotionSearcherCbCr : σC
  g_bMotionSearcherY : Bool
  g_bMotionSearcherCbCr : Bool
  g_nPixelsY : Int
  g_nWidthY : Int
  g_nHeightY : Int
  g_pPixelsY : Storage
  g_nPixelsCbCr : Int
  g_nWidthCbCr : Int
  g_nHeightCbCr : Int
  g_pPixelsCbCr : Storage
  g_oDenoiserThreadCbCr : Option DenoiserSys
  g_oDenoiserThreadRead : Option ReaderSys
  g_oDenoiserThreadWrite : Option WriterSys

/-- The assertions of `ReadWriteThread::Initialize`: `a_pStreamInfo != NULL`,
`a_pFrameInfo != NULL` and `nSizeY > 0`, where `nSizeY = a_nWidthY * a_nHeightY` on
`int`. -/
def readWriteInitializeAsserts (a_pStreamInfo a_pFrameInfo : Option Pointer)
    (a_nWidthY a_nHeightY : Int) : Bool :=
  a_pStreamInfo.isSome && a_pFrameInfo.isSome
    && decide (0 < int32_mul a_nWidthY a_nHeightY)

/-- The factor `nInterlace = (denoiser.interlaced) ? 2 : 1` of `newdenoise_init`. -/
def interlaceFactor (denoiser : DenoiserConfig) : Int :=
  if denoiser.interlaced != 0 then 2 else 1

/-- The arguments `newdenoise_init` passes to `g_oMotionSearcherY.Init`. -/
def lumaInitArgs (denoiser : DenoiserConfig) (a_nFrames a_nWidthY a_nHeightY : Int) :
    InitArgs :=
  { a_nFrames := int32_mul (interlaceFactor denoiser) a_nFrames, a_nWidth := a_nWidthY,
    a_nHeight := a_nHeightY.tdiv (interlaceFactor denoiser),
    a_nSearchRadiusX := denoiser.radiusY, a_nSearchRadiusY := denoiser.radiusY,
    a_nZeroTolerance := denoiser.zThresholdY, a_nTolerance := denoiser.thresholdY,
    a_nMatchCountThrottle := denoiser.matchCountThrottle,
    a_nMatchSizeThrottle := denoiser.matchSizeThrottle }

/-- The two divisions `denoiser.radiusCbCr / denoiser.frame.ss_h` and
`denoiser.radiusCbCr / denoiser.frame.ss_v` on `int` have a value: no divisor is zero,
and neither is `INT_MIN / -1`. -/
def chromaRadiusDefined (denoiser : DenoiserConfig) : Bool :=
  denoiser.frame_ss_h != (0 : Int) && denoiser.frame_ss_v != (0 : Int)
    && !(denoiser.radiusCbCr == (-2147483648 : Int)
      && (denoiser.frame_ss_h == (-1 : Int) || denoiser.frame_ss_v == (-1 : Int)))

/-- The arguments `newdenoise_init` passes to `g_oMotionSearcherCbCr.Init`; the two
divisions by `denoiser.frame.ss_h` and `denoiser.frame.ss_v` are checked before
(`chromaRadiusDefined`). -/
def chromaInitArgs (denoiser : DenoiserConfig)
    (a_nFrames a_nWidthCbCr a_nHeightCbCr : Int) : InitArgs :=
  { a_nFrames := int32_mul (interlaceFactor denoiser) a_nFrames,
    a_nWidth := a_nWidthCbCr,
    a_nHeight := a_nHeightCbCr.tdiv (interlaceFactor denoiser),
    a_nSearchRadiusX := denoiser.radiusCbCr.tdiv denoiser.frame_ss_h,
    a_nSearchRadiusY := denoiser.radiusCbCr.tdiv denoiser.frame_ss_v,
    a_nZeroTolerance := denoiser.zThresholdCbCr, a_nTolerance := denoiser.thresholdCbCr,
    a_nMatchCountThrottle := denoiser.matchCountThrottle,
    a_nMatchSizeThrottle := denoiser.matchSizeThrottle }

/-- The block `if (denoiser.threads & 1) { ... }` of `newdenoise_init`: `Initialize` on
the reader and on the writer. -/
def initReadWrite {σY σC : Type} (g : FacadeState σY σC) (a_nWidthY a_nHeightY : Int)
    (a_pStreamInfo a_pFrameInfo : Option Pointer) : Option (FacadeState σY σC) :=
  if Int.land g.denoiser.threads 1 != 0 then
    if readWriteInitializeAsserts a_pStreamInfo a_pFrameInfo a_nWidthY a_nHeightY then
      some { g with g_oDenoiserThreadRead := some ReaderSys.init,
                    g_oDenoiserThreadWrite := some WriterSys.init }
    else none
  else some g

/-- The block of `newdenoise_init` that sets up intensity,
`if (a_nWidthY != 0 && a_nHeightY != 0) { ... } else g_bMotionSearcherY = false;`.
The first component of the result is the value of a `return` statement taken inside the
block, if any. -/
def initIntensity {σY σC : Type} (IY : EngineInit σY) (newY : Bool)
    (g : FacadeState σY σC) (a_nFrames a_nWidthY a_nHeightY : Int) :
    Option (Option Int × FacadeState σY σC) :=
  if a_nWidthY != 0 && a_nHeightY != 0 then
    let nPixelsY := (int32_mul a_nWidthY a_nHeightY).tdiv (interlaceFactor g.denoiser)
    -- g_pPixelsY = new MotionSearcherY::Pixel_t [g_nPixelsY];
    match Storage.new newY nPixelsY with
    | none => none
    | some pixelsY =>
      let g1 := { g with g_bMotionSearcherY := true, g_nPixelsY := nPixelsY,
                         g_pPixelsY := pixelsY }
      -- if (g_pPixelsY == NULL) return -1;
      if g1.g_pPixelsY = .null then some (some (-1), g1)
      else
        let r := IY.Init g1.g_oMotionSearcherY
          (lumaInitArgs g1.denoiser a_nFrames a_nWidthY a_nHeightY)
        let g2 := { g1 with g_oMotionSearcherY := r.2 }
        if r.1 != g_kNoError then
          -- delete[] g_pPixelsY; return -1;
          match g2.g_pPixelsY.delete with
          | none => none
          | some pY => some (some (-1), { g2 with g_pPixelsY := pY })
        else some (none, g2)
  else some (none, { g with g_bMotionSearcherY := false })

/-- The block of `newdenoise_init` that sets up color,
`if (a_nWidthCbCr != 0 && a_nHeightCbCr != 0) { ... } else g_bMotionSearcherCbCr = false;`.
The first component of the result is the value of a `return` statement taken inside the
block, if any. -/
def initColor {σY σC : Type} (IC : EngineInit σC) (newCbCr : Bool)
    (g : FacadeState σY σC) (a_nFrames a_nWidthCbCr a_nHeightCbCr : Int) :
    Option (Option Int × FacadeState σY σC) :=
  if a_nWidthCbCr != 0 && a_nHeightCbCr != 0 then
    let nPixelsCbCr :=
      (int32_mul a_nWidthCbCr a_nHeightCbCr).tdiv (interlaceFactor g.denoiser)
    -- g_pPixelsCbCr = new MotionSearcherCbCr::Pixel_t [g_nPixelsCbCr];
    match Storage.new newCbCr nPixelsCbCr with
    | none => none
    | some pixelsCbCr =>
      let g1 := { g with g_bMotionSearcherCbCr := true, g_nPixelsCbCr := nPixelsCbCr,
                         g_pPixelsCbCr := pixelsCbCr }
      if g1.g_pPixelsCbCr = .null then
        -- delete[] g_pPixelsY; return -1;
        match g1.g_pPixelsY.delete with
        | none => none
        | some pY => some (some (-1), { g1 with g_pPixelsY := pY })
      else if !chromaRadiusDefined g1.denoiser then none
      else
        let r := IC.Init g1.g_oMotionSearcherCbCr
          (chromaInitArgs g1.denoiser a_nFrames a_nWidthCbCr a_nHeightCbCr)
        let g2 := { g1 with g_oMotionSearcherCbCr := r.2 }
        if r.1 != g_kNoError then
          -- delete[] g_pPixelsCbCr; delete[] g_pPixelsY; return -1;
          match g2.g_pPixelsCbCr.delete with
          | none => none
          | some pC =>
            match g2.g_pPixelsY.delete with
            | none => none
            | some pY =>
              some (some (-1), { g2 with g_pPixelsCbCr := pC, g_pPixelsY := pY })
        else
          -- if (denoiser.threads & 2) g_oDenoiserThreadCbCr.Initialize();
          if Int.land g2.denoiser.threads 2 != 0 then
            some (none, { g2 with g_oDenoiserThreadCbCr := some DenoiserSys.init })
          else some (none, g2)
  else some (none, { g with g_bMotionSearcherCbCr := false })

/-- `newdenoise_init`: the result is the value returned and the globals; `newY` and
`newCbCr` say whether the two allocations succeed. A failed `assert`, an allocation
that throws, a division without a value and a second `delete[]` of an array make the
result `none`. The file descriptors are left out. -/
def newdenoise_init {σY σC : Type} (IY : EngineInit σY) (IC : EngineInit σC)
    (newY newCbCr : Bool) (g : FacadeState σY σC)
    (a_nFrames a_nWidthY a_nHeightY a_nWidthCbCr a_nHeightCbCr : Int)
    (a_pStreamInfo a_pFrameInfo : Option Pointer) : Option (Int × FacadeState σY σC) :=
  let g1 := { g with g_nWidthY := a_nWidthY, g_nHeightY := a_nHeightY,
                     g_nWidthCbCr := a_nWidthCbCr, g_nHeightCbCr := a_nHeightCbCr }
  match initReadWrite g1 a_nWidthY a_nHeightY a_pStreamInfo a_pFrameInfo with
  | none => none
  | some g2 =>
    match initIntensity IY newY g2 a_nFrames a_nWidthY a_nHeightY with
    | none => none
    | some (some ret, g3) => some (ret, g3)
    | some (none, g3) =>
      match initColor IC newCbCr g3 a_nFrames a_nWidthCbCr a_nHeightCbCr with
      | none => none
      | some (some ret, g4) => some (ret, g4)
      -- return 0;
      | some (none, g4) => some (0, g4)

/-- `ForceShutdown` on the denoise worker, from the call to its return: the client takes
the mutex and stops the loop, the worker thread takes the steps `workerSteps`, and
`pthread_join` returns. The result is `none` if the call does not return after these
steps. -/
def DenoiserSys.ForceShutdown (s : DenoiserSys) (workerSteps : List DenoiserAction) :
    Option DenoiserSys :=
  s.run (.ForceShutdown :: workerSteps ++ [.clientStep])

/-- `ForceShutdown` on the reader, from the call to its return. -/
def ReaderSys.ForceShutdown (s : ReaderSys) (workerSteps : List ReaderAction) :
    Option ReaderSys :=
  s.run (.ForceShutdown :: workerSteps ++ [.clientStep])

/-- `ForceShutdown` on the writer, from the call to its return. -/
def WriterSys.ForceShutdown (s : WriterSys) (workerSteps : List WriterAction) :
    Option WriterSys :=
  s.run (.ForceShutdown :: workerSteps ++ [.clientStep])

/-- `newdenoise_shutdown`: the result is the value returned and the globals; the three
lists are the steps the worker threads take while the caller is in the `ForceShutdown`
of their thread object. `ForceShutdown` on an object without threads does not return
(`none`). -/
def newdenoise_shutdown {σY σC : Type} (g : FacadeState σY σC)
    (stepsCbCr : List DenoiserAction) (stepsRead : List ReaderAction)
    (stepsWrite : List WriterAction) : Option (Int × FacadeState σY σC) :=
  -- if (g_bMotionSearcherCbCr && (denoiser.threads & 2))
  --   g_oDenoiserThreadCbCr.ForceShutdown();
  let chroma : Option (FacadeState σY σC) :=
    if g.g_bMotionSearcherCbCr && Int.land g.denoiser.threads 2 != 0 then
      match g.g_oDenoiserThreadCbCr with
      | none => none
      | some d =>
        match d.ForceShutdown stepsCbCr with
        | none => none
        | some d1 => some { g with g_oDenoiserThreadCbCr := some d1 }
    else some g
  match chroma with
  | none => none
  | some g1 =>
    -- if (denoiser.threads & 1) { ...Read.ForceShutdown(); ...Write.ForceShutdown(); }
    if Int.land g1.denoiser.threads 1 != 0 then
      match g1.g_oDenoiserThreadRead, g1.g_oDenoiserThreadWrite with
      | some r, some w =>
        match r.ForceShutdown stepsRead with
        | none => none
        | some r1 =>
          match w.ForceShutdown stepsWrite with
          | none => none
          | some w1 =>
            some (0, { g1 with g_oDenoiserThreadRead := some r1,
                               g_oDenoiserThreadWrite := some w1 })
      | _, _ => none
    else some (0, g1)

/-- A sample engine for `Init`: it reports `status` and keeps the arguments of the `Init`
calls it has received, oldest first. -/
def sampleInit (status : Status_t) : EngineInit (List InitArgs) :=
  { Init := fun s args => (status, s ++ [args]) }

/-- The globals of a fresh process, before `newdenoise_init`: static initialisation, the
thread objects constructed, the configuration `denoiser` as given. -/
def freshState (denoiser : DenoiserConfig) : FacadeState (List InitArgs) (List InitArgs) :=
  { denoiser := denoiser, g_oMotionSearcherY := [], g_oMotionSearcherCbCr := [],
    g_bMotionSearcherY := false, g_bMotionSearcherCbCr := false,
    g_nPixelsY := 0, g_nWidthY := 0, g_nHeightY := 0, g_pPixelsY := .null,
    g_nPixelsCbCr := 0, g_nWidthCbCr := 0, g_nHeightCbCr := 0, g_pPixelsCbCr := .null,
    g_oDenoiserThreadCbCr := none, g_oDenoiserThreadRead := none,
    g_oDenoiserThreadWrite := none }

/-- The globals after a successful `newdenoise_init` of a fresh process with
`denoiser.threads = 2`: a 4x2 luma plane, a 2x1 chroma plane, the chroma worker started,
no reader and no writer. -/
def stateWithChromaWorker : FacadeState (List InitArgs) (List InitArgs) :=
  ((newdenoise_init (sampleInit 0) (sampleInit 0) true true
      (freshState { threads := 2 }) 2 4 2 2 1 (some 1) (some 2)).map (fun r => r.2)).getD
    (freshState { threads := 2 })

/-- The globals after a successful `newdenoise_init` of a fresh process with
`denoiser.threads = 0`: a 4x2 luma plane, a 2x1 chroma plane, no threads. -/
def stateWithoutThreads : FacadeState (List InitArgs) (List InitArgs) :=
  ((newdenoise_init (sampleInit 0) (sampleInit 0) true true
      (freshState { threads := 0 }) 2 4 2 2 1 (some 1) (some 2)).map (fun r => r.2)).getD
    (freshState { threads := 0 })

/-- The globals of the per-frame routines once `newdenoise_init` has left the state `s`:
the flags, the dimensions and the pixel counts are the ones `newdenoise_init` stored, the
engines are in the states `sY` and `sC`; the frame counter and the contents of the two
staging arrays are given. -/
def FacadeState.toGlobals {σY σC τY τC : Type} (s : FacadeState τY τC) (sY : σY) (sC : σC)
    (frame : Int) (pixelsY : Nat → PixelY) (pixelsCbCr : Nat → PixelCbCr) :
    Globals σY σC :=
  { denoiser := s.denoiser
    frame := frame
    g_oMotionSearcherY := sY
    g_oMotionSearcherCbCr := sC
    g_bMotionSearcherY := s.g_bMotionSearcherY
    g_bMotionSearcherCbCr := s.g_bMotionSearcherCbCr
    g_nPixelsY := s.g_nPixelsY.toNat
    g_nWidthY := s.g_nWidthY.toNat
    g_nHeightY := s.g_nHeightY.toNat
    g_pPixelsY := pixelsY
    g_nPixelsCbCr := s.g_nPixelsCbCr.toNat
    g_nWidthCbCr := s.g_nWidthCbCr.toNat
    g_nHeightCbCr := s.g_nHeightCbCr.toNat
    g_pPixelsCbCr := pixelsCbCr }

/-- The state `newdenoise_init` leaves for an interlaced stream (top field first) with a
4x3 luma plane and a 2x3 chroma plane, no threads: the call returns 0. -/
def stateOddHeight : FacadeState (List InitArgs) (List InitArgs) :=
  ((newdenoise_init (sampleInit 0) (sampleInit 0) true true
      (freshState { interlaced := 1, threads := 0 }) 2 4 3 2 3 (some 1) (some 2)).map
    (fun r => r.2)).getD (freshState { interlaced := 1, threads := 0 })

/-- The globals of the first per-frame call after `stateOddHeight`, with the sample
engines (window of one frame, nothing held yet). -/
def sampleGlobalsOddHeight : Globals (SampleState PixelY) (SampleState PixelCbCr) :=
  stateOddHeight.toGlobals { held := [], added := 0 } { held := [], added := 0 } 0
    (fun _ => PixelY.mk 0) (fun _ => PixelCbCr.mk 0 0)

/-- A sample 4x3 luma plane: the bytes 1 to 12, zero beyond. -/
def samplePlaneOddY : Plane :=
  fun i => ([1, 2, 3, 4, 5, 6, 7, 8, 9, 10, 11, 12] : List uint8_t).getD i 0

/-- A sample 2x3 chroma plane: the bytes 21 to 26, zero beyond. -/
def samplePlaneOddC : Plane :=
  fun i => ([21, 22, 23, 24, 25, 26] : List uint8_t).getD i 0

/-! ### The calls of a progressive per-plane routine, read off its record -/

/-- The calls one call of a progressive per-plane routine makes to its engine after the
purge. On the submit path (`src` is the input, as pixels): `GetFrameReadyForOutput`, and
then one `AddFrame` whose staging array holds the input below `n`. On the flush path
(`src` is `none`): one `GetRemainingFrames`, and no `AddFrame`. `emitted` is the frame
the query returned. -/
def ProgressiveCalls {Pixel_t : Type} (n : Nat) (src : Option (Nat → Pixel_t))
    (emitted : Option (ReferenceFrame Pixel_t)) (calls : List (EngineCall Pixel_t)) :
    Prop :=
  match src with
  | none => calls = [EngineCall.GetRemainingFrames emitted]
  | some read =>
    ∃ staged eStatus,
      calls = [EngineCall.GetFrameReadyForOutput emitted, EngineCall.AddFrame staged eStatus]
      ∧ ∀ i, i < n → staged i = read i

/-- What a progressive luma routine has emitted: `o` is the output buffer after the frame
`emitted` has been written to the buffer `o0`. If `emitted` is a frame, the bytes of `o`
below `n` are the values of its pixels and the bytes from `n` on are those of `o0`; if it
is `NULL`, `o` is `o0`. -/
def EmittedY (n : Nat) (emitted : Option (ReferenceFrame PixelY)) (o0 o : Plane) : Prop :=
  (∀ f, emitted = some f →
      (∀ i, i < n → lumaOf f i = some (o i)) ∧ ∀ i, n ≤ i → o i = o0 i)
    ∧ (emitted = none → o = o0)

/-- What a progressive chroma routine has emitted, as `EmittedY`, for the two chroma
buffers. -/
def EmittedCbCr (n : Nat) (emitted : Option (ReferenceFrame PixelCbCr))
    (cb0 cr0 ocb ocr : Plane) : Prop :=
  (∀ f, emitted = some f →
      (∀ i, i < n → cbOf f i = some (ocb i) ∧ crOf f i = some (ocr i))
      ∧ ∀ i, n ≤ i → ocb i = cb0 i ∧ ocr i = cr0 i)
    ∧ (emitted = none → ocb = cb0 ∧ ocr = cr0)

/-! ### A reference frame that holds a staged field -/

/-- The reference frame `f` holds the staged field `staged`: below `n`, reference pixel
`i` of `f` is there and its value is `staged i`. -/
def HoldsField {Pixel_t : Type} (n : Nat) (staged : Nat → Pixel_t)
    (f : ReferenceFrame Pixel_t) : Prop :=
  ∀ i, i < n → (f.GetPixel i).map (fun p => p.GetValue) = some (staged i)

/-- The luma field of mask `m` of the plane `F`, staged by the field-extraction loop
into a zeroed array. -/
def stagedLumaField (F : Plane) (W H m : Nat) : Nat → PixelY :=
  ((fieldLoop (stageFieldY F) W H m (fun _ => PixelY.mk 0)).getD
    (0, fun _ => PixelY.mk 0)).2

/-- The chroma field of mask `m` of the planes `FCb` and `FCr`, staged by the
field-extraction loop into a zeroed array. -/
def stagedChromaField (FCb FCr : Plane) (W H m : Nat) : Nat → PixelCbCr :=
  ((fieldLoop (stageFieldCbCr FCb FCr) W H m (fun _ => PixelCbCr.mk 0 0)).getD
    (0, fun _ => PixelCbCr.mk 0 0)).2

/-! ### `ReadFrame` after `ForceShutdown` -/

/-- The invariant of the reader for runs without `ForceShutdown`: the client is not in
`Shutdown`, a worker that has left its loop has stored a status other than `Y4M_OK`,
and the work loop is off only once the worker has finished. -/
def ReaderSys.QuietInv (s : ReaderSys) : Prop :=
  s.client ≠ .joining
    ∧ (s.worker = .exiting ∨ s.worker = .done → s.thread.m_nWorkRetval ≠ Y4M_OK)
    ∧ (s.thread.m_bWorkLoop = false → s.worker = .done)

/-- A run of the reader: `ForceShutdown` right after `Initialize`, the worker leaves its
loop, `pthread_join` returns, and the client calls `ReadFrame`. -/
def readerShutdownThenRead : List ReaderAction :=
  [.ForceShutdown, .workerStep, .workerStep, .clientStep, .ReadFrame]

/-- A run of the reader: one frame is read and handed out, then `ForceShutdown` while
the worker is at the head of its loop, and the client calls `ReadFrame` again. -/
def readerReadShutdownRead : List ReaderAction :=
  [.workerStep, .workerStep, .workerRead Y4M_OK 7, .workerStep, .ReadFrame,
   .ForceShutdown, .workerStep, .workerStep, .clientStep, .ReadFrame]

/-! ### The return value of an interlaced call, read off its record -/

/-- No `AddFrame` call in the record reported an error. -/
def NoEngineError {Pixel_t : Type} (calls : List (EngineCall Pixel_t)) : Prop :=
  ∀ staged eStatus, EngineCall.AddFrame staged eStatus ∈ calls → eStatus = g_kNoError

/-- The return value of an interlaced per-plane routine as the claim words it, for the
calls the routine has made: 0 if the second query of the call returned a reference
frame, 1 if it returned `NULL`. -/
def SecondFieldDecides {Pixel_t : Type} (ret : Int) (calls : List (EngineCall Pixel_t)) :
    Prop :=
  (returnedFrames calls).length = 2
    ∧ (ret = 0 ↔ ∃ F, (returnedFrames calls)[1]? = some (some F))
    ∧ (ret = 1 ↔ (returnedFrames calls)[1]? = some none)

/-- The sample interlaced globals when each engine already holds one field (the first
four luma bytes and the first two chroma pairs of the sample planes). -/
def sampleGlobalsInterlacedLoaded : Globals (SampleState PixelY) (SampleState PixelCbCr) :=
  { sampleGlobalsInterlaced with
    g_oMotionSearcherY := { held := [fun i => PixelY.mk (samplePlaneY i)], added := 1 }
    g_oMotionSearcherCbCr :=
      { held := [fun i => PixelCbCr.mk (samplePlaneCb i) (samplePlaneCr i)], added := 1 } }

/-! ### The calls of a per-plane routine on the flush path -/

/-- The calls of a per-plane routine on the flush path, after the purge: `count` calls,
each of them a `GetRemainingFrames`; no `AddFrame` and no `GetFrameReadyForOutput` is
among them. -/
def FlushCalls {Pixel_t : Type} (count : Nat) (calls : List (EngineCall Pixel_t)) : Prop :=
  calls.length = count ∧ ∀ c ∈ calls, c.kind = CallKind.GetRemainingFrames

/-! ### The waiter flags and the lists -/

/-- The waiter flags of a pool agree with its lists: while the waiting-for-input flag is
set the free list is empty, and while the waiting-for-output flag is set the valid list
is empty. -/
def ReadWriteThread.FlagsAgree (t : ReadWriteThread) : Prop :=
  (t.m_bWaitingForInput = true → t.m_pFreeFrames = [])
    ∧ (t.m_bWaitingForOutput = true → t.m_pValidFrames = [])

/-- The invariant of the reader behind `FlagsAgree`: only a worker blocked in
`WaitForInput` has the waiting-for-input flag set (so the worker does not put a frame
back into the free list while the flag is set). -/
def ReaderSys.FlagInv (s : ReaderSys) : Prop :=
  s.thread.FlagsAgree ∧ (s.thread.m_bWaitingForInput = true → s.worker = .waiting)

/-- The state the reader is in after the run `readerFourReads 1 2 3 4`: the free list is
empty and the worker is blocked in `WaitForInput`. -/
def readerFullState : ReaderSys :=
  (ReaderSys.init.run (readerFourReads 1 2 3 4)).getD ReaderSys.init

/-- The state of the writer after its worker has entered `Work` with nothing to write:
the worker is blocked in `WaitForOutput`. -/
def writerIdleState : WriterSys :=
  (WriterSys.init.run [.workerStep, .workerStep]).getD WriterSys.init

/-! ### The luma side of the globals -/

/-- Two sets of globals agree on everything the luma routines read: the configuration,
the frame counter, the luma engine state, the luma flag, dimensions and pixel count, and
the luma staging array. The chroma engine state, the chroma staging array and the chroma
dimensions are free. -/
def LumaAgree {σY σC : Type} (g1 g2 : Globals σY σC) : Prop :=
  g1.denoiser = g2.denoiser ∧ g1.frame = g2.frame
    ∧ g1.g_oMotionSearcherY = g2.g_oMotionSearcherY
    ∧ g1.g_bMotionSearcherY = g2.g_bMotionSearcherY
    ∧ g1.g_nPixelsY = g2.g_nPixelsY ∧ g1.g_nWidthY = g2.g_nWidthY
    ∧ g1.g_nHeightY = g2.g_nHeightY ∧ g1.g_pPixelsY = g2.g_pPixelsY

/-- What a luma routine leaves behind on the luma side: its return value, the luma
output buffer, the state of the luma engine and the luma staging array. -/
def LumaResult.lumaSide {σY σC : Type} (r : LumaResult σY σC) :
    Int × Option Plane × σY × (Nat → PixelY) :=
  (r.ret, r.a_pOutputY, r.globals.g_oMotionSearcherY, r.globals.g_pPixelsY)

/-- The sample globals with another chroma side: the chroma engine holds a frame and the
chroma staging array is not zeroed. -/
def sampleGlobalsOtherChroma : Globals (SampleState PixelY) (SampleState PixelCbCr) :=
  { sampleGlobals with
    g_oMotionSearcherCbCr :=
      { held := [fun i => PixelCbCr.mk (samplePlaneCb i) (samplePlaneCr i)], added := 1 }
    g_pPixelsCbCr := fun _ => PixelCbCr.mk 9 9 }

/-- The luma statement of `newdenoise_frame`,
`if (g_bMotionSearcherY) bY = newdenoise_frame_intensity (a_pInputY, a_pOutputY);`,
with `bY = 0` otherwise. -/
def frameLumaPart {σY σC : Type} (E : Engines σY σC) (g : Globals σY σC)
    (a_pInputY a_pOutputY : Option Plane) : Option (LumaResult σY σC) :=
  if g.g_bMotionSearcherY then newdenoise_frame_intensity E g a_pInputY a_pOutputY
  else some { ret := 0, globals := g, a_pOutputY := a_pOutputY }

/-! ### The routines without the chroma worker (`newdenoise_frame0`,
`newdenoise_interlaced_frame0`) -/

/-- The end of `newdenoise_frame0` and of `newdenoise_interlaced_frame0`: the assertion
on the two reference frames and the return value. -/
def frame0Return {σY σC : Type} (g : Globals σY σC)
    (pFrameY : Option (ReferenceFrame PixelY))
    (pFrameCbCr : Option (ReferenceFrame PixelCbCr))
    (out : Option Plane × Option Plane × Option Plane) : Option (FrameResult σY σC) :=
  -- assert (!g_bMotionSearcherY || !g_bMotionSearcherCbCr
  --   || (pFrameY == NULL && pFrameCbCr == NULL)
  --   || (pFrameY != NULL && pFrameCbCr != NULL));
  if !(!g.g_bMotionSearcherY || !g.g_bMotionSearcherCbCr
      || (pFrameY.isNone && pFrameCbCr.isNone)
      || (pFrameY.isSome && pFrameCbCr.isSome)) then none
  else
    some { ret := if (g.g_bMotionSearcherY && pFrameY.isSome)
                    || (g.g_bMotionSearcherCbCr && pFrameCbCr.isSome) then 0 else 1,
           globals := g, a_pOutputY := out.1, a_pOutputCb := out.2.1,
           a_pOutputCr := out.2.2 }

/-- The block `if (g_bMotionSearcherY) { ... }` of `newdenoise_frame0` that stages the
luma input and passes it to `AddFrame`: the result is `eStatus` and the globals. The
block is on the submit path, where `a_pInputY` is not `NULL` when luma is enabled. -/
def stageAddY {σY σC : Type} (E : Engines σY σC) (g : Globals σY σC)
    (a_pInputY : Option Plane) : Option (Status_t × Globals σY σC) :=
  if g.g_bMotionSearcherY then
    match a_pInputY with
    | none => none
    | some inputY =>
      let staged := stageFrameY inputY g.g_nPixelsY g.g_pPixelsY
      let g1 := { g with g_pPixelsY := staged }
      let added := E.Y.AddFrame g1.g_oMotionSearcherY g1.g_pPixelsY
      some (added.1, { g1 with g_oMotionSearcherY := added.2 })
  else some (g_kNoError, g)

/-- The block `if (g_bMotionSearcherCbCr) { ... }` of `newdenoise_frame0` that stages
the chroma input and passes it to `AddFrame`. The block is on the submit path, where
`a_pInputCr` is not `NULL` when chroma is enabled. -/
def stageAddCbCr {σY σC : Type} (E : Engines σY σC) (g : Globals σY σC)
    (a_pInputCb a_pInputCr : Option Plane) : Option (Status_t × Globals σY σC) :=
  if g.g_bMotionSearcherCbCr then
    match a_pInputCr with
    | none => none
    | some inputCr =>
      match stageFrameCbCrFrom a_pInputCb inputCr g.g_nPixelsCbCr g.g_pPixelsCbCr with
      | none => none
      | some staged =>
        let g1 := { g with g_pPixelsCbCr := staged }
        let added := E.CbCr.AddFrame g1.g_oMotionSearcherCbCr g1.g_pPixelsCbCr
        some (added.1, { g1 with g_oMotionSearcherCbCr := added.2 })
  else some (g_kNoError, g)

/-- The purge of `newdenoise_frame0` and `newdenoise_interlaced_frame0`:
`if (frame % denoiser.frames == 0) { g_oMotionSearcherY.Purge();`
`g_oMotionSearcherCbCr.Purge(); }`, whatever plane groups are enabled. -/
def purgeBoth {σY σC : Type} (E : Engines σY σC) (g : Globals σY σC) (purge : Bool) :
    Globals σY σC :=
  if purge then
    { g with g_oMotionSearcherY := E.Y.Purge g.g_oMotionSearcherY,
             g_oMotionSearcherCbCr := E.CbCr.Purge g.g_oMotionSearcherCbCr }
  else g

/-- The two statements `if (g_bMotionSearcherY) pFrameY = ...GetRemainingFrames();` and
`if (g_bMotionSearcherCbCr) pFrameCbCr = ...GetRemainingFrames();` (when `flush`), or
the same with `GetFrameReadyForOutput`: the two frames and the globals. `pFrameY` and
`pFrameCbCr` keep their value `prevY`, `prevCbCr` when the plane group is disabled. -/
def queryBoth {σY σC : Type} (E : Engines σY σC) (g : Globals σY σC) (flush : Bool)
    (prevY : Option (ReferenceFrame PixelY))
    (prevCbCr : Option (ReferenceFrame PixelCbCr)) :
    Option (ReferenceFrame PixelY) × Option (ReferenceFrame PixelCbCr) × Globals σY σC :=
  let rY :=
    if g.g_bMotionSearcherY then
      (if flush then E.Y.GetRemainingFrames g.g_oMotionSearcherY
       else E.Y.GetFrameReadyForOutput g.g_oMotionSearcherY)
    else (prevY, g.g_oMotionSearcherY)
  let rC :=
    if g.g_bMotionSearcherCbCr then
      (if flush then E.CbCr.GetRemainingFrames g.g_oMotionSearcherCbCr
       else E.CbCr.GetFrameReadyForOutput g.g_oMotionSearcherCbCr)
    else (prevCbCr, g.g_oMotionSearcherCbCr)
  (rY.1, rC.1, { g with g_oMotionSearcherY := rY.2, g_oMotionSearcherCbCr := rC.2 })

/-- `newdenoise_frame0`. -/
def newdenoise_frame0 {σY σC : Type} (E : Engines σY σC) (g : Globals σY σC)
    (a_pInputY a_pInputCb a_pInputCr a_pOutputY a_pOutputCb a_pOutputCr : Option Plane) :
    Option (FrameResult σY σC) :=
  match timeToPurge g with
  | none => none
  | some purge =>
    let g1 := purgeBoth E g purge
    if (g1.g_bMotionSearcherY && a_pInputY.isNone)
        || (g1.g_bMotionSearcherCbCr && a_pInputCr.isNone) then
      let q := queryBoth E g1 true none none
      match output_frame q.2.2.g_nPixelsY q.2.2.g_nPixelsCbCr q.1 q.2.1
          a_pOutputY a_pOutputCb a_pOutputCr with
      | none => none
      | some out => frame0Return q.2.2 q.1 q.2.1 out
    else
      let q := queryBoth E g1 false none none
      match output_frame q.2.2.g_nPixelsY q.2.2.g_nPixelsCbCr q.1 q.2.1
          a_pOutputY a_pOutputCb a_pOutputCr with
      | none => none
      | some out =>
        match stageAddY E q.2.2 a_pInputY with
        | none => none
        | some (eStatusY, g3) =>
          -- if (eStatus != g_kNoError) return -1;
          if eStatusY != g_kNoError then
            some { ret := -1, globals := g3, a_pOutputY := out.1,
                   a_pOutputCb := out.2.1, a_pOutputCr := out.2.2 }
          else
            match stageAddCbCr E g3 a_pInputCb a_pInputCr with
            | none => none
            | some (eStatusC, g4) =>
              if eStatusC != g_kNoError then
                some { ret := -1, globals := g4, a_pOutputY := out.1,
                       a_pOutputCb := out.2.1, a_pOutputCr := out.2.2 }
              else frame0Return g4 q.1 q.2.1 out

/-- The block `if (g_bMotionSearcherY) { ... }` of `newdenoise_interlaced_frame0` that
stages the luma field of mask `a_nMask`, checks `i == g_nPixelsY` and passes the field
to `AddFrame`. -/
def stageAddFieldY {σY σC : Type} (E : Engines σY σC) (g : Globals σY σC)
    (a_pInputY : Option Plane) (a_nMask : Nat) : Option (Status_t × Globals σY σC) :=
  if g.g_bMotionSearcherY then
    match a_pInputY with
    | none => none
    | some inputY => addFieldY E g inputY a_nMask
  else some (g_kNoError, g)

/-- The block `if (g_bMotionSearcherCbCr) { ... }` of `newdenoise_interlaced_frame0`
that stages the chroma field of mask `a_nMask`, checks `i == g_nPixelsCbCr` and passes
the field to `AddFrame`. -/
def stageAddFieldCbCr {σY σC : Type} (E : Engines σY σC) (g : Globals σY σC)
    (a_pInputCb a_pInputCr : Option Plane) (a_nMask : Nat) :
    Option (Status_t × Globals σY σC) :=
  if g.g_bMotionSearcherCbCr then
    match a_pInputCr with
    | none => none
    | some inputCr => addFieldCbCrFrom E g a_pInputCb inputCr a_nMask
  else some (g_kNoError, g)

/-- The chroma staging array after the field loop of mask `a_nMask` and its assertion
`i == g_nPixelsCbCr`, started on the staging array `pixels`; `none` if the loop reads
through a `NULL` `a_pInputCb` or the assertion fails. -/
def stagedFieldCbCr (a_pInputCb : Option Plane) (inputCr : Plane)
    (g_nWidthCbCr g_nHeightCbCr g_nPixelsCbCr a_nMask : Nat) (pixels : Nat → PixelCbCr) :
    Option (Nat → PixelCbCr) :=
  match fieldLoop (stageFieldCbCrFrom a_pInputCb inputCr) g_nWidthCbCr g_nHeightCbCr
      a_nMask pixels with
  | none => none
  | some staged => if staged.1 != g_nPixelsCbCr then none else some staged.2

/-- One sub-event of `newdenoise_interlaced_frame0` on the submit path after its
`output_field`: the luma block and the chroma block, each with its
`if (eStatus != g_kNoError) return -1;`. The result is the value returned from inside
the blocks, if any, and the globals. -/
def stageAddFields {σY σC : Type} (E : Engines σY σC) (g : Globals σY σC)
    (a_pInputY a_pInputCb a_pInputCr : Option Plane) (a_nMask : Nat) :
    Option (Option Int × Globals σY σC) :=
  match stageAddFieldY E g a_pInputY a_nMask with
  | none => none
  | some (eStatusY, g1) =>
    if eStatusY != g_kNoError then some (some (-1), g1)
    else
      match stageAddFieldCbCr E g1 a_pInputCb a_pInputCr a_nMask with
      | none => none
      | some (eStatusC, g2) =>
        if eStatusC != g_kNoError then some (some (-1), g2)
        else some (none, g2)

/-- `newdenoise_interlaced_frame0`. -/
def newdenoise_interlaced_frame0 {σY σC : Type} (E : Engines σY σC) (g : Globals σY σC)
    (a_pInputY a_pInputCb a_pInputCr a_pOutputY a_pOutputCb a_pOutputCr : Option Plane) :
    Option (FrameResult σY σC) :=
  match timeToPurge g with
  | none => none
  | some purge =>
    let g1 := purgeBoth E g purge
    let nMask := fieldMask g1
    if (g1.g_bMotionSearcherY && a_pInputY.isNone)
        || (g1.g_bMotionSearcherCbCr && a_pInputCr.isNone) then
      let q1 := queryBoth E g1 true none none
      match output_field q1.2.2.g_nWidthY q1.2.2.g_nHeightY q1.2.2.g_nWidthCbCr
          q1.2.2.g_nHeightCbCr (nMask ^^^ 0) q1.1 q1.2.1
          a_pOutputY a_pOutputCb a_pOutputCr with
      | none => none
      | some out1 =>
        let q2 := queryBoth E q1.2.2 true q1.1 q1.2.1
        match output_field q2.2.2.g_nWidthY q2.2.2.g_nHeightY q2.2.2.g_nWidthCbCr
            q2.2.2.g_nHeightCbCr (nMask ^^^ 1) q2.1 q2.2.1 out1.1 out1.2.1 out1.2.2 with
        | none => none
        | some out2 => frame0Return q2.2.2 q2.1 q2.2.1 out2
    else
      let q1 := queryBoth E g1 false none none
      match output_field q1.2.2.g_nWidthY q1.2.2.g_nHeightY q1.2.2.g_nWidthCbCr
          q1.2.2.g_nHeightCbCr (nMask ^^^ 0) q1.1 q1.2.1
          a_pOutputY a_pOutputCb a_pOutputCr with
      | none => none
      | some out1 =>
        match stageAddFields E q1.2.2 a_pInputY a_pInputCb a_pInputCr (nMask ^^^ 0) with
        | none => none
        | some (some ret, g3) =>
          some { ret := ret, globals := g3, a_pOutputY := out1.1,
                 a_pOutputCb := out1.2.1, a_pOutputCr := out1.2.2 }
        | some (none, g3) =>
          let q2 := queryBoth E g3 false q1.1 q1.2.1
          match output_field q2.2.2.g_nWidthY q2.2.2.g_nHeightY q2.2.2.g_nWidthCbCr
              q2.2.2.g_nHeightCbCr (nMask ^^^ 1) q2.1 q2.2.1
              out1.1 out1.2.1 out1.2.2 with
          | none => none
          | some out2 =>
            match stageAddFields E q2.2.2 a_pInputY a_pInputCb a_pInputCr (nMask ^^^ 1)
            with
            | none => none
            | some (some ret, g5) =>
              some { ret := ret, globals := g5, a_pOutputY := out2.1,
                     a_pOutputCb := out2.2.1, a_pOutputCr := out2.2.2 }
            | some (none, g5) => frame0Return g5 q2.1 q2.2.1 out2

/-! ## Theorems -/

/-! ### Pixel kernels -/

theorem wrap32_of_range (x : Int) (h1 : -2147483648 ≤ x) (h2 : x < 2147483648) :
    wrap32 x = x := by
  unfold wrap32
  omega

theorem int32_of_uint8_range (v : uint8_t) :
    0 ≤ int32_of_uint8 v ∧ int32_of_uint8 v ≤ 255 := by
  unfold int32_of_uint8
  have := v.isLt
  omega

theorem sq_le_of_abs_le (d : Int) (h1 : -255 ≤ d) (h2 : d ≤ 255) :
    0 ≤ d * d ∧ d * d ≤ 65025 := by
  constructor
  · exact mul_self_nonneg d
  · nlinarith

/-- The luma distance computed by the kernel is the exact absolute difference. -/
theorem luma_sad_exact (a b : PixelY) :
    AbsoluteValue (int32_sub (int32_of_uint8 a.m_atnVal0) (int32_of_uint8 b.m_atnVal0))
      = |int32_of_uint8 a.m_atnVal0 - int32_of_uint8 b.m_atnVal0| := by
  have ha := int32_of_uint8_range a.m_atnVal0
  have hb := int32_of_uint8_range b.m_atnVal0
  unfold AbsoluteValue int32_sub int32_neg
  rw [wrap32_of_range _ (by omega) (by omega)]
  split
  · rw [wrap32_of_range _ (by omega) (by omega), abs_of_neg (by assumption)]
  · rw [abs_of_nonneg (by omega)]

/-- The chroma squared distance computed by the kernel is the exact one. -/
theorem chroma_sad_exact (a b : PixelCbCr) :
    int32_add
      (int32_mul (int32_sub (int32_of_uint8 a.m_atnVal0) (int32_of_uint8 b.m_atnVal0))
        (int32_sub (int32_of_uint8 a.m_atnVal0) (int32_of_uint8 b.m_atnVal0)))
      (int32_mul (int32_sub (int32_of_uint8 a.m_atnVal1) (int32_of_uint8 b.m_atnVal1))
        (int32_sub (int32_of_uint8 a.m_atnVal1) (int32_of_uint8 b.m_atnVal1)))
      = (int32_of_uint8 a.m_atnVal0 - int32_of_uint8 b.m_atnVal0) ^ 2
        + (int32_of_uint8 a.m_atnVal1 - int32_of_uint8 b.m_atnVal1) ^ 2 := by
  have ha0 := int32_of_uint8_range a.m_atnVal0
  have hb0 := int32_of_uint8_range b.m_atnVal0
  have ha1 := int32_of_uint8_range a.m_atnVal1
  have hb1 := int32_of_uint8_range b.m_atnVal1
  have hx := sq_le_of_abs_le (int32_of_uint8 a.m_atnVal0 - int32_of_uint8 b.m_atnVal0)
    (by omega) (by omega)
  have hy := sq_le_of_abs_le (int32_of_uint8 a.m_atnVal1 - int32_of_uint8 b.m_atnVal1)
    (by omega) (by omega)
  have e1 := wrap32_of_range (int32_of_uint8 a.m_atnVal0 - int32_of_uint8 b.m_atnVal0)
    (by omega) (by omega)
  have e2 := wrap32_of_range (int32_of_uint8 a.m_atnVal1 - int32_of_uint8 b.m_atnVal1)
    (by omega) (by omega)
  have e3 := wrap32_of_range
    ((int32_of_uint8 a.m_atnVal0 - int32_of_uint8 b.m_atnVal0)
      * (int32_of_uint8 a.m_atnVal0 - int32_of_uint8 b.m_atnVal0)) (by omega) (by omega)
  have e4 := wrap32_of_range
    ((int32_of_uint8 a.m_atnVal1 - int32_of_uint8 b.m_atnVal1)
      * (int32_of_uint8 a.m_atnVal1 - int32_of_uint8 b.m_atnVal1)) (by omega) (by omega)
  have e5 := wrap32_of_range
    ((int32_of_uint8 a.m_atnVal0 - int32_of_uint8 b.m_atnVal0)
        * (int32_of_uint8 a.m_atnVal0 - int32_of_uint8 b.m_atnVal0)
      + (int32_of_uint8 a.m_atnVal1 - int32_of_uint8 b.m_atnVal1)
        * (int32_of_uint8 a.m_atnVal1 - int32_of_uint8 b.m_atnVal1))
    (by omega) (by omega)
  unfold int32_add int32_mul int32_sub
  rw [e1, e2, e3, e4, e5]
  ring

theorem chroma_tolerance_exact (t : uint8_t) :
    PixelCbCr.MakeTolerance t = int32_of_uint8 t * int32_of_uint8 t := by
  have ht := int32_of_uint8_range t
  have hs := sq_le_of_abs_le (int32_of_uint8 t) (by omega) (by omega)
  unfold PixelCbCr.MakeTolerance int32_mul
  rw [wrap32_of_range _ (by omega) (by omega)]

/-- C3 (luma tolerance boundary): for all luma pixels `a`, `b` and every tolerance `t`
(in particular every `int32_t` one), both overloads of `PixelY::IsWithinTolerance` return
true exactly when `|a - b| <= t`. -/
theorem C3_luma_tolerance_boundary (a b : PixelY) (t : Int) :
    (PixelY.IsWithinTolerance a b t = true
        ↔ |(a.m_atnVal0.val : Int) - (b.m_atnVal0.val : Int)| ≤ t)
    ∧ ((PixelY.IsWithinToleranceSAD a b t).1 = true
        ↔ |(a.m_atnVal0.val : Int) - (b.m_atnVal0.val : Int)| ≤ t) := by
  have h := luma_sad_exact a b
  simp only [int32_of_uint8] at h
  constructor
  · simp only [PixelY.IsWithinTolerance, int32_of_uint8, h, decide_eq_true_eq]
  · simp only [PixelY.IsWithinToleranceSAD, int32_of_uint8, h, decide_eq_true_eq]

/-- C4 (chroma tolerance boundary): `PixelY::MakeTolerance (t) = t`,
`PixelCbCr::MakeTolerance (t) = t * t`, and `PixelCbCr::IsWithinTolerance` called with
`PixelCbCr::MakeTolerance (t)` is true exactly when
`(cb1 - cb2)^2 + (cr1 - cr2)^2 <= t^2`. -/
theorem C4_chroma_tolerance_boundary (a b : PixelCbCr) (t : uint8_t) :
    PixelY.MakeTolerance t = (t.val : Int)
    ∧ PixelCbCr.MakeTolerance t = (t.val : Int) * (t.val : Int)
    ∧ (PixelCbCr.IsWithinTolerance a b (PixelCbCr.MakeTolerance t) = true
        ↔ ((a.m_atnVal0.val : Int) - (b.m_atnVal0.val : Int)) ^ 2
            + ((a.m_atnVal1.val : Int) - (b.m_atnVal1.val : Int)) ^ 2
          ≤ (t.val : Int) ^ 2) := by
  have h := chroma_sad_exact a b
  have ht := chroma_tolerance_exact t
  simp only [int32_of_uint8] at h ht
  refine ⟨rfl, ht, ?_⟩
  simp only [PixelCbCr.IsWithinTolerance, int32_of_uint8, h, ht, decide_eq_true_eq, sq]

/-- C5 (tolerance symmetry): both overloads of `IsWithinTolerance`, for luma and for
chroma, give the same result, and the SAD overloads the same SAD, when the two pixels
are exchanged. -/
theorem C5_tolerance_symmetry (a b : PixelY) (c d : PixelCbCr) (t : Int) :
    PixelY.IsWithinTolerance a b t = PixelY.IsWithinTolerance b a t
    ∧ PixelCbCr.IsWithinTolerance c d t = PixelCbCr.IsWithinTolerance d c t
    ∧ PixelY.IsWithinToleranceSAD a b t = PixelY.IsWithinToleranceSAD b a t
    ∧ PixelCbCr.IsWithinToleranceSAD c d t = PixelCbCr.IsWithinToleranceSAD d c t := by
  have hy : AbsoluteValue (int32_sub (int32_of_uint8 a.m_atnVal0)
        (int32_of_uint8 b.m_atnVal0))
      = AbsoluteValue (int32_sub (int32_of_uint8 b.m_atnVal0)
        (int32_of_uint8 a.m_atnVal0)) := by
    rw [luma_sad_exact, luma_sad_exact, abs_sub_comm]
  have hc := (chroma_sad_exact c d).trans
    ((by ring : _ = _).trans (chroma_sad_exact d c).symm)
  refine ⟨?_, ?_, ?_, ?_⟩
  · simp only [PixelY.IsWithinTolerance, hy]
  · simp only [PixelCbCr.IsWithinTolerance, hc]
  · simp only [PixelY.IsWithinToleranceSAD, hy]
  · simp only [PixelCbCr.IsWithinToleranceSAD, hc]

/-! ### The frame pool: invariants of the reader and the writer -/

theorem wellFormed_iff (t : ReadWriteThread) (w : WorkerPC) :
    t.WellFormed w ↔
      (∀ f, (w.held).count f + ((t.m_pCurrentFrame.toList).count f
          + ((t.m_pValidFrames).count f + (t.m_pFreeFrames).count f))
        = (List.range m_kNumFrames).count f) ∧ t.planes.length = m_kNumFrames := by
  unfold ReadWriteThread.WellFormed ReadWriteThread.allFrames
  rw [List.perm_iff_count]
  simp only [List.count_append]

@[simp] theorem held_loopHead : WorkerPC.loopHead.held = [] := rfl
@[simp] theorem held_workStart : WorkerPC.workStart.held = [] := rfl
@[simp] theorem held_waiting : WorkerPC.waiting.held = [] := rfl
@[simp] theorem held_holding (f : Frame) : (WorkerPC.holding f).held = [f] := rfl
@[simp] theorem held_returned (n : Int) : (WorkerPC.returned n).held = [] := rfl
@[simp] theorem held_exiting : WorkerPC.exiting.held = [] := rfl
@[simp] theorem held_done : WorkerPC.done.held = [] := rfl

theorem count_range_le_one (n f : Nat) : (List.range n).count f ≤ 1 :=
  List.nodup_iff_count_le_one.mp (List.nodup_range n) f

theorem lt_of_count_range_pos {n f : Nat} (h : 0 < (List.range n).count f) : f < n :=
  List.mem_range.mp (List.count_pos_iff.mp h)

theorem contentsOf_set_of_not_mem (pl : List Content) (f : Frame) (d : Content)
    (fs : List Frame) (h : f ∉ fs) : contentsOf (pl.set f d) fs = contentsOf pl fs := by
  unfold contentsOf
  apply List.map_congr_left
  intro g hg
  have hne : f ≠ g := fun e => h (e ▸ hg)
  simp [List.getD_eq_getElem?_getD, List.getElem?_set_ne hne]

theorem contentsOf_set_self (pl : List Content) (f : Frame) (d : Content)
    (h : f < pl.length) : contentsOf (pl.set f d) [f] = [d] := by
  simp [contentsOf, List.getD_eq_getElem?_getD, List.getElem?_set_self, h]

theorem contentsOf_append (pl : List Content) (fs gs : List Frame) :
    contentsOf pl (fs ++ gs) = contentsOf pl fs ++ contentsOf pl gs := by
  simp [contentsOf]

theorem stopAndSignal_fields (t : ReadWriteThread) :
    t.stopAndSignal.planes = t.planes
    ∧ t.stopAndSignal.m_pValidFrames = t.m_pValidFrames
    ∧ t.stopAndSignal.m_pCurrentFrame = t.m_pCurrentFrame
    ∧ t.stopAndSignal.m_pFreeFrames = t.m_pFreeFrames := by
  unfold ReadWriteThread.stopAndSignal ReadWriteThread.SignalInput
    ReadWriteThread.SignalOutput
  simp only
  split <;> split <;> simp

theorem reader_workerStep_inv (s s1 : ReaderSys) (h : s.Inv)
    (hs : s.workerStep = some s1) : s1.Inv := by
  rcases s with ⟨⟨wi, wo, wl, rv, pl, vl, cur, fl⟩, w, c, j, ab, fr, ho, st⟩
  simp only [ReaderSys.Inv, wellFormed_iff] at h ⊢
  obtain ⟨⟨hperm, hlen⟩, hfifo, hcur⟩ := h
  cases w <;> cases fl <;> cases wi <;> cases wo <;> cases wl <;>
    simp [ReaderSys.workerStep, ReaderSys.workTakeFree, ReadWriteThread.GetFreeFrame,
      ReadWriteThread.WaitForInput, ReadWriteThread.stopAndSignal,
      ReadWriteThread.SignalInput, ReadWriteThread.SignalOutput] at hs <;>
    (try split at hs) <;>
    (try subst hs) <;>
    refine ⟨⟨fun f => ?_, hlen⟩, hfifo, hcur⟩ <;>
    have hf := hperm f <;>
    simp [List.count_cons] at hf ⊢ <;>
    omega

theorem reader_workerRead_inv (s s1 : ReaderSys) (nErr : Int) (data : Content)
    (h : s.Inv) (hs : s.workerRead nErr data = some s1) : s1.Inv := by
  rcases s with ⟨⟨wi, wo, wl, rv, pl, vl, cur, fl⟩, w, c, j, ab, fr, ho, st⟩
  simp only [ReaderSys.Inv, wellFormed_iff] at h ⊢
  obtain ⟨⟨hperm, hlen⟩, hfifo, hcur⟩ := h
  cases w with
  | holding pFrame =>
    have hp := hperm pFrame
    have h1 := count_range_le_one m_kNumFrames pFrame
    simp only [held_holding, List.count_cons_self, List.count_nil] at hp
    have hlt : pFrame < pl.length := hlen ▸ lt_of_count_range_pos (by omega)
    have hnot : pFrame ∉ vl := List.count_eq_zero.mp (by omega)
    simp only [ReaderSys.workerRead] at hs
    split at hs <;> simp only [Option.some.injEq] at hs <;> subst hs
    · refine ⟨⟨fun f => ?_, ?_⟩, ?_, ?_⟩
      · have hf := hperm f
        cases wo <;>
          simp [ReadWriteThread.AddFrameToValidList, ReadWriteThread.SignalOutput,
            List.count_cons] at hf ⊢ <;> omega
      · cases wo <;>
          simp [ReadWriteThread.AddFrameToValidList, ReadWriteThread.SignalOutput, hlen]
      · have e : ho ++ contentsOf (pl.set pFrame data) (vl ++ [pFrame])
            = fr ++ [data] := by
          rw [contentsOf_append, contentsOf_set_of_not_mem _ _ _ _ hnot,
            contentsOf_set_self _ _ _ hlt, ← List.append_assoc, hfifo]
        cases wo <;>
          simpa [ReadWriteThread.AddFrameToValidList, ReadWriteThread.SignalOutput]
            using e
      · cases wo <;>
          simpa [ReadWriteThread.AddFrameToValidList, ReadWriteThread.SignalOutput]
            using hcur
    · refine ⟨⟨fun f => ?_, ?_⟩, ?_, ?_⟩
      · have hf := hperm f
        simp [ReadWriteThread.AddFrameToFreeList, List.count_cons] at hf ⊢
        omega
      · simp [ReadWriteThread.AddFrameToFreeList, hlen]
      · simp only [ReadWriteThread.AddFrameToFreeList]
        rw [contentsOf_set_of_not_mem _ _ _ _ hnot]
        exact hfifo
      · simpa [ReadWriteThread.AddFrameToFreeList] using hcur
  | _ => simp [ReaderSys.workerRead] at hs

theorem reader_readFrameFinish_inv (s : ReaderSys) (h : s.Inv)
    (hnone : s.thread.m_pCurrentFrame = none) : s.readFrameFinish.Inv := by
  rcases s with ⟨⟨wi, wo, wl, rv, pl, vl, cur, fl⟩, w, c, j, ab, fr, ho, st⟩
  simp only [ReaderSys.Inv, wellFormed_iff] at h ⊢
  obtain ⟨⟨hperm, hlen⟩, hfifo, hcur⟩ := h
  simp only at hnone
  subst hnone
  cases vl <;>
    simp only [ReaderSys.readFrameFinish, ReadWriteThread.MoveValidFrameToCurrent,
      ReadWriteThread.GetFirstValidFrame, ReadWriteThread.dataOf, List.isEmpty_nil,
      List.isEmpty_cons, Bool.not_true, Bool.not_false, if_true, if_false,
      Bool.false_eq_true] <;>
    refine ⟨⟨fun f => ?_, hlen⟩, ?_, ?_⟩ <;>
    first
    | (have hf := hperm f
       simp [List.count_cons] at hf ⊢
       omega)
    | (simp [contentsOf] at hfifo ⊢
       exact hfifo)
    | simp


theorem reader_readFrame_inv (s s1 : ReaderSys) (h : s.Inv)
    (hs : s.readFrame = some s1) : s1.Inv := by
  -- the state after recycling the current frame
  have hrec : ∀ t, (if s.thread.m_pCurrentFrame.isSome then
        match s.thread.MoveCurrentFrameToFreeList with
        | none => none
        | some t => some (if t.m_bWaitingForInput then t.SignalInput else t)
      else some s.thread) = some t →
      ({ s with thread := t } : ReaderSys).Inv ∧ t.m_pCurrentFrame = none := by
    intro t ht
    rcases s with ⟨⟨wi, wo, wl, rv, pl, vl, cur, fl⟩, w, c, j, ab, fr, ho, st⟩
    simp only [ReaderSys.Inv, wellFormed_iff] at h ⊢
    obtain ⟨⟨hperm, hlen⟩, hfifo, hcur⟩ := h
    cases cur <;> cases wi <;>
      simp [ReadWriteThread.MoveCurrentFrameToFreeList,
        ReadWriteThread.AddFrameToFreeList, ReadWriteThread.SignalInput] at ht <;>
      subst ht <;>
      refine ⟨⟨⟨fun f => ?_, hlen⟩, hfifo, fun _ => rfl⟩, rfl⟩ <;>
      have hf := hperm f <;>
      simp [List.count_cons] at hf ⊢ <;>
      omega
  unfold ReaderSys.readFrame at hs
  cases hc : s.client <;> simp only [hc] at hs <;> try contradiction
  generalize hr : (if s.thread.m_pCurrentFrame.isSome then
        match s.thread.MoveCurrentFrameToFreeList with
        | none => none
        | some t => some (if t.m_bWaitingForInput then t.SignalInput else t)
      else some s.thread) = r at hs hrec
  simp only [hc] at hrec
  cases r with
  | none =>
    simp only [Option.some.injEq] at hs
    subst hs
    exact ⟨h.1, h.2.1, fun hw => by simp at hw⟩
  | some t =>
    obtain ⟨hinv, hnone⟩ := hrec t rfl
    simp only at hs
    split at hs
    · unfold ReadWriteThread.WaitForOutput at hs
      split at hs
      · rename_i h1
        split at h1
        · simp only [Option.some.injEq] at hs
          subst hs
          exact ⟨h.1, h.2.1, fun hw => by simp at hw⟩
        · exact absurd h1 (by simp)
      · rename_i t1 h1
        split at h1
        · exact absurd h1 (by simp)
        · simp only [Option.some.injEq] at h1 hs
          subst h1 hs
          obtain ⟨hwf, hfifo, -⟩ := hinv
          exact ⟨hwf, hfifo, fun _ => hnone⟩
    · simp only [Option.some.injEq] at hs
      subst hs
      exact reader_readFrameFinish_inv _ hinv hnone

theorem reader_clientStep_inv (s s1 : ReaderSys) (h : s.Inv)
    (hs : s.clientStep = some s1) : s1.Inv := by
  unfold ReaderSys.clientStep at hs
  cases hc : s.client <;> simp only [hc] at hs
  · exact absurd hs (by simp)
  · split at hs
    · exact absurd hs (by simp)
    · simp only [Option.some.injEq] at hs
      subst hs
      exact reader_readFrameFinish_inv _ h (h.2.2 hc)
  · split at hs <;> simp only [Option.some.injEq] at hs <;> subst hs <;>
      exact ⟨h.1, h.2.1, by simp [hc]⟩
  · split at hs
    · simp only [Option.some.injEq] at hs
      subst hs
      exact ⟨h.1, h.2.1, by simp⟩
    · exact absurd hs (by simp)

theorem reader_forceShutdown_inv (s s1 : ReaderSys) (h : s.Inv)
    (hs : s.forceShutdown = some s1) : s1.Inv := by
  unfold ReaderSys.forceShutdown at hs
  cases hc : s.client <;> simp only [hc] at hs <;> try contradiction
  split at hs
  · exact absurd hs (by simp)
  · simp only [Option.some.injEq] at hs
    subst hs
    obtain ⟨e1, e2, e3, e4⟩ := stopAndSignal_fields s.thread
    simp only [ReaderSys.Inv, ReadWriteThread.WellFormed, ReadWriteThread.allFrames,
      e1, e2, e3, e4] at h ⊢
    exact ⟨h.1, h.2.1, by simp⟩

theorem reader_step_inv (s s1 : ReaderSys) (a : ReaderAction) (h : s.Inv)
    (hs : s.step a = some s1) : s1.Inv := by
  unfold ReaderSys.step at hs
  split at hs
  · exact absurd hs (by simp)
  · cases a with
    | workerStep => exact reader_workerStep_inv s s1 h hs
    | workerRead nErr data => exact reader_workerRead_inv s s1 nErr data h hs
    | ReadFrame => exact reader_readFrame_inv s s1 h hs
    | clientStep => exact reader_clientStep_inv s s1 h hs
    | ForceShutdown => exact reader_forceShutdown_inv s s1 h hs

theorem reader_run_inv (acts : List ReaderAction) (s s1 : ReaderSys) (h : s.Inv)
    (hs : s.run acts = some s1) : s1.Inv := by
  induction acts generalizing s with
  | nil =>
    simp only [ReaderSys.run, Option.some.injEq] at hs
    exact hs ▸ h
  | cons a rest ih =>
    simp only [ReaderSys.run] at hs
    split at hs
    · exact absurd hs (by simp)
    · rename_i s2 h2
      exact ih s2 (reader_step_inv s s2 a h h2) hs

theorem reader_init_inv : ReaderSys.init.Inv := by
  refine ⟨⟨?_, rfl⟩, rfl, fun _ => rfl⟩
  decide

theorem reader_inv_of_reachable (s : ReaderSys) (h : s.Reachable) : s.Inv := by
  obtain ⟨acts, hacts⟩ := h
  exact reader_run_inv acts _ s reader_init_inv hacts


theorem writer_workerStep_inv (s s1 : WriterSys) (h : s.Inv)
    (hs : s.workerStep = some s1) : s1.Inv := by
  rcases s with ⟨⟨wi, wo, wl, rv, pl, vl, cur, fl⟩, w, c, j, ab, pu, wr, st⟩
  simp only [WriterSys.Inv, wellFormed_iff] at h ⊢
  obtain ⟨⟨hperm, hlen⟩, hfifo⟩ := h
  cases w <;> cases vl <;> cases wi <;> cases wo <;> cases wl <;>
    simp [WriterSys.workerStep, WriterSys.workTakeValid,
      ReadWriteThread.GetFirstValidFrame,
      ReadWriteThread.WaitForOutput, ReadWriteThread.stopAndSignal,
      ReadWriteThread.SignalInput, ReadWriteThread.SignalOutput] at hs <;>
    (try split at hs) <;>
    (try subst hs) <;>
    refine ⟨⟨fun f => ?_, hlen⟩, ?_⟩ <;>
    first
    | (have hf := hperm f
       simp [List.count_cons] at hf ⊢
       omega)
    | (simp [contentsOf] at hfifo ⊢
       exact hfifo)

theorem writer_workerWrite_inv (s s1 : WriterSys) (nErr : Int)
    (h : s.Inv) (hs : s.workerWrite nErr = some s1) : s1.Inv := by
  rcases s with ⟨⟨wi, wo, wl, rv, pl, vl, cur, fl⟩, w, c, j, ab, pu, wr, st⟩
  simp only [WriterSys.Inv, wellFormed_iff] at h ⊢
  obtain ⟨⟨hperm, hlen⟩, hfifo⟩ := h
  cases w with
  | holding pFrame =>
    simp only [WriterSys.workerWrite, Option.some.injEq] at hs
    subst hs
    refine ⟨⟨fun f => ?_, ?_⟩, ?_⟩
    · have hf := hperm f
      cases wi <;>
        simp [ReadWriteThread.AddFrameToFreeList, ReadWriteThread.SignalInput,
          List.count_cons] at hf ⊢ <;> omega
    · cases wi <;>
        simp [ReadWriteThread.AddFrameToFreeList, ReadWriteThread.SignalInput, hlen]
    · cases wi <;>
        simpa [ReadWriteThread.AddFrameToFreeList, ReadWriteThread.SignalInput,
          ReadWriteThread.dataOf, contentsOf] using hfifo
  | _ => simp [WriterSys.workerWrite] at hs

theorem writer_getSpaceFinish_inv (s : WriterSys) (h : s.Inv) :
    s.getSpaceFinish.Inv := by
  rcases s with ⟨⟨wi, wo, wl, rv, pl, vl, cur, fl⟩, w, c, j, ab, pu, wr, st⟩
  simp only [WriterSys.Inv, wellFormed_iff] at h ⊢
  obtain ⟨⟨hperm, hlen⟩, hfifo⟩ := h
  cases fl <;> cases cur <;>
    simp only [WriterSys.getSpaceFinish, ReadWriteThread.MoveFreeFrameToCurrent,
      ReadWriteThread.GetFreeFrame, List.isEmpty_nil,
      List.isEmpty_cons, Bool.not_true, Bool.not_false, if_true, if_false,
      Bool.false_eq_true] <;>
    refine ⟨⟨fun f => ?_, hlen⟩, hfifo⟩ <;>
    have hf := hperm f <;>
    simp [List.count_cons] at hf ⊢ <;>
    omega

theorem writer_getSpaceToWriteFrame_inv (s s1 : WriterSys) (h : s.Inv)
    (hs : s.getSpaceToWriteFrame = some s1) : s1.Inv := by
  unfold WriterSys.getSpaceToWriteFrame at hs
  cases hc : s.client <;> simp only [hc] at hs <;> try contradiction
  split at hs
  · simp only [Option.some.injEq] at hs
    subst hs
    exact h
  · split at hs
    · unfold ReadWriteThread.WaitForInput at hs
      split at hs
      · simp only [Option.some.injEq] at hs
        subst hs
        exact h
      · rename_i t1 h1
        split at h1
        · exact absurd h1 (by simp)
        · simp only [Option.some.injEq] at h1 hs
          subst h1 hs
          exact h
    · simp only [Option.some.injEq] at hs
      subst hs
      exact writer_getSpaceFinish_inv _ h

theorem writer_writeFrame_inv (s s1 : WriterSys) (data : Content) (h : s.Inv)
    (hs : s.writeFrame data = some s1) : s1.Inv := by
  rcases s with ⟨⟨wi, wo, wl, rv, pl, vl, cur, fl⟩, w, c, j, ab, pu, wr, st⟩
  simp only [WriterSys.Inv, wellFormed_iff] at h ⊢
  obtain ⟨⟨hperm, hlen⟩, hfifo⟩ := h
  cases c <;> simp only [WriterSys.writeFrame] at hs <;> try contradiction
  cases cur with
  | none =>
    simp only [Option.some.injEq] at hs
    subst hs
    exact ⟨⟨hperm, hlen⟩, hfifo⟩
  | some pFrame =>
    have hp := hperm pFrame
    have h1 := count_range_le_one m_kNumFrames pFrame
    simp only [Option.toList_some, List.count_cons_self, List.count_nil] at hp
    have hlt : pFrame < pl.length := hlen ▸ lt_of_count_range_pos (by omega)
    have hnot : pFrame ∉ w.held ++ vl :=
      List.count_eq_zero.mp (by rw [List.count_append]; omega)
    have e : wr ++ contentsOf (pl.set pFrame data) (w.held ++ (vl ++ [pFrame]))
        = pu ++ [data] := by
      rw [← List.append_assoc, contentsOf_append, contentsOf_set_of_not_mem _ _ _ _ hnot,
        contentsOf_set_self _ _ _ hlt, ← List.append_assoc, hfifo]
    cases wo <;>
      simp [ReadWriteThread.MoveCurrentFrameToValidList,
        ReadWriteThread.AddFrameToValidList, ReadWriteThread.SignalOutput] at hs <;>
      subst hs <;>
      refine ⟨⟨fun f => ?_, by simpa using hlen⟩, e⟩ <;>
      have hf := hperm f <;>
      simp [List.count_cons] at hf ⊢ <;>
      omega

theorem writer_clientStep_inv (s s1 : WriterSys) (h : s.Inv)
    (hs : s.clientStep = some s1) : s1.Inv := by
  unfold WriterSys.clientStep at hs
  cases hc : s.client <;> simp only [hc] at hs
  · exact absurd hs (by simp)
  · split at hs
    · exact absurd hs (by simp)
    · simp only [Option.some.injEq] at hs
      subst hs
      exact writer_getSpaceFinish_inv _ h
  · split at hs <;> simp only [Option.some.injEq] at hs <;> subst hs <;> exact h
  · split at hs
    · simp only [Option.some.injEq] at hs
      subst hs
      exact h
    · exact absurd hs (by simp)

theorem writer_forceShutdown_inv (s s1 : WriterSys) (h : s.Inv)
    (hs : s.forceShutdown = some s1) : s1.Inv := by
  unfold WriterSys.forceShutdown at hs
  cases hc : s.client <;> simp only [hc] at hs <;> try contradiction
  split at hs
  · exact absurd hs (by simp)
  · simp only [Option.some.injEq] at hs
    subst hs
    obtain ⟨e1, e2, e3, e4⟩ := stopAndSignal_fields s.thread
    simp only [WriterSys.Inv, ReadWriteThread.WellFormed, ReadWriteThread.allFrames,
      e1, e2, e3, e4] at h ⊢
    exact h

theorem writer_step_inv (s s1 : WriterSys) (a : WriterAction) (h : s.Inv)
    (hs : s.step a = some s1) : s1.Inv := by
  unfold WriterSys.step at hs
  split at hs
  · exact absurd hs (by simp)
  · cases a with
    | workerStep => exact writer_workerStep_inv s s1 h hs
    | workerWrite nErr => exact writer_workerWrite_inv s s1 nErr h hs
    | GetSpaceToWriteFrame => exact writer_getSpaceToWriteFrame_inv s s1 h hs
    | WriteFrame data => exact writer_writeFrame_inv s s1 data h hs
    | clientStep => exact writer_clientStep_inv s s1 h hs
    | ForceShutdown => exact writer_forceShutdown_inv s s1 h hs

theorem writer_run_inv (acts : List WriterAction) (s s1 : WriterSys) (h : s.Inv)
    (hs : s.run acts = some s1) : s1.Inv := by
  induction acts generalizing s with
  | nil =>
    simp only [WriterSys.run, Option.some.injEq] at hs
    exact hs ▸ h
  | cons a rest ih =>
    simp only [WriterSys.run] at hs
    split at hs
    · exact absurd hs (by simp)
    · rename_i s2 h2
      exact ih s2 (writer_step_inv s s2 a h h2) hs

theorem writer_init_inv : WriterSys.init.Inv := by
  refine ⟨⟨?_, rfl⟩, rfl⟩
  decide

theorem writer_inv_of_reachable (s : WriterSys) (h : s.Reachable) : s.Inv := by
  obtain ⟨acts, hacts⟩ := h
  exact writer_run_inv acts _ s writer_init_inv hacts


/-- C1, as amended (pool conservation): in every state of the reader and of the writer
reachable after `Initialize`, the free list, the valid list, the current frame and the
frame the worker holds in its local `pFrame` between the two locked sections of `Work`
together count `m_kNumFrames = 4` buffers. -/
theorem C1_pool_conservation_amended :
    (∀ s : ReaderSys, s.Reachable →
        s.thread.poolCount + s.worker.held.length = m_kNumFrames)
    ∧ (∀ s : WriterSys, s.Reachable →
        s.thread.poolCount + s.worker.held.length = m_kNumFrames) := by
  have key : ∀ (t : ReadWriteThread) (w : WorkerPC), t.WellFormed w →
      t.poolCount + w.held.length = m_kNumFrames := by
    intro t w h
    have hl := h.1.length_eq
    simp only [ReadWriteThread.allFrames, List.length_append, List.length_range] at hl
    unfold ReadWriteThread.poolCount
    cases hc : t.m_pCurrentFrame <;> simp [hc] at hl ⊢ <;> omega
  exact ⟨fun s hs => key _ _ (reader_inv_of_reachable s hs).1,
    fun s hs => key _ _ (writer_inv_of_reachable s hs).1⟩

/-- C1, witness: the amended conservation law at the reader state reached when the
worker has taken a free frame, and at the writer state reached when the worker has taken
a published frame. -/
theorem C1_pool_conservation_amended_witness :
    readerHoldingState.thread.poolCount + readerHoldingState.worker.held.length
        = m_kNumFrames
    ∧ writerHoldingState.thread.poolCount + writerHoldingState.worker.held.length
        = m_kNumFrames :=
  ⟨C1_pool_conservation_amended.1 readerHoldingState
      ⟨[.workerStep, .workerStep], rfl⟩,
    C1_pool_conservation_amended.2 writerHoldingState
      ⟨[.GetSpaceToWriteFrame, .WriteFrame 5, .workerStep, .workerStep], rfl⟩⟩

/-- C1, counterexample to the claim as stated: after `Initialize`, once the reader's
worker has run the first locked section of `Work` (it has taken frame 3 off the free list
and released the mutex to call `y4m_read_frame`), the free list holds 3 frames, the valid
list none and there is no current frame: the pool counts 3 buffers, not 4. -/
theorem C1_pool_conservation_counterexample :
    (ReaderSys.init.run [ReaderAction.workerStep, ReaderAction.workerStep]).map
        (fun s => (s.worker, s.thread.m_pFreeFrames, s.thread.m_pValidFrames,
          s.thread.m_pCurrentFrame, s.thread.poolCount))
      = some (WorkerPC.holding 3, [2, 1, 0], [], none, 3) := by
  rfl

/-- C2 (FIFO preservation): in every reachable state of the reader, the frames handed
out by the `ReadFrame` calls that returned `Y4M_OK` are, in order, the first of the
frames read successfully by `Work`; the frames read and not yet handed out are the ones
in the valid list, oldest at its head. -/
theorem C2_fifo_preservation (s : ReaderSys) (h : s.Reachable) :
    s.handedOut <+: s.framesRead
    ∧ s.framesRead
        = s.handedOut ++ contentsOf s.thread.planes s.thread.m_pValidFrames := by
  have hinv := (reader_inv_of_reachable s h).2.1
  exact ⟨⟨_, hinv⟩, hinv.symm⟩

/-- C2, witness: a run in which two frames (data 7, then 9) are read and both handed
out, a third one (data 11) being read but not yet asked for. -/
theorem C2_fifo_preservation_witness :
    readerFifoState.framesRead = [7, 9, 11]
    ∧ readerFifoState.handedOut = [7, 9]
    ∧ readerFifoState.handedOut <+: readerFifoState.framesRead
    ∧ readerFifoState.framesRead = readerFifoState.handedOut
        ++ contentsOf readerFifoState.thread.planes
            readerFifoState.thread.m_pValidFrames :=
  ⟨rfl, rfl, C2_fifo_preservation readerFifoState ⟨readerFifoRun, rfl⟩⟩


/-! ### The frame pool: the list operations and the pointer operations agree -/

theorem chain_setNext_of_not_mem (next : Frame → Option Frame) (g : Frame)
    (v : Option Frame) (l : List Frame) (hg : g ∉ l) (head : Option Frame) :
    Chain (setNext next g v) head l ↔ Chain next head l := by
  induction l generalizing head with
  | nil => simp [Chain]
  | cons a l ih =>
    have ha : a ≠ g := fun e => hg (e ▸ List.mem_cons_self _ _)
    have hl : g ∉ l := fun h => hg (List.mem_cons_of_mem _ h)
    simp only [Chain, setNext, if_neg ha]
    exact and_congr_right (fun _ => ih hl _)

theorem chain_last_next (next : Frame → Option Frame) (l : List Frame) (tl : Frame)
    (head : Option Frame) (h : Chain next head l) (hl : l.getLast? = some tl) :
    next tl = none := by
  induction l generalizing head with
  | nil => simp at hl
  | cons a l ih =>
    cases l with
    | nil =>
      simp only [List.getLast?_singleton, Option.some.injEq] at hl
      subst hl
      exact h.2
    | cons b r =>
      rw [List.getLast?_cons_cons] at hl
      exact ih _ h.2 hl

theorem chain_snoc (next : Frame → Option Frame) (l : List Frame) (tl f : Frame)
    (head : Option Frame) (h : Chain next head l) (hl : l.getLast? = some tl)
    (hnd : l.Nodup) (hf : f ∉ l) :
    Chain (setNext (setNext next f none) tl (some f)) head (l ++ [f]) := by
  induction l generalizing head with
  | nil => simp at hl
  | cons a l ih =>
    have haf : a ≠ f := fun e => hf (e ▸ List.mem_cons_self _ _)
    have hfl : f ∉ l := fun h => hf (List.mem_cons_of_mem _ h)
    cases l with
    | nil =>
      simp only [List.getLast?_singleton, Option.some.injEq] at hl
      subst hl
      have hfa : f ≠ a := fun e => haf e.symm
      simp only [List.nil_append, List.cons_append, Chain, setNext, if_true, if_neg hfa,
        and_self, and_true]
      exact h.1
    | cons b r =>
      rw [List.getLast?_cons_cons] at hl
      have hmem : tl ∈ b :: r := List.mem_of_getLast?_eq_some hl
      have hat : a ≠ tl := fun e => (List.nodup_cons.mp hnd).1 (e ▸ hmem)
      have := ih (next a) h.2 hl (List.nodup_cons.mp hnd).2 hfl
      simp only [List.cons_append, Chain] at this ⊢
      refine ⟨h.1, ?_⟩
      simp only [setNext, if_neg hat, if_neg haf]
      simpa [setNext] using this

theorem refines_GetFirstValidFrame (p : FramePointers) (t : ReadWriteThread)
    (h : Represents p t) :
    match t.GetFirstValidFrame with
    | none => p.GetFirstValidFrame = none
    | some (f, t1) => ∃ p1, p.GetFirstValidFrame = some (f, p1) ∧ Represents p1 t1 := by
  obtain ⟨hv, htl, hcur, hfree⟩ := h
  cases hl : t.m_pValidFrames with
  | nil =>
    rw [hl] at hv
    simp only [ReadWriteThread.GetFirstValidFrame, hl, FramePointers.GetFirstValidFrame]
    simp only [Chain] at hv
    simp [hv]
  | cons f rest =>
    rw [hl] at hv htl
    simp only [ReadWriteThread.GetFirstValidFrame, hl, FramePointers.GetFirstValidFrame,
      hv.1]
    refine ⟨_, rfl, hv.2, ?_, hcur, hfree⟩
    cases rest with
    | nil =>
      have : p.next f = none := hv.2
      simp [this]
    | cons b r =>
      have : p.next f = some b := hv.2.1
      simp only [this, Option.isNone_some, Bool.false_eq_true, if_false, htl,
        List.getLast?_cons_cons]

theorem refines_GetFreeFrame (p : FramePointers) (t : ReadWriteThread)
    (h : Represents p t) :
    match t.GetFreeFrame with
    | none => p.GetFreeFrame = none
    | some (f, t1) => ∃ p1, p.GetFreeFrame = some (f, p1) ∧ Represents p1 t1 := by
  obtain ⟨hv, htl, hcur, hfree⟩ := h
  cases hl : t.m_pFreeFrames with
  | nil =>
    rw [hl] at hfree
    simp only [ReadWriteThread.GetFreeFrame, hl, FramePointers.GetFreeFrame]
    simp only [Chain] at hfree
    simp [hfree]
  | cons f rest =>
    rw [hl] at hfree
    simp only [ReadWriteThread.GetFreeFrame, hl, FramePointers.GetFreeFrame, hfree.1]
    exact ⟨_, rfl, hv, htl, hcur, hfree.2⟩

theorem refines_AddFrameToFreeList (p : FramePointers) (t : ReadWriteThread)
    (a_pFrame : Frame) (h : Represents p t)
    (hf : a_pFrame ∉ t.m_pValidFrames ++ t.m_pFreeFrames) :
    Represents (p.AddFrameToFreeList a_pFrame) (t.AddFrameToFreeList a_pFrame) := by
  obtain ⟨hv, htl, hcur, hfree⟩ := h
  have hfv : a_pFrame ∉ t.m_pValidFrames := fun h => hf (List.mem_append_left _ h)
  have hff : a_pFrame ∉ t.m_pFreeFrames := fun h => hf (List.mem_append_right _ h)
  refine ⟨?_, htl, hcur, ?_⟩
  · exact (chain_setNext_of_not_mem _ _ _ _ hfv _).mpr hv
  · simp only [FramePointers.AddFrameToFreeList, ReadWriteThread.AddFrameToFreeList, Chain,
      setNext, if_true, true_and]
    exact (chain_setNext_of_not_mem _ _ _ _ hff _).mpr hfree

theorem refines_AddFrameToValidList (p : FramePointers) (t : ReadWriteThread)
    (a_pFrame : Frame) (h : Represents p t)
    (hs : (t.m_pValidFrames ++ t.m_pFreeFrames).Nodup)
    (hf : a_pFrame ∉ t.m_pValidFrames ++ t.m_pFreeFrames) :
    ∃ p1, p.AddFrameToValidList a_pFrame = some p1
      ∧ Represents p1 (t.AddFrameToValidList a_pFrame) := by
  obtain ⟨hv, htl, hcur, hfree⟩ := h
  have hfv : a_pFrame ∉ t.m_pValidFrames := fun h => hf (List.mem_append_left _ h)
  have hff : a_pFrame ∉ t.m_pFreeFrames := fun h => hf (List.mem_append_right _ h)
  cases hl : t.m_pValidFrames with
  | nil =>
    rw [hl] at hv
    simp only [Chain] at hv
    have e : p.AddFrameToValidList a_pFrame
        = some { p with next := setNext p.next a_pFrame none,
                        m_pValidFramesHead := some a_pFrame,
                        m_pValidFramesTail := some a_pFrame } := by
      simp only [FramePointers.AddFrameToValidList, hv]
    refine ⟨_, e, ?_, ?_, hcur, ?_⟩
    · simp [ReadWriteThread.AddFrameToValidList, hl, Chain, setNext]
    · simp [ReadWriteThread.AddFrameToValidList, hl]
    · exact (chain_setNext_of_not_mem _ _ _ _ hff _).mpr hfree
  | cons a rest =>
    rw [hl] at hv htl hfv hs
    obtain ⟨tl, htl2⟩ : ∃ tl, (a :: rest).getLast? = some tl :=
      ⟨(a :: rest).getLast (by simp), List.getLast?_eq_getLast _ _⟩
    have hmem : tl ∈ a :: rest := List.mem_of_getLast?_eq_some htl2
    have hne : tl ≠ a_pFrame := fun e => hfv (e ▸ hmem)
    have hnext : p.next tl = none := chain_last_next _ _ _ _ hv htl2
    have htfree : tl ∉ t.m_pFreeFrames := fun hm =>
      (List.nodup_append.mp hs).2.2 hmem hm
    have e : p.AddFrameToValidList a_pFrame
        = some { p with
            next := setNext (setNext p.next a_pFrame none) tl (some a_pFrame),
            m_pValidFramesTail := some a_pFrame } := by
      simp only [FramePointers.AddFrameToValidList, hv.1, htl, htl2, setNext,
        if_neg hne, hnext, Option.isSome_none, Bool.false_eq_true, if_false, if_true]
    refine ⟨_, e, ?_, ?_, hcur, ?_⟩
    · simp only [ReadWriteThread.AddFrameToValidList, hl]
      exact chain_snoc _ _ _ _ _ hv htl2 (List.nodup_append.mp hs).1 hfv
    · simp only [ReadWriteThread.AddFrameToValidList, hl]
      exact (List.getLast?_concat (a :: rest)).symm
    · exact (chain_setNext_of_not_mem _ _ _ _ htfree _).mpr
        ((chain_setNext_of_not_mem _ _ _ _ hff _).mpr hfree)


theorem refines_MoveValidFrameToCurrent (p : FramePointers) (t : ReadWriteThread)
    (h : Represents p t) :
    match t.MoveValidFrameToCurrent with
    | none => p.MoveValidFrameToCurrent = none
    | some t1 => ∃ p1, p.MoveValidFrameToCurrent = some p1 ∧ Represents p1 t1 := by
  have hg := refines_GetFirstValidFrame p t h
  obtain ⟨hv, htl, hcur, hfree⟩ := h
  unfold ReadWriteThread.MoveValidFrameToCurrent FramePointers.MoveValidFrameToCurrent
  cases hc : t.m_pCurrentFrame with
  | some c => simp [hcur, hc]
  | none =>
    cases hl : t.m_pValidFrames with
    | nil =>
      have : p.m_pValidFramesHead = none := by
        rw [hl] at hv
        simpa [Chain] using hv
      simp [ReadWriteThread.GetFirstValidFrame, hl, this]
    | cons f rest =>
      simp only [ReadWriteThread.GetFirstValidFrame, hl] at hg ⊢
      obtain ⟨p1, hp1, hr⟩ := hg
      have hh : p.m_pValidFramesHead = some f := by
        rw [hl] at hv
        exact hv.1
      simp only [hh, hcur, hc, hp1, Option.isNone_some, Option.isSome_none, Bool.or_self,
        Bool.false_eq_true, if_false]
      exact ⟨_, rfl, hr.1, hr.2.1, rfl, hr.2.2.2⟩

theorem refines_MoveFreeFrameToCurrent (p : FramePointers) (t : ReadWriteThread)
    (h : Represents p t) :
    match t.MoveFreeFrameToCurrent with
    | none => p.MoveFreeFrameToCurrent = none
    | some t1 => ∃ p1, p.MoveFreeFrameToCurrent = some p1 ∧ Represents p1 t1 := by
  have hg := refines_GetFreeFrame p t h
  obtain ⟨hv, htl, hcur, hfree⟩ := h
  unfold ReadWriteThread.MoveFreeFrameToCurrent FramePointers.MoveFreeFrameToCurrent
  cases hc : t.m_pCurrentFrame with
  | some c => simp [hcur, hc]
  | none =>
    cases hl : t.m_pFreeFrames with
    | nil =>
      have : p.m_pFreeFramesHead = none := by
        rw [hl] at hfree
        simpa [Chain] using hfree
      simp [ReadWriteThread.GetFreeFrame, hl, this]
    | cons f rest =>
      simp only [ReadWriteThread.GetFreeFrame, hl] at hg ⊢
      obtain ⟨p1, hp1, hr⟩ := hg
      have hh : p.m_pFreeFramesHead = some f := by
        rw [hl] at hfree
        exact hfree.1
      simp only [hh, hcur, hc, hp1, Option.isNone_some, Option.isSome_none, Bool.or_self,
        Bool.false_eq_true, if_false]
      exact ⟨_, rfl, hr.1, hr.2.1, rfl, hr.2.2.2⟩

theorem separate_current (t : ReadWriteThread) (hs : t.Separate) (c : Frame)
    (hc : t.m_pCurrentFrame = some c) :
    c ∉ t.m_pValidFrames ++ t.m_pFreeFrames
      ∧ (t.m_pValidFrames ++ t.m_pFreeFrames).Nodup := by
  unfold ReadWriteThread.Separate at hs
  rw [hc] at hs
  simpa using hs

theorem refines_MoveCurrentFrameToValidList (p : FramePointers) (t : ReadWriteThread)
    (h : Represents p t) (hs : t.Separate) :
    match t.MoveCurrentFrameToValidList with
    | none => p.MoveCurrentFrameToValidList = none
    | some t1 => ∃ p1, p.MoveCurrentFrameToValidList = some p1 ∧ Represents p1 t1 := by
  unfold ReadWriteThread.MoveCurrentFrameToValidList
    FramePointers.MoveCurrentFrameToValidList
  cases hc : t.m_pCurrentFrame with
  | none => simp [h.2.2.1, hc]
  | some c =>
    obtain ⟨hnot, hnd⟩ := separate_current t hs c hc
    obtain ⟨p1, hp1, hr⟩ := refines_AddFrameToValidList p t c h hnd hnot
    simp only [h.2.2.1, hc, hp1]
    exact ⟨_, rfl, hr.1, hr.2.1, rfl, hr.2.2.2⟩

theorem refines_MoveCurrentFrameToFreeList (p : FramePointers) (t : ReadWriteThread)
    (h : Represents p t) (hs : t.Separate) :
    match t.MoveCurrentFrameToFreeList with
    | none => p.MoveCurrentFrameToFreeList = none
    | some t1 => ∃ p1, p.MoveCurrentFrameToFreeList = some p1 ∧ Represents p1 t1 := by
  unfold ReadWriteThread.MoveCurrentFrameToFreeList
    FramePointers.MoveCurrentFrameToFreeList
  cases hc : t.m_pCurrentFrame with
  | none => simp [h.2.2.1, hc]
  | some c =>
    obtain ⟨hnot, -⟩ := separate_current t hs c hc
    have hr := refines_AddFrameToFreeList p t c h hnot
    simp only [h.2.2.1, hc]
    exact ⟨_, rfl, hr.1, hr.2.1, rfl, hr.2.2.2⟩


theorem represents_allocateFrames (n : Nat) :
    Represents (FramePointers.constructed.allocateFrames n)
        (ReadWriteThread.constructed.allocateFrames n)
      ∧ ∀ f, f ∈ (ReadWriteThread.constructed.allocateFrames n).m_pFreeFrames → f < n := by
  induction n with
  | zero =>
    exact ⟨⟨rfl, rfl, rfl, rfl⟩, fun f hf => by
      simp [ReadWriteThread.allocateFrames, ReadWriteThread.constructed] at hf⟩
  | succ k ih =>
    obtain ⟨⟨hv, htl, hcur, hfree⟩, hlt⟩ := ih
    have hk : k ∉ (ReadWriteThread.constructed.allocateFrames k).m_pFreeFrames :=
      fun h => Nat.lt_irrefl k (hlt k h)
    have hvalid : ∀ m, (ReadWriteThread.constructed.allocateFrames m).m_pValidFrames = [] := by
      intro m
      induction m with
      | zero => rfl
      | succ j ihj => simpa [ReadWriteThread.allocateFrames] using ihj
    refine ⟨⟨?_, htl, hcur, ?_⟩, ?_⟩
    · simp only [FramePointers.allocateFrames, ReadWriteThread.allocateFrames]
      rw [hvalid k] at hv ⊢
      exact hv
    · simp only [FramePointers.allocateFrames, ReadWriteThread.allocateFrames, Chain,
        setNext, if_true, true_and]
      exact (chain_setNext_of_not_mem _ _ _ _ hk _).mpr hfree
    · intro f hf
      simp only [ReadWriteThread.allocateFrames, List.mem_cons] at hf
      rcases hf with rfl | hf
      · exact Nat.lt_succ_self _
      · exact Nat.lt_succ_of_lt (hlt f hf)


/-- A well-formed pool is separate, and a frame the worker holds is in none of its
lists: the preconditions of the refinement theorems hold in every reachable state. -/
theorem separate_of_wellFormed (t : ReadWriteThread) (w : WorkerPC)
    (h : t.WellFormed w) :
    t.Separate ∧ ∀ f, f ∈ w.held →
      f ∉ t.m_pCurrentFrame.toList ++ (t.m_pValidFrames ++ t.m_pFreeFrames) := by
  have hnd : (t.allFrames w).Nodup := (List.Perm.nodup_iff h.1).mpr (List.nodup_range _)
  unfold ReadWriteThread.allFrames at hnd
  rw [List.nodup_append] at hnd
  exact ⟨hnd.2.1, fun f hf hm => hnd.2.2 hf hm⟩

/-! ### Loops: what a loop leaves behind -/

theorem forLoop_obs {α β : Type} (body : Nat → α → Option α) (obs : α → Nat → β)
    (v : Nat → Option β) (n : Nat) (st : α)
    (hbody : ∀ i, i < n → ∀ s, ∃ s1 b, body i s = some s1 ∧ v i = some b
      ∧ ∀ j, obs s1 j = if j = i then b else obs s j) :
    ∃ st1, forLoop body n st = some st1
      ∧ ∀ j, (j < n → v j = some (obs st1 j)) ∧ (n ≤ j → obs st1 j = obs st j) := by
  induction n with
  | zero => exact ⟨st, rfl, fun j => ⟨fun h => absurd h (Nat.not_lt_zero _), fun _ => rfl⟩⟩
  | succ k ih =>
    obtain ⟨s1, h1, hs1⟩ := ih (fun i hi => hbody i (Nat.lt_succ_of_lt hi))
    obtain ⟨s2, b, h2, hv, hs2⟩ := hbody k (Nat.lt_succ_self k) s1
    refine ⟨s2, by simp [forLoop, h1, h2], fun j => ⟨fun hj => ?_, fun hj => ?_⟩⟩
    · rw [hs2 j]
      split
      · rename_i e
        rw [e]
        exact hv
      · exact (hs1 j).1 (by omega)
    · rw [hs2 j, if_neg (by omega)]
      exact (hs1 j).2 (by omega)

theorem row_col_unique (W r c y d : Nat) (hc : c < W) (hd : d < W) :
    r * W + c = y * W + d ↔ r = y ∧ c = d := by
  constructor
  · intro h
    have hr : r = y := by
      rcases Nat.lt_trichotomy r y with h1 | h1 | h1
      · have := Nat.mul_le_mul_right W (Nat.succ_le_of_lt h1)
        rw [Nat.succ_mul] at this
        omega
      · exact h1
      · have := Nat.mul_le_mul_right W (Nat.succ_le_of_lt h1)
        rw [Nat.succ_mul] at this
        omega
    subst hr
    exact ⟨rfl, by omega⟩
  · rintro ⟨rfl, rfl⟩
    rfl

theorem fieldRow_obs {α β : Type} (body : Nat → Nat → α → Option α) (obs : α → Nat → β)
    (v : Nat → Option β) (N W y : Nat) (hbody : StoresAt body obs v N)
    (i : Nat) (s : α) (hi : i + W ≤ N) :
    ∃ s1, fieldRow body W y (i, s) = some (i + W, s1)
      ∧ ∀ r c, c < W →
          (r = y → v (i + c) = some (obs s1 (r * W + c)))
          ∧ (r ≠ y → obs s1 (r * W + c) = obs s (r * W + c)) := by
  have key : ∀ n, n ≤ W → ∃ s1,
      forLoop (fun x (st : Nat × α) =>
        match body (y * W + x) st.1 st.2 with
        | none => none
        | some a => some (st.1 + 1, a)) n (i, s) = some (i + n, s1)
      ∧ ∀ j, (∀ c, c < n → j = y * W + c → v (i + c) = some (obs s1 j))
          ∧ ((∀ c, c < n → j ≠ y * W + c) → obs s1 j = obs s j) := by
    intro n
    induction n with
    | zero =>
      intro _
      exact ⟨s, rfl, fun j => ⟨fun c hc => absurd hc (Nat.not_lt_zero _), fun _ => rfl⟩⟩
    | succ k ih =>
      intro hk
      obtain ⟨s1, h1, hs1⟩ := ih (by omega)
      obtain ⟨s2, b, h2, hv, hs2⟩ := hbody (i + k) (by omega) (y * W + k) s1
      refine ⟨s2, by simp [forLoop, h1, h2, Nat.add_assoc], fun j => ⟨fun c hc hj => ?_,
        fun hj => ?_⟩⟩
      · rw [hs2 j]
        by_cases e : c = k
        · subst e
          rw [if_pos hj]
          exact hv
        · rw [if_neg (by omega)]
          exact (hs1 j).1 c (by omega) hj
      · rw [hs2 j, if_neg (hj k (Nat.lt_succ_self k))]
        exact (hs1 j).2 (fun c hc => hj c (by omega))
  obtain ⟨s1, h1, hs1⟩ := key W (Nat.le_refl W)
  refine ⟨s1, h1, fun r c hc => ⟨fun hr => ?_, fun hr => ?_⟩⟩
  · subst hr
    exact (hs1 _).1 c hc rfl
  · refine (hs1 _).2 (fun d hd h => hr ?_)
    exact ((row_col_unique W r c y d hc hd).mp h).1

theorem fieldRows_obs {α β : Type} (body : Nat → Nat → α → Option α) (obs : α → Nat → β)
    (v : Nat → Option β) (N W H : Nat) (hbody : StoresAt body obs v N) :
    ∀ (fuel y i : Nat) (s : α), H ≤ y + 2 * fuel → i + ((H + 1 - y) / 2) * W ≤ N →
    ∃ s1, fieldRows body W H fuel y (i, s) = some (i + ((H + 1 - y) / 2) * W, s1)
      ∧ ∀ r c, c < W →
          (y ≤ r ∧ r < H ∧ (r - y) % 2 = 0 →
            v (i + ((r - y) / 2) * W + c) = some (obs s1 (r * W + c)))
          ∧ (¬ (y ≤ r ∧ r < H ∧ (r - y) % 2 = 0) →
            obs s1 (r * W + c) = obs s (r * W + c)) := by
  intro fuel
  induction fuel with
  | zero =>
    intro y i s hf _
    have h0 : (H + 1 - y) / 2 = 0 := by omega
    refine ⟨s, by simp [fieldRows, h0]; omega, fun r c _ => ⟨fun h => by omega, fun _ => rfl⟩⟩
  | succ k ih =>
    intro y i s hf hN
    by_cases hy : y < H
    · have hq : (H + 1 - y) / 2 = (H + 1 - (y + 2)) / 2 + 1 := by omega
      have hqW : ((H + 1 - y) / 2) * W = W + ((H + 1 - (y + 2)) / 2) * W := by
        rw [hq, Nat.add_mul, Nat.one_mul, Nat.add_comm]
      obtain ⟨s1, h1, hs1⟩ := fieldRow_obs body obs v N W y hbody i s (by omega)
      obtain ⟨s2, h2, hs2⟩ := ih (y + 2) (i + W) s1 (by omega) (by omega)
      refine ⟨s2, ?_, fun r c hc => ⟨fun hr => ?_, fun hr => ?_⟩⟩
      · simp only [fieldRows, if_pos hy, h1, h2, hqW, Nat.add_assoc]
      · by_cases e : r = y
        · subst e
          have := (hs2 r c hc).2 (by omega)
          rw [this]
          simpa using (hs1 r c hc).1 rfl
        · have hr2 : y + 2 ≤ r ∧ r < H ∧ (r - (y + 2)) % 2 = 0 := by omega
          have := (hs2 r c hc).1 hr2
          have hq2 : (r - y) / 2 = (r - (y + 2)) / 2 + 1 := by omega
          have e2 : i + ((r - y) / 2) * W + c = i + W + ((r - (y + 2)) / 2) * W + c := by
            rw [hq2, Nat.add_mul, Nat.one_mul]
            omega
          rw [e2]
          exact this
      · have hne : r ≠ y := by omega
        rw [(hs2 r c hc).2 (by omega)]
        exact (hs1 r c hc).2 hne
    · have h0 : (H + 1 - y) / 2 = 0 := by omega
      refine ⟨s, by simp [fieldRows, hy, h0], fun r c _ => ⟨fun h => by omega, fun _ => rfl⟩⟩

theorem fieldLoop_obs {α β : Type} (body : Nat → Nat → α → Option α) (obs : α → Nat → β)
    (v : Nat → Option β) (W H m : Nat) (hm : m < 2)
    (hbody : StoresAt body obs v (fieldPixels W H m)) (s : α) :
    ∃ s1, fieldLoop body W H m s = some (fieldPixels W H m, s1)
      ∧ ∀ y x, x < W →
          (y < H ∧ y % 2 = m → v (((y - m) / 2) * W + x) = some (obs s1 (y * W + x)))
          ∧ (¬ (y < H ∧ y % 2 = m) → obs s1 (y * W + x) = obs s (y * W + x)) := by
  obtain ⟨s1, h1, hs1⟩ := fieldRows_obs body obs v (fieldPixels W H m) W H hbody H m 0 s
    (by omega) (by simp [fieldPixels])
  refine ⟨s1, by simpa [fieldLoop, fieldPixels] using h1, fun y x hx => ⟨fun hy => ?_,
    fun hy => ?_⟩⟩
  · simpa using (hs1 y x hx).1 (by omega)
  · exact (hs1 y x hx).2 (by omega)


/-! ### Output re-materialisation: `output_frame` and `output_field` -/

theorem storeY_storesAt (f : ReferenceFrame PixelY) (N : Nat)
    (h : ∀ i, i < N → (f.GetPixel i).isSome = true) :
    StoresAt (storeY f) (fun (o : Plane) j => o j) (lumaOf f) N := by
  intro i hi index s
  obtain ⟨p, hp⟩ := Option.isSome_iff_exists.mp (h i hi)
  exact ⟨s.write index p.GetValue.m_atnVal0, p.GetValue.m_atnVal0,
    by simp [storeY, hp], by simp [lumaOf, hp], fun j => rfl⟩

theorem storeCbCr_storesAt_cb (f : ReferenceFrame PixelCbCr) (N : Nat)
    (h : ∀ i, i < N → (f.GetPixel i).isSome = true) :
    StoresAt (storeCbCr f) (fun (o : Plane × Plane) j => o.1 j) (cbOf f) N := by
  intro i hi index s
  obtain ⟨p, hp⟩ := Option.isSome_iff_exists.mp (h i hi)
  exact ⟨(s.1.write index p.GetValue.m_atnVal0, s.2.write index p.GetValue.m_atnVal1),
    p.GetValue.m_atnVal0, by simp only [storeCbCr, hp], by simp [cbOf, hp], fun j => rfl⟩

theorem storeCbCr_storesAt_cr (f : ReferenceFrame PixelCbCr) (N : Nat)
    (h : ∀ i, i < N → (f.GetPixel i).isSome = true) :
    StoresAt (storeCbCr f) (fun (o : Plane × Plane) j => o.2 j) (crOf f) N := by
  intro i hi index s
  obtain ⟨p, hp⟩ := Option.isSome_iff_exists.mp (h i hi)
  exact ⟨(s.1.write index p.GetValue.m_atnVal0, s.2.write index p.GetValue.m_atnVal1),
    p.GetValue.m_atnVal1, by simp only [storeCbCr, hp], by simp [crOf, hp], fun j => rfl⟩

theorem output_frame_luma_spec (nY : Nat) (a_pFrameY : Option (ReferenceFrame PixelY))
    (a_pOutputY : Option Plane)
    (hOutY : a_pFrameY.isSome = true → a_pOutputY.isSome = true)
    (hPixY : FrameComplete nY a_pFrameY) :
    ∃ outY, output_frame_luma nY a_pFrameY a_pOutputY = some outY
      ∧ (∀ f, a_pFrameY = some f →
          ∃ o, outY = some o ∧ ∀ i, i < nY → lumaOf f i = some (o i))
      ∧ (a_pFrameY = none → outY = a_pOutputY) := by
  cases a_pFrameY with
  | none => exact ⟨a_pOutputY, rfl, fun f hf => by simp at hf, fun _ => rfl⟩
  | some f =>
    obtain ⟨o0, ho0⟩ := Option.isSome_iff_exists.mp (hOutY rfl)
    subst ho0
    obtain ⟨o1, h1, hs1⟩ := forLoop_obs (fun i out => storeY f i i out)
      (fun (o : Plane) j => o j) (lumaOf f) nY o0
      (fun i hi s => storeY_storesAt f nY (hPixY f rfl) i hi i s)
    refine ⟨some o1, by simp only [output_frame_luma, h1], fun g hg => ?_,
      fun h => by simp at h⟩
    simp only [Option.some.injEq] at hg
    subst hg
    exact ⟨o1, rfl, fun i hi => (hs1 i).1 hi⟩

theorem output_frame_chroma_spec (nC : Nat)
    (a_pFrameCbCr : Option (ReferenceFrame PixelCbCr))
    (a_pOutputCb a_pOutputCr : Option Plane)
    (hOutC : a_pFrameCbCr.isSome = true →
      a_pOutputCb.isSome = true ∧ a_pOutputCr.isSome = true)
    (hPixC : FrameComplete nC a_pFrameCbCr) :
    ∃ outCb outCr,
      output_frame_chroma nC a_pFrameCbCr a_pOutputCb a_pOutputCr = some (outCb, outCr)
      ∧ (∀ f, a_pFrameCbCr = some f →
          ∃ ocb ocr, outCb = some ocb ∧ outCr = some ocr
            ∧ ∀ i, i < nC → cbOf f i = some (ocb i) ∧ crOf f i = some (ocr i))
      ∧ (a_pFrameCbCr = none → outCb = a_pOutputCb ∧ outCr = a_pOutputCr) := by
  cases a_pFrameCbCr with
  | none =>
    exact ⟨a_pOutputCb, a_pOutputCr, rfl, fun f hf => by simp at hf, fun _ => ⟨rfl, rfl⟩⟩
  | some f =>
    obtain ⟨hcb, hcr⟩ := hOutC rfl
    obtain ⟨cb0, hcb0⟩ := Option.isSome_iff_exists.mp hcb
    obtain ⟨cr0, hcr0⟩ := Option.isSome_iff_exists.mp hcr
    subst hcb0 hcr0
    have hP := hPixC f rfl
    obtain ⟨o1, h1, hs1⟩ := forLoop_obs (fun i out => storeCbCr f i i out)
      (fun (o : Plane × Plane) j => o.1 j) (cbOf f) nC (cb0, cr0)
      (fun i hi s => storeCbCr_storesAt_cb f nC hP i hi i s)
    obtain ⟨o2, h2, hs2⟩ := forLoop_obs (fun i out => storeCbCr f i i out)
      (fun (o : Plane × Plane) j => o.2 j) (crOf f) nC (cb0, cr0)
      (fun i hi s => storeCbCr_storesAt_cr f nC hP i hi i s)
    have e : o2 = o1 := Option.some.inj (h2.symm.trans h1)
    subst e
    refine ⟨some o2.1, some o2.2, by simp only [output_frame_chroma, h1], fun g hg => ?_,
      fun h => by simp at h⟩
    simp only [Option.some.injEq] at hg
    subst hg
    exact ⟨o2.1, o2.2, rfl, rfl, fun i hi => ⟨(hs1 i).1 hi, (hs2 i).1 hi⟩⟩

theorem output_frame_spec (nY nC : Nat) (a_pFrameY : Option (ReferenceFrame PixelY))
    (a_pFrameCbCr : Option (ReferenceFrame PixelCbCr))
    (a_pOutputY a_pOutputCb a_pOutputCr : Option Plane)
    (hOutY : a_pFrameY.isSome = true → a_pOutputY.isSome = true)
    (hOutC : a_pFrameCbCr.isSome = true →
      a_pOutputCb.isSome = true ∧ a_pOutputCr.isSome = true)
    (hPixY : FrameComplete nY a_pFrameY) (hPixC : FrameComplete nC a_pFrameCbCr) :
    ∃ outY outCb outCr,
      output_frame nY nC a_pFrameY a_pFrameCbCr a_pOutputY a_pOutputCb a_pOutputCr
        = some (outY, outCb, outCr)
      ∧ (∀ f, a_pFrameY = some f →
          ∃ o, outY = some o ∧ ∀ i, i < nY → lumaOf f i = some (o i))
      ∧ (∀ f, a_pFrameCbCr = some f →
          ∃ ocb ocr, outCb = some ocb ∧ outCr = some ocr
            ∧ ∀ i, i < nC → cbOf f i = some (ocb i) ∧ crOf f i = some (ocr i))
      ∧ (a_pFrameY = none → outY = a_pOutputY)
      ∧ (a_pFrameCbCr = none → outCb = a_pOutputCb ∧ outCr = a_pOutputCr) := by
  obtain ⟨outY, hY, hYs, hYn⟩ := output_frame_luma_spec nY a_pFrameY a_pOutputY hOutY hPixY
  obtain ⟨outCb, outCr, hC, hCs, hCn⟩ :=
    output_frame_chroma_spec nC a_pFrameCbCr a_pOutputCb a_pOutputCr hOutC hPixC
  exact ⟨outY, outCb, outCr, by simp only [output_frame, hY, hC], hYs, hCs, hYn, hCn⟩

theorem output_field_luma_spec (W H m : Nat) (hm : m < 2)
    (a_pFrameY : Option (ReferenceFrame PixelY)) (a_pOutputY : Option Plane)
    (hOutY : a_pFrameY.isSome = true → a_pOutputY.isSome = true)
    (hPixY : FrameComplete (fieldPixels W H m) a_pFrameY) :
    ∃ outY, output_field_luma W H m a_pFrameY a_pOutputY = some outY
      ∧ (∀ f o0, a_pFrameY = some f → a_pOutputY = some o0 →
          ∃ o, outY = some o ∧ ∀ y x, y < H → x < W →
            (y % 2 = m → lumaOf f (((y - m) / 2) * W + x) = some (o (y * W + x)))
            ∧ (y % 2 ≠ m → o (y * W + x) = o0 (y * W + x)))
      ∧ (a_pFrameY = none → outY = a_pOutputY) := by
  cases a_pFrameY with
  | none => exact ⟨a_pOutputY, rfl, fun f o0 hf => by simp at hf, fun _ => rfl⟩
  | some f =>
    obtain ⟨o0, ho0⟩ := Option.isSome_iff_exists.mp (hOutY rfl)
    subst ho0
    obtain ⟨o1, h1, hs1⟩ := fieldLoop_obs (storeY f) (fun (o : Plane) j => o j) (lumaOf f)
      W H m hm (storeY_storesAt f _ (hPixY f rfl)) o0
    refine ⟨some o1, by simp only [output_field_luma, h1], fun g o hg ho => ?_,
      fun h => by simp at h⟩
    simp only [Option.some.injEq] at hg ho
    subst hg ho
    exact ⟨o1, rfl, fun y x hy hx => ⟨fun hp => (hs1 y x hx).1 ⟨hy, hp⟩,
      fun hp => (hs1 y x hx).2 (fun h => hp h.2)⟩⟩

theorem output_field_chroma_spec (W H m : Nat) (hm : m < 2)
    (a_pFrameCbCr : Option (ReferenceFrame PixelCbCr))
    (a_pOutputCb a_pOutputCr : Option Plane)
    (hOutC : a_pFrameCbCr.isSome = true →
      a_pOutputCb.isSome = true ∧ a_pOutputCr.isSome = true)
    (hPixC : FrameComplete (fieldPixels W H m) a_pFrameCbCr) :
    ∃ outCb outCr,
      output_field_chroma W H m a_pFrameCbCr a_pOutputCb a_pOutputCr
        = some (outCb, outCr)
      ∧ (∀ f cb0 cr0, a_pFrameCbCr = some f → a_pOutputCb = some cb0 →
          a_pOutputCr = some cr0 →
          ∃ ocb ocr, outCb = some ocb ∧ outCr = some ocr ∧ ∀ y x, y < H → x < W →
            (y % 2 = m → cbOf f (((y - m) / 2) * W + x) = some (ocb (y * W + x))
              ∧ crOf f (((y - m) / 2) * W + x) = some (ocr (y * W + x)))
            ∧ (y % 2 ≠ m → ocb (y * W + x) = cb0 (y * W + x)
              ∧ ocr (y * W + x) = cr0 (y * W + x)))
      ∧ (a_pFrameCbCr = none → outCb = a_pOutputCb ∧ outCr = a_pOutputCr) := by
  cases a_pFrameCbCr with
  | none =>
    exact ⟨a_pOutputCb, a_pOutputCr, rfl, fun f _ _ hf => by simp at hf,
      fun _ => ⟨rfl, rfl⟩⟩
  | some f =>
    obtain ⟨hcb, hcr⟩ := hOutC rfl
    obtain ⟨cb0, hcb0⟩ := Option.isSome_iff_exists.mp hcb
    obtain ⟨cr0, hcr0⟩ := Option.isSome_iff_exists.mp hcr
    subst hcb0 hcr0
    have hP := hPixC f rfl
    obtain ⟨o1, h1, hs1⟩ := fieldLoop_obs (storeCbCr f)
      (fun (o : Plane × Plane) j => o.1 j) (cbOf f) W H m hm
      (storeCbCr_storesAt_cb f _ hP) (cb0, cr0)
    obtain ⟨o2, h2, hs2⟩ := fieldLoop_obs (storeCbCr f)
      (fun (o : Plane × Plane) j => o.2 j) (crOf f) W H m hm
      (storeCbCr_storesAt_cr f _ hP) (cb0, cr0)
    have e : o2 = o1 := (Prod.mk.inj (Option.some.inj (h2.symm.trans h1))).2
    subst e
    refine ⟨some o2.1, some o2.2, by simp only [output_field_chroma, h1],
      fun g c1 c2 hg hc1 hc2 => ?_, fun h => by simp at h⟩
    simp only [Option.some.injEq] at hg hc1 hc2
    subst hg hc1 hc2
    exact ⟨o2.1, o2.2, rfl, rfl, fun y x hy hx =>
      ⟨fun hp => ⟨(hs1 y x hx).1 ⟨hy, hp⟩, (hs2 y x hx).1 ⟨hy, hp⟩⟩,
       fun hp => ⟨(hs1 y x hx).2 (fun h => hp h.2), (hs2 y x hx).2 (fun h => hp h.2)⟩⟩⟩


/-! ### The per-plane routines and the facade -/

theorem output_frame_luma_only (nY nC : Nat) (F : Option (ReferenceFrame PixelY))
    (a_pOutputY : Option Plane)
    (hOutY : F.isSome = true → a_pOutputY.isSome = true)
    (hPixY : FrameComplete nY F) :
    ∃ out, output_frame nY nC F none a_pOutputY none none = some out := by
  obtain ⟨outY, outCb, outCr, ho, -⟩ := output_frame_spec nY nC F none a_pOutputY none none
    hOutY (fun h => by simp at h) hPixY (fun f hf => by simp at hf)
  exact ⟨_, ho⟩

theorem output_frame_chroma_only (nY nC : Nat) (F : Option (ReferenceFrame PixelCbCr))
    (a_pOutputCb a_pOutputCr : Option Plane)
    (hOutC : F.isSome = true → a_pOutputCb.isSome = true ∧ a_pOutputCr.isSome = true)
    (hPixC : FrameComplete nC F) :
    ∃ out, output_frame nY nC none F none a_pOutputCb a_pOutputCr = some out := by
  obtain ⟨outY, outCb, outCr, ho, -⟩ := output_frame_spec nY nC none F none a_pOutputCb
    a_pOutputCr (fun h => by simp at h) hOutC (fun f hf => by simp at hf) hPixC
  exact ⟨_, ho⟩

theorem frame_intensity_spec {σY σC : Type} (E : Engines σY σC) (g : Globals σY σC)
    (a_pInputY a_pOutputY : Option Plane)
    (hY : g.g_bMotionSearcherY = true) (hpurge : PurgeTestDefined g)
    (hOutY : (lumaFrameReturned E g a_pInputY).isSome = true → a_pOutputY.isSome = true)
    (hPixY : FrameComplete g.g_nPixelsY (lumaFrameReturned E g a_pInputY)) :
    ∃ r, newdenoise_frame_intensity E g a_pInputY a_pOutputY = some r
      ∧ r.ret = (match a_pInputY with
          | none => if (lumaFrameReturned E g none).isSome then 0 else 1
          | some inputY =>
            if lumaAddFrameStatus E g inputY ≠ g_kNoError then -1
            else if (lumaFrameReturned E g (some inputY)).isSome then 0 else 1) := by
  have hframes : ¬ (g.denoiser.frames = 0
      ∨ (g.frame = -2147483648 ∧ g.denoiser.frames = -1)) := hpurge
  cases hb : (Int.tmod g.frame g.denoiser.frames == 0) <;> cases a_pInputY <;>
    simp only [lumaFrameReturned, lumaEngineAtQuery, lumaAddFrameStatus, timeToPurge,
      hframes, hb, if_false, if_true, Option.some.injEq, Bool.false_eq_true]
      at hOutY hPixY ⊢ <;>
    simp only [newdenoise_frame_intensity, hY, timeToPurge, hframes, hb, if_false,
      if_true, Bool.not_true, Bool.false_eq_true] <;>
    obtain ⟨out, ho⟩ := output_frame_luma_only _ g.g_nPixelsCbCr _ _ hOutY hPixY <;>
    simp only [ho] <;>
    first
    | exact ⟨_, rfl, rfl⟩
    | (split
       · refine ⟨_, rfl, ?_⟩
         simp_all
       · refine ⟨_, rfl, ?_⟩
         simp_all)


theorem frame_color_spec {σY σC : Type} (E : Engines σY σC) (g : Globals σY σC)
    (a_pInputCb a_pInputCr a_pOutputCb a_pOutputCr : Option Plane)
    (hC : g.g_bMotionSearcherCbCr = true) (hpurge : PurgeTestDefined g)
    (hIn : a_pInputCr.isSome = true → a_pInputCb.isSome = true)
    (hOutC : (chromaFrameReturned E g a_pInputCr).isSome = true →
      a_pOutputCb.isSome = true ∧ a_pOutputCr.isSome = true)
    (hPixC : FrameComplete g.g_nPixelsCbCr (chromaFrameReturned E g a_pInputCr)) :
    ∃ r, newdenoise_frame_color E g a_pInputCb a_pInputCr a_pOutputCb a_pOutputCr = some r
      ∧ (a_pInputCr = none →
          r.ret = if (chromaFrameReturned E g none).isSome then 0 else 1)
      ∧ (∀ inputCb inputCr, a_pInputCb = some inputCb → a_pInputCr = some inputCr →
          r.ret = if chromaAddFrameStatus E g inputCb inputCr ≠ g_kNoError then -1
            else if (chromaFrameReturned E g (some inputCr)).isSome then 0 else 1) := by
  have hframes : ¬ (g.denoiser.frames = 0
      ∨ (g.frame = -2147483648 ∧ g.denoiser.frames = -1)) := hpurge
  cases a_pInputCr with
  | none =>
    cases hb : (Int.tmod g.frame g.denoiser.frames == 0) <;>
      simp only [chromaFrameReturned, chromaEngineAtQuery, timeToPurge,
        hframes, hb, if_false, if_true, Option.some.injEq, Bool.false_eq_true]
        at hOutC hPixC ⊢ <;>
      simp only [newdenoise_frame_color, hC, timeToPurge, hframes, hb, if_false,
        if_true, Bool.not_true, Bool.false_eq_true] <;>
      obtain ⟨out, ho⟩ := output_frame_chroma_only g.g_nPixelsY _ _ _ _ hOutC hPixC <;>
      simp only [ho] <;>
      exact ⟨_, rfl, fun _ => rfl, fun _ _ _ h => by simp at h⟩
  | some inputCr =>
    obtain ⟨inputCb, hcb⟩ := Option.isSome_iff_exists.mp (hIn rfl)
    subst hcb
    cases hb : (Int.tmod g.frame g.denoiser.frames == 0) <;>
      simp only [chromaFrameReturned, chromaEngineAtQuery, chromaAddFrameStatus,
        timeToPurge, hframes, hb, if_false, if_true, Option.some.injEq,
        Bool.false_eq_true] at hOutC hPixC ⊢ <;>
      simp only [newdenoise_frame_color, stageFrameCbCrFrom, hC, timeToPurge, hframes, hb,
        if_false, if_true, Bool.not_true, Bool.false_eq_true] <;>
      obtain ⟨out, ho⟩ := output_frame_chroma_only g.g_nPixelsY _ _ _ _ hOutC hPixC <;>
      simp only [ho] <;>
      (split
       · refine ⟨_, rfl, fun h => by simp at h, fun cb cr h1 h2 => ?_⟩
         subst h1 h2
         simp_all
       · refine ⟨_, rfl, fun h => by simp at h, fun cb cr h1 h2 => ?_⟩
         subst h1 h2
         simp_all)

/-- C6 (per-plane return code), one statement for each routine, each under the conditions
of its own plane group only. A call of `newdenoise_frame_intensity` with luma enabled,
`frame % denoiser.frames` defined, a complete frame from the engine and an output buffer
to write it to returns; the result is -1 exactly when the input is not `NULL` and the
engine's `AddFrame` reports an error; otherwise it is 0 if the engine returned a
reference frame on this call (`GetRemainingFrames` on the flush path,
`GetFrameReadyForOutput` otherwise) and 1 if it returned `NULL`. Likewise
`newdenoise_frame_color` with chroma enabled and `a_pInputCb` not `NULL` when
`a_pInputCr` is not. Neither statement asks anything of the other plane group. -/
theorem C6_per_plane_return_code {σY σC : Type} (E : Engines σY σC) (g : Globals σY σC)
    (a_pInputY a_pInputCb a_pInputCr a_pOutputY a_pOutputCb a_pOutputCr : Option Plane) :
    (g.g_bMotionSearcherY = true → PurgeTestDefined g →
      ((lumaFrameReturned E g a_pInputY).isSome = true → a_pOutputY.isSome = true) →
      FrameComplete g.g_nPixelsY (lumaFrameReturned E g a_pInputY) →
      ∃ r, newdenoise_frame_intensity E g a_pInputY a_pOutputY = some r
        ∧ (r.ret = -1 ↔
            ∃ inputY, a_pInputY = some inputY
              ∧ lumaAddFrameStatus E g inputY ≠ g_kNoError)
        ∧ (r.ret ≠ -1 →
            (r.ret = 0 ↔ (lumaFrameReturned E g a_pInputY).isSome = true)
            ∧ (r.ret = 1 ↔ lumaFrameReturned E g a_pInputY = none)))
    ∧ (g.g_bMotionSearcherCbCr = true → PurgeTestDefined g →
      (a_pInputCr.isSome = true → a_pInputCb.isSome = true) →
      ((chromaFrameReturned E g a_pInputCr).isSome = true →
        a_pOutputCb.isSome = true ∧ a_pOutputCr.isSome = true) →
      FrameComplete g.g_nPixelsCbCr (chromaFrameReturned E g a_pInputCr) →
      ∃ r, newdenoise_frame_color E g a_pInputCb a_pInputCr a_pOutputCb a_pOutputCr
            = some r
        ∧ (r.ret = -1 ↔
            ∃ inputCb inputCr, a_pInputCb = some inputCb ∧ a_pInputCr = some inputCr
              ∧ chromaAddFrameStatus E g inputCb inputCr ≠ g_kNoError)
        ∧ (r.ret ≠ -1 →
            (r.ret = 0 ↔ (chromaFrameReturned E g a_pInputCr).isSome = true)
            ∧ (r.ret = 1 ↔ chromaFrameReturned E g a_pInputCr = none))) := by
  constructor
  · intro hY hpurge hOutY hPixY
    obtain ⟨r, hr, hret⟩ := frame_intensity_spec E g a_pInputY a_pOutputY hY hpurge
      hOutY hPixY
    refine ⟨r, hr, ?_⟩
    cases a_pInputY with
    | none =>
      simp only at hret
      cases hF : lumaFrameReturned E g none <;> simp [hret, hF]
    | some inputY =>
      simp only at hret
      by_cases hs : lumaAddFrameStatus E g inputY = g_kNoError <;>
        cases hF : lumaFrameReturned E g (some inputY) <;> simp [hret, hF, hs]
  · intro hC hpurge hIn hOutC hPixC
    obtain ⟨r, hr, hnone, hsome⟩ := frame_color_spec E g a_pInputCb a_pInputCr
      a_pOutputCb a_pOutputCr hC hpurge hIn hOutC hPixC
    refine ⟨r, hr, ?_⟩
    cases a_pInputCr with
    | none =>
      have hret := hnone rfl
      cases hF : chromaFrameReturned E g none <;> simp [hret, hF]
    | some inputCr =>
      obtain ⟨inputCb, hcb⟩ := Option.isSome_iff_exists.mp (hIn rfl)
      subst hcb
      have hret := hsome inputCb inputCr rfl rfl
      by_cases hs : chromaAddFrameStatus E g inputCb inputCr = g_kNoError <;>
        cases hF : chromaFrameReturned E g (some inputCr) <;> simp [hret, hF, hs]

/-- C6, witness. The luma statement in a luma-only configuration (chroma disabled), on
the submit path, each sample engine holding one frame: with an engine whose `AddFrame`
reports an error the routine returns -1, with one whose `AddFrame` succeeds it returns 0
(a frame was ready). The chroma statement on the flush path (both chroma inputs `NULL`)
with both plane groups enabled. -/
theorem C6_per_plane_return_code_witness :
    sampleGlobalsLumaOnly.g_bMotionSearcherCbCr = false
    ∧ (newdenoise_frame_intensity (sampleEngines 1 (some 1) none) sampleGlobalsLumaOnly
        (some samplePlaneY) (some blankPlane)).map (fun r => r.ret) = some (-1)
    ∧ (newdenoise_frame_intensity (sampleEngines 1 none none) sampleGlobalsLumaOnly
        (some samplePlaneY) (some blankPlane)).map (fun r => r.ret) = some 0
    ∧ (∃ r, newdenoise_frame_intensity (sampleEngines 1 (some 1) none)
          sampleGlobalsLumaOnly (some samplePlaneY) (some blankPlane) = some r
      ∧ (r.ret = -1 ↔ ∃ inputY, some samplePlaneY = some inputY
          ∧ lumaAddFrameStatus (sampleEngines 1 (some 1) none) sampleGlobalsLumaOnly
            inputY ≠ g_kNoError)
      ∧ (r.ret ≠ -1 →
          (r.ret = 0 ↔ (lumaFrameReturned (sampleEngines 1 (some 1) none)
            sampleGlobalsLumaOnly (some samplePlaneY)).isSome = true)
          ∧ (r.ret = 1 ↔ lumaFrameReturned (sampleEngines 1 (some 1) none)
            sampleGlobalsLumaOnly (some samplePlaneY) = none)))
    ∧ (∃ r, newdenoise_frame_color (sampleEngines 1 none none) sampleGlobalsLoaded
          none none (some blankPlane) (some blankPlane) = some r
      ∧ (r.ret = -1 ↔ ∃ inputCb inputCr, (none : Option Plane) = some inputCb
          ∧ (none : Option Plane) = some inputCr
          ∧ chromaAddFrameStatus (sampleEngines 1 none none) sampleGlobalsLoaded
            inputCb inputCr ≠ g_kNoError)
      ∧ (r.ret ≠ -1 →
          (r.ret = 0 ↔ (chromaFrameReturned (sampleEngines 1 none none)
            sampleGlobalsLoaded none).isSome = true)
          ∧ (r.ret = 1 ↔ chromaFrameReturned (sampleEngines 1 none none)
            sampleGlobalsLoaded none = none))) :=
  ⟨rfl, rfl, rfl,
    (C6_per_plane_return_code (sampleEngines 1 (some 1) none) sampleGlobalsLumaOnly
      (some samplePlaneY) none none (some blankPlane) none none).1
      rfl (by decide) (fun _ => rfl)
      (fun f hf i _ => by
        have e : f = sampleFrame (fun i => PixelY.mk (samplePlaneY i)) :=
          (Option.some.inj hf).symm
        subst e
        rfl),
    (C6_per_plane_return_code (sampleEngines 1 none none) sampleGlobalsLoaded
      none none none (some blankPlane) (some blankPlane) (some blankPlane)).2
      rfl (by decide) (fun h => h) (fun _ => ⟨rfl, rfl⟩)
      (fun f hf i _ => by
        have e : f
            = sampleFrame (fun i => PixelCbCr.mk (samplePlaneCb i) (samplePlaneCr i)) :=
          (Option.some.inj hf).symm
        subst e
        rfl)⟩

/-- C7, the code at the failing input: on the first call after `newdenoise_init`, with
both planes enabled and no chroma worker, the luma routine returns 1 (no frame ready,
`AddFrame` succeeds) and the chroma routine returns -1 (its engine's `AddFrame` reports
an error), yet `newdenoise_frame` returns 1; `newdenoise_interlaced_frame` does the
same. -/
theorem C7_chroma_error_not_propagated :
    (newdenoise_frame_intensity (sampleEngines 2 none (some 0)) sampleGlobals
        (some samplePlaneY) (some blankPlane)).map (fun r => r.ret) = some 1
    ∧ (newdenoise_frame_color (sampleEngines 2 none (some 0)) sampleGlobals
        (some samplePlaneCb) (some samplePlaneCr) (some blankPlane)
        (some blankPlane)).map (fun r => r.ret) = some (-1)
    ∧ (newdenoise_frame (sampleEngines 2 none (some 0)) sampleGlobals
        (some samplePlaneY) (some samplePlaneCb) (some samplePlaneCr)
        (some blankPlane) (some blankPlane) (some blankPlane)).map (fun r => r.ret)
        = some 1
    ∧ (newdenoise_interlaced_frame_color (sampleEngines 2 none (some 0))
        sampleGlobalsInterlaced (some samplePlaneCb) (some samplePlaneCr)
        (some blankPlane) (some blankPlane)).map (fun r => r.ret) = some (-1)
    ∧ (newdenoise_interlaced_frame (sampleEngines 2 none (some 0)) sampleGlobalsInterlaced
        (some samplePlaneY) (some samplePlaneCb) (some samplePlaneCr)
        (some blankPlane) (some blankPlane) (some blankPlane)).map (fun r => r.ret)
        = some 1 := by
  refine ⟨?_, ?_, ?_, ?_, ?_⟩ <;> rfl

/-- C8, the code at the failing input: both planes enabled, no chroma worker, all input
planes non-null on both calls. The first call returns 1 (both engines swallow the
frame). On the second call each engine hands back its frame; the luma engine's
`AddFrame` then reports an error, so the luma routine returns -1 while the chroma
routine returns 0: the asserted condition is false and `newdenoise_frame` does not
return. -/
theorem C8_assertion_fails_on_engine_error :
    (newdenoise_frame (sampleEngines 1 (some 1) none) sampleGlobals
        (some samplePlaneY) (some samplePlaneCb) (some samplePlaneCr)
        (some blankPlane) (some blankPlane) (some blankPlane)).map (fun r => r.ret)
        = some 1
    ∧ ((newdenoise_frame (sampleEngines 1 (some 1) none) sampleGlobals
        (some samplePlaneY) (some samplePlaneCb) (some samplePlaneCr)
        (some blankPlane) (some blankPlane) (some blankPlane)).bind (fun r1 =>
          newdenoise_frame_intensity (sampleEngines 1 (some 1) none) r1.globals
            (some samplePlaneY) (some blankPlane))).map (fun r => r.ret) = some (-1)
    ∧ ((newdenoise_frame (sampleEngines 1 (some 1) none) sampleGlobals
        (some samplePlaneY) (some samplePlaneCb) (some samplePlaneCr)
        (some blankPlane) (some blankPlane) (some blankPlane)).bind (fun r1 =>
          newdenoise_frame_color (sampleEngines 1 (some 1) none) r1.globals
            (some samplePlaneCb) (some samplePlaneCr) (some blankPlane)
            (some blankPlane))).map (fun r => r.ret) = some 0
    ∧ sanityCheck sampleGlobals (-1) 0 = false
    ∧ ((newdenoise_frame (sampleEngines 1 (some 1) none) sampleGlobals
        (some samplePlaneY) (some samplePlaneCb) (some samplePlaneCr)
        (some blankPlane) (some blankPlane) (some blankPlane)).bind (fun r1 =>
          newdenoise_frame (sampleEngines 1 (some 1) none) r1.globals
            (some samplePlaneY) (some samplePlaneCb) (some samplePlaneCr)
            (some blankPlane) (some blankPlane) (some blankPlane))).isNone = true := by
  refine ⟨?_, ?_, ?_, ?_, ?_⟩ <;> rfl

/-- C9 (progressive output re-materialisation): `output_frame`, called with the
assertions of the source satisfied, returns; for a non-null luma reference frame it
leaves in `a_pOutputY[i]` component 0 of the value of reference pixel `i`, for every
`i` below `g_nPixelsY`; for a non-null chroma reference frame it leaves in
`a_pOutputCb[i]` and `a_pOutputCr[i]` components 0 and 1 of reference pixel `i`, for
every `i` below `g_nPixelsCbCr`; the output buffers of a plane group whose reference
frame is `NULL` are unchanged. -/
theorem C9_output_frame (g_nPixelsY g_nPixelsCbCr : Nat)
    (a_pFrameY : Option (ReferenceFrame PixelY))
    (a_pFrameCbCr : Option (ReferenceFrame PixelCbCr))
    (a_pOutputY a_pOutputCb a_pOutputCr : Option Plane)
    (hOutY : a_pFrameY.isSome = true → a_pOutputY.isSome = true)
    (hOutC : a_pFrameCbCr.isSome = true →
      a_pOutputCb.isSome = true ∧ a_pOutputCr.isSome = true)
    (hPixY : FrameComplete g_nPixelsY a_pFrameY)
    (hPixC : FrameComplete g_nPixelsCbCr a_pFrameCbCr) :
    ∃ outY outCb outCr,
      output_frame g_nPixelsY g_nPixelsCbCr a_pFrameY a_pFrameCbCr
          a_pOutputY a_pOutputCb a_pOutputCr = some (outY, outCb, outCr)
      ∧ (∀ f, a_pFrameY = some f →
          ∃ o, outY = some o ∧ ∀ i, i < g_nPixelsY → lumaOf f i = some (o i))
      ∧ (∀ f, a_pFrameCbCr = some f →
          ∃ ocb ocr, outCb = some ocb ∧ outCr = some ocr
            ∧ ∀ i, i < g_nPixelsCbCr →
                cbOf f i = some (ocb i) ∧ crOf f i = some (ocr i))
      ∧ (a_pFrameY = none → outY = a_pOutputY)
      ∧ (a_pFrameCbCr = none → outCb = a_pOutputCb ∧ outCr = a_pOutputCr) :=
  output_frame_spec g_nPixelsY g_nPixelsCbCr a_pFrameY a_pFrameCbCr
    a_pOutputY a_pOutputCb a_pOutputCr hOutY hOutC hPixY hPixC

/-- C9, witness: the sample luma frame (8 pixels) with no chroma frame. -/
theorem C9_output_frame_witness :
    ∃ outY outCb outCr,
      output_frame 8 2 (some sampleRefY) none (some blankPlane) none none
        = some (outY, outCb, outCr)
      ∧ (∀ f, some sampleRefY = some f →
          ∃ o, outY = some o ∧ ∀ i, i < 8 → lumaOf f i = some (o i))
      ∧ (∀ f, (none : Option (ReferenceFrame PixelCbCr)) = some f →
          ∃ ocb ocr, outCb = some ocb ∧ outCr = some ocr
            ∧ ∀ i, i < 2 → cbOf f i = some (ocb i) ∧ crOf f i = some (ocr i))
      ∧ (some sampleRefY = none → outY = some blankPlane)
      ∧ ((none : Option (ReferenceFrame PixelCbCr)) = none →
          outCb = none ∧ outCr = none) :=
  C9_output_frame 8 2 (some sampleRefY) none (some blankPlane) none none
    (fun _ => rfl) (fun h => Bool.noConfusion h)
    (fun f hf i _ => by cases hf; rfl) (fun f hf => Option.noConfusion hf)

/-- C10 (interlaced field placement): `output_field` with field mask `m` in {0, 1},
called with the assertions of the source satisfied, returns; for a non-null reference
frame it leaves, for every row `y` below the height with `y mod 2 = m` and every `x`
below the width, the value of reference pixel `((y - m) / 2) * width + x` at output
index `y * width + x`, and it leaves the bytes of every row with `y mod 2 ≠ m` as they
were. This holds for the luma plane and for both chroma planes. -/
theorem C10_output_field (g_nWidthY g_nHeightY g_nWidthCbCr g_nHeightCbCr m : Nat)
    (hm : m < 2)
    (a_pFrameY : Option (ReferenceFrame PixelY))
    (a_pFrameCbCr : Option (ReferenceFrame PixelCbCr))
    (a_pOutputY a_pOutputCb a_pOutputCr : Option Plane)
    (hOutY : a_pFrameY.isSome = true → a_pOutputY.isSome = true)
    (hOutC : a_pFrameCbCr.isSome = true →
      a_pOutputCb.isSome = true ∧ a_pOutputCr.isSome = true)
    (hPixY : FrameComplete (fieldPixels g_nWidthY g_nHeightY m) a_pFrameY)
    (hPixC : FrameComplete (fieldPixels g_nWidthCbCr g_nHeightCbCr m) a_pFrameCbCr) :
    ∃ outY outCb outCr,
      output_field g_nWidthY g_nHeightY g_nWidthCbCr g_nHeightCbCr m
          a_pFrameY a_pFrameCbCr a_pOutputY a_pOutputCb a_pOutputCr
        = some (outY, outCb, outCr)
      ∧ (∀ f o0, a_pFrameY = some f → a_pOutputY = some o0 →
          ∃ o, outY = some o ∧ ∀ y x, y < g_nHeightY → x < g_nWidthY →
            (y % 2 = m →
              lumaOf f (((y - m) / 2) * g_nWidthY + x) = some (o (y * g_nWidthY + x)))
            ∧ (y % 2 ≠ m → o (y * g_nWidthY + x) = o0 (y * g_nWidthY + x)))
      ∧ (∀ f cb0 cr0, a_pFrameCbCr = some f → a_pOutputCb = some cb0 →
          a_pOutputCr = some cr0 →
          ∃ ocb ocr, outCb = some ocb ∧ outCr = some ocr
            ∧ ∀ y x, y < g_nHeightCbCr → x < g_nWidthCbCr →
              (y % 2 = m →
                cbOf f (((y - m) / 2) * g_nWidthCbCr + x)
                    = some (ocb (y * g_nWidthCbCr + x))
                ∧ crOf f (((y - m) / 2) * g_nWidthCbCr + x)
                    = some (ocr (y * g_nWidthCbCr + x)))
              ∧ (y % 2 ≠ m →
                ocb (y * g_nWidthCbCr + x) = cb0 (y * g_nWidthCbCr + x)
                ∧ ocr (y * g_nWidthCbCr + x) = cr0 (y * g_nWidthCbCr + x))) := by
  obtain ⟨outY, hY, hYs, -⟩ := output_field_luma_spec g_nWidthY g_nHeightY m hm
    a_pFrameY a_pOutputY hOutY hPixY
  obtain ⟨outCb, outCr, hC, hCs, -⟩ := output_field_chroma_spec g_nWidthCbCr
    g_nHeightCbCr m hm a_pFrameCbCr a_pOutputCb a_pOutputCr hOutC hPixC
  exact ⟨outY, outCb, outCr, by simp only [output_field, hY, hC], hYs, hCs⟩

/-- C10, witness: the odd field (`m = 1`) of a 2x4 luma plane and of a 1x2 chroma
plane, written from the sample reference frames. -/
theorem C10_output_field_witness :
    ∃ outY outCb outCr,
      output_field 2 4 1 2 1 (some sampleRefY) (some sampleRefCbCr)
          (some blankPlane) (some blankPlane) (some blankPlane)
        = some (outY, outCb, outCr)
      ∧ (∀ f o0, some sampleRefY = some f → some blankPlane = some o0 →
          ∃ o, outY = some o ∧ ∀ y x, y < 4 → x < 2 →
            (y % 2 = 1 → lumaOf f (((y - 1) / 2) * 2 + x) = some (o (y * 2 + x)))
            ∧ (y % 2 ≠ 1 → o (y * 2 + x) = o0 (y * 2 + x)))
      ∧ (∀ f cb0 cr0, some sampleRefCbCr = some f → some blankPlane = some cb0 →
          some blankPlane = some cr0 →
          ∃ ocb ocr, outCb = some ocb ∧ outCr = some ocr
            ∧ ∀ y x, y < 2 → x < 1 →
              (y % 2 = 1 →
                cbOf f (((y - 1) / 2) * 1 + x) = some (ocb (y * 1 + x))
                ∧ crOf f (((y - 1) / 2) * 1 + x) = some (ocr (y * 1 + x)))
              ∧ (y % 2 ≠ 1 →
                ocb (y * 1 + x) = cb0 (y * 1 + x)
                ∧ ocr (y * 1 + x) = cr0 (y * 1 + x))) :=
  C10_output_field 2 4 1 2 1 (by decide) (some sampleRefY) (some sampleRefCbCr)
    (some blankPlane) (some blankPlane) (some blankPlane)
    (fun _ => rfl) (fun _ => ⟨rfl, rfl⟩)
    (fun f hf i _ => by cases hf; rfl) (fun f hf i _ => by cases hf; rfl)

/-! ### The stores of the field loops -/

theorem forLoop_logged {α : Type}
    (F1 : Nat → Nat × (α × List Nat) → Option (Nat × (α × List Nat)))
    (F2 : Nat → Nat × α → Option (Nat × α)) (idx : Nat → Nat)
    (h : ∀ x i s log, F1 x (i, (s, log))
      = (F2 x (i, s)).map (fun r => (r.1, (r.2, log ++ [idx x])))) :
    ∀ n i s log, forLoop F1 n (i, (s, log))
      = (forLoop F2 n (i, s)).map
          (fun r => (r.1, (r.2, log ++ (List.range n).map idx))) := by
  intro n i s log
  induction n with
  | zero => simp [forLoop]
  | succ k ih =>
    simp only [forLoop, ih]
    cases forLoop F2 k (i, s) with
    | none => rfl
    | some r =>
      simp only [Option.map_some', h]
      cases F2 k (r.1, r.2) with
      | none => rfl
      | some a => simp [List.range_succ]

theorem fieldRow_logged {α : Type} (body : Nat → Nat → α → Option α) (W y i : Nat)
    (s : α) (log : List Nat) :
    fieldRow (logged body) W y (i, (s, log))
      = (fieldRow body W y (i, s)).map
          (fun r => (r.1, (r.2, log ++ rowIndices W y))) := by
  unfold fieldRow rowIndices
  refine forLoop_logged _ _ (fun x => y * W + x) (fun x j t l => ?_) W i s log
  simp only [logged]
  cases body (y * W + x) j t <;> rfl

theorem fieldRows_logged {α : Type} (body : Nat → Nat → α → Option α) (W H : Nat) :
    ∀ (fuel y i : Nat) (s : α) (log : List Nat),
    fieldRows (logged body) W H fuel y (i, (s, log))
      = (fieldRows body W H fuel y (i, s)).map
          (fun r => (r.1, (r.2, log ++ fieldIndices W H fuel y))) := by
  intro fuel
  induction fuel with
  | zero =>
    intro y i s log
    by_cases hy : y < H <;> simp [fieldRows, fieldIndices, hy]
  | succ k ih =>
    intro y i s log
    by_cases hy : y < H
    · simp only [fieldRows, fieldIndices, if_pos hy, fieldRow_logged]
      cases fieldRow body W y (i, s) with
      | none => rfl
      | some r => simp only [Option.map_some', ih, List.append_assoc]
    · simp [fieldRows, fieldIndices, hy]

theorem count_rowIndices (W y r c : Nat) (hc : c < W) :
    (rowIndices W y).count (r * W + c) = if r = y then 1 else 0 := by
  have hnd : (rowIndices W y).Nodup :=
    (List.nodup_range W).map (fun a b h => by simpa using h)
  by_cases e : r = y
  · subst e
    rw [if_pos rfl]
    exact List.count_eq_one_of_mem hnd (List.mem_map.mpr ⟨c, List.mem_range.mpr hc, rfl⟩)
  · rw [if_neg e]
    refine List.count_eq_zero.mpr (fun hmem => e ?_)
    obtain ⟨d, hd, hdc⟩ := List.mem_map.mp hmem
    exact ((row_col_unique W r c y d hc (List.mem_range.mp hd)).mp hdc.symm).1

theorem count_fieldIndices (W H : Nat) :
    ∀ (fuel y r c : Nat), H ≤ y + 2 * fuel → c < W →
    (fieldIndices W H fuel y).count (r * W + c)
      = if y ≤ r ∧ r < H ∧ (r - y) % 2 = 0 then 1 else 0 := by
  intro fuel
  induction fuel with
  | zero =>
    intro y r c hf _
    rw [if_neg (by omega)]
    rfl
  | succ k ih =>
    intro y r c hf hc
    by_cases hy : y < H
    · simp only [fieldIndices, if_pos hy, List.count_append, count_rowIndices W y r c hc,
        ih (y + 2) r c (by omega) hc]
      by_cases e : r = y
      · subst e
        rw [if_pos rfl, if_neg (by omega), if_pos ⟨Nat.le_refl _, hy, by simp⟩]
      · rw [if_neg e]
        by_cases h2 : y + 2 ≤ r ∧ r < H ∧ (r - (y + 2)) % 2 = 0
        · rw [if_pos h2, if_pos (by omega)]
        · rw [if_neg h2, if_neg (by omega)]
    · simp only [fieldIndices, if_neg hy, List.count_nil]
      rw [if_neg (by omega)]

theorem output_field_luma_logged_eq (W H m : Nat)
    (a_pFrameY : Option (ReferenceFrame PixelY)) (a_pOutputY : Option Plane) :
    output_field_luma_logged W H m a_pFrameY a_pOutputY
      = (output_field_luma W H m a_pFrameY a_pOutputY).map
          (fun o => (o, if a_pFrameY.isSome then fieldIndices W H H m else [])) := by
  cases a_pFrameY with
  | none => rfl
  | some f =>
    cases a_pOutputY with
    | none => rfl
    | some o =>
      simp only [output_field_luma_logged, output_field_luma, fieldLoop, fieldRows_logged]
      cases fieldRows (storeY f) W H H m (0, o) with
      | none => rfl
      | some r => simp

theorem output_field_chroma_logged_eq (W H m : Nat)
    (a_pFrameCbCr : Option (ReferenceFrame PixelCbCr))
    (a_pOutputCb a_pOutputCr : Option Plane) :
    output_field_chroma_logged W H m a_pFrameCbCr a_pOutputCb a_pOutputCr
      = (output_field_chroma W H m a_pFrameCbCr a_pOutputCb a_pOutputCr).map
          (fun o => (o, if a_pFrameCbCr.isSome then fieldIndices W H H m else [])) := by
  cases a_pFrameCbCr with
  | none => rfl
  | some f =>
    cases a_pOutputCb with
    | none => rfl
    | some ocb =>
      cases a_pOutputCr with
      | none => rfl
      | some ocr =>
        simp only [output_field_chroma_logged, output_field_chroma, fieldLoop,
          fieldRows_logged]
        cases fieldRows (storeCbCr f) W H H m (0, (ocb, ocr)) with
        | none => rfl
        | some r => simp

theorem count_two_fields (W H m y x : Nat) (hm : m < 2) (hy : y < H) (hx : x < W) :
    (fieldIndices W H H m ++ fieldIndices W H H (m ^^^ 1)).count (y * W + x) = 1 := by
  have hm1 : m ^^^ 1 = 1 - m := by
    rcases Nat.lt_succ_iff_lt_or_eq.mp hm with h | h
    · have : m = 0 := by omega
      subst this
      rfl
    · subst h
      rfl
  rw [List.count_append, count_fieldIndices W H H m y x (by omega) hx,
    count_fieldIndices W H H (m ^^^ 1) y x (by omega) hx, hm1]
  by_cases h1 : m ≤ y ∧ y < H ∧ (y - m) % 2 = 0
  · rw [if_pos h1, if_neg (by omega)]
  · rw [if_neg h1, if_pos (by omega)]

theorem xor_one_of_lt_two (m : Nat) (hm : m < 2) : m ^^^ 1 = 1 - m ∧ m ^^^ 1 < 2 := by
  rcases Nat.lt_succ_iff_lt_or_eq.mp hm with h | h
  · have : m = 0 := by omega
    subst this
    exact ⟨rfl, by decide⟩
  · subst h
    exact ⟨rfl, by decide⟩

/-- C11 (interlaced weave): two consecutive `output_field` sub-events with field masks
`m` and `m ^ 1` (`m` in {0, 1}), called with the assertions of the source satisfied,
both return, and for a plane group whose reference frame is non-null in both, the two
together store to every output index `y * width + x` with `y < height` and `x < width`
exactly once. The recorded run leaves the same buffers as `output_field` itself, and
after the two sub-events the byte at every such index is the one stored there: in a row
of parity `m` the value of pixel `((y - m) / 2) * width + x` of the first frame, in a
row of the other parity the value of pixel `((y - (m ^ 1)) / 2) * width + x` of the
second frame. -/
theorem C11_interlaced_weave (g_nWidthY g_nHeightY g_nWidthCbCr g_nHeightCbCr m : Nat)
    (hm : m < 2)
    (a_pFrameY1 a_pFrameY2 : Option (ReferenceFrame PixelY))
    (a_pFrameCbCr1 a_pFrameCbCr2 : Option (ReferenceFrame PixelCbCr))
    (a_pOutputY a_pOutputCb a_pOutputCr : Option Plane)
    (hOutY : a_pFrameY1.isSome = true ∨ a_pFrameY2.isSome = true →
      a_pOutputY.isSome = true)
    (hOutC : a_pFrameCbCr1.isSome = true ∨ a_pFrameCbCr2.isSome = true →
      a_pOutputCb.isSome = true ∧ a_pOutputCr.isSome = true)
    (hPixY1 : FrameComplete (fieldPixels g_nWidthY g_nHeightY m) a_pFrameY1)
    (hPixY2 : FrameComplete (fieldPixels g_nWidthY g_nHeightY (m ^^^ 1)) a_pFrameY2)
    (hPixC1 : FrameComplete (fieldPixels g_nWidthCbCr g_nHeightCbCr m) a_pFrameCbCr1)
    (hPixC2 : FrameComplete (fieldPixels g_nWidthCbCr g_nHeightCbCr (m ^^^ 1))
      a_pFrameCbCr2) :
    ∃ r1 r2 : FieldStores,
      output_field_logged g_nWidthY g_nHeightY g_nWidthCbCr g_nHeightCbCr m
          a_pFrameY1 a_pFrameCbCr1 a_pOutputY a_pOutputCb a_pOutputCr = some r1
      ∧ output_field g_nWidthY g_nHeightY g_nWidthCbCr g_nHeightCbCr m
          a_pFrameY1 a_pFrameCbCr1 a_pOutputY a_pOutputCb a_pOutputCr
        = some (r1.a_pOutputY, r1.a_pOutputCb, r1.a_pOutputCr)
      ∧ output_field_logged g_nWidthY g_nHeightY g_nWidthCbCr g_nHeightCbCr (m ^^^ 1)
          a_pFrameY2 a_pFrameCbCr2 r1.a_pOutputY r1.a_pOutputCb r1.a_pOutputCr = some r2
      ∧ output_field g_nWidthY g_nHeightY g_nWidthCbCr g_nHeightCbCr (m ^^^ 1)
          a_pFrameY2 a_pFrameCbCr2 r1.a_pOutputY r1.a_pOutputCb r1.a_pOutputCr
        = some (r2.a_pOutputY, r2.a_pOutputCb, r2.a_pOutputCr)
      ∧ (a_pFrameY1.isSome = true → a_pFrameY2.isSome = true →
          ∀ y x, y < g_nHeightY → x < g_nWidthY →
            (r1.storesY ++ r2.storesY).count (y * g_nWidthY + x) = 1)
      ∧ (a_pFrameCbCr1.isSome = true → a_pFrameCbCr2.isSome = true →
          ∀ y x, y < g_nHeightCbCr → x < g_nWidthCbCr →
            (r1.storesCbCr ++ r2.storesCbCr).count (y * g_nWidthCbCr + x) = 1)
      ∧ (∀ f1 f2 o0, a_pFrameY1 = some f1 → a_pFrameY2 = some f2 →
          a_pOutputY = some o0 →
          ∃ o, r2.a_pOutputY = some o ∧ ∀ y x, y < g_nHeightY → x < g_nWidthY →
            (y % 2 = m →
              lumaOf f1 (((y - m) / 2) * g_nWidthY + x) = some (o (y * g_nWidthY + x)))
            ∧ (y % 2 ≠ m →
              lumaOf f2 (((y - (m ^^^ 1)) / 2) * g_nWidthY + x)
                = some (o (y * g_nWidthY + x))))
      ∧ (∀ f1 f2 cb0 cr0, a_pFrameCbCr1 = some f1 → a_pFrameCbCr2 = some f2 →
          a_pOutputCb = some cb0 → a_pOutputCr = some cr0 →
          ∃ ocb ocr, r2.a_pOutputCb = some ocb ∧ r2.a_pOutputCr = some ocr
            ∧ ∀ y x, y < g_nHeightCbCr → x < g_nWidthCbCr →
              (y % 2 = m →
                cbOf f1 (((y - m) / 2) * g_nWidthCbCr + x)
                    = some (ocb (y * g_nWidthCbCr + x))
                ∧ crOf f1 (((y - m) / 2) * g_nWidthCbCr + x)
                    = some (ocr (y * g_nWidthCbCr + x)))
              ∧ (y % 2 ≠ m →
                cbOf f2 (((y - (m ^^^ 1)) / 2) * g_nWidthCbCr + x)
                    = some (ocb (y * g_nWidthCbCr + x))
                ∧ crOf f2 (((y - (m ^^^ 1)) / 2) * g_nWidthCbCr + x)
                    = some (ocr (y * g_nWidthCbCr + x)))) := by
  have hm1 := (xor_one_of_lt_two m hm).2
  have hx1 := (xor_one_of_lt_two m hm).1
  -- the luma block, twice
  obtain ⟨y1, hy1, hy1s, hy1n⟩ := output_field_luma_spec g_nWidthY g_nHeightY m hm
    a_pFrameY1 a_pOutputY (fun h => hOutY (Or.inl h)) hPixY1
  have hy1some : a_pFrameY2.isSome = true → y1.isSome = true := by
    intro h
    have ho := hOutY (Or.inr h)
    obtain ⟨o0, ho0⟩ := Option.isSome_iff_exists.mp ho
    cases hf : a_pFrameY1 with
    | none => rw [hy1n hf]; exact ho
    | some f =>
      obtain ⟨o, e, -⟩ := hy1s f o0 hf ho0
      rw [e]
      rfl
  obtain ⟨y2, hy2, hy2s, -⟩ := output_field_luma_spec g_nWidthY g_nHeightY (m ^^^ 1) hm1
    a_pFrameY2 y1 hy1some hPixY2
  -- the chroma block, twice
  obtain ⟨cb1, cr1, hc1, hc1s, hc1n⟩ := output_field_chroma_spec g_nWidthCbCr
    g_nHeightCbCr m hm a_pFrameCbCr1 a_pOutputCb a_pOutputCr
    (fun h => hOutC (Or.inl h)) hPixC1
  have hc1some : a_pFrameCbCr2.isSome = true →
      cb1.isSome = true ∧ cr1.isSome = true := by
    intro h
    have ho := hOutC (Or.inr h)
    obtain ⟨b0, hb0⟩ := Option.isSome_iff_exists.mp ho.1
    obtain ⟨r0, hr0⟩ := Option.isSome_iff_exists.mp ho.2
    cases hf : a_pFrameCbCr1 with
    | none =>
      obtain ⟨e1, e2⟩ := hc1n hf
      rw [e1, e2]
      exact ho
    | some f =>
      obtain ⟨ocb, ocr, e1, e2, -⟩ := hc1s f b0 r0 hf hb0 hr0
      rw [e1, e2]
      exact ⟨rfl, rfl⟩
  obtain ⟨cb2, cr2, hc2, hc2s, -⟩ := output_field_chroma_spec g_nWidthCbCr
    g_nHeightCbCr (m ^^^ 1) hm1 a_pFrameCbCr2 cb1 cr1 hc1some hPixC2
  refine ⟨{ a_pOutputY := y1, a_pOutputCb := cb1, a_pOutputCr := cr1,
            storesY := if a_pFrameY1.isSome then
              fieldIndices g_nWidthY g_nHeightY g_nHeightY m else [],
            storesCbCr := if a_pFrameCbCr1.isSome then
              fieldIndices g_nWidthCbCr g_nHeightCbCr g_nHeightCbCr m else [] },
          { a_pOutputY := y2, a_pOutputCb := cb2, a_pOutputCr := cr2,
            storesY := if a_pFrameY2.isSome then
              fieldIndices g_nWidthY g_nHeightY g_nHeightY (m ^^^ 1) else [],
            storesCbCr := if a_pFrameCbCr2.isSome then
              fieldIndices g_nWidthCbCr g_nHeightCbCr g_nHeightCbCr (m ^^^ 1) else [] },
          ?_, ?_, ?_, ?_, ?_, ?_, ?_, ?_⟩
  · simp only [output_field_logged, output_field_luma_logged_eq,
      output_field_chroma_logged_eq, hy1, hc1, Option.map_some']
  · simp only [output_field, hy1, hc1]
  · simp only [output_field_logged, output_field_luma_logged_eq,
      output_field_chroma_logged_eq, hy2, hc2, Option.map_some']
  · simp only [output_field, hy2, hc2]
  · intro h1 h2 y x hy hx
    simp only [h1, h2, if_true]
    exact count_two_fields g_nWidthY g_nHeightY m y x hm hy hx
  · intro h1 h2 y x hy hx
    simp only [h1, h2, if_true]
    exact count_two_fields g_nWidthCbCr g_nHeightCbCr m y x hm hy hx
  · intro f1 f2 o0 h1 h2 ho
    obtain ⟨o1, e1, hw1⟩ := hy1s f1 o0 h1 ho
    obtain ⟨o2, e2, hw2⟩ := hy2s f2 o1 h2 e1
    refine ⟨o2, e2, fun y x hy hx => ⟨fun hp => ?_, fun hp => ?_⟩⟩
    · rw [(hw2 y x hy hx).2 (by omega)]
      exact (hw1 y x hy hx).1 hp
    · exact (hw2 y x hy hx).1 (by omega)
  · intro f1 f2 cb0 cr0 h1 h2 hb hr
    obtain ⟨ocb1, ocr1, e1, e1r, hw1⟩ := hc1s f1 cb0 cr0 h1 hb hr
    obtain ⟨ocb2, ocr2, e2, e2r, hw2⟩ := hc2s f2 ocb1 ocr1 h2 e1 e1r
    refine ⟨ocb2, ocr2, e2, e2r, fun y x hy hx => ⟨fun hp => ?_, fun hp => ?_⟩⟩
    · rw [((hw2 y x hy hx).2 (by omega)).1, ((hw2 y x hy hx).2 (by omega)).2]
      exact (hw1 y x hy hx).1 hp
    · exact (hw2 y x hy hx).1 (by omega)

/-- C11, witness: the odd field and then the even field of a 2x4 luma plane and of a
1x2 chroma plane, written from the sample reference frames to buffers filled with 255.
After the two sub-events the luma buffer holds the first four sample bytes in the rows
1 and 3 and again in the rows 0 and 2, and nothing of the 255 is left in the plane. -/
theorem C11_interlaced_weave_witness :
    ((output_field 2 4 1 2 1 (some sampleRefY) (some sampleRefCbCr)
          (some blankPlane) (some blankPlane) (some blankPlane)).bind
        (fun r => output_field 2 4 1 2 (1 ^^^ 1) (some sampleRefY) (some sampleRefCbCr)
          r.1 r.2.1 r.2.2)).map
      (fun r => (r.1.map (fun o => (List.range 9).map o),
        r.2.1.map (fun o => (List.range 3).map o),
        r.2.2.map (fun o => (List.range 3).map o)))
      = some (some [10, 20, 10, 20, 30, 40, 30, 40, 255], some [100, 100, 255],
          some [200, 200, 255])
    ∧ ∃ r1 r2 : FieldStores,
      output_field_logged 2 4 1 2 1 (some sampleRefY) (some sampleRefCbCr)
          (some blankPlane) (some blankPlane) (some blankPlane) = some r1
      ∧ output_field 2 4 1 2 1 (some sampleRefY) (some sampleRefCbCr)
          (some blankPlane) (some blankPlane) (some blankPlane)
        = some (r1.a_pOutputY, r1.a_pOutputCb, r1.a_pOutputCr)
      ∧ output_field_logged 2 4 1 2 (1 ^^^ 1) (some sampleRefY) (some sampleRefCbCr)
          r1.a_pOutputY r1.a_pOutputCb r1.a_pOutputCr = some r2
      ∧ output_field 2 4 1 2 (1 ^^^ 1) (some sampleRefY) (some sampleRefCbCr)
          r1.a_pOutputY r1.a_pOutputCb r1.a_pOutputCr
        = some (r2.a_pOutputY, r2.a_pOutputCb, r2.a_pOutputCr)
      ∧ ((some sampleRefY).isSome = true → (some sampleRefY).isSome = true →
          ∀ y x, y < 4 → x < 2 → (r1.storesY ++ r2.storesY).count (y * 2 + x) = 1)
      ∧ ((some sampleRefCbCr).isSome = true → (some sampleRefCbCr).isSome = true →
          ∀ y x, y < 2 → x < 1 →
            (r1.storesCbCr ++ r2.storesCbCr).count (y * 1 + x) = 1)
      ∧ (∀ f1 f2 o0, some sampleRefY = some f1 → some sampleRefY = some f2 →
          some blankPlane = some o0 →
          ∃ o, r2.a_pOutputY = some o ∧ ∀ y x, y < 4 → x < 2 →
            (y % 2 = 1 → lumaOf f1 (((y - 1) / 2) * 2 + x) = some (o (y * 2 + x)))
            ∧ (y % 2 ≠ 1 →
              lumaOf f2 (((y - (1 ^^^ 1)) / 2) * 2 + x) = some (o (y * 2 + x))))
      ∧ (∀ f1 f2 cb0 cr0, some sampleRefCbCr = some f1 → some sampleRefCbCr = some f2 →
          some blankPlane = some cb0 → some blankPlane = some cr0 →
          ∃ ocb ocr, r2.a_pOutputCb = some ocb ∧ r2.a_pOutputCr = some ocr
            ∧ ∀ y x, y < 2 → x < 1 →
              (y % 2 = 1 →
                cbOf f1 (((y - 1) / 2) * 1 + x) = some (ocb (y * 1 + x))
                ∧ crOf f1 (((y - 1) / 2) * 1 + x) = some (ocr (y * 1 + x)))
              ∧ (y % 2 ≠ 1 →
                cbOf f2 (((y - (1 ^^^ 1)) / 2) * 1 + x) = some (ocb (y * 1 + x))
                ∧ crOf f2 (((y - (1 ^^^ 1)) / 2) * 1 + x) = some (ocr (y * 1 + x)))) :=
  ⟨rfl, C11_interlaced_weave 2 4 1 2 1 (by decide) (some sampleRefY) (some sampleRefY)
    (some sampleRefCbCr) (some sampleRefCbCr)
    (some blankPlane) (some blankPlane) (some blankPlane)
    (fun _ => rfl) (fun _ => ⟨rfl, rfl⟩)
    (fun f hf i _ => by cases hf; rfl) (fun f hf i _ => by cases hf; rfl)
    (fun f hf i _ => by cases hf; rfl) (fun f hf i _ => by cases hf; rfl)⟩

/-! ### The public methods of the reader and the writer -/

/-- C14 (`ReadFrame` success contract): `ReadFrame` called on a reader whose valid list
is not empty returns `Y4M_OK` without waiting; any current frame has gone to the head of
the free list, the oldest valid frame is the new current frame, and the planes handed out
are those of that frame. -/
theorem C14_readFrame_success (s : ReaderSys) (f : Frame) (rest : List Frame)
    (hab : s.aborted = false) (hc : s.client = .idle)
    (hv : s.thread.m_pValidFrames = f :: rest) :
    ∃ s1, s.step .ReadFrame = some s1
      ∧ s1.client = .idle ∧ s1.aborted = false
      ∧ s1.statuses = s.statuses ++ [Y4M_OK]
      ∧ s1.handedOut = s.handedOut ++ [s.thread.dataOf f]
      ∧ s1.thread.m_pCurrentFrame = some f
      ∧ s1.thread.m_pValidFrames = rest
      ∧ s1.thread.m_pFreeFrames
          = s.thread.m_pCurrentFrame.toList ++ s.thread.m_pFreeFrames
      ∧ s1.thread.planes = s.thread.planes := by
  rcases s with ⟨⟨wi, wo, wl, rv, pl, vl, cur, fl⟩, w, c, j, ab, fr, ho, st⟩
  simp only at hab hc hv
  subst hab hc hv
  cases cur <;> cases wi <;>
    simp [ReaderSys.step, ReaderSys.readFrame, ReaderSys.readFrameFinish,
      ReadWriteThread.MoveCurrentFrameToFreeList, ReadWriteThread.AddFrameToFreeList,
      ReadWriteThread.SignalInput, ReadWriteThread.MoveValidFrameToCurrent,
      ReadWriteThread.GetFirstValidFrame, ReadWriteThread.dataOf]

/-- C14, witness: a third `ReadFrame` after the sample run: it recycles frame 2, handed
out by the second call, and hands out frame 3, which holds the third frame read. -/
theorem C14_readFrame_success_witness :
    ∃ s1, readerFifoState.step .ReadFrame = some s1
      ∧ s1.client = .idle ∧ s1.aborted = false
      ∧ s1.statuses = readerFifoState.statuses ++ [Y4M_OK]
      ∧ s1.handedOut = readerFifoState.handedOut ++ [readerFifoState.thread.dataOf 3]
      ∧ s1.thread.m_pCurrentFrame = some 3
      ∧ s1.thread.m_pValidFrames = []
      ∧ s1.thread.m_pFreeFrames
          = readerFifoState.thread.m_pCurrentFrame.toList
            ++ readerFifoState.thread.m_pFreeFrames
      ∧ s1.thread.planes = readerFifoState.thread.planes :=
  C14_readFrame_success readerFifoState 3 [] rfl rfl rfl
/-- C17 (writer hand-out and publish): `GetSpaceToWriteFrame` called on a writer with no
current frame and a free list `f :: rest` returns `Y4M_OK` without waiting and makes `f`
the current frame; `WriteFrame`, called while `f` is the current frame, appends exactly
`f` (holding the data the client stored in the planes it was handed) to the tail of the
valid list and leaves no current frame; and the steps of the worker in between do not
touch the current frame. -/
theorem C17_writer_handout_publish (s : WriterSys) (f : Frame) (rest : List Frame)
    (hab : s.aborted = false) (hc : s.client = .idle)
    (hcur : s.thread.m_pCurrentFrame = none)
    (hf : s.thread.m_pFreeFrames = f :: rest) :
    (∃ s1, s.step .GetSpaceToWriteFrame = some s1
      ∧ s1.client = .idle ∧ s1.aborted = false
      ∧ s1.statuses = s.statuses ++ [Y4M_OK]
      ∧ s1.thread.m_pCurrentFrame = some f
      ∧ s1.thread.m_pFreeFrames = rest
      ∧ s1.thread.m_pValidFrames = s.thread.m_pValidFrames
      ∧ ∀ data, ∃ s2, s1.step (.WriteFrame data) = some s2
        ∧ s2.aborted = false
        ∧ s2.thread.m_pValidFrames = s.thread.m_pValidFrames ++ [f]
        ∧ s2.thread.m_pCurrentFrame = none
        ∧ s2.thread.m_pFreeFrames = rest
        ∧ s2.thread.planes = s.thread.planes.set f data
        ∧ s2.published = s.published ++ [data])
    ∧ (∀ (t : WriterSys) data, t.aborted = false → t.client = .idle →
        t.thread.m_pCurrentFrame = some f →
        ∃ t1, t.step (.WriteFrame data) = some t1
          ∧ t1.aborted = false
          ∧ t1.thread.m_pValidFrames = t.thread.m_pValidFrames ++ [f]
          ∧ t1.thread.m_pCurrentFrame = none
          ∧ t1.thread.m_pFreeFrames = t.thread.m_pFreeFrames
          ∧ t1.thread.planes = t.thread.planes.set f data
          ∧ t1.published = t.published ++ [data])
    ∧ (∀ (t t1 : WriterSys) nErr,
        t.step .workerStep = some t1 ∨ t.step (.workerWrite nErr) = some t1 →
        t1.thread.m_pCurrentFrame = t.thread.m_pCurrentFrame ∧ t1.client = t.client) := by
  refine ⟨?_, ?_, ?_⟩
  · rcases s with ⟨⟨wi, wo, wl, rv, pl, vl, cur, fl⟩, w, c, j, ab, pu, wr, st⟩
    simp only at hab hc hcur hf
    subst hab hc hcur hf
    cases wo <;>
      simp [WriterSys.step, WriterSys.getSpaceToWriteFrame, WriterSys.getSpaceFinish,
        ReadWriteThread.MoveFreeFrameToCurrent, ReadWriteThread.GetFreeFrame,
        WriterSys.writeFrame, ReadWriteThread.MoveCurrentFrameToValidList,
        ReadWriteThread.AddFrameToValidList, ReadWriteThread.SignalOutput]
  · intro t data hab hc hcur
    rcases t with ⟨⟨wi, wo, wl, rv, pl, vl, cur, fl⟩, w, c, j, ab, pu, wr, st⟩
    simp only at hab hc hcur
    subst hab hc hcur
    cases wo <;>
      simp [WriterSys.step, WriterSys.writeFrame,
        ReadWriteThread.MoveCurrentFrameToValidList,
        ReadWriteThread.AddFrameToValidList, ReadWriteThread.SignalOutput]
  · intro t t1 nErr h
    rcases t with ⟨⟨wi, wo, wl, rv, pl, vl, cur, fl⟩, w, c, j, ab, pu, wr, st⟩
    rcases h with h | h <;>
      cases ab <;> cases w <;> cases vl <;> cases wi <;> cases wo <;> cases wl <;>
      simp [WriterSys.step, WriterSys.workerStep, WriterSys.workerWrite,
        WriterSys.workTakeValid, ReadWriteThread.GetFirstValidFrame,
        ReadWriteThread.WaitForOutput, ReadWriteThread.stopAndSignal,
        ReadWriteThread.SignalInput, ReadWriteThread.SignalOutput,
        ReadWriteThread.AddFrameToFreeList] at h <;>
      (try split at h) <;>
      (try subst h) <;>
      simp

/-- C17, witness: the first `GetSpaceToWriteFrame` after `Initialize` hands out frame 3,
the head of the free list. -/
theorem C17_writer_handout_publish_witness :
    ∃ s1, WriterSys.init.step .GetSpaceToWriteFrame = some s1
      ∧ s1.statuses = [Y4M_OK]
      ∧ s1.thread.m_pCurrentFrame = some 3
      ∧ s1.thread.m_pFreeFrames = [2, 1, 0]
      ∧ ∃ s2, s1.step (.WriteFrame 5) = some s2
        ∧ s2.thread.m_pValidFrames = [3]
        ∧ s2.thread.m_pCurrentFrame = none
        ∧ s2.thread.planes = [0, 0, 0, 5]
        ∧ s2.published = [5] := by
  obtain ⟨s1, h1, -, -, h2, h3, h4, -, h5⟩ :=
    (C17_writer_handout_publish WriterSys.init 3 [2, 1, 0] rfl rfl rfl rfl).1
  obtain ⟨s2, h6, -, h7, h8, -, h9, h10⟩ := h5 5
  exact ⟨s1, h1, h2, h3, h4, s2, h6, h7, h8, h9, h10⟩
/-- C18, as amended (back-pressure): after four successful reads with no `ReadFrame`
call the free list is empty, the four frames are in the valid list and there is no
current frame; the reader's next `Work` blocks in `WaitForInput`. The first `ReadFrame`
call after that hands out the oldest frame but recycles nothing: `SignalInput` is not
called, the flag stays raised and the reader stays blocked. The second `ReadFrame` call
recycles the frame handed out by the first and calls `SignalInput`, which clears the
flag; the reader then goes on and takes the recycled frame. -/
theorem C18_back_pressure_amended (d1 d2 d3 d4 : Content) :
    ∃ s, ReaderSys.init.run (readerFourReads d1 d2 d3 d4) = some s
      ∧ s.thread.m_pFreeFrames = [] ∧ s.thread.m_pValidFrames = [3, 2, 1, 0]
      ∧ s.thread.m_pCurrentFrame = none
      ∧ s.worker = .waiting ∧ s.thread.m_bWaitingForInput = true
      ∧ s.step .workerStep = none
      ∧ ∃ s1, s.step .ReadFrame = some s1
        ∧ s1.statuses = [Y4M_OK] ∧ s1.handedOut = [d1]
        ∧ s1.thread.m_pCurrentFrame = some 3 ∧ s1.thread.m_pFreeFrames = []
        ∧ s1.worker = .waiting ∧ s1.thread.m_bWaitingForInput = true
        ∧ s1.step .workerStep = none
        ∧ ∃ s2, s1.step .ReadFrame = some s2
          ∧ s2.statuses = [Y4M_OK, Y4M_OK] ∧ s2.handedOut = [d1, d2]
          ∧ s2.thread.m_pCurrentFrame = some 2 ∧ s2.thread.m_pFreeFrames = [3]
          ∧ s2.worker = .waiting ∧ s2.thread.m_bWaitingForInput = false
          ∧ ∃ s3, s2.step .workerStep = some s3
            ∧ s3.worker = .holding 3 ∧ s3.thread.m_pFreeFrames = [] := by
  have h0 : ReaderSys.init.run (readerFourReads d1 d2 d3 d4) = some
      { thread := { m_bWaitingForInput := true, m_bWaitingForOutput := false,
                    m_bWorkLoop := true, m_nWorkRetval := Y4M_OK,
                    planes := [d4, d3, d2, d1], m_pValidFrames := [3, 2, 1, 0],
                    m_pCurrentFrame := none, m_pFreeFrames := [] },
        worker := .waiting, client := .idle, joined := false, aborted := false,
        framesRead := [d1, d2, d3, d4], handedOut := [], statuses := [] } := by
    simp [readerFourReads, ReaderSys.run, ReaderSys.step, ReaderSys.init,
      ReaderSys.workerStep, ReaderSys.workerRead, ReaderSys.workTakeFree,
      ReadWriteThread.Initialize, ReadWriteThread.allocateFrames,
      ReadWriteThread.constructed, m_kNumFrames, ReadWriteThread.GetFreeFrame,
      ReadWriteThread.AddFrameToValidList, ReadWriteThread.WaitForInput, Y4M_OK]
  refine ⟨_, h0, rfl, rfl, rfl, rfl, rfl, ?_,
    { thread := { m_bWaitingForInput := true, m_bWaitingForOutput := false,
                  m_bWorkLoop := true, m_nWorkRetval := Y4M_OK,
                  planes := [d4, d3, d2, d1], m_pValidFrames := [2, 1, 0],
                  m_pCurrentFrame := some 3, m_pFreeFrames := [] },
      worker := .waiting, client := .idle, joined := false, aborted := false,
      framesRead := [d1, d2, d3, d4], handedOut := [d1], statuses := [Y4M_OK] },
    ?_, rfl, rfl, rfl, rfl, rfl, rfl, ?_,
    { thread := { m_bWaitingForInput := false, m_bWaitingForOutput := false,
                  m_bWorkLoop := true, m_nWorkRetval := Y4M_OK,
                  planes := [d4, d3, d2, d1], m_pValidFrames := [1, 0],
                  m_pCurrentFrame := some 2, m_pFreeFrames := [3] },
      worker := .waiting, client := .idle, joined := false, aborted := false,
      framesRead := [d1, d2, d3, d4], handedOut := [d1, d2],
      statuses := [Y4M_OK, Y4M_OK] },
    ?_, rfl, rfl, rfl, rfl, rfl, rfl,
    { thread := { m_bWaitingForInput := false, m_bWaitingForOutput := false,
                  m_bWorkLoop := true, m_nWorkRetval := Y4M_OK,
                  planes := [d4, d3, d2, d1], m_pValidFrames := [1, 0],
                  m_pCurrentFrame := some 2, m_pFreeFrames := [] },
      worker := .holding 3, client := .idle, joined := false, aborted := false,
      framesRead := [d1, d2, d3, d4], handedOut := [d1, d2],
      statuses := [Y4M_OK, Y4M_OK] },
    ?_, rfl, rfl⟩ <;>
    simp [ReaderSys.step, ReaderSys.workerStep, ReaderSys.workTakeFree,
      ReaderSys.readFrame, ReaderSys.readFrameFinish, ReadWriteThread.GetFreeFrame,
      ReadWriteThread.MoveCurrentFrameToFreeList, ReadWriteThread.AddFrameToFreeList,
      ReadWriteThread.SignalInput, ReadWriteThread.MoveValidFrameToCurrent,
      ReadWriteThread.GetFirstValidFrame, ReadWriteThread.dataOf]

/-- C18, counterexample to the claim as stated: in the state reached after four
successful reads (data 7, 9, 11, 13) and the blocking `Work` step, a `ReadFrame` call
returns `Y4M_OK` but does not wake the reader: the waiting-for-input flag is still
raised, the free list is still empty and the worker cannot take a step. -/
theorem C18_back_pressure_counterexample :
    ((ReaderSys.init.run (readerFourReads 7 9 11 13)).bind
        (fun s => s.step .ReadFrame)).map
      (fun s1 => (s1.statuses, s1.thread.m_bWaitingForInput, s1.worker,
        s1.thread.m_pFreeFrames, s1.step .workerStep))
      = some ([Y4M_OK], true, .waiting, [], none) := by
  rfl

/-! ### The writer's drain -/

theorem writer_workerStep_drain (s s1 : WriterSys) (h : s.DrainInv)
    (hs : s.workerStep = some s1) : s1.DrainInv := by
  rcases s with ⟨⟨wi, wo, wl, rv, pl, vl, cur, fl⟩, w, c, j, ab, pu, wr, st⟩
  cases w <;> cases vl <;> cases wi <;> cases wo <;> cases wl <;>
    simp [WriterSys.workerStep, WriterSys.workTakeValid,
      ReadWriteThread.GetFirstValidFrame,
      ReadWriteThread.WaitForOutput, ReadWriteThread.stopAndSignal,
      ReadWriteThread.SignalInput, ReadWriteThread.SignalOutput] at hs <;>
    (try split at hs) <;>
    (try subst hs) <;>
    simp_all [WriterSys.DrainInv, Y4M_OK, Y4M_ERR_EOF]

theorem writer_workerWrite_drain (s s1 : WriterSys) (h : s.DrainInv)
    (hs : s.workerWrite Y4M_OK = some s1) : s1.DrainInv := by
  rcases s with ⟨⟨wi, wo, wl, rv, pl, vl, cur, fl⟩, w, c, j, ab, pu, wr, st⟩
  cases w <;> cases wi <;>
    simp [WriterSys.workerWrite, ReadWriteThread.AddFrameToFreeList,
      ReadWriteThread.SignalInput] at hs <;>
    subst hs <;>
    simp_all [WriterSys.DrainInv]

theorem writer_getSpaceToWriteFrame_drain (s s1 : WriterSys) (h : s.DrainInv)
    (hs : s.getSpaceToWriteFrame = some s1) : s1.DrainInv := by
  rcases s with ⟨⟨wi, wo, wl, rv, pl, vl, cur, fl⟩, w, c, j, ab, pu, wr, st⟩
  cases c <;> cases cur <;> cases fl <;> cases wi <;> cases wl <;>
    simp [WriterSys.getSpaceToWriteFrame, WriterSys.getSpaceFinish,
      ReadWriteThread.MoveFreeFrameToCurrent, ReadWriteThread.GetFreeFrame,
      ReadWriteThread.WaitForInput] at hs <;>
    subst hs <;>
    (try simp_all [WriterSys.DrainInv]) <;>
    (try tauto)

theorem writer_writeFrame_drain (s s1 : WriterSys) (data : Content) (h : s.DrainInv)
    (hs : s.writeFrame data = some s1) : s1.DrainInv := by
  rcases s with ⟨⟨wi, wo, wl, rv, pl, vl, cur, fl⟩, w, c, j, ab, pu, wr, st⟩
  cases c <;> cases cur <;> cases wo <;>
    simp [WriterSys.writeFrame, ReadWriteThread.MoveCurrentFrameToValidList,
      ReadWriteThread.AddFrameToValidList, ReadWriteThread.SignalOutput] at hs <;>
    subst hs <;>
    (try simp_all [WriterSys.DrainInv]) <;>
    (try tauto)

theorem writer_clientStep_drain (s s1 : WriterSys) (h : s.DrainInv)
    (hs : s.clientStep = some s1) : s1.DrainInv := by
  rcases s with ⟨⟨wi, wo, wl, rv, pl, vl, cur, fl⟩, w, c, j, ab, pu, wr, st⟩
  cases c with
  | idle => simp [WriterSys.clientStep] at hs
  | waiting =>
    cases cur <;> cases fl <;> cases wi <;>
      simp [WriterSys.clientStep, WriterSys.getSpaceFinish,
        ReadWriteThread.MoveFreeFrameToCurrent, ReadWriteThread.GetFreeFrame] at hs <;>
      subst hs <;>
      (try simp_all [WriterSys.DrainInv]) <;>
      (try tauto)
  | failing =>
    simp only [WriterSys.clientStep] at hs
    split at hs <;> simp only [Option.some.injEq] at hs <;> subst hs <;>
      (try simp_all [WriterSys.DrainInv]) <;>
      (try tauto)
  | joining =>
    simp only [WriterSys.clientStep] at hs
    split at hs
    · simp only [Option.some.injEq] at hs
      subst hs
      simp [WriterSys.DrainInv]
    · simp at hs

theorem writer_forceShutdown_drain (s s1 : WriterSys) (h : s.DrainInv)
    (hs : s.forceShutdown = some s1) : s1.DrainInv := by
  rcases s with ⟨⟨wi, wo, wl, rv, pl, vl, cur, fl⟩, w, c, j, ab, pu, wr, st⟩
  cases c <;> cases j <;> cases wi <;> cases wo <;>
    simp [WriterSys.forceShutdown, ReadWriteThread.stopAndSignal,
      ReadWriteThread.SignalInput, ReadWriteThread.SignalOutput] at hs <;>
    subst hs <;>
    (try simp_all [WriterSys.DrainInv]) <;>
    (try tauto)
theorem writer_step_drain (s s1 : WriterSys) (a : WriterAction)
    (ha : ∀ nErr, a = .workerWrite nErr → nErr = Y4M_OK) (h : s.DrainInv)
    (hs : s.step a = some s1) : s1.DrainInv := by
  unfold WriterSys.step at hs
  split at hs
  · exact absurd hs (by simp)
  · cases a with
    | workerStep => exact writer_workerStep_drain s s1 h hs
    | workerWrite nErr =>
      rw [ha nErr rfl] at hs
      exact writer_workerWrite_drain s s1 h hs
    | GetSpaceToWriteFrame => exact writer_getSpaceToWriteFrame_drain s s1 h hs
    | WriteFrame data => exact writer_writeFrame_drain s s1 data h hs
    | clientStep => exact writer_clientStep_drain s s1 h hs
    | ForceShutdown => exact writer_forceShutdown_drain s s1 h hs

theorem writer_run_drain (acts : List WriterAction) (s s1 : WriterSys)
    (ha : ∀ nErr, WriterAction.workerWrite nErr ∈ acts → nErr = Y4M_OK)
    (h : s.DrainInv) (hs : s.run acts = some s1) : s1.DrainInv := by
  induction acts generalizing s with
  | nil =>
    simp only [WriterSys.run, Option.some.injEq] at hs
    exact hs ▸ h
  | cons a rest ih =>
    simp only [WriterSys.run] at hs
    split at hs
    · exact absurd hs (by simp)
    · rename_i s2 h2
      exact ih s2 (fun n hn => ha n (List.mem_cons_of_mem _ hn))
        (writer_step_drain s s2 a (fun n hn => ha n (hn ▸ List.mem_cons_self _ _)) h h2) hs

theorem writer_init_drain : WriterSys.init.DrainInv := by
  simp [WriterSys.DrainInv, WriterSys.init, ReadWriteThread.Initialize]

/-- C13, as amended (writer drain): in a run of the writer in which no `y4m_write_frame`
call has failed, once `ForceShutdown` has been called (the client is blocked in
`pthread_join`) and the worker has left its work loop, every frame published with
`WriteFrame` has been passed to `y4m_write_frame`, in the order of submission, and the
valid list is empty; this is also so in the state in which `ForceShutdown` returns. -/
theorem C13_writer_drain_amended (acts : List WriterAction) (s : WriterSys)
    (hok : ∀ nErr, WriterAction.workerWrite nErr ∈ acts → nErr = Y4M_OK)
    (hrun : WriterSys.init.run acts = some s)
    (hc : s.client = .joining) (hw : s.worker = .exiting ∨ s.worker = .done) :
    s.written = s.published ∧ s.thread.m_pValidFrames = []
    ∧ ∀ s1, s.step .clientStep = some s1 →
        s1.joined = true ∧ s1.client = .idle
        ∧ s1.written = s1.published ∧ s1.thread.m_pValidFrames = [] := by
  have hd := (writer_run_drain acts _ s hok writer_init_drain hrun).2 hc
  have hinv := (writer_run_inv acts _ s writer_init_inv hrun).2
  have hv : s.thread.m_pValidFrames = [] := hd.2.2 hw
  have hh : s.worker.held = [] := by
    rcases hw with e | e <;> rw [e] <;> rfl
  have hwp : s.written = s.published := by
    rw [hv, hh] at hinv
    simpa [contentsOf] using hinv
  refine ⟨hwp, hv, fun s1 h1 => ?_⟩
  unfold WriterSys.step at h1
  split at h1
  · exact absurd h1 (by simp)
  · simp only [WriterSys.clientStep, hc] at h1
    split at h1
    · simp only [Option.some.injEq] at h1
      subst h1
      exact ⟨rfl, rfl, hwp, hv⟩
    · exact absurd h1 (by simp)

/-- C13, witness: two frames are published, `ForceShutdown` is called, and the worker
writes both and leaves its loop. -/
theorem C13_writer_drain_amended_witness :
    ∃ s, WriterSys.init.run writerDrainRun = some s
      ∧ s.client = .joining ∧ s.worker = .exiting
      ∧ s.published = [5, 6]
      ∧ s.written = s.published ∧ s.thread.m_pValidFrames = []
      ∧ ∀ s1, s.step .clientStep = some s1 →
          s1.joined = true ∧ s1.client = .idle
          ∧ s1.written = s1.published ∧ s1.thread.m_pValidFrames = [] :=
  ⟨_, rfl, rfl, rfl, rfl,
    C13_writer_drain_amended writerDrainRun _
      (fun n hn => by simpa [writerDrainRun] using hn) rfl rfl (Or.inl rfl)⟩

/-- C13, counterexample to the claim as stated: two frames (data 5 and 6) are published,
`ForceShutdown` is called, and the first `y4m_write_frame` fails. The worker leaves its
loop at once; when `ForceShutdown` returns, only the first frame has been passed to
`y4m_write_frame` and the second is still in the valid list. -/
theorem C13_writer_drain_counterexample :
    (WriterSys.init.run writerFailedWriteRun).map
        (fun s => (s.joined, s.worker, s.published, s.written, s.thread.m_pValidFrames))
      = some (true, .done, [5, 6], [5], [2]) := by
  rfl

/-! ### The reader's terminal status -/

set_option maxHeartbeats 1000000 in
theorem reader_workerStep_control (s s1 : ReaderSys) (h : s.ControlInv)
    (hab : s.aborted = false) (hs : s.workerStep = some s1) :
    s1.ControlInv ∧ s.StatusStep s1 := by
  rcases s with ⟨⟨wi, wo, wl, rv, pl, vl, cur, fl⟩, w, c, j, ab, fr, ho, st⟩
  simp only at hab
  subst hab
  cases w with
  | loopHead =>
    cases wl <;> simp [ReaderSys.workerStep] at hs <;> subst hs <;>
      simp_all [ReaderSys.ControlInv, ReaderSys.StatusStep, ReaderSys.Terminal]
  | workStart =>
    cases fl <;> cases wl <;> cases wi <;>
      simp [ReaderSys.workerStep, ReaderSys.workTakeFree, ReadWriteThread.GetFreeFrame,
        ReadWriteThread.WaitForInput] at hs <;>
      subst hs <;>
      simp_all [ReaderSys.ControlInv, ReaderSys.StatusStep, ReaderSys.Terminal]
  | waiting =>
    cases fl <;> cases wi <;>
      simp [ReaderSys.workerStep, ReaderSys.workTakeFree, ReadWriteThread.GetFreeFrame]
        at hs <;>
      subst hs <;>
      simp_all [ReaderSys.ControlInv, ReaderSys.StatusStep, ReaderSys.Terminal]
  | holding f => simp [ReaderSys.workerStep] at hs
  | returned n =>
    by_cases hn : n = Y4M_OK <;>
      simp [ReaderSys.workerStep, hn] at hs <;> subst hs <;>
      simp_all [ReaderSys.ControlInv, ReaderSys.StatusStep, ReaderSys.Terminal]
  | exiting =>
    by_cases hr : rv = Y4M_OK <;> cases wi <;> cases wo <;>
      simp [ReaderSys.workerStep, ReadWriteThread.stopAndSignal,
        ReadWriteThread.SignalInput, ReadWriteThread.SignalOutput, hr] at hs <;>
      subst hs <;>
      simp_all [ReaderSys.ControlInv, ReaderSys.StatusStep, ReaderSys.Terminal]
  | done => simp [ReaderSys.workerStep] at hs

set_option maxHeartbeats 1000000 in
theorem reader_workerRead_control (s s1 : ReaderSys) (nErr : Int) (data : Content)
    (h : s.ControlInv) (hs : s.workerRead nErr data = some s1) :
    s1.ControlInv ∧ s.StatusStep s1 := by
  rcases s with ⟨⟨wi, wo, wl, rv, pl, vl, cur, fl⟩, w, c, j, ab, fr, ho, st⟩
  cases w with
  | holding f =>
    by_cases hn : nErr = Y4M_OK <;> cases wo <;> cases c <;>
      simp [ReaderSys.workerRead, ReadWriteThread.AddFrameToValidList,
        ReadWriteThread.AddFrameToFreeList, ReadWriteThread.SignalOutput, hn] at hs <;>
      subst hs <;>
      simp_all [ReaderSys.ControlInv, ReaderSys.StatusStep, ReaderSys.Terminal]
  | _ => simp [ReaderSys.workerRead] at hs

set_option maxHeartbeats 1000000 in
theorem reader_readFrame_control (s s1 : ReaderSys) (h : s.ControlInv)
    (hab : s.aborted = false) (hs : s.readFrame = some s1) :
    s1.ControlInv ∧ s.StatusStep s1 := by
  rcases s with ⟨⟨wi, wo, wl, rv, pl, vl, cur, fl⟩, w, c, j, ab, fr, ho, st⟩
  simp only at hab
  subst hab
  cases c with
  | idle =>
    cases cur <;> cases vl <;> cases wl <;> cases wi <;> cases wo <;>
      simp [ReaderSys.readFrame, ReaderSys.readFrameFinish,
        ReadWriteThread.MoveCurrentFrameToFreeList, ReadWriteThread.AddFrameToFreeList,
        ReadWriteThread.SignalInput, ReadWriteThread.WaitForOutput,
        ReadWriteThread.MoveValidFrameToCurrent, ReadWriteThread.GetFirstValidFrame]
        at hs <;>
      subst hs <;>
      simp_all [ReaderSys.ControlInv, ReaderSys.StatusStep, ReaderSys.Terminal]
  | _ => simp [ReaderSys.readFrame] at hs

set_option maxHeartbeats 1000000 in
theorem reader_clientStep_control (s s1 : ReaderSys) (h : s.ControlInv)
    (hab : s.aborted = false) (hs : s.clientStep = some s1) :
    s1.ControlInv ∧ s.StatusStep s1 := by
  rcases s with ⟨⟨wi, wo, wl, rv, pl, vl, cur, fl⟩, w, c, j, ab, fr, ho, st⟩
  simp only at hab
  subst hab
  cases c with
  | idle => simp [ReaderSys.clientStep] at hs
  | waiting =>
    cases cur <;> cases vl <;> cases wo <;>
      simp [ReaderSys.clientStep, ReaderSys.readFrameFinish,
        ReadWriteThread.MoveValidFrameToCurrent, ReadWriteThread.GetFirstValidFrame]
        at hs <;>
      subst hs <;>
      simp_all [ReaderSys.ControlInv, ReaderSys.StatusStep, ReaderSys.Terminal]
  | failing =>
    by_cases hr : rv = Y4M_OK <;>
      simp [ReaderSys.clientStep, hr] at hs <;> subst hs <;>
      simp_all [ReaderSys.ControlInv, ReaderSys.StatusStep, ReaderSys.Terminal]
  | joining =>
    by_cases hw : w = .done
    · simp [ReaderSys.clientStep, hw] at hs
      subst hs
      simp_all [ReaderSys.ControlInv, ReaderSys.StatusStep, ReaderSys.Terminal]
    · simp [ReaderSys.clientStep, hw] at hs

set_option maxHeartbeats 1000000 in
theorem reader_forceShutdown_control (s s1 : ReaderSys) (h : s.ControlInv)
    (hs : s.forceShutdown = some s1) : s1.ControlInv ∧ s.StatusStep s1 := by
  rcases s with ⟨⟨wi, wo, wl, rv, pl, vl, cur, fl⟩, w, c, j, ab, fr, ho, st⟩
  cases c <;> cases j <;> cases wi <;> cases wo <;>
    simp [ReaderSys.forceShutdown, ReadWriteThread.stopAndSignal,
      ReadWriteThread.SignalInput, ReadWriteThread.SignalOutput] at hs <;>
    subst hs <;>
    simp_all [ReaderSys.ControlInv, ReaderSys.StatusStep, ReaderSys.Terminal]

theorem reader_step_control (s s1 : ReaderSys) (a : ReaderAction) (h : s.ControlInv)
    (hs : s.step a = some s1) : s1.ControlInv ∧ s.StatusStep s1 := by
  unfold ReaderSys.step at hs
  split at hs
  · exact absurd hs (by simp)
  · rename_i hab
    have hab : s.aborted = false := by simpa using hab
    cases a with
    | workerStep => exact reader_workerStep_control s s1 h hab hs
    | workerRead nErr data => exact reader_workerRead_control s s1 nErr data h hs
    | ReadFrame => exact reader_readFrame_control s s1 h hab hs
    | clientStep => exact reader_clientStep_control s s1 h hab hs
    | ForceShutdown => exact reader_forceShutdown_control s s1 h hs

theorem sticky_of_statusStep (s s1 : ReaderSys) (h : s.StickyInv) (hc : s1.ControlInv)
    (hst : s.StatusStep s1) : s1.StickyInv := by
  obtain ⟨-, hT, hR, hP⟩ := h
  rcases hst with ⟨e, hterm⟩ | ⟨e, hnt⟩ | ⟨e, ht1, hrv⟩
  · refine ⟨hc, fun hx => (hterm (hT (e ▸ hx))).1, fun x hx hne => ?_, e ▸ hP⟩
    rw [e] at hx
    rw [(hterm (hT ⟨x, hx, hne⟩)).2]
    exact hR x hx hne
  · have hall : ∀ x ∈ s.statuses, x = Y4M_OK := by
      intro x hx
      by_contra hne
      exact hnt (hT ⟨x, hx, hne⟩)
    have hall1 : ∀ x ∈ s1.statuses, x = Y4M_OK := by
      intro x hx
      rw [e, List.mem_append, List.mem_singleton] at hx
      exact hx.elim (hall x) id
    refine ⟨hc, fun ⟨x, hx, hne⟩ => absurd (hall1 x hx) hne,
      fun x hx hne => absurd (hall1 x hx) hne, ?_⟩
    rw [e, List.pairwise_append]
    exact ⟨hP, List.pairwise_singleton _ _, fun x hx y _ hne => absurd (hall x hx) hne⟩
  · refine ⟨hc, fun _ => ht1, fun x hx hne => ?_, ?_⟩
    · rw [e, List.mem_append, List.mem_singleton] at hx
      rw [hrv]
      exact hx.elim (fun hx => hR x hx hne) id
    · rw [e, List.pairwise_append]
      refine ⟨hP, List.pairwise_singleton _ _, fun x hx y hy hne => ?_⟩
      rw [List.mem_singleton.mp hy]
      exact (hR x hx hne).symm

theorem reader_run_sticky (acts : List ReaderAction) (s s1 : ReaderSys)
    (h : s.StickyInv) (hs : s.run acts = some s1) : s1.StickyInv := by
  induction acts generalizing s with
  | nil =>
    simp only [ReaderSys.run, Option.some.injEq] at hs
    exact hs ▸ h
  | cons a rest ih =>
    simp only [ReaderSys.run] at hs
    split at hs
    · exact absurd hs (by simp)
    · rename_i s2 h2
      obtain ⟨hc, hst⟩ := reader_step_control s s2 a h.1 h2
      exact ih s2 (sticky_of_statusStep s s2 h hc hst) hs

theorem reader_init_sticky : ReaderSys.init.StickyInv := by
  simp [ReaderSys.StickyInv, ReaderSys.ControlInv, ReaderSys.init,
    ReadWriteThread.Initialize, ReadWriteThread.allocateFrames,
    ReadWriteThread.constructed]

theorem terminal_readFrame (s : ReaderSys) (h : s.Terminal) (hc : s.client = .idle) :
    ∃ s1 s2, s.step .ReadFrame = some s1 ∧ s1.step .clientStep = some s2
      ∧ s2.statuses = s.statuses ++ [s.thread.m_nWorkRetval] ∧ s2.client = .idle
      ∧ s2.thread = s.thread := by
  rcases s with ⟨⟨wi, wo, wl, rv, pl, vl, cur, fl⟩, w, c, j, ab, fr, ho, st⟩
  obtain ⟨h1, h2, h3, h4, h5, h6, -⟩ := h
  simp only at h1 h2 h3 h4 h5 h6 hc
  subst h2 h3 h4 h5 h6 hc
  simp [ReaderSys.step, ReaderSys.readFrame, ReaderSys.readFrameFinish,
    ReaderSys.clientStep, h1]

/-- C16 (sticky terminal status): in every reachable state of the reader, of any two
`ReadFrame` calls that have returned, if the earlier returned a status other than
`Y4M_OK` then the later returned the same status (so never `Y4M_OK`); and after such a
return a further `ReadFrame` call does return, with that status again. -/
theorem C16_sticky_terminal_status (s : ReaderSys) (h : s.Reachable) :
    s.statuses.Pairwise (fun x y => x ≠ Y4M_OK → y = x)
    ∧ ∀ x ∈ s.statuses, x ≠ Y4M_OK → s.client = .idle →
        ∃ s1 s2, s.step .ReadFrame = some s1 ∧ s1.step .clientStep = some s2
          ∧ s2.statuses = s.statuses ++ [x] ∧ s2.client = .idle := by
  obtain ⟨acts, hacts⟩ := h
  obtain ⟨-, hT, hR, hP⟩ := reader_run_sticky acts _ s reader_init_sticky hacts
  refine ⟨hP, fun x hx hne hc => ?_⟩
  rw [hR x hx hne]
  obtain ⟨s1, s2, h1, h2, h3, h4, -⟩ := terminal_readFrame s (hT ⟨x, hx, hne⟩) hc
  exact ⟨s1, s2, h1, h2, h3, h4⟩

/-- C16, witness: the first read fails with `Y4M_ERR_EOF`, and `ReadFrame` is called
twice. -/
theorem C16_sticky_terminal_status_witness :
    readerEarlyEofState.statuses = [Y4M_ERR_EOF, Y4M_ERR_EOF]
    ∧ readerEarlyEofState.statuses.Pairwise (fun x y => x ≠ Y4M_OK → y = x)
    ∧ ∀ x ∈ readerEarlyEofState.statuses, x ≠ Y4M_OK →
        readerEarlyEofState.client = .idle →
        ∃ s1 s2, readerEarlyEofState.step .ReadFrame = some s1
          ∧ s1.step .clientStep = some s2
          ∧ s2.statuses = readerEarlyEofState.statuses ++ [x] ∧ s2.client = .idle :=
  ⟨rfl, C16_sticky_terminal_status readerEarlyEofState ⟨readerEarlyEofRun, rfl⟩⟩

/-! ### The reader when its first read fails -/

set_option maxHeartbeats 1000000 in
theorem reader_workerStep_early (s s1 : ReaderSys) (e : Int) (he : e ≠ Y4M_OK)
    (hab : s.aborted = false) (hs : s.workerStep = some s1) :
    (s.BeforeFirstRead → s1.BeforeFirstRead)
    ∧ (s.AfterFailedRead e → s1.AfterFailedRead e ∧ s1.statuses = s.statuses) := by
  rcases s with ⟨⟨wi, wo, wl, rv, pl, vl, cur, fl⟩, w, c, j, ab, fr, ho, st⟩
  simp only at hab
  subst hab
  cases w with
  | loopHead =>
    cases wl <;> simp [ReaderSys.workerStep] at hs <;> subst hs <;>
      simp_all [ReaderSys.BeforeFirstRead, ReaderSys.AfterFailedRead]
  | workStart =>
    cases fl <;> cases wl <;> cases wi <;>
      simp [ReaderSys.workerStep, ReaderSys.workTakeFree, ReadWriteThread.GetFreeFrame,
        ReadWriteThread.WaitForInput] at hs <;>
      subst hs <;>
      simp_all [ReaderSys.BeforeFirstRead, ReaderSys.AfterFailedRead, m_kNumFrames]
  | waiting =>
    simp [ReaderSys.BeforeFirstRead, ReaderSys.AfterFailedRead]
  | holding f => simp [ReaderSys.workerStep] at hs
  | returned n =>
    by_cases hn : n = Y4M_OK
    · simp [ReaderSys.workerStep, hn] at hs
      subst hs
      simp_all [ReaderSys.BeforeFirstRead, ReaderSys.AfterFailedRead]
      intro _ _ _ h4
      exact absurd h4.symm he
    · simp [ReaderSys.workerStep, hn] at hs
      subst hs
      simp_all [ReaderSys.BeforeFirstRead, ReaderSys.AfterFailedRead]
  | exiting =>
    by_cases hr : rv = Y4M_OK <;> cases wi <;> cases wo <;>
      simp [ReaderSys.workerStep, ReadWriteThread.stopAndSignal,
        ReadWriteThread.SignalInput, ReadWriteThread.SignalOutput, hr] at hs <;>
      subst hs <;>
      simp_all [ReaderSys.BeforeFirstRead, ReaderSys.AfterFailedRead]
  | done => simp [ReaderSys.workerStep] at hs

set_option maxHeartbeats 1000000 in
theorem reader_workerRead_early (s s1 : ReaderSys) (e : Int) (data : Content)
    (he : e ≠ Y4M_OK) (hab : s.aborted = false) (hs : s.workerRead e data = some s1) :
    s.BeforeFirstRead → s1.AfterFailedRead e ∧ s1.statuses = [] := by
  rcases s with ⟨⟨wi, wo, wl, rv, pl, vl, cur, fl⟩, w, c, j, ab, fr, ho, st⟩
  simp only at hab
  subst hab
  cases w with
  | holding f =>
    simp [ReaderSys.workerRead, ReadWriteThread.AddFrameToFreeList, he] at hs
    subst hs
    simp_all [ReaderSys.BeforeFirstRead, ReaderSys.AfterFailedRead, m_kNumFrames]
  | _ => simp [ReaderSys.workerRead] at hs

set_option maxHeartbeats 1000000 in
theorem reader_readFrame_early (s s1 : ReaderSys) (e : Int)
    (hab : s.aborted = false) (hs : s.readFrame = some s1) :
    (s.BeforeFirstRead → s1.BeforeFirstRead)
    ∧ (s.ControlInv → s.AfterFailedRead e →
        s1.AfterFailedRead e ∧ s1.statuses = s.statuses) := by
  rcases s with ⟨⟨wi, wo, wl, rv, pl, vl, cur, fl⟩, w, c, j, ab, fr, ho, st⟩
  simp only at hab
  subst hab
  cases c with
  | idle =>
    cases cur <;> cases vl <;> cases wl <;> cases wi <;> cases wo <;>
      simp [ReaderSys.readFrame, ReaderSys.readFrameFinish,
        ReadWriteThread.MoveCurrentFrameToFreeList, ReadWriteThread.AddFrameToFreeList,
        ReadWriteThread.SignalInput, ReadWriteThread.WaitForOutput,
        ReadWriteThread.MoveValidFrameToCurrent, ReadWriteThread.GetFirstValidFrame]
        at hs <;>
      subst hs <;>
      simp_all [ReaderSys.BeforeFirstRead, ReaderSys.AfterFailedRead,
        ReaderSys.ControlInv]
  | _ => simp [ReaderSys.readFrame] at hs

set_option maxHeartbeats 1000000 in
theorem reader_clientStep_early (s s1 : ReaderSys) (e : Int) (he : e ≠ Y4M_OK)
    (hab : s.aborted = false) (hs : s.clientStep = some s1) :
    (s.BeforeFirstRead → s1.BeforeFirstRead)
    ∧ (s.ControlInv → s.AfterFailedRead e →
        s1.AfterFailedRead e
        ∧ (s1.statuses = s.statuses ∨ s1.statuses = s.statuses ++ [e])) := by
  rcases s with ⟨⟨wi, wo, wl, rv, pl, vl, cur, fl⟩, w, c, j, ab, fr, ho, st⟩
  simp only at hab
  subst hab
  cases c with
  | idle => simp [ReaderSys.clientStep] at hs
  | waiting =>
    cases cur <;> cases vl <;> cases wo <;>
      simp [ReaderSys.clientStep, ReaderSys.readFrameFinish,
        ReadWriteThread.MoveValidFrameToCurrent, ReadWriteThread.GetFirstValidFrame]
        at hs <;>
      subst hs <;>
      simp_all [ReaderSys.BeforeFirstRead, ReaderSys.AfterFailedRead,
        ReaderSys.ControlInv]
  | failing =>
    by_cases hr : rv = Y4M_OK
    · simp [ReaderSys.clientStep, hr] at hs
      subst hs
      simp_all [ReaderSys.BeforeFirstRead, ReaderSys.AfterFailedRead,
        ReaderSys.ControlInv]
      intros
      exact fun h => he h.symm
    · simp [ReaderSys.clientStep, hr] at hs
      subst hs
      simp_all [ReaderSys.BeforeFirstRead, ReaderSys.AfterFailedRead,
        ReaderSys.ControlInv]
  | joining =>
    by_cases hw : w = .done
    · simp [ReaderSys.clientStep, hw] at hs
      subst hs
      simp_all [ReaderSys.BeforeFirstRead, ReaderSys.AfterFailedRead]
    · simp [ReaderSys.clientStep, hw] at hs

set_option maxHeartbeats 1000000 in
theorem reader_forceShutdown_early (s s1 : ReaderSys) (e : Int)
    (hs : s.forceShutdown = some s1) :
    (s.BeforeFirstRead → s1.BeforeFirstRead)
    ∧ (s.AfterFailedRead e → s1.AfterFailedRead e ∧ s1.statuses = s.statuses) := by
  rcases s with ⟨⟨wi, wo, wl, rv, pl, vl, cur, fl⟩, w, c, j, ab, fr, ho, st⟩
  cases c <;> cases j <;> cases wi <;> cases wo <;>
    simp [ReaderSys.forceShutdown, ReadWriteThread.stopAndSignal,
      ReadWriteThread.SignalInput, ReadWriteThread.SignalOutput] at hs <;>
    subst hs <;>
    simp_all [ReaderSys.BeforeFirstRead, ReaderSys.AfterFailedRead]

theorem reader_workerRead_after (s s1 : ReaderSys) (e nErr : Int) (data : Content)
    (hs : s.workerRead nErr data = some s1) : ¬ s.AfterFailedRead e := by
  rcases s with ⟨⟨wi, wo, wl, rv, pl, vl, cur, fl⟩, w, c, j, ab, fr, ho, st⟩
  cases w with
  | holding f => simp [ReaderSys.AfterFailedRead]
  | _ => simp [ReaderSys.workerRead] at hs

theorem reader_step_before (s s1 : ReaderSys) (a : ReaderAction)
    (hnr : ∀ n d, a ≠ .workerRead n d) (hb : s.BeforeFirstRead)
    (hs : s.step a = some s1) : s1.BeforeFirstRead := by
  unfold ReaderSys.step at hs
  split at hs
  · exact absurd hs (by simp)
  · rename_i hab
    have hab : s.aborted = false := by simpa using hab
    cases a with
    | workerStep =>
      exact (reader_workerStep_early s s1 Y4M_ERR_EOF (by decide) hab hs).1 hb
    | workerRead nErr data => exact absurd rfl (hnr nErr data)
    | ReadFrame => exact (reader_readFrame_early s s1 Y4M_ERR_EOF hab hs).1 hb
    | clientStep =>
      exact (reader_clientStep_early s s1 Y4M_ERR_EOF (by decide) hab hs).1 hb
    | ForceShutdown => exact (reader_forceShutdown_early s s1 Y4M_ERR_EOF hs).1 hb

theorem reader_step_first_read (s s1 : ReaderSys) (e : Int) (data : Content)
    (he : e ≠ Y4M_OK) (hb : s.BeforeFirstRead)
    (hs : s.step (.workerRead e data) = some s1) :
    s1.AfterFailedRead e ∧ s1.statuses = [] := by
  unfold ReaderSys.step at hs
  split at hs
  · exact absurd hs (by simp)
  · rename_i hab
    have hab : s.aborted = false := by simpa using hab
    exact reader_workerRead_early s s1 e data he hab hs hb

theorem reader_step_after (s s1 : ReaderSys) (a : ReaderAction) (e : Int)
    (he : e ≠ Y4M_OK) (hc : s.ControlInv) (ha : s.AfterFailedRead e)
    (hs : s.step a = some s1) :
    s1.AfterFailedRead e
      ∧ (s1.statuses = s.statuses ∨ s1.statuses = s.statuses ++ [e]) := by
  unfold ReaderSys.step at hs
  split at hs
  · exact absurd hs (by simp)
  · rename_i hab
    have hab : s.aborted = false := by simpa using hab
    cases a with
    | workerStep =>
      obtain ⟨h1, h2⟩ := (reader_workerStep_early s s1 e he hab hs).2 ha
      exact ⟨h1, Or.inl h2⟩
    | workerRead nErr data => exact absurd ha (reader_workerRead_after s s1 e nErr data hs)
    | ReadFrame =>
      obtain ⟨h1, h2⟩ := (reader_readFrame_early s s1 e hab hs).2 hc ha
      exact ⟨h1, Or.inl h2⟩
    | clientStep => exact (reader_clientStep_early s s1 e he hab hs).2 hc ha
    | ForceShutdown =>
      obtain ⟨h1, h2⟩ := (reader_forceShutdown_early s s1 e hs).2 ha
      exact ⟨h1, Or.inl h2⟩

theorem reader_run_after (acts : List ReaderAction) (s s1 : ReaderSys) (e : Int)
    (he : e ≠ Y4M_OK) (hc : s.ControlInv) (ha : s.AfterFailedRead e)
    (hst : ∀ x ∈ s.statuses, x = e) (hs : s.run acts = some s1) :
    s1.ControlInv ∧ s1.AfterFailedRead e ∧ ∀ x ∈ s1.statuses, x = e := by
  induction acts generalizing s with
  | nil =>
    simp only [ReaderSys.run, Option.some.injEq] at hs
    subst hs
    exact ⟨hc, ha, hst⟩
  | cons a rest ih =>
    simp only [ReaderSys.run] at hs
    split at hs
    · exact absurd hs (by simp)
    · rename_i s2 h2
      obtain ⟨ha2, hst2⟩ := reader_step_after s s2 a e he hc ha h2
      refine ih s2 (reader_step_control s s2 a hc h2).1 ha2 (fun x hx => ?_) hs
      rcases hst2 with h | h
      · exact hst x (h ▸ hx)
      · rw [h, List.mem_append, List.mem_singleton] at hx
        exact hx.elim (hst x) id

theorem reader_run_before (acts : List ReaderAction) (s s1 : ReaderSys) (e : Int)
    (he : e ≠ Y4M_OK) (hc : s.ControlInv) (hb : s.BeforeFirstRead)
    (hf : firstRead acts = some e) (hs : s.run acts = some s1) :
    s1.ControlInv ∧ s1.AfterFailedRead e ∧ ∀ x ∈ s1.statuses, x = e := by
  induction acts generalizing s with
  | nil => simp [firstRead] at hf
  | cons a rest ih =>
    simp only [ReaderSys.run] at hs
    split at hs
    · exact absurd hs (by simp)
    · rename_i s2 h2
      have hc2 := (reader_step_control s s2 a hc h2).1
      cases a with
      | workerRead nErr data =>
        simp only [firstRead, Option.some.injEq] at hf
        subst hf
        obtain ⟨ha2, hst2⟩ := reader_step_first_read s s2 nErr data he hb h2
        exact reader_run_after rest s2 s1 nErr he hc2 ha2
          (fun x hx => by rw [hst2] at hx; simp at hx) hs
      | workerStep =>
        exact ih s2 hc2 (reader_step_before s s2 _ (fun _ _ h => by cases h) hb h2)
          (by simpa [firstRead] using hf) hs
      | ReadFrame =>
        exact ih s2 hc2 (reader_step_before s s2 _ (fun _ _ h => by cases h) hb h2)
          (by simpa [firstRead] using hf) hs
      | clientStep =>
        exact ih s2 hc2 (reader_step_before s s2 _ (fun _ _ h => by cases h) hb h2)
          (by simpa [firstRead] using hf) hs
      | ForceShutdown =>
        exact ih s2 hc2 (reader_step_before s s2 _ (fun _ _ h => by cases h) hb h2)
          (by simpa [firstRead] using hf) hs

theorem reader_init_before : ReaderSys.init.BeforeFirstRead := by
  simp [ReaderSys.BeforeFirstRead, ReaderSys.init, ReadWriteThread.Initialize,
    ReadWriteThread.allocateFrames, ReadWriteThread.constructed, m_kNumFrames, Y4M_OK]

/-- C15, as amended (early EOF): in every run of the reader in which the first
`y4m_read_frame` returns a status `e` other than `Y4M_OK` (in particular
`Y4M_ERR_EOF`), every `ReadFrame` call that has returned has returned `e`; from the
return of that read on, all `m_kNumFrames = 4` frames are in the free list and there is
no current frame and no valid frame; and once the worker has finished, a `ReadFrame` call
does return `e`, leaving the pool as it is. -/
theorem C15_early_eof_amended (acts : List ReaderAction) (s : ReaderSys) (e : Int)
    (he : e ≠ Y4M_OK) (hf : firstRead acts = some e)
    (hrun : ReaderSys.init.run acts = some s) :
    (∀ x ∈ s.statuses, x = e)
    ∧ s.thread.m_pFreeFrames.length = m_kNumFrames
    ∧ s.thread.m_pCurrentFrame = none ∧ s.thread.m_pValidFrames = []
    ∧ (s.worker = .done → s.client = .idle →
        ∃ s1 s2, s.step .ReadFrame = some s1 ∧ s1.step .clientStep = some s2
          ∧ s2.statuses = s.statuses ++ [e]
          ∧ s2.thread.m_pFreeFrames.length = m_kNumFrames
          ∧ s2.thread.m_pCurrentFrame = none) := by
  obtain ⟨hc, ha, hst⟩ := reader_run_before acts _ s e he reader_init_sticky.1
    reader_init_before hf hrun
  obtain ⟨hv, hcur, hfl, hab, hw⟩ := ha
  refine ⟨hst, hfl, hcur, hv, fun hd hi => ?_⟩
  have hrv : s.thread.m_nWorkRetval = e := by
    rcases hw with ⟨h1, -⟩ | ⟨-, h2⟩
    · rw [hd] at h1
      cases h1
    · exact h2
  have hterm : s.Terminal :=
    ⟨hrv ▸ he, hd, hc.2.2.2.1 hd (hrv ▸ he), hv, hcur, hab, by rw [hi]; decide⟩
  obtain ⟨s1, s2, h1, h2, h3, -, h5⟩ := terminal_readFrame s hterm hi
  exact ⟨s1, s2, h1, h2, hrv ▸ h3, h5 ▸ hfl, h5 ▸ hcur⟩

/-- C15, witness: the first read returns `Y4M_ERR_EOF` and `ReadFrame` is called twice;
both calls have returned `Y4M_ERR_EOF`, and the free list holds the four frames. -/
theorem C15_early_eof_amended_witness :
    readerEarlyEofState.statuses = [Y4M_ERR_EOF, Y4M_ERR_EOF]
    ∧ readerEarlyEofState.thread.m_pFreeFrames = [3, 2, 1, 0]
    ∧ (∀ x ∈ readerEarlyEofState.statuses, x = Y4M_ERR_EOF)
    ∧ readerEarlyEofState.thread.m_pFreeFrames.length = m_kNumFrames
    ∧ readerEarlyEofState.thread.m_pCurrentFrame = none
    ∧ readerEarlyEofState.thread.m_pValidFrames = []
    ∧ (readerEarlyEofState.worker = .done → readerEarlyEofState.client = .idle →
        ∃ s1 s2, readerEarlyEofState.step .ReadFrame = some s1
          ∧ s1.step .clientStep = some s2
          ∧ s2.statuses = readerEarlyEofState.statuses ++ [Y4M_ERR_EOF]
          ∧ s2.thread.m_pFreeFrames.length = m_kNumFrames
          ∧ s2.thread.m_pCurrentFrame = none) :=
  ⟨rfl, rfl,
    C15_early_eof_amended readerEarlyEofRun readerEarlyEofState Y4M_ERR_EOF (by decide)
      rfl rfl⟩

/-- C15, counterexample to the claim as stated: the first `y4m_read_frame` returns
`Y4M_ERR_EOF` and `ReadFrame` is called once. It returns `Y4M_ERR_EOF`, and the free
list then holds all four frames, not three: `Work` has put the frame it had taken back
into the free list. -/
theorem C15_early_eof_counterexample :
    (ReaderSys.init.run
        [.workerStep, .workerStep, .workerRead Y4M_ERR_EOF 0, .workerStep, .workerStep,
         .ReadFrame, .clientStep]).map
      (fun s => (s.statuses, s.thread.m_pFreeFrames, s.thread.m_pFreeFrames.length,
        s.thread.m_pCurrentFrame))
      = some ([Y4M_ERR_EOF], [3, 2, 1, 0], 4, none) := by
  rfl

/-! ### The calls a per-plane routine makes to its engine -/

theorem tmod_eq_zero_iff (a b : Int) : Int.tmod a b = 0 ↔ a % b = 0 :=
  ⟨fun h => Int.emod_eq_zero_of_dvd (Int.dvd_of_tmod_eq_zero h),
   fun h => Int.tmod_eq_zero_of_dvd (Int.dvd_of_emod_eq_zero h)⟩

theorem purgeTestDefined_of_pos {σY σC : Type} (g : Globals σY σC)
    (hframes : 0 < g.denoiser.frames) : PurgeTestDefined g := by
  unfold PurgeTestDefined
  omega

theorem timeToPurge_eq {σY σC : Type} (g : Globals σY σC)
    (hframes : PurgeTestDefined g) :
    timeToPurge g = some (decide (g.frame % g.denoiser.frames = 0)) := by
  unfold timeToPurge
  rw [if_neg hframes]
  congr 1
  by_cases h : g.frame % g.denoiser.frames = 0
  · simp [h, (tmod_eq_zero_iff _ _).mpr h]
  · simp [h, mt (tmod_eq_zero_iff _ _).mp h]

theorem purgeCadence_base {Pixel_t : Type} (frame frames : Int)
    (before : List (EngineCall Pixel_t)) :
    PurgeCadence frame frames before
      (before ++ (if frame % frames = 0 then [EngineCall.Purge] else [])) :=
  ⟨[], by simp, by simp⟩

theorem purgeCadence_snoc {Pixel_t : Type} (frame frames : Int)
    (before after : List (EngineCall Pixel_t)) (c : EngineCall Pixel_t)
    (h : PurgeCadence frame frames before after) (hc : c.kind ≠ CallKind.Purge) :
    PurgeCadence frame frames before (after ++ [c]) := by
  obtain ⟨rest, e, hr⟩ := h
  refine ⟨rest ++ [c], by rw [e, List.append_assoc], fun d hd => ?_⟩
  rw [List.mem_append, List.mem_singleton] at hd
  rcases hd with hd | hd
  · exact hr d hd
  · exact hd ▸ hc

theorem frame_intensity_cadence {σY σC : Type} (E : Engines σY σC)
    (g : Globals (σY × List (EngineCall PixelY)) (σC × List (EngineCall PixelCbCr)))
    (a_pInputY a_pOutputY : Option Plane) (hframes : PurgeTestDefined g)
    (r : LumaResult (σY × List (EngineCall PixelY)) (σC × List (EngineCall PixelCbCr)))
    (h : newdenoise_frame_intensity E.recording g a_pInputY a_pOutputY = some r) :
    PurgeCadence g.frame g.denoiser.frames g.g_oMotionSearcherY.2
      r.globals.g_oMotionSearcherY.2 := by
  have hbase := purgeCadence_base g.frame g.denoiser.frames g.g_oMotionSearcherY.2
  unfold newdenoise_frame_intensity at h
  rw [timeToPurge_eq g hframes] at h
  by_cases hp : g.frame % g.denoiser.frames = 0 <;>
    simp only [hp, if_true, if_false, decide_True, decide_False, Bool.false_eq_true,
      List.append_nil, Engines.recording, MotionSearcher.recording] at h hbase <;>
    (repeat' split at h) <;>
    first
    | exact Option.noConfusion h
    | (simp only [Option.some.injEq] at h
       subst h
       repeat' (first
         | exact hbase
         | refine purgeCadence_snoc _ _ _ _ _ ?_ (by simp [EngineCall.kind])))

theorem frame_color_cadence {σY σC : Type} (E : Engines σY σC)
    (g : Globals (σY × List (EngineCall PixelY)) (σC × List (EngineCall PixelCbCr)))
    (a_pInputCb a_pInputCr a_pOutputCb a_pOutputCr : Option Plane)
    (hframes : PurgeTestDefined g)
    (r : ChromaResult (σY × List (EngineCall PixelY)) (σC × List (EngineCall PixelCbCr)))
    (h : newdenoise_frame_color E.recording g a_pInputCb a_pInputCr a_pOutputCb
      a_pOutputCr = some r) :
    PurgeCadence g.frame g.denoiser.frames g.g_oMotionSearcherCbCr.2
      r.globals.g_oMotionSearcherCbCr.2 := by
  have hbase := purgeCadence_base g.frame g.denoiser.frames g.g_oMotionSearcherCbCr.2
  unfold newdenoise_frame_color at h
  rw [timeToPurge_eq g hframes] at h
  by_cases hp : g.frame % g.denoiser.frames = 0 <;>
    simp only [hp, if_true, if_false, decide_True, decide_False, Bool.false_eq_true,
      List.append_nil, Engines.recording, MotionSearcher.recording] at h hbase <;>
    (repeat' split at h) <;>
    first
    | exact Option.noConfusion h
    | (simp only [Option.some.injEq] at h
       subst h
       repeat' (first
         | exact hbase
         | refine purgeCadence_snoc _ _ _ _ _ ?_ (by simp [EngineCall.kind])))

theorem addFieldY_log {σY σC : Type} (E : Engines σY σC)
    (g g1 : Globals (σY × List (EngineCall PixelY)) (σC × List (EngineCall PixelCbCr)))
    (inputY : Plane) (m : Nat) (eStatus : Status_t)
    (h : addFieldY E.recording g inputY m = some (eStatus, g1)) :
    ∃ staged, g1.g_oMotionSearcherY.2
      = g.g_oMotionSearcherY.2 ++ [EngineCall.AddFrame staged eStatus] := by
  unfold addFieldY at h
  split at h
  · exact Option.noConfusion h
  · split at h
    · exact Option.noConfusion h
    · simp only [Option.some.injEq, Prod.mk.injEq] at h
      obtain ⟨h1, h2⟩ := h
      subst h1 h2
      exact ⟨_, rfl⟩

theorem addFieldCbCr_log {σY σC : Type} (E : Engines σY σC)
    (g g1 : Globals (σY × List (EngineCall PixelY)) (σC × List (EngineCall PixelCbCr)))
    (inputCb inputCr : Plane) (m : Nat) (eStatus : Status_t)
    (h : addFieldCbCr E.recording g inputCb inputCr m = some (eStatus, g1)) :
    ∃ staged, g1.g_oMotionSearcherCbCr.2
      = g.g_oMotionSearcherCbCr.2 ++ [EngineCall.AddFrame staged eStatus] := by
  unfold addFieldCbCr at h
  split at h
  · exact Option.noConfusion h
  · split at h
    · exact Option.noConfusion h
    · simp only [Option.some.injEq, Prod.mk.injEq] at h
      obtain ⟨h1, h2⟩ := h
      subst h1 h2
      exact ⟨_, rfl⟩

theorem addFieldCbCrFrom_log {σY σC : Type} (E : Engines σY σC)
    (g g1 : Globals (σY × List (EngineCall PixelY)) (σC × List (EngineCall PixelCbCr)))
    (a_pInputCb : Option Plane) (inputCr : Plane) (m : Nat) (eStatus : Status_t)
    (h : addFieldCbCrFrom E.recording g a_pInputCb inputCr m = some (eStatus, g1)) :
    ∃ staged, g1.g_oMotionSearcherCbCr.2
      = g.g_oMotionSearcherCbCr.2 ++ [EngineCall.AddFrame staged eStatus] := by
  unfold addFieldCbCrFrom at h
  split at h
  · exact Option.noConfusion h
  · split at h
    · exact Option.noConfusion h
    · simp only [Option.some.injEq, Prod.mk.injEq] at h
      obtain ⟨h1, h2⟩ := h
      subst h1 h2
      exact ⟨_, rfl⟩

theorem purged_cadence {σY σC : Type} {Pixel_t : Type}
    (g : Globals σY σC) (before purged : List (EngineCall Pixel_t))
    (hpurged : purged = before ++ [EngineCall.Purge]) :
    PurgeCadence g.frame g.denoiser.frames before
      (if decide (g.frame % g.denoiser.frames = 0) = true then purged else before) := by
  have hbase := purgeCadence_base g.frame g.denoiser.frames before
  by_cases hp : g.frame % g.denoiser.frames = 0 <;>
    simp only [hp, if_true, if_false, decide_True, decide_False, Bool.false_eq_true,
      List.append_nil] at hbase ⊢
  · rw [hpurged]
    exact hbase
  · exact hbase

theorem interlaced_intensity_cadence {σY σC : Type} (E : Engines σY σC)
    (g : Globals (σY × List (EngineCall PixelY)) (σC × List (EngineCall PixelCbCr)))
    (a_pInputY a_pOutputY : Option Plane) (hframes : PurgeTestDefined g)
    (r : LumaResult (σY × List (EngineCall PixelY)) (σC × List (EngineCall PixelCbCr)))
    (h : newdenoise_interlaced_frame_intensity E.recording g a_pInputY a_pOutputY
      = some r) :
    PurgeCadence g.frame g.denoiser.frames g.g_oMotionSearcherY.2
      r.globals.g_oMotionSearcherY.2 := by
  unfold newdenoise_interlaced_frame_intensity at h
  rw [timeToPurge_eq g hframes] at h
  split at h
  · exact Option.noConfusion h
  simp only at h
  have hcad : PurgeCadence g.frame g.denoiser.frames g.g_oMotionSearcherY.2
      (if decide (g.frame % g.denoiser.frames = 0) = true
        then { g with g_oMotionSearcherY := E.recording.Y.Purge g.g_oMotionSearcherY }
        else g).g_oMotionSearcherY.2 := by
    have := purged_cadence g g.g_oMotionSearcherY.2
      (E.recording.Y.Purge g.g_oMotionSearcherY).2 rfl
    split at this <;> simp only [*, if_true, if_false, Bool.false_eq_true]
  generalize (if decide (g.frame % g.denoiser.frames = 0) = true
        then { g with g_oMotionSearcherY := E.recording.Y.Purge g.g_oMotionSearcherY }
        else g) = g1 at h hcad
  split at h
  · -- the flush path
    split at h
    · exact Option.noConfusion h
    split at h
    · exact Option.noConfusion h
    simp only [Option.some.injEq] at h
    subst h
    exact purgeCadence_snoc _ _ _ _ _
      (purgeCadence_snoc _ _ _ _ _ hcad (by simp [EngineCall.kind]))
      (by simp [EngineCall.kind])
  · -- the submit path
    rename_i inputY
    split at h
    · exact Option.noConfusion h
    split at h
    · exact Option.noConfusion h
    rename_i eStatus1 g3 ha1
    obtain ⟨staged1, hl3⟩ := addFieldY_log E _ g3 inputY _ eStatus1 ha1
    have hc3 : PurgeCadence g.frame g.denoiser.frames g.g_oMotionSearcherY.2
        g3.g_oMotionSearcherY.2 := by
      rw [hl3]
      exact purgeCadence_snoc _ _ _ _ _
        (purgeCadence_snoc _ _ _ _ _ hcad (by simp [EngineCall.kind]))
        (by simp [EngineCall.kind])
    split at h
    · simp only [Option.some.injEq] at h
      subst h
      exact hc3
    split at h
    · exact Option.noConfusion h
    split at h
    · exact Option.noConfusion h
    rename_i eStatus2 g5 ha2
    obtain ⟨staged2, hl5⟩ := addFieldY_log E _ g5 inputY _ eStatus2 ha2
    have hc5 : PurgeCadence g.frame g.denoiser.frames g.g_oMotionSearcherY.2
        g5.g_oMotionSearcherY.2 := by
      rw [hl5]
      exact purgeCadence_snoc _ _ _ _ _
        (purgeCadence_snoc _ _ _ _ _ hc3 (by simp [EngineCall.kind]))
        (by simp [EngineCall.kind])
    split at h <;>
      (simp only [Option.some.injEq] at h
       subst h
       exact hc5)

theorem interlaced_color_cadence {σY σC : Type} (E : Engines σY σC)
    (g : Globals (σY × List (EngineCall PixelY)) (σC × List (EngineCall PixelCbCr)))
    (a_pInputCb a_pInputCr a_pOutputCb a_pOutputCr : Option Plane)
    (hframes : PurgeTestDefined g)
    (r : ChromaResult (σY × List (EngineCall PixelY)) (σC × List (EngineCall PixelCbCr)))
    (h : newdenoise_interlaced_frame_color E.recording g a_pInputCb a_pInputCr
      a_pOutputCb a_pOutputCr = some r) :
    PurgeCadence g.frame g.denoiser.frames g.g_oMotionSearcherCbCr.2
      r.globals.g_oMotionSearcherCbCr.2 := by
  unfold newdenoise_interlaced_frame_color at h
  rw [timeToPurge_eq g hframes] at h
  split at h
  · exact Option.noConfusion h
  simp only at h
  have hcad : PurgeCadence g.frame g.denoiser.frames g.g_oMotionSearcherCbCr.2
      (if decide (g.frame % g.denoiser.frames = 0) = true
        then { g with g_oMotionSearcherCbCr := E.recording.CbCr.Purge g.g_oMotionSearcherCbCr }
        else g).g_oMotionSearcherCbCr.2 := by
    have := purged_cadence g g.g_oMotionSearcherCbCr.2
      (E.recording.CbCr.Purge g.g_oMotionSearcherCbCr).2 rfl
    split at this <;> simp only [*, if_true, if_false, Bool.false_eq_true]
  generalize (if decide (g.frame % g.denoiser.frames = 0) = true
        then { g with g_oMotionSearcherCbCr := E.recording.CbCr.Purge g.g_oMotionSearcherCbCr }
        else g) = g1 at h hcad
  split at h
  · -- the flush path
    split at h
    · exact Option.noConfusion h
    split at h
    · exact Option.noConfusion h
    simp only [Option.some.injEq] at h
    subst h
    exact purgeCadence_snoc _ _ _ _ _
      (purgeCadence_snoc _ _ _ _ _ hcad (by simp [EngineCall.kind]))
      (by simp [EngineCall.kind])
  · -- the submit path
    rename_i inputCr
    split at h
    · exact Option.noConfusion h
    split at h
    · exact Option.noConfusion h
    rename_i eStatus1 g3 ha1
    obtain ⟨staged1, hl3⟩ := addFieldCbCrFrom_log E _ g3 a_pInputCb inputCr _ eStatus1 ha1
    have hc3 : PurgeCadence g.frame g.denoiser.frames g.g_oMotionSearcherCbCr.2
        g3.g_oMotionSearcherCbCr.2 := by
      rw [hl3]
      exact purgeCadence_snoc _ _ _ _ _
        (purgeCadence_snoc _ _ _ _ _ hcad (by simp [EngineCall.kind]))
        (by simp [EngineCall.kind])
    split at h
    · simp only [Option.some.injEq] at h
      subst h
      exact hc3
    split at h
    · exact Option.noConfusion h
    split at h
    · exact Option.noConfusion h
    rename_i eStatus2 g5 ha2
    obtain ⟨staged2, hl5⟩ := addFieldCbCrFrom_log E _ g5 a_pInputCb inputCr _ eStatus2 ha2
    have hc5 : PurgeCadence g.frame g.denoiser.frames g.g_oMotionSearcherCbCr.2
        g5.g_oMotionSearcherCbCr.2 := by
      rw [hl5]
      exact purgeCadence_snoc _ _ _ _ _
        (purgeCadence_snoc _ _ _ _ _ hc3 (by simp [EngineCall.kind]))
        (by simp [EngineCall.kind])
    split at h <;>
      (simp only [Option.some.injEq] at h
       subst h
       exact hc5)

/-- C19 (purge cadence): with `denoiser.frames > 0`, every call of a per-plane routine
that returns, on the flush path and on the submit path alike, has made these calls to
its engine (read off an engine that records its calls, whatever engine it is otherwise):
first one `Purge` if `frame mod denoiser.frames = 0`, and after that, or from the start
if `frame mod denoiser.frames ≠ 0`, no `Purge` at all. -/
theorem C19_purge_cadence {σY σC : Type} (E : Engines σY σC)
    (g : Globals (σY × List (EngineCall PixelY)) (σC × List (EngineCall PixelCbCr)))
    (a_pInputY a_pInputCb a_pInputCr a_pOutputY a_pOutputCb a_pOutputCr : Option Plane)
    (hframes : 0 < g.denoiser.frames) :
    (∀ r, newdenoise_frame_intensity E.recording g a_pInputY a_pOutputY = some r →
      PurgeCadence g.frame g.denoiser.frames g.g_oMotionSearcherY.2
        r.globals.g_oMotionSearcherY.2)
    ∧ (∀ r, newdenoise_frame_color E.recording g a_pInputCb a_pInputCr a_pOutputCb
          a_pOutputCr = some r →
      PurgeCadence g.frame g.denoiser.frames g.g_oMotionSearcherCbCr.2
        r.globals.g_oMotionSearcherCbCr.2)
    ∧ (∀ r, newdenoise_interlaced_frame_intensity E.recording g a_pInputY a_pOutputY
          = some r →
      PurgeCadence g.frame g.denoiser.frames g.g_oMotionSearcherY.2
        r.globals.g_oMotionSearcherY.2)
    ∧ (∀ r, newdenoise_interlaced_frame_color E.recording g a_pInputCb a_pInputCr
          a_pOutputCb a_pOutputCr = some r →
      PurgeCadence g.frame g.denoiser.frames g.g_oMotionSearcherCbCr.2
        r.globals.g_oMotionSearcherCbCr.2) := by
  have hf : PurgeTestDefined g := purgeTestDefined_of_pos g hframes
  exact ⟨fun r h => frame_intensity_cadence E g a_pInputY a_pOutputY hf r h,
    fun r h => frame_color_cadence E g a_pInputCb a_pInputCr a_pOutputCb a_pOutputCr hf r h,
    fun r h => interlaced_intensity_cadence E g a_pInputY a_pOutputY hf r h,
    fun r h => interlaced_color_cadence E g a_pInputCb a_pInputCr a_pOutputCb
      a_pOutputCr hf r h⟩

/-- C19, witness: the first call after `newdenoise_init` (`frame = 0`,
`denoiser.frames = 1`) with the sample planes; the luma routine returns, having called
`Purge`, `GetFrameReadyForOutput` and `AddFrame`, in this order. -/
theorem C19_purge_cadence_witness :
    (newdenoise_frame_intensity (sampleEngines 1 none none).recording
        sampleGlobals.withRecords (some samplePlaneY) (some blankPlane)).map
      (fun r => r.globals.g_oMotionSearcherY.2.map EngineCall.kind)
      = some [.Purge, .GetFrameReadyForOutput, .AddFrame]
    ∧ (∀ r, newdenoise_frame_intensity (sampleEngines 1 none none).recording
          sampleGlobals.withRecords (some samplePlaneY) (some blankPlane) = some r →
        PurgeCadence sampleGlobals.withRecords.frame
          sampleGlobals.withRecords.denoiser.frames
          sampleGlobals.withRecords.g_oMotionSearcherY.2 r.globals.g_oMotionSearcherY.2) :=
  ⟨rfl, (C19_purge_cadence (sampleEngines 1 none none) sampleGlobals.withRecords
    (some samplePlaneY) (some samplePlaneCb) (some samplePlaneCr)
    (some blankPlane) (some blankPlane) (some blankPlane) (by decide)).1⟩

/-! ### Loops: what a staging loop leaves behind -/

theorem fieldRow_stage {α β : Type} (body : Nat → Nat → α → Option α)
    (obs : α → Nat → β) (src : Nat → β)
    (hbody : ∀ index i s, ∃ s1, body index i s = some s1
      ∧ ∀ j, obs s1 j = if j = i then src index else obs s j)
    (W y i : Nat) (s : α) :
    ∃ s1, fieldRow body W y (i, s) = some (i + W, s1)
      ∧ ∀ j, (∀ c, c < W → j = i + c → obs s1 j = src (y * W + c))
          ∧ ((j < i ∨ i + W ≤ j) → obs s1 j = obs s j) := by
  have key : ∀ n, ∃ s1,
      forLoop (fun x (st : Nat × α) =>
        match body (y * W + x) st.1 st.2 with
        | none => none
        | some a => some (st.1 + 1, a)) n (i, s) = some (i + n, s1)
      ∧ ∀ j, (∀ c, c < n → j = i + c → obs s1 j = src (y * W + c))
          ∧ ((j < i ∨ i + n ≤ j) → obs s1 j = obs s j) := by
    intro n
    induction n with
    | zero =>
      exact ⟨s, rfl, fun j => ⟨fun c hc => absurd hc (Nat.not_lt_zero _), fun _ => rfl⟩⟩
    | succ k ih =>
      obtain ⟨s1, h1, hs1⟩ := ih
      obtain ⟨s2, h2, hs2⟩ := hbody (y * W + k) (i + k) s1
      refine ⟨s2, by simp [forLoop, h1, h2, Nat.add_assoc], fun j => ⟨fun c hc hj => ?_,
        fun hj => ?_⟩⟩
      · rw [hs2 j]
        by_cases e : c = k
        · subst e
          rw [if_pos hj]
        · rw [if_neg (by omega)]
          exact (hs1 j).1 c (by omega) hj
      · rw [hs2 j, if_neg (by omega)]
        exact (hs1 j).2 (by omega)
  exact key W

theorem fieldRows_stage {α β : Type} (body : Nat → Nat → α → Option α)
    (obs : α → Nat → β) (src : Nat → β)
    (hbody : ∀ index i s, ∃ s1, body index i s = some s1
      ∧ ∀ j, obs s1 j = if j = i then src index else obs s j)
    (W H : Nat) :
    ∀ (fuel y i : Nat) (s : α), H ≤ y + 2 * fuel →
    ∃ s1, fieldRows body W H fuel y (i, s) = some (i + ((H + 1 - y) / 2) * W, s1)
      ∧ (∀ k c, c < W → y + 2 * k < H → obs s1 (i + k * W + c) = src ((y + 2 * k) * W + c))
      ∧ (∀ j, j < i → obs s1 j = obs s j) := by
  intro fuel
  induction fuel with
  | zero =>
    intro y i s hf
    have h0 : (H + 1 - y) / 2 = 0 := by omega
    exact ⟨s, by simp [fieldRows, h0]; omega, fun k c _ hk => by omega, fun _ _ => rfl⟩
  | succ n ih =>
    intro y i s hf
    by_cases hy : y < H
    · have hq : (H + 1 - y) / 2 = (H + 1 - (y + 2)) / 2 + 1 := by omega
      have hqW : ((H + 1 - y) / 2) * W = W + ((H + 1 - (y + 2)) / 2) * W := by
        rw [hq, Nat.add_mul, Nat.one_mul, Nat.add_comm]
      obtain ⟨s1, h1, hs1⟩ := fieldRow_stage body obs src hbody W y i s
      obtain ⟨s2, h2, hs2, hlt2⟩ := ih (y + 2) (i + W) s1 (by omega)
      refine ⟨s2, ?_, fun k c hc hk => ?_, fun j hj => ?_⟩
      · simp only [fieldRows, if_pos hy, h1, h2, hqW, Nat.add_assoc]
      · cases k with
        | zero =>
          have e1 := hlt2 (i + c) (by omega)
          have e2 := (hs1 (i + c)).1 c hc rfl
          simpa using e1.trans e2
        | succ k1 =>
          have e := hs2 k1 c hc (by omega)
          have a1 : i + (k1 + 1) * W + c = i + W + k1 * W + c := by
            rw [Nat.add_mul, Nat.one_mul]
            omega
          have a2 : y + 2 * (k1 + 1) = y + 2 + 2 * k1 := by omega
          rw [a1, a2]
          exact e
      · rw [hlt2 j (by omega)]
        exact (hs1 j).2 (Or.inl hj)
    · have h0 : (H + 1 - y) / 2 = 0 := by omega
      exact ⟨s, by simp [fieldRows, hy, h0], fun k c _ hk => by omega, fun _ _ => rfl⟩

theorem fieldLoop_stage {α β : Type} (body : Nat → Nat → α → Option α)
    (obs : α → Nat → β) (src : Nat → β)
    (hbody : ∀ index i s, ∃ s1, body index i s = some s1
      ∧ ∀ j, obs s1 j = if j = i then src index else obs s j)
    (W H m : Nat) (hm : m < 2) (s : α) :
    ∃ s1, fieldLoop body W H m s = some (fieldPixels W H m, s1)
      ∧ RowsStaged W H m src (obs s1) := by
  obtain ⟨s1, h1, hs1, -⟩ := fieldRows_stage body obs src hbody W H H m 0 s (by omega)
  refine ⟨s1, by simpa [fieldLoop, fieldPixels] using h1, fun y x hy hp hx => ?_⟩
  have e := hs1 ((y - m) / 2) x hx (by omega)
  have a : m + 2 * ((y - m) / 2) = y := by omega
  rw [a] at e
  simpa using e
/-! ### The sub-events of the interlaced routines -/

theorem addFieldY_spec {σY σC : Type} (E : Engines σY σC) (g : Globals σY σC)
    (inputY : Plane) (m : Nat) (hm : m < 2)
    (hN : fieldPixels g.g_nWidthY g.g_nHeightY m = g.g_nPixelsY) :
    ∃ staged, RowsStaged g.g_nWidthY g.g_nHeightY m (fun i => PixelY.mk (inputY i)) staged
      ∧ addFieldY E g inputY m
        = some ((E.Y.AddFrame g.g_oMotionSearcherY staged).1,
            { g with g_pPixelsY := staged,
                     g_oMotionSearcherY := (E.Y.AddFrame g.g_oMotionSearcherY staged).2 }) := by
  obtain ⟨staged, h1, hs⟩ := fieldLoop_stage (stageFieldY inputY)
    (fun (s : Nat → PixelY) j => s j) (fun i => PixelY.mk (inputY i))
    (fun index i s => ⟨_, rfl, fun j => rfl⟩) g.g_nWidthY g.g_nHeightY m hm g.g_pPixelsY
  refine ⟨staged, hs, ?_⟩
  simp only [addFieldY, h1, hN, bne_self_eq_false, Bool.false_eq_true, if_false]

theorem addFieldY_some {σY σC : Type} {E : Engines σY σC} {g g1 : Globals σY σC}
    {inputY : Plane} {m : Nat} {eStatus : Status_t}
    (h : addFieldY E g inputY m = some (eStatus, g1)) (hm : m < 2)
    (hN : fieldPixels g.g_nWidthY g.g_nHeightY m = g.g_nPixelsY) :
    ∃ staged, RowsStaged g.g_nWidthY g.g_nHeightY m (fun i => PixelY.mk (inputY i)) staged
      ∧ eStatus = (E.Y.AddFrame g.g_oMotionSearcherY staged).1
      ∧ g1 = { g with g_pPixelsY := staged,
                      g_oMotionSearcherY := (E.Y.AddFrame g.g_oMotionSearcherY staged).2 } := by
  obtain ⟨staged, hs, e⟩ := addFieldY_spec E g inputY m hm hN
  rw [e] at h
  simp only [Option.some.injEq, Prod.mk.injEq] at h
  exact ⟨staged, hs, h.1.symm, h.2.symm⟩

theorem addFieldY_ne_none {σY σC : Type} {E : Engines σY σC} {g : Globals σY σC}
    {inputY : Plane} {m : Nat} (hm : m < 2)
    (hN : fieldPixels g.g_nWidthY g.g_nHeightY m = g.g_nPixelsY) :
    addFieldY E g inputY m ≠ none := by
  obtain ⟨staged, -, e⟩ := addFieldY_spec E g inputY m hm hN
  rw [e]
  exact fun h => Option.noConfusion h

theorem outputFieldY_spec {σY σC : Type} (g : Globals σY σC) (m : Nat) (hm : m < 2)
    (f : Option (ReferenceFrame PixelY)) (o0 : Plane)
    (hPix : FrameComplete (fieldPixels g.g_nWidthY g.g_nHeightY m) f) :
    ∃ o, outputFieldY g m f (some o0) = some (some o)
      ∧ (∀ F, f = some F → RowsWritten g.g_nWidthY g.g_nHeightY m (lumaOf F) o)
      ∧ (f = none → o = o0)
      ∧ (∀ p, p ≠ m → RowsKept g.g_nWidthY g.g_nHeightY p o0 o) := by
  obtain ⟨outY, h1, hs, hn⟩ := output_field_luma_spec g.g_nWidthY g.g_nHeightY m hm f
    (some o0) (fun _ => rfl) hPix
  have hout : outputFieldY g m f (some o0) = some outY := by
    simp only [outputFieldY, output_field, h1, output_field_chroma]
  cases f with
  | none =>
    have e := hn rfl
    subst e
    exact ⟨o0, hout, fun F hF => by simp at hF, fun _ => rfl, fun p _ y x _ _ _ => rfl⟩
  | some F =>
    obtain ⟨o, e, ho⟩ := hs F o0 rfl rfl
    subst e
    refine ⟨o, hout, fun F1 hF => ?_, fun h => by simp at h, fun p hp y x hy hyp hx => ?_⟩
    · simp only [Option.some.injEq] at hF
      subst hF
      exact fun y x hy hyp hx => (ho y x hy hx).1 hyp
    · exact (ho y x hy hx).2 (fun h => hp (hyp ▸ h))

theorem outputFieldY_some {σY σC : Type} {g : Globals σY σC} {m : Nat}
    {f : Option (ReferenceFrame PixelY)} {o0 : Plane} {out : Option Plane}
    (h : outputFieldY g m f (some o0) = some out) (hm : m < 2)
    (hPix : FrameComplete (fieldPixels g.g_nWidthY g.g_nHeightY m) f) :
    ∃ o, out = some o
      ∧ (∀ F, f = some F → RowsWritten g.g_nWidthY g.g_nHeightY m (lumaOf F) o)
      ∧ (f = none → o = o0)
      ∧ (∀ p, p ≠ m → RowsKept g.g_nWidthY g.g_nHeightY p o0 o) := by
  obtain ⟨o, e, h1, h2, h3⟩ := outputFieldY_spec g m hm f o0 hPix
  rw [e] at h
  simp only [Option.some.injEq] at h
  exact ⟨o, h.symm, h1, h2, h3⟩

theorem outputFieldY_ne_none {σY σC : Type} {g : Globals σY σC} {m : Nat}
    {f : Option (ReferenceFrame PixelY)} {o0 : Plane} (hm : m < 2)
    (hPix : FrameComplete (fieldPixels g.g_nWidthY g.g_nHeightY m) f) :
    outputFieldY g m f (some o0) ≠ none := by
  obtain ⟨o, e, -⟩ := outputFieldY_spec g m hm f o0 hPix
  rw [e]
  exact fun h => Option.noConfusion h

theorem rowsWritten_of_kept {W H p : Nat} {value : Nat → Option uint8_t} {o1 o2 : Plane}
    (hw : RowsWritten W H p value o1) (hk : RowsKept W H p o1 o2) :
    RowsWritten W H p value o2 := by
  intro y x hy hp hx
  rw [hk y x hy hp hx]
  exact hw y x hy hp hx

theorem rowsKept_trans {W H p : Nat} {o0 o1 o2 : Plane}
    (h1 : RowsKept W H p o0 o1) (h2 : RowsKept W H p o1 o2) : RowsKept W H p o0 o2 := by
  intro y x hy hp hx
  rw [h2 y x hy hp hx]
  exact h1 y x hy hp hx

theorem rowsKept_refl (W H p : Nat) (o : Plane) : RowsKept W H p o o :=
  fun _ _ _ _ _ => rfl

theorem fieldMask_lt {σY σC : Type} (g : Globals σY σC) :
    fieldMask g ^^^ 0 < 2 ∧ fieldMask g ^^^ 1 < 2
    ∧ fieldMask g ^^^ 0 ≠ fieldMask g ^^^ 1 := by
  unfold fieldMask
  split <;> decide

/-- What two sub-events leave in the luma buffer, from what each of them does. -/
theorem luma_two_fields {W H m0 m1 : Nat} (hne : m0 ≠ m1)
    {f1 f2 : Option (ReferenceFrame PixelY)} {oY o1 o2 : Plane}
    (hw1 : ∀ F, f1 = some F → RowsWritten W H m0 (lumaOf F) o1)
    (hn1 : f1 = none → o1 = oY)
    (hk1 : ∀ p, p ≠ m0 → RowsKept W H p oY o1)
    (hw2 : ∀ F, f2 = some F → RowsWritten W H m1 (lumaOf F) o2)
    (hn2 : f2 = none → o2 = o1)
    (hk2 : ∀ p, p ≠ m1 → RowsKept W H p o1 o2) :
    ((∀ F, f1 = some F → RowsWritten W H m0 (lumaOf F) o2)
      ∧ (f1 = none → RowsKept W H m0 oY o2))
    ∧ ((∀ F, f2 = some F → RowsWritten W H m1 (lumaOf F) o2)
      ∧ (f2 = none → RowsKept W H m1 oY o2)) := by
  refine ⟨⟨fun F hF => rowsWritten_of_kept (hw1 F hF) (hk2 m0 hne), fun h => ?_⟩,
    ⟨hw2, fun h => ?_⟩⟩
  · have := hk2 m0 hne
    rw [hn1 h] at this
    exact this
  · rw [hn2 h]
    exact hk1 m1 (Ne.symm hne)

set_option maxHeartbeats 1000000 in
theorem interlaced_intensity_order {σY σC : Type} (E : Engines σY σC)
    (g : Globals (σY × List (EngineCall PixelY)) (σC × List (EngineCall PixelCbCr)))
    (a_pInputY : Option Plane) (oY : Plane)
    (hY : g.g_bMotionSearcherY = true) (hframes : PurgeTestDefined g)
    (hN : ∀ m, m < 2 → fieldPixels g.g_nWidthY g.g_nHeightY m = g.g_nPixelsY)
    (hE : ∀ s, FrameComplete g.g_nPixelsY (E.Y.GetFrameReadyForOutput s).1
      ∧ FrameComplete g.g_nPixelsY (E.Y.GetRemainingFrames s).1) :
    ∃ r o calls,
      newdenoise_interlaced_frame_intensity E.recording g a_pInputY (some oY) = some r
      ∧ r.a_pOutputY = some o
      ∧ r.globals.g_oMotionSearcherY.2 = g.g_oMotionSearcherY.2 ++ calls
      ∧ SubEventsShown a_pInputY.isNone calls
      ∧ LumaSubEvent g.g_nWidthY g.g_nHeightY 0 (fieldMask g ^^^ 0) a_pInputY oY o calls
      ∧ LumaSubEvent g.g_nWidthY g.g_nHeightY 1 (fieldMask g ^^^ 1) a_pInputY oY o calls
    := by
  obtain ⟨hm0, hm1, hne⟩ := fieldMask_lt g
  have hQ : ∀ m, m < 2 → ∀ s,
      FrameComplete (fieldPixels g.g_nWidthY g.g_nHeightY m)
        (E.Y.GetFrameReadyForOutput s).1 := fun m hm s => (hN m hm) ▸ (hE s).1
  have hR : ∀ m, m < 2 → ∀ s,
      FrameComplete (fieldPixels g.g_nWidthY g.g_nHeightY m)
        (E.Y.GetRemainingFrames s).1 := fun m hm s => (hN m hm) ▸ (hE s).2
  generalize hres :
    newdenoise_interlaced_frame_intensity E.recording g a_pInputY (some oY) = res
  unfold newdenoise_interlaced_frame_intensity at hres
  rw [timeToPurge_eq g hframes] at hres
  simp only [hY, Bool.not_true, Bool.false_eq_true, if_false] at hres
  cases a_pInputY with
  | none =>
    by_cases hp : g.frame % g.denoiser.frames = 0 <;>
      simp only [hp, if_true, if_false, decide_True, decide_False, Bool.false_eq_true]
        at hres
    all_goals
      split at hres
      · rename_i ho1
        exact absurd ho1 (outputFieldY_ne_none hm0 (hR _ hm0 _))
      rename_i out1 ho1
      obtain ⟨o1, e1, hw1, hn1, hk1⟩ := outputFieldY_some ho1 hm0 (hR _ hm0 _)
      subst e1
      split at hres
      · rename_i ho2
        exact absurd ho2 (outputFieldY_ne_none hm1 (hR _ hm1 _))
      rename_i out2 ho2
      obtain ⟨o2, e2, hw2, hn2, hk2⟩ := outputFieldY_some ho2 hm1 (hR _ hm1 _)
      subst e2
      subst hres
      obtain ⟨⟨a1, a2⟩, ⟨b1, b2⟩⟩ := luma_two_fields hne hw1 hn1 hk1 hw2 hn2 hk2
      refine ⟨_, o2, _, rfl, rfl, by
        simp only [Engines.recording, MotionSearcher.recording, List.append_assoc]
        rfl, ?_, ?_, ?_⟩
      · simp [SubEventsShown, stagedFields, returnedFrames]
      · refine ⟨fun staged inputY h => by simp [stagedFields] at h, fun f h => ?_,
          fun h => ?_⟩
        · simp [returnedFrames] at h
          exact a1 f h
        · simp [returnedFrames] at h
          exact a2 h
      · refine ⟨fun staged inputY h => by simp [stagedFields] at h, fun f h => ?_,
          fun h => ?_⟩
        · simp [returnedFrames] at h
          exact b1 f h
        · simp [returnedFrames] at h
          exact b2 h
  | some inputY =>
    by_cases hp : g.frame % g.denoiser.frames = 0 <;>
      simp only [hp, if_true, if_false, decide_True, decide_False, Bool.false_eq_true]
        at hres
    all_goals
      split at hres
      · rename_i ho1
        exact absurd ho1 (outputFieldY_ne_none hm0 (hQ _ hm0 _))
      rename_i out1 ho1
      obtain ⟨o1, e1, hw1, hn1, hk1⟩ := outputFieldY_some ho1 hm0 (hQ _ hm0 _)
      subst e1
      split at hres
      · rename_i ha1
        exact absurd ha1 (addFieldY_ne_none hm0 (hN _ hm0))
      rename_i eStatus1 g3 ha1
      obtain ⟨st1, hs1, e2, e3⟩ := addFieldY_some ha1 hm0 (hN _ hm0)
      subst e2 e3
      split at hres
      · subst hres
        refine ⟨_, o1, _, rfl, rfl, by
          simp only [Engines.recording, MotionSearcher.recording, List.append_assoc]
          rfl, ?_, ?_, ?_⟩
        · simp [SubEventsShown, stagedFields, returnedFrames]
        · refine ⟨fun staged inY h hi => ?_, fun f h => ?_, fun h => ?_⟩
          · simp [stagedFields] at h
            cases hi
            subst h
            exact hs1
          · simp [returnedFrames] at h
            exact hw1 f h
          · simp [returnedFrames] at h
            rw [hn1 h]
            exact rowsKept_refl _ _ _ _
        · refine ⟨fun staged inY h _ => ?_, fun f h => ?_, fun _ => ?_⟩
          · simp [stagedFields] at h
          · simp [returnedFrames] at h
          · exact hk1 _ (Ne.symm hne)
      split at hres
      · rename_i ho2
        exact absurd ho2 (outputFieldY_ne_none hm1 (hQ _ hm1 _))
      rename_i out2 ho2
      obtain ⟨o2, e4, hw2, hn2, hk2⟩ := outputFieldY_some ho2 hm1 (hQ _ hm1 _)
      subst e4
      split at hres
      · rename_i ha2
        exact absurd ha2 (addFieldY_ne_none hm1 (hN _ hm1))
      rename_i eStatus2 g5 ha2
      obtain ⟨st2, hs2, e5, e6⟩ := addFieldY_some ha2 hm1 (hN _ hm1)
      subst e5 e6
      obtain ⟨⟨a1, a2⟩, ⟨b1, b2⟩⟩ := luma_two_fields hne hw1 hn1 hk1 hw2 hn2 hk2
      split at hres
      all_goals
        subst hres
        refine ⟨_, o2, _, rfl, rfl, by
          simp only [Engines.recording, MotionSearcher.recording, List.append_assoc]
          rfl, ?_, ?_, ?_⟩
        · simp [SubEventsShown, stagedFields, returnedFrames]
        · refine ⟨fun staged inY h hi => ?_, fun f h => ?_, fun h => ?_⟩
          · simp [stagedFields] at h
            cases hi
            subst h
            exact hs1
          · simp [returnedFrames] at h
            exact a1 f h
          · simp [returnedFrames] at h
            exact a2 h
        · refine ⟨fun staged inY h hi => ?_, fun f h => ?_, fun h => ?_⟩
          · simp [stagedFields] at h
            cases hi
            subst h
            exact hs2
          · simp [returnedFrames] at h
            exact b1 f h
          · simp [returnedFrames] at h
            exact b2 h

theorem addFieldCbCr_spec {σY σC : Type} (E : Engines σY σC) (g : Globals σY σC)
    (inputCb inputCr : Plane) (m : Nat) (hm : m < 2)
    (hN : fieldPixels g.g_nWidthCbCr g.g_nHeightCbCr m = g.g_nPixelsCbCr) :
    ∃ staged, RowsStaged g.g_nWidthCbCr g.g_nHeightCbCr m
        (fun i => PixelCbCr.mk (inputCb i) (inputCr i)) staged
      ∧ addFieldCbCr E g inputCb inputCr m
        = some ((E.CbCr.AddFrame g.g_oMotionSearcherCbCr staged).1,
            { g with g_pPixelsCbCr := staged,
                     g_oMotionSearcherCbCr :=
                       (E.CbCr.AddFrame g.g_oMotionSearcherCbCr staged).2 }) := by
  obtain ⟨staged, h1, hs⟩ := fieldLoop_stage (stageFieldCbCr inputCb inputCr)
    (fun (s : Nat → PixelCbCr) j => s j) (fun i => PixelCbCr.mk (inputCb i) (inputCr i))
    (fun index i s => ⟨_, rfl, fun j => rfl⟩) g.g_nWidthCbCr g.g_nHeightCbCr m hm
    g.g_pPixelsCbCr
  refine ⟨staged, hs, ?_⟩
  simp only [addFieldCbCr, h1, hN, bne_self_eq_false, Bool.false_eq_true, if_false]

theorem addFieldCbCr_some {σY σC : Type} {E : Engines σY σC} {g g1 : Globals σY σC}
    {inputCb inputCr : Plane} {m : Nat} {eStatus : Status_t}
    (h : addFieldCbCr E g inputCb inputCr m = some (eStatus, g1)) (hm : m < 2)
    (hN : fieldPixels g.g_nWidthCbCr g.g_nHeightCbCr m = g.g_nPixelsCbCr) :
    ∃ staged, RowsStaged g.g_nWidthCbCr g.g_nHeightCbCr m
        (fun i => PixelCbCr.mk (inputCb i) (inputCr i)) staged
      ∧ eStatus = (E.CbCr.AddFrame g.g_oMotionSearcherCbCr staged).1
      ∧ g1 = { g with g_pPixelsCbCr := staged,
                      g_oMotionSearcherCbCr :=
                        (E.CbCr.AddFrame g.g_oMotionSearcherCbCr staged).2 } := by
  obtain ⟨staged, hs, e⟩ := addFieldCbCr_spec E g inputCb inputCr m hm hN
  rw [e] at h
  simp only [Option.some.injEq, Prod.mk.injEq] at h
  exact ⟨staged, hs, h.1.symm, h.2.symm⟩

theorem addFieldCbCr_ne_none {σY σC : Type} {E : Engines σY σC} {g : Globals σY σC}
    {inputCb inputCr : Plane} {m : Nat} (hm : m < 2)
    (hN : fieldPixels g.g_nWidthCbCr g.g_nHeightCbCr m = g.g_nPixelsCbCr) :
    addFieldCbCr E g inputCb inputCr m ≠ none := by
  obtain ⟨staged, -, e⟩ := addFieldCbCr_spec E g inputCb inputCr m hm hN
  rw [e]
  exact fun h => Option.noConfusion h

theorem outputFieldCbCr_spec {σY σC : Type} (g : Globals σY σC) (m : Nat) (hm : m < 2)
    (f : Option (ReferenceFrame PixelCbCr)) (cb0 cr0 : Plane)
    (hPix : FrameComplete (fieldPixels g.g_nWidthCbCr g.g_nHeightCbCr m) f) :
    ∃ ocb ocr, outputFieldCbCr g m f (some cb0) (some cr0) = some (some ocb, some ocr)
      ∧ (∀ F, f = some F → RowsWritten g.g_nWidthCbCr g.g_nHeightCbCr m (cbOf F) ocb
        ∧ RowsWritten g.g_nWidthCbCr g.g_nHeightCbCr m (crOf F) ocr)
      ∧ (f = none → ocb = cb0 ∧ ocr = cr0)
      ∧ (∀ p, p ≠ m → RowsKept g.g_nWidthCbCr g.g_nHeightCbCr p cb0 ocb
        ∧ RowsKept g.g_nWidthCbCr g.g_nHeightCbCr p cr0 ocr) := by
  obtain ⟨outCb, outCr, h1, hs, hn⟩ := output_field_chroma_spec g.g_nWidthCbCr
    g.g_nHeightCbCr m hm f (some cb0) (some cr0) (fun _ => ⟨rfl, rfl⟩) hPix
  have hout : outputFieldCbCr g m f (some cb0) (some cr0) = some (outCb, outCr) := by
    simp only [outputFieldCbCr, output_field, h1, output_field_luma]
  cases f with
  | none =>
    obtain ⟨e1, e2⟩ := hn rfl
    subst e1 e2
    exact ⟨cb0, cr0, hout, fun F hF => by simp at hF, fun _ => ⟨rfl, rfl⟩,
      fun p _ => ⟨fun y x _ _ _ => rfl, fun y x _ _ _ => rfl⟩⟩
  | some F =>
    obtain ⟨ocb, ocr, e1, e2, ho⟩ := hs F cb0 cr0 rfl rfl rfl
    subst e1 e2
    refine ⟨ocb, ocr, hout, fun F1 hF => ?_, fun h => by simp at h, fun p hp => ?_⟩
    · simp only [Option.some.injEq] at hF
      subst hF
      exact ⟨fun y x hy hyp hx => ((ho y x hy hx).1 hyp).1,
        fun y x hy hyp hx => ((ho y x hy hx).1 hyp).2⟩
    · exact ⟨fun y x hy hyp hx => ((ho y x hy hx).2 (fun h => hp (hyp ▸ h))).1,
        fun y x hy hyp hx => ((ho y x hy hx).2 (fun h => hp (hyp ▸ h))).2⟩

theorem outputFieldCbCr_some {σY σC : Type} {g : Globals σY σC} {m : Nat}
    {f : Option (ReferenceFrame PixelCbCr)} {cb0 cr0 : Plane}
    {out : Option Plane × Option Plane}
    (h : outputFieldCbCr g m f (some cb0) (some cr0) = some out) (hm : m < 2)
    (hPix : FrameComplete (fieldPixels g.g_nWidthCbCr g.g_nHeightCbCr m) f) :
    ∃ ocb ocr, out = (some ocb, some ocr)
      ∧ (∀ F, f = some F → RowsWritten g.g_nWidthCbCr g.g_nHeightCbCr m (cbOf F) ocb
        ∧ RowsWritten g.g_nWidthCbCr g.g_nHeightCbCr m (crOf F) ocr)
      ∧ (f = none → ocb = cb0 ∧ ocr = cr0)
      ∧ (∀ p, p ≠ m → RowsKept g.g_nWidthCbCr g.g_nHeightCbCr p cb0 ocb
        ∧ RowsKept g.g_nWidthCbCr g.g_nHeightCbCr p cr0 ocr) := by
  obtain ⟨ocb, ocr, e, h1, h2, h3⟩ := outputFieldCbCr_spec g m hm f cb0 cr0 hPix
  rw [e] at h
  simp only [Option.some.injEq] at h
  exact ⟨ocb, ocr, h.symm, h1, h2, h3⟩

theorem outputFieldCbCr_ne_none {σY σC : Type} {g : Globals σY σC} {m : Nat}
    {f : Option (ReferenceFrame PixelCbCr)} {cb0 cr0 : Plane} (hm : m < 2)
    (hPix : FrameComplete (fieldPixels g.g_nWidthCbCr g.g_nHeightCbCr m) f) :
    outputFieldCbCr g m f (some cb0) (some cr0) ≠ none := by
  obtain ⟨ocb, ocr, e, -⟩ := outputFieldCbCr_spec g m hm f cb0 cr0 hPix
  rw [e]
  exact fun h => Option.noConfusion h

/-- What two sub-events leave in the chroma buffers, from what each of them does. -/
theorem chroma_two_fields {W H m0 m1 : Nat} (hne : m0 ≠ m1)
    {f1 f2 : Option (ReferenceFrame PixelCbCr)} {cb0 cr0 cb1 cr1 cb2 cr2 : Plane}
    (hw1 : ∀ F, f1 = some F → RowsWritten W H m0 (cbOf F) cb1
      ∧ RowsWritten W H m0 (crOf F) cr1)
    (hn1 : f1 = none → cb1 = cb0 ∧ cr1 = cr0)
    (hk1 : ∀ p, p ≠ m0 → RowsKept W H p cb0 cb1 ∧ RowsKept W H p cr0 cr1)
    (hw2 : ∀ F, f2 = some F → RowsWritten W H m1 (cbOf F) cb2
      ∧ RowsWritten W H m1 (crOf F) cr2)
    (hn2 : f2 = none → cb2 = cb1 ∧ cr2 = cr1)
    (hk2 : ∀ p, p ≠ m1 → RowsKept W H p cb1 cb2 ∧ RowsKept W H p cr1 cr2) :
    ((∀ F, f1 = some F → RowsWritten W H m0 (cbOf F) cb2
        ∧ RowsWritten W H m0 (crOf F) cr2)
      ∧ (f1 = none → RowsKept W H m0 cb0 cb2 ∧ RowsKept W H m0 cr0 cr2))
    ∧ ((∀ F, f2 = some F → RowsWritten W H m1 (cbOf F) cb2
        ∧ RowsWritten W H m1 (crOf F) cr2)
      ∧ (f2 = none → RowsKept W H m1 cb0 cb2 ∧ RowsKept W H m1 cr0 cr2)) := by
  refine ⟨⟨fun F hF => ⟨rowsWritten_of_kept (hw1 F hF).1 (hk2 m0 hne).1,
      rowsWritten_of_kept (hw1 F hF).2 (hk2 m0 hne).2⟩, fun h => ?_⟩,
    ⟨hw2, fun h => ?_⟩⟩
  · have := hk2 m0 hne
    rw [(hn1 h).1, (hn1 h).2] at this
    exact this
  · rw [(hn2 h).1, (hn2 h).2]
    exact hk1 m1 (Ne.symm hne)

set_option maxHeartbeats 1000000 in
theorem interlaced_color_order {σY σC : Type} (E : Engines σY σC)
    (g : Globals (σY × List (EngineCall PixelY)) (σC × List (EngineCall PixelCbCr)))
    (a_pInputCb a_pInputCr : Option Plane) (oCb oCr : Plane)
    (hC : g.g_bMotionSearcherCbCr = true) (hframes : PurgeTestDefined g)
    (hN : ∀ m, m < 2 → fieldPixels g.g_nWidthCbCr g.g_nHeightCbCr m = g.g_nPixelsCbCr)
    (hE : ∀ s, FrameComplete g.g_nPixelsCbCr (E.CbCr.GetFrameReadyForOutput s).1
      ∧ FrameComplete g.g_nPixelsCbCr (E.CbCr.GetRemainingFrames s).1)
    (hIn : a_pInputCr.isSome = true → a_pInputCb.isSome = true) :
    ∃ r ocb ocr calls,
      newdenoise_interlaced_frame_color E.recording g a_pInputCb a_pInputCr
        (some oCb) (some oCr) = some r
      ∧ r.a_pOutputCb = some ocb ∧ r.a_pOutputCr = some ocr
      ∧ r.globals.g_oMotionSearcherCbCr.2 = g.g_oMotionSearcherCbCr.2 ++ calls
      ∧ SubEventsShown a_pInputCr.isNone calls
      ∧ ChromaSubEvent g.g_nWidthCbCr g.g_nHeightCbCr 0 (fieldMask g ^^^ 0)
          a_pInputCb a_pInputCr oCb oCr ocb ocr calls
      ∧ ChromaSubEvent g.g_nWidthCbCr g.g_nHeightCbCr 1 (fieldMask g ^^^ 1)
          a_pInputCb a_pInputCr oCb oCr ocb ocr calls := by
  obtain ⟨hm0, hm1, hne⟩ := fieldMask_lt g
  have hQ : ∀ m, m < 2 → ∀ s,
      FrameComplete (fieldPixels g.g_nWidthCbCr g.g_nHeightCbCr m)
        (E.CbCr.GetFrameReadyForOutput s).1 := fun m hm s => (hN m hm) ▸ (hE s).1
  have hR : ∀ m, m < 2 → ∀ s,
      FrameComplete (fieldPixels g.g_nWidthCbCr g.g_nHeightCbCr m)
        (E.CbCr.GetRemainingFrames s).1 := fun m hm s => (hN m hm) ▸ (hE s).2
  generalize hres :
    newdenoise_interlaced_frame_color E.recording g a_pInputCb a_pInputCr
      (some oCb) (some oCr) = res
  unfold newdenoise_interlaced_frame_color at hres
  rw [timeToPurge_eq g hframes] at hres
  simp only [hC, Bool.not_true, Bool.false_eq_true, if_false] at hres
  cases a_pInputCr with
  | none =>
    by_cases hp : g.frame % g.denoiser.frames = 0 <;>
      simp only [hp, if_true, if_false, decide_True, decide_False, Bool.false_eq_true]
        at hres
    all_goals
      split at hres
      · rename_i ho1
        exact absurd ho1 (outputFieldCbCr_ne_none hm0 (hR _ hm0 _))
      rename_i out1 ho1
      obtain ⟨cb1, cr1, e1, hw1, hn1, hk1⟩ := outputFieldCbCr_some ho1 hm0 (hR _ hm0 _)
      subst e1
      split at hres
      · rename_i ho2
        exact absurd ho2 (outputFieldCbCr_ne_none hm1 (hR _ hm1 _))
      rename_i out2 ho2
      obtain ⟨cb2, cr2, e2, hw2, hn2, hk2⟩ := outputFieldCbCr_some ho2 hm1 (hR _ hm1 _)
      subst e2
      subst hres
      obtain ⟨⟨a1, a2⟩, ⟨b1, b2⟩⟩ := chroma_two_fields hne hw1 hn1 hk1 hw2 hn2 hk2
      refine ⟨_, cb2, cr2, _, rfl, rfl, rfl, by
        simp only [Engines.recording, MotionSearcher.recording, List.append_assoc]
        rfl, ?_, ?_, ?_⟩
      · simp [SubEventsShown, stagedFields, returnedFrames]
      · refine ⟨fun staged inCb inCr h => by simp [stagedFields] at h, fun f h => ?_,
          fun h => ?_⟩
        · simp [returnedFrames] at h
          exact a1 f h
        · simp [returnedFrames] at h
          exact a2 h
      · refine ⟨fun staged inCb inCr h => by simp [stagedFields] at h, fun f h => ?_,
          fun h => ?_⟩
        · simp [returnedFrames] at h
          exact b1 f h
        · simp [returnedFrames] at h
          exact b2 h
  | some inputCr =>
    obtain ⟨inputCb, hcb⟩ := Option.isSome_iff_exists.mp (hIn rfl)
    subst hcb
    by_cases hp : g.frame % g.denoiser.frames = 0 <;>
      simp only [hp, if_true, if_false, decide_True, decide_False, Bool.false_eq_true]
        at hres
    all_goals
      split at hres
      · rename_i ho1
        exact absurd ho1 (outputFieldCbCr_ne_none hm0 (hQ _ hm0 _))
      rename_i out1 ho1
      obtain ⟨cb1, cr1, e1, hw1, hn1, hk1⟩ := outputFieldCbCr_some ho1 hm0 (hQ _ hm0 _)
      subst e1
      split at hres
      · rename_i ha1
        exact absurd ha1 (addFieldCbCr_ne_none hm0 (hN _ hm0))
      rename_i eStatus1 g3 ha1
      obtain ⟨st1, hs1, e2, e3⟩ := addFieldCbCr_some ha1 hm0 (hN _ hm0)
      subst e2 e3
      split at hres
      · subst hres
        refine ⟨_, cb1, cr1, _, rfl, rfl, rfl, by
          simp only [Engines.recording, MotionSearcher.recording, List.append_assoc]
          rfl, ?_, ?_, ?_⟩
        · simp [SubEventsShown, stagedFields, returnedFrames]
        · refine ⟨fun staged inCb inCr h hb hr => ?_, fun f h => ?_, fun h => ?_⟩
          · simp [stagedFields] at h
            cases hb
            cases hr
            subst h
            exact hs1
          · simp [returnedFrames] at h
            exact hw1 f h
          · simp [returnedFrames] at h
            rw [(hn1 h).1, (hn1 h).2]
            exact ⟨rowsKept_refl _ _ _ _, rowsKept_refl _ _ _ _⟩
        · refine ⟨fun staged inCb inCr h _ _ => ?_, fun f h => ?_, fun _ => ?_⟩
          · simp [stagedFields] at h
          · simp [returnedFrames] at h
          · exact hk1 _ (Ne.symm hne)
      split at hres
      · rename_i ho2
        exact absurd ho2 (outputFieldCbCr_ne_none hm1 (hQ _ hm1 _))
      rename_i out2 ho2
      obtain ⟨cb2, cr2, e4, hw2, hn2, hk2⟩ := outputFieldCbCr_some ho2 hm1 (hQ _ hm1 _)
      subst e4
      split at hres
      · rename_i ha2
        exact absurd ha2 (addFieldCbCr_ne_none hm1 (hN _ hm1))
      rename_i eStatus2 g5 ha2
      obtain ⟨st2, hs2, e5, e6⟩ := addFieldCbCr_some ha2 hm1 (hN _ hm1)
      subst e5 e6
      obtain ⟨⟨a1, a2⟩, ⟨b1, b2⟩⟩ := chroma_two_fields hne hw1 hn1 hk1 hw2 hn2 hk2
      split at hres
      all_goals
        subst hres
        refine ⟨_, cb2, cr2, _, rfl, rfl, rfl, by
          simp only [Engines.recording, MotionSearcher.recording, List.append_assoc]
          rfl, ?_, ?_, ?_⟩
        · simp [SubEventsShown, stagedFields, returnedFrames]
        · refine ⟨fun staged inCb inCr h hb hr => ?_, fun f h => ?_, fun h => ?_⟩
          · simp [stagedFields] at h
            cases hb
            cases hr
            subst h
            exact hs1
          · simp [returnedFrames] at h
            exact a1 f h
          · simp [returnedFrames] at h
            exact a2 h
        · refine ⟨fun staged inCb inCr h hb hr => ?_, fun f h => ?_, fun h => ?_⟩
          · simp [stagedFields] at h
            cases hb
            cases hr
            subst h
            exact hs2
          · simp [returnedFrames] at h
            exact b1 f h
          · simp [returnedFrames] at h
            exact b2 h

theorem fieldMask_of_top_first {σY σC : Type} (g : Globals σY σC)
    (h : g.denoiser.interlaced = 1) : fieldMask g = 0 := by
  simp [fieldMask, h]

theorem fieldMask_of_bottom_first {σY σC : Type} (g : Globals σY σC)
    (h : g.denoiser.interlaced = 2) : fieldMask g = 1 := by
  simp [fieldMask, h]

theorem sampleSearcher_complete {Pixel_t : Type} (window : Nat) (failAt : Option Nat)
    (n : Nat) (s : SampleState Pixel_t) :
    FrameComplete n ((sampleSearcher window failAt).GetFrameReadyForOutput s).1
      ∧ FrameComplete n ((sampleSearcher window failAt).GetRemainingFrames s).1 := by
  obtain ⟨held, added⟩ := s
  cases held with
  | nil => exact ⟨fun f hf => by simp [sampleSearcher] at hf,
      fun f hf => by simp [sampleSearcher] at hf⟩
  | cons a rest =>
    refine ⟨fun f hf i _ => ?_, fun f hf i _ => ?_⟩
    · simp only [sampleSearcher] at hf
      split at hf
      · simp only [Option.some.injEq] at hf
        subst hf
        rfl
      · simp at hf
    · simp only [sampleSearcher, Option.some.injEq] at hf
      subst hf
      rfl

/-- C12 (field order), one statement for each routine, each under the conditions of its
own plane group only. Let `newdenoise_interlaced_frame_intensity` run with engines that
record their calls, luma enabled, `frame % denoiser.frames` defined, each field of the
plane holding `g_nPixelsY` pixels, the luma engine handing back complete frames and the
output buffer not `NULL`. Then it returns, on the flush path (input `NULL`) after two
queries, on the submit path after one or two queries each followed by its `AddFrame`,
and: with `denoiser.interlaced = 1` sub-event 0 stages and writes the rows of parity 0
(0, 2, ...) and sub-event 1 the rows of parity 1 (1, 3, ...); with
`denoiser.interlaced = 2` sub-event 0 handles the rows of parity 1 and sub-event 1 the
rows of parity 0. Likewise `newdenoise_interlaced_frame_color`, with chroma enabled and
`a_pInputCb` not `NULL` when `a_pInputCr` is not. Neither statement asks anything of the
other plane group. -/
theorem C12_field_order {σY σC : Type} (E : Engines σY σC)
    (g : Globals (σY × List (EngineCall PixelY)) (σC × List (EngineCall PixelCbCr)))
    (a_pInputY a_pInputCb a_pInputCr : Option Plane) (oY oCb oCr : Plane) :
    (g.g_bMotionSearcherY = true → PurgeTestDefined g →
      (∀ m, m < 2 → fieldPixels g.g_nWidthY g.g_nHeightY m = g.g_nPixelsY) →
      (∀ s, FrameComplete g.g_nPixelsY (E.Y.GetFrameReadyForOutput s).1
        ∧ FrameComplete g.g_nPixelsY (E.Y.GetRemainingFrames s).1) →
      ∃ r o calls,
        newdenoise_interlaced_frame_intensity E.recording g a_pInputY (some oY) = some r
        ∧ r.a_pOutputY = some o
        ∧ r.globals.g_oMotionSearcherY.2 = g.g_oMotionSearcherY.2 ++ calls
        ∧ SubEventsShown a_pInputY.isNone calls
        ∧ (g.denoiser.interlaced = 1 →
            LumaSubEvent g.g_nWidthY g.g_nHeightY 0 0 a_pInputY oY o calls
            ∧ LumaSubEvent g.g_nWidthY g.g_nHeightY 1 1 a_pInputY oY o calls)
        ∧ (g.denoiser.interlaced = 2 →
            LumaSubEvent g.g_nWidthY g.g_nHeightY 0 1 a_pInputY oY o calls
            ∧ LumaSubEvent g.g_nWidthY g.g_nHeightY 1 0 a_pInputY oY o calls))
    ∧ (g.g_bMotionSearcherCbCr = true → PurgeTestDefined g →
      (∀ m, m < 2 → fieldPixels g.g_nWidthCbCr g.g_nHeightCbCr m = g.g_nPixelsCbCr) →
      (∀ s, FrameComplete g.g_nPixelsCbCr (E.CbCr.GetFrameReadyForOutput s).1
        ∧ FrameComplete g.g_nPixelsCbCr (E.CbCr.GetRemainingFrames s).1) →
      (a_pInputCr.isSome = true → a_pInputCb.isSome = true) →
      ∃ r ocb ocr calls,
        newdenoise_interlaced_frame_color E.recording g a_pInputCb a_pInputCr
          (some oCb) (some oCr) = some r
        ∧ r.a_pOutputCb = some ocb ∧ r.a_pOutputCr = some ocr
        ∧ r.globals.g_oMotionSearcherCbCr.2 = g.g_oMotionSearcherCbCr.2 ++ calls
        ∧ SubEventsShown a_pInputCr.isNone calls
        ∧ (g.denoiser.interlaced = 1 →
            ChromaSubEvent g.g_nWidthCbCr g.g_nHeightCbCr 0 0 a_pInputCb a_pInputCr
              oCb oCr ocb ocr calls
            ∧ ChromaSubEvent g.g_nWidthCbCr g.g_nHeightCbCr 1 1 a_pInputCb a_pInputCr
              oCb oCr ocb ocr calls)
        ∧ (g.denoiser.interlaced = 2 →
            ChromaSubEvent g.g_nWidthCbCr g.g_nHeightCbCr 0 1 a_pInputCb a_pInputCr
              oCb oCr ocb ocr calls
            ∧ ChromaSubEvent g.g_nWidthCbCr g.g_nHeightCbCr 1 0 a_pInputCb a_pInputCr
              oCb oCr ocb ocr calls)) := by
  constructor
  · intro hY hframes hNY hEY
    obtain ⟨r, o, calls, h1, h2, h3, h4, h5, h6⟩ :=
      interlaced_intensity_order E g a_pInputY oY hY hframes hNY hEY
    refine ⟨r, o, calls, h1, h2, h3, h4, fun hi => ?_, fun hi => ?_⟩
    · rw [fieldMask_of_top_first g hi] at h5 h6
      exact ⟨h5, h6⟩
    · rw [fieldMask_of_bottom_first g hi] at h5 h6
      exact ⟨h5, h6⟩
  · intro hC hframes hNC hEC hIn
    obtain ⟨rc, ocb, ocr, callsC, c1, c2, c3, c4, c5, c6, c7⟩ :=
      interlaced_color_order E g a_pInputCb a_pInputCr oCb oCr hC hframes hNC hEC hIn
    refine ⟨rc, ocb, ocr, callsC, c1, c2, c3, c4, c5, fun hi => ?_, fun hi => ?_⟩
    · rw [fieldMask_of_top_first g hi] at c6 c7
      exact ⟨c6, c7⟩
    · rw [fieldMask_of_bottom_first g hi] at c6 c7
      exact ⟨c6, c7⟩

/-- C12, witness: the sample engines on an interlaced 4x2 luma plane, top field first.
In a luma-only configuration (chroma disabled) the submit call stages the row 0 and then
the row 1 of the input; the luma statement holds there, and the chroma statement in the
configuration with both plane groups. -/
theorem C12_field_order_witness :
    sampleGlobalsInterlacedLumaOnly.withRecords.g_bMotionSearcherCbCr = false
    ∧ (newdenoise_interlaced_frame_intensity (sampleEngines 1 none none).recording
        sampleGlobalsInterlacedLumaOnly.withRecords (some samplePlaneY)
        (some blankPlane)).map
      (fun r => (stagedFields r.globals.g_oMotionSearcherY.2).map
        (fun st => (List.range 4).map (fun i => (st i).m_atnVal0)))
      = some [[10, 20, 30, 40], [50, 60, 70, 80]]
    ∧ (∃ r o calls,
        newdenoise_interlaced_frame_intensity (sampleEngines 1 none none).recording
          sampleGlobalsInterlacedLumaOnly.withRecords (some samplePlaneY)
          (some blankPlane) = some r
        ∧ r.a_pOutputY = some o
        ∧ r.globals.g_oMotionSearcherY.2
          = sampleGlobalsInterlacedLumaOnly.withRecords.g_oMotionSearcherY.2 ++ calls
        ∧ SubEventsShown (some samplePlaneY).isNone calls
        ∧ (sampleGlobalsInterlacedLumaOnly.withRecords.denoiser.interlaced = 1 →
            LumaSubEvent 4 2 0 0 (some samplePlaneY) blankPlane o calls
            ∧ LumaSubEvent 4 2 1 1 (some samplePlaneY) blankPlane o calls)
        ∧ (sampleGlobalsInterlacedLumaOnly.withRecords.denoiser.interlaced = 2 →
            LumaSubEvent 4 2 0 1 (some samplePlaneY) blankPlane o calls
            ∧ LumaSubEvent 4 2 1 0 (some samplePlaneY) blankPlane o calls))
    ∧ (∃ r ocb ocr calls,
        newdenoise_interlaced_frame_color (sampleEngines 1 none none).recording
          sampleGlobalsInterlaced.withRecords (some samplePlaneCb) (some samplePlaneCr)
          (some blankPlane) (some blankPlane) = some r
        ∧ r.a_pOutputCb = some ocb ∧ r.a_pOutputCr = some ocr
        ∧ r.globals.g_oMotionSearcherCbCr.2
          = sampleGlobalsInterlaced.withRecords.g_oMotionSearcherCbCr.2 ++ calls
        ∧ SubEventsShown (some samplePlaneCr).isNone calls
        ∧ (sampleGlobalsInterlaced.withRecords.denoiser.interlaced = 1 →
            ChromaSubEvent 2 2 0 0 (some samplePlaneCb) (some samplePlaneCr)
              blankPlane blankPlane ocb ocr calls
            ∧ ChromaSubEvent 2 2 1 1 (some samplePlaneCb) (some samplePlaneCr)
              blankPlane blankPlane ocb ocr calls)
        ∧ (sampleGlobalsInterlaced.withRecords.denoiser.interlaced = 2 →
            ChromaSubEvent 2 2 0 1 (some samplePlaneCb) (some samplePlaneCr)
              blankPlane blankPlane ocb ocr calls
            ∧ ChromaSubEvent 2 2 1 0 (some samplePlaneCb) (some samplePlaneCr)
              blankPlane blankPlane ocb ocr calls)) :=
  ⟨rfl, rfl,
    (C12_field_order (sampleEngines 1 none none)
      sampleGlobalsInterlacedLumaOnly.withRecords
      (some samplePlaneY) none none blankPlane blankPlane blankPlane).1
      rfl (by decide) (by decide) (fun s => sampleSearcher_complete 1 none 4 s),
    (C12_field_order (sampleEngines 1 none none) sampleGlobalsInterlaced.withRecords
      (some samplePlaneY) (some samplePlaneCb) (some samplePlaneCr)
      blankPlane blankPlane blankPlane).2
      rfl (by decide) (by decide) (fun s => sampleSearcher_complete 1 none 2 s)
      (fun _ => rfl)⟩

/-! ### The SAD overloads and the range of the intermediate values -/

/-- C24 (SAD value): for all pixels and every tolerance `t`, the SAD overload of
`PixelY::IsWithinTolerance` stores `|a - b|` in `a_rtnSAD`, the SAD overload of
`PixelCbCr::IsWithinTolerance` stores `(cb1 - cb2)^2 + (cr1 - cr2)^2`, each returns
exactly `SAD <= t`, and that is the boolean the plain overload returns. -/
theorem C24_sad_value (a b : PixelY) (c d : PixelCbCr) (t : Int) :
    (PixelY.IsWithinToleranceSAD a b t).2
        = |(a.m_atnVal0.val : Int) - (b.m_atnVal0.val : Int)|
    ∧ (PixelCbCr.IsWithinToleranceSAD c d t).2
        = ((c.m_atnVal0.val : Int) - (d.m_atnVal0.val : Int)) ^ 2
          + ((c.m_atnVal1.val : Int) - (d.m_atnVal1.val : Int)) ^ 2
    ∧ (PixelY.IsWithinToleranceSAD a b t).1
        = decide ((PixelY.IsWithinToleranceSAD a b t).2 ≤ t)
    ∧ (PixelCbCr.IsWithinToleranceSAD c d t).1
        = decide ((PixelCbCr.IsWithinToleranceSAD c d t).2 ≤ t)
    ∧ (PixelY.IsWithinToleranceSAD a b t).1 = PixelY.IsWithinTolerance a b t
    ∧ (PixelCbCr.IsWithinToleranceSAD c d t).1 = PixelCbCr.IsWithinTolerance c d t := by
  have hy := luma_sad_exact a b
  have hc := chroma_sad_exact c d
  simp only [int32_of_uint8] at hy hc
  refine ⟨?_, ?_, rfl, rfl, rfl, rfl⟩
  · simp only [PixelY.IsWithinToleranceSAD, int32_of_uint8, hy]
  · simp only [PixelCbCr.IsWithinToleranceSAD, int32_of_uint8, hc]

theorem inInt32_of_bounds (x : Int) (h1 : -130050 ≤ x) (h2 : x ≤ 130050) : InInt32 x :=
  ⟨by omega, by omega⟩

theorem wrap32_of_inInt32 (x : Int) (h : InInt32 x) : wrap32 x = x :=
  wrap32_of_range x h.1 h.2

theorem uint8_diff_bounds (u v : uint8_t) :
    -255 ≤ (u.val : Int) - (v.val : Int) ∧ (u.val : Int) - (v.val : Int) ≤ 255 := by
  have hu := u.isLt
  have hv := v.isLt
  omega

/-- The difference of two components, its negation and its square in `int32_t`. -/
theorem component_diff_exact (u v : uint8_t) :
    (InInt32 ((u.val : Int) - (v.val : Int)) ∧ InInt32 (-((u.val : Int) - (v.val : Int)))
      ∧ InInt32 (((u.val : Int) - (v.val : Int)) * ((u.val : Int) - (v.val : Int))))
    ∧ (0 ≤ ((u.val : Int) - (v.val : Int)) * ((u.val : Int) - (v.val : Int))
      ∧ ((u.val : Int) - (v.val : Int)) * ((u.val : Int) - (v.val : Int)) ≤ 65025)
    ∧ int32_sub (int32_of_uint8 u) (int32_of_uint8 v) = (u.val : Int) - (v.val : Int)
    ∧ int32_neg (int32_sub (int32_of_uint8 u) (int32_of_uint8 v))
        = -((u.val : Int) - (v.val : Int))
    ∧ int32_mul (int32_sub (int32_of_uint8 u) (int32_of_uint8 v))
          (int32_sub (int32_of_uint8 u) (int32_of_uint8 v))
        = ((u.val : Int) - (v.val : Int)) * ((u.val : Int) - (v.val : Int)) := by
  obtain ⟨h1, h2⟩ := uint8_diff_bounds u v
  have hs := sq_le_of_abs_le _ h1 h2
  have r1 : InInt32 ((u.val : Int) - (v.val : Int)) :=
    inInt32_of_bounds _ (by linarith) (by linarith)
  have r2 : InInt32 (-((u.val : Int) - (v.val : Int))) :=
    inInt32_of_bounds _ (by linarith) (by linarith)
  have r3 : InInt32 (((u.val : Int) - (v.val : Int)) * ((u.val : Int) - (v.val : Int))) :=
    inInt32_of_bounds _ (by linarith [hs.1]) (by linarith [hs.2])
  have e1 : int32_sub (int32_of_uint8 u) (int32_of_uint8 v)
      = (u.val : Int) - (v.val : Int) := wrap32_of_inInt32 _ r1
  refine ⟨⟨r1, r2, r3⟩, hs, e1, ?_, ?_⟩
  · rw [e1]
    exact wrap32_of_inInt32 _ r2
  · rw [e1]
    exact wrap32_of_inInt32 _ r3

/-- C25 (no overflow in the pixel kernels): for all 8-bit component values and every
8-bit tolerance `t`, every intermediate value of `PixelY::IsWithinTolerance`,
`PixelCbCr::IsWithinTolerance` (both overloads) and `PixelCbCr::MakeTolerance` is in the
range of `int32_t` (the chroma squared distance is at most `2 * 255^2 = 130050`), and
the values the kernels compute in `int32_t` are the exact integers: the difference, its
negation and absolute value, the two squares and their sum, and `t * t`. -/
theorem C25_no_overflow (a b : PixelY) (c d : PixelCbCr) (t : uint8_t) :
    (InInt32 ((a.m_atnVal0.val : Int) - (b.m_atnVal0.val : Int))
      ∧ InInt32 (-((a.m_atnVal0.val : Int) - (b.m_atnVal0.val : Int)))
      ∧ InInt32 ((c.m_atnVal0.val : Int) - (d.m_atnVal0.val : Int))
      ∧ InInt32 ((c.m_atnVal1.val : Int) - (d.m_atnVal1.val : Int))
      ∧ InInt32 (((c.m_atnVal0.val : Int) - (d.m_atnVal0.val : Int))
          * ((c.m_atnVal0.val : Int) - (d.m_atnVal0.val : Int)))
      ∧ InInt32 (((c.m_atnVal1.val : Int) - (d.m_atnVal1.val : Int))
          * ((c.m_atnVal1.val : Int) - (d.m_atnVal1.val : Int)))
      ∧ InInt32 (((c.m_atnVal0.val : Int) - (d.m_atnVal0.val : Int))
            * ((c.m_atnVal0.val : Int) - (d.m_atnVal0.val : Int))
          + ((c.m_atnVal1.val : Int) - (d.m_atnVal1.val : Int))
            * ((c.m_atnVal1.val : Int) - (d.m_atnVal1.val : Int)))
      ∧ ((c.m_atnVal0.val : Int) - (d.m_atnVal0.val : Int))
            * ((c.m_atnVal0.val : Int) - (d.m_atnVal0.val : Int))
          + ((c.m_atnVal1.val : Int) - (d.m_atnVal1.val : Int))
            * ((c.m_atnVal1.val : Int) - (d.m_atnVal1.val : Int)) ≤ 130050
      ∧ InInt32 ((t.val : Int) * (t.val : Int)))
    ∧ (int32_sub (int32_of_uint8 a.m_atnVal0) (int32_of_uint8 b.m_atnVal0)
          = (a.m_atnVal0.val : Int) - (b.m_atnVal0.val : Int)
      ∧ int32_neg (int32_sub (int32_of_uint8 a.m_atnVal0) (int32_of_uint8 b.m_atnVal0))
          = -((a.m_atnVal0.val : Int) - (b.m_atnVal0.val : Int))
      ∧ int32_sub (int32_of_uint8 c.m_atnVal0) (int32_of_uint8 d.m_atnVal0)
          = (c.m_atnVal0.val : Int) - (d.m_atnVal0.val : Int)
      ∧ int32_sub (int32_of_uint8 c.m_atnVal1) (int32_of_uint8 d.m_atnVal1)
          = (c.m_atnVal1.val : Int) - (d.m_atnVal1.val : Int)
      ∧ int32_mul (int32_sub (int32_of_uint8 c.m_atnVal0) (int32_of_uint8 d.m_atnVal0))
            (int32_sub (int32_of_uint8 c.m_atnVal0) (int32_of_uint8 d.m_atnVal0))
          = ((c.m_atnVal0.val : Int) - (d.m_atnVal0.val : Int))
            * ((c.m_atnVal0.val : Int) - (d.m_atnVal0.val : Int))
      ∧ int32_mul (int32_sub (int32_of_uint8 c.m_atnVal1) (int32_of_uint8 d.m_atnVal1))
            (int32_sub (int32_of_uint8 c.m_atnVal1) (int32_of_uint8 d.m_atnVal1))
          = ((c.m_atnVal1.val : Int) - (d.m_atnVal1.val : Int))
            * ((c.m_atnVal1.val : Int) - (d.m_atnVal1.val : Int)))
    ∧ (PixelCbCr.MakeTolerance t = (t.val : Int) * (t.val : Int)
      ∧ PixelY.IsWithinTolerance a b (PixelY.MakeTolerance t)
          = decide (|(a.m_atnVal0.val : Int) - (b.m_atnVal0.val : Int)| ≤ (t.val : Int))
      ∧ PixelY.IsWithinToleranceSAD a b (PixelY.MakeTolerance t)
          = (decide (|(a.m_atnVal0.val : Int) - (b.m_atnVal0.val : Int)| ≤ (t.val : Int)),
              |(a.m_atnVal0.val : Int) - (b.m_atnVal0.val : Int)|)
      ∧ PixelCbCr.IsWithinTolerance c d (PixelCbCr.MakeTolerance t)
          = decide (((c.m_atnVal0.val : Int) - (d.m_atnVal0.val : Int)) ^ 2
              + ((c.m_atnVal1.val : Int) - (d.m_atnVal1.val : Int)) ^ 2
            ≤ (t.val : Int) * (t.val : Int))
      ∧ PixelCbCr.IsWithinToleranceSAD c d (PixelCbCr.MakeTolerance t)
          = (decide (((c.m_atnVal0.val : Int) - (d.m_atnVal0.val : Int)) ^ 2
              + ((c.m_atnVal1.val : Int) - (d.m_atnVal1.val : Int)) ^ 2
            ≤ (t.val : Int) * (t.val : Int)),
            ((c.m_atnVal0.val : Int) - (d.m_atnVal0.val : Int)) ^ 2
              + ((c.m_atnVal1.val : Int) - (d.m_atnVal1.val : Int)) ^ 2)) := by
  obtain ⟨⟨ya1, ya2, -⟩, -, ye1, ye2, -⟩ := component_diff_exact a.m_atnVal0 b.m_atnVal0
  obtain ⟨⟨xa1, -, xa3⟩, xs, xe1, -, xe3⟩ :=
    component_diff_exact c.m_atnVal0 d.m_atnVal0
  obtain ⟨⟨za1, -, za3⟩, zs, ze1, -, ze3⟩ :=
    component_diff_exact c.m_atnVal1 d.m_atnVal1
  have hly := luma_sad_exact a b
  have hch := chroma_sad_exact c d
  have htol := chroma_tolerance_exact t
  simp only [int32_of_uint8] at hly hch htol
  have ht := t.isLt
  have hts := sq_le_of_abs_le (t.val : Int) (by omega) (by omega)
  refine ⟨⟨ya1, ya2, xa1, za1, xa3, za3,
      inInt32_of_bounds _ (by linarith [xs.1, zs.1]) (by linarith [xs.2, zs.2]),
      by linarith [xs.2, zs.2],
      inInt32_of_bounds _ (by linarith [hts.1]) (by linarith [hts.2])⟩,
    ⟨ye1, ye2, xe1, ze1, xe3, ze3⟩, ⟨htol, ?_, ?_, ?_, ?_⟩⟩
  · simp only [PixelY.IsWithinTolerance, PixelY.MakeTolerance, int32_of_uint8, hly]
  · simp only [PixelY.IsWithinToleranceSAD, PixelY.MakeTolerance, int32_of_uint8, hly]
  · simp only [PixelCbCr.IsWithinTolerance, int32_of_uint8, hch, htol]
  · simp only [PixelCbCr.IsWithinToleranceSAD, int32_of_uint8, hch, htol]

/-! ### Exactly-one membership under the pool transitions -/

theorem separate_iff (t : ReadWriteThread) : t.Separate ↔ t.poolFrames.Nodup := Iff.rfl

/-- C26, amended (exactly-one membership): on a pool in which no buffer occurs more than
once across the free list, the valid list and the current slot, each of the eight
transitions, applied under its asserted precondition, succeeds and yields a pool with
the same property, provided, for `AddFrameToValidList` and `AddFrameToFreeList`, that
the frame added is not already held by the pool. The frame a `Get...` transition
returns is no longer held by the pool, and each of the four `Move...` transitions leaves
the buffers held by the pool the same (up to their order). -/
theorem C26_exactly_one_membership_amended (t : ReadWriteThread) (a_pFrame : Frame)
    (hsep : t.Separate) :
    (t.m_pValidFrames ≠ [] →
      ∃ f t1, t.GetFirstValidFrame = some (f, t1) ∧ t1.Separate ∧ f ∉ t1.poolFrames)
    ∧ (a_pFrame ∉ t.poolFrames → (t.AddFrameToValidList a_pFrame).Separate)
    ∧ (t.m_pFreeFrames ≠ [] →
      ∃ f t1, t.GetFreeFrame = some (f, t1) ∧ t1.Separate ∧ f ∉ t1.poolFrames)
    ∧ (a_pFrame ∉ t.poolFrames → (t.AddFrameToFreeList a_pFrame).Separate)
    ∧ (t.m_pValidFrames ≠ [] → t.m_pCurrentFrame = none →
      ∃ t1, t.MoveValidFrameToCurrent = some t1 ∧ t1.Separate
        ∧ t1.poolFrames.Perm t.poolFrames)
    ∧ (t.m_pCurrentFrame ≠ none →
      ∃ t1, t.MoveCurrentFrameToValidList = some t1 ∧ t1.Separate
        ∧ t1.poolFrames.Perm t.poolFrames)
    ∧ (t.m_pFreeFrames ≠ [] → t.m_pCurrentFrame = none →
      ∃ t1, t.MoveFreeFrameToCurrent = some t1 ∧ t1.Separate
        ∧ t1.poolFrames.Perm t.poolFrames)
    ∧ (t.m_pCurrentFrame ≠ none →
      ∃ t1, t.MoveCurrentFrameToFreeList = some t1 ∧ t1.Separate
        ∧ t1.poolFrames.Perm t.poolFrames) := by
  rcases t with ⟨wi, wo, wl, rv, pl, vl, cur, fl⟩
  simp only [ReadWriteThread.Separate, ReadWriteThread.poolFrames] at hsep ⊢
  refine ⟨?_, ?_, ?_, ?_, ?_, ?_, ?_, ?_⟩
  · intro hv
    cases vl with
    | nil => exact absurd rfl hv
    | cons f rest =>
      refine ⟨f, _, rfl, ?_, ?_⟩
      · simp only [List.nodup_append, List.nodup_cons, List.mem_append, List.mem_cons]
          at hsep ⊢
        aesop
      · simp only [List.nodup_append, List.nodup_cons, List.mem_append, List.mem_cons]
          at hsep ⊢
        aesop
  · intro hf
    simp only [ReadWriteThread.AddFrameToValidList]
    simp only [List.nodup_append, List.nodup_cons, List.mem_append, List.mem_cons,
      List.mem_singleton, List.nodup_nil, List.not_mem_nil] at hsep hf ⊢
    aesop
  · intro hv
    cases fl with
    | nil => exact absurd rfl hv
    | cons f rest =>
      refine ⟨f, _, rfl, ?_, ?_⟩
      · simp only [List.nodup_append, List.nodup_cons, List.mem_append, List.mem_cons]
          at hsep ⊢
        aesop
      · simp only [List.nodup_append, List.nodup_cons, List.mem_append, List.mem_cons]
          at hsep ⊢
        aesop
  · intro hf
    simp only [ReadWriteThread.AddFrameToFreeList]
    simp only [List.nodup_append, List.nodup_cons, List.mem_append, List.mem_cons,
      List.mem_singleton, List.nodup_nil, List.not_mem_nil] at hsep hf ⊢
    aesop
  · intro hv hc
    cases vl with
    | nil => exact absurd rfl hv
    | cons f rest =>
      subst hc
      refine ⟨_, rfl, ?_, ?_⟩
      · simpa using hsep
      · simp
  · intro hc
    cases cur with
    | none => exact absurd rfl hc
    | some f =>
      refine ⟨_, rfl, ?_, ?_⟩
      · simp only [ReadWriteThread.AddFrameToValidList, Option.toList, List.nil_append,
          List.singleton_append] at hsep ⊢
        simp only [List.nodup_append, List.nodup_cons, List.mem_append, List.mem_cons,
          List.mem_singleton, List.nodup_nil, List.not_mem_nil] at hsep ⊢
        aesop
      · simp only [ReadWriteThread.AddFrameToValidList, Option.toList, List.nil_append,
          List.singleton_append]
        rw [List.append_assoc]
        exact (List.perm_middle : List.Perm (vl ++ f :: fl) (f :: (vl ++ fl)))
  · intro hv hc
    cases fl with
    | nil => exact absurd rfl hv
    | cons f rest =>
      subst hc
      refine ⟨_, rfl, ?_, ?_⟩
      · simp only [Option.toList, List.nil_append, List.singleton_append] at hsep ⊢
        have hmid : List.Perm (vl ++ f :: rest) (f :: (vl ++ rest)) := List.perm_middle
        exact (List.Perm.nodup_iff hmid).mp hsep
      · simp only [Option.toList, List.nil_append, List.singleton_append]
        have hmid : List.Perm (vl ++ f :: rest) (f :: (vl ++ rest)) := List.perm_middle
        exact hmid.symm
  · intro hc
    cases cur with
    | none => exact absurd rfl hc
    | some f =>
      refine ⟨_, rfl, ?_, ?_⟩
      · simp only [ReadWriteThread.AddFrameToFreeList, Option.toList, List.nil_append,
          List.singleton_append] at hsep ⊢
        have hmid : List.Perm (vl ++ f :: fl) (f :: (vl ++ fl)) := List.perm_middle
        exact (List.Perm.nodup_iff hmid).mpr hsep
      · simp only [ReadWriteThread.AddFrameToFreeList, Option.toList, List.nil_append,
          List.singleton_append]
        exact (List.perm_middle : List.Perm (vl ++ f :: fl) (f :: (vl ++ fl)))

theorem C26_exactly_one_membership_amended_witness :
    poolSample.Separate
    ∧ 4 ∉ poolSample.poolFrames
    ∧ (poolSample.AddFrameToFreeList 4).poolFrames = [0, 1, 4, 2, 3]
    ∧ (poolSample.AddFrameToFreeList 4).Separate
    ∧ (poolSample.GetFirstValidFrame).map (fun r => (r.1, r.2.poolFrames))
        = some (1, [0, 2, 3])
    ∧ (poolSample.MoveCurrentFrameToFreeList).map ReadWriteThread.poolFrames
        = some [1, 0, 2, 3] :=
  ⟨by unfold ReadWriteThread.Separate; decide, by decide, rfl,
    (C26_exactly_one_membership_amended poolSample 4
      (by unfold ReadWriteThread.Separate; decide)).2.2.2.1 (by decide), rfl, rfl⟩

/-- C26, the claim as written fails for `AddFrameToFreeList` and `AddFrameToValidList`:
their only asserted precondition is `a_pFrame != NULL`. In the pool whose only buffer is
the current frame 0 no buffer occurs more than once; after `AddFrameToFreeList (0)`
(`AddFrameToValidList (0)`) frame 0 is both in the free (valid) list and the current
frame. -/
theorem C26_exactly_one_membership_counterexample :
    poolWithCurrent.Separate
    ∧ (poolWithCurrent.AddFrameToFreeList 0).poolFrames = [0, 0]
    ∧ ¬ (poolWithCurrent.AddFrameToFreeList 0).Separate
    ∧ (poolWithCurrent.AddFrameToValidList 0).poolFrames = [0, 0]
    ∧ ¬ (poolWithCurrent.AddFrameToValidList 0).Separate := by
  refine ⟨by unfold ReadWriteThread.Separate; decide, rfl,
    by unfold ReadWriteThread.Separate; decide, rfl,
    by unfold ReadWriteThread.Separate; decide⟩

/-! ### The pool after `Initialize`, and a failed read -/

/-- C27 (pool initial state): after `ReadWriteThread::Initialize` the free list holds
exactly `m_kNumFrames = 4` pairwise-distinct frames (the frames 3, 2, 1, 0 of
`m_apFrames`, the last one allocated first), the valid list is empty and there is no
current frame; the pointer fields the loop of `Initialize` leaves store exactly these
lists; and this is the pool the reader and the writer start with. -/
theorem C27_pool_initial_state :
    ReadWriteThread.Initialize.m_pFreeFrames = [3, 2, 1, 0]
    ∧ ReadWriteThread.Initialize.m_pFreeFrames.length = m_kNumFrames
    ∧ ReadWriteThread.Initialize.m_pFreeFrames.Nodup
    ∧ ReadWriteThread.Initialize.m_pValidFrames = []
    ∧ ReadWriteThread.Initialize.m_pCurrentFrame = none
    ∧ Represents (FramePointers.constructed.allocateFrames m_kNumFrames)
        ReadWriteThread.Initialize
    ∧ ReaderSys.init.thread = ReadWriteThread.Initialize
    ∧ WriterSys.init.thread = ReadWriteThread.Initialize :=
  ⟨rfl, rfl, by decide, rfl, rfl, (represents_allocateFrames m_kNumFrames).1, rfl, rfl⟩

/-- C28 (a failed read is atomic on the pool): let the reader's worker stand at the start
of `Work` (or be woken from its wait for input) with `pFrame` at the head of the free
list. Its first locked section pops `pFrame`. When `y4m_read_frame` then fails with
status `e`, the second locked section puts `pFrame` back and `Work` returns `e`: the
free list has the same frames in the same order as before the call, and the valid list,
the current frame and the flags are unchanged. The second locked section by itself, from
any state in which the worker holds `pFrame`, puts `pFrame` at the head of the free list
and changes nothing else of the pool. -/
theorem C28_reader_failure_atomic (s : ReaderSys) (pFrame : Frame) (rest : List Frame)
    (e : Int) (data : Content) (hab : s.aborted = false)
    (hw : s.worker = .workStart
      ∨ (s.worker = .waiting ∧ s.thread.m_bWaitingForInput = false))
    (hfree : s.thread.m_pFreeFrames = pFrame :: rest) (he : e ≠ Y4M_OK) :
    (∃ s1 s2, s.step .workerStep = some s1
      ∧ s1.worker = .holding pFrame ∧ s1.thread.m_pFreeFrames = rest
      ∧ s1.step (.workerRead e data) = some s2
      ∧ s.run [.workerStep, .workerRead e data] = some s2
      ∧ s2.worker = .returned e
      ∧ s2.thread.m_pFreeFrames = s.thread.m_pFreeFrames
      ∧ s2.thread.m_pValidFrames = s.thread.m_pValidFrames
      ∧ s2.thread.m_pCurrentFrame = s.thread.m_pCurrentFrame
      ∧ s2.thread.m_bWaitingForInput = s.thread.m_bWaitingForInput
      ∧ s2.thread.m_bWaitingForOutput = s.thread.m_bWaitingForOutput
      ∧ s2.thread.m_bWorkLoop = s.thread.m_bWorkLoop
      ∧ s2.thread.m_nWorkRetval = s.thread.m_nWorkRetval)
    ∧ (∀ s1 : ReaderSys, s1.aborted = false → s1.worker = .holding pFrame →
      ∃ s2, s1.step (.workerRead e data) = some s2
        ∧ s2.worker = .returned e
        ∧ s2.thread.m_pFreeFrames = pFrame :: s1.thread.m_pFreeFrames
        ∧ s2.thread.m_pValidFrames = s1.thread.m_pValidFrames
        ∧ s2.thread.m_pCurrentFrame = s1.thread.m_pCurrentFrame) := by
  have hne : (e == Y4M_OK) = false := by simpa using he
  constructor
  · rcases s with ⟨⟨wi, wo, wl, rv, pl, vl, cur, fl⟩, w, c, j, ab, fr, ho, st⟩
    simp only at hab hfree hw
    subst hab hfree
    rcases hw with hw | ⟨hw, hwi⟩
    · subst hw
      simp [ReaderSys.run, ReaderSys.step, ReaderSys.workerStep, ReaderSys.workTakeFree,
        ReaderSys.workerRead, ReadWriteThread.GetFreeFrame,
        ReadWriteThread.AddFrameToFreeList, hne]
    · subst hw hwi
      simp [ReaderSys.run, ReaderSys.step, ReaderSys.workerStep, ReaderSys.workTakeFree,
        ReaderSys.workerRead, ReadWriteThread.GetFreeFrame,
        ReadWriteThread.AddFrameToFreeList, hne]
  · intro s1 hab1 hw1
    rcases s1 with ⟨⟨wi, wo, wl, rv, pl, vl, cur, fl⟩, w, c, j, ab, fr, ho, st⟩
    simp only at hab1 hw1
    subst hab1 hw1
    simp [ReaderSys.step, ReaderSys.workerRead, ReadWriteThread.AddFrameToFreeList, hne]

theorem C28_reader_failure_atomic_witness :
    readerAtWorkStart.thread.m_pFreeFrames = [3, 2, 1, 0]
    ∧ (readerAtWorkStart.run [.workerStep, .workerRead Y4M_ERR_EOF 0]).map
        (fun s => (s.worker, s.thread.m_pFreeFrames, s.thread.m_pValidFrames,
          s.thread.m_pCurrentFrame))
      = some (.returned Y4M_ERR_EOF, [3, 2, 1, 0], [], none)
    ∧ ∃ s1 s2, readerAtWorkStart.step .workerStep = some s1
      ∧ s1.worker = .holding 3 ∧ s1.thread.m_pFreeFrames = [2, 1, 0]
      ∧ s1.step (.workerRead Y4M_ERR_EOF 0) = some s2
      ∧ readerAtWorkStart.run [.workerStep, .workerRead Y4M_ERR_EOF 0] = some s2
      ∧ s2.worker = .returned Y4M_ERR_EOF
      ∧ s2.thread.m_pFreeFrames = readerAtWorkStart.thread.m_pFreeFrames
      ∧ s2.thread.m_pValidFrames = readerAtWorkStart.thread.m_pValidFrames
      ∧ s2.thread.m_pCurrentFrame = readerAtWorkStart.thread.m_pCurrentFrame
      ∧ s2.thread.m_bWaitingForInput = readerAtWorkStart.thread.m_bWaitingForInput
      ∧ s2.thread.m_bWaitingForOutput = readerAtWorkStart.thread.m_bWaitingForOutput
      ∧ s2.thread.m_bWorkLoop = readerAtWorkStart.thread.m_bWorkLoop
      ∧ s2.thread.m_nWorkRetval = readerAtWorkStart.thread.m_nWorkRetval :=
  ⟨rfl, rfl, (C28_reader_failure_atomic readerAtWorkStart 3 [2, 1, 0] Y4M_ERR_EOF 0 rfl
    (Or.inl rfl) rfl (by decide)).1⟩

/-! ### The denoise worker: the state machine and the per-frame barrier -/

@[simp] theorem isNull_null : PlanePointers.null.isNull = true := rfl

set_option maxHeartbeats 1000000 in
theorem denoiser_workerStep_barrier (s s1 : DenoiserSys) (h : s.BarrierInv)
    (hs : s.workerStep = some s1) :
    s1.BarrierInv ∧ s.ReturnStep s1
      ∧ StatusTransition .workerStep s.thread.m_eWorkStatus s1.thread.m_eWorkStatus := by
  rcases s with ⟨⟨wi, wo, wl, rv, st, ptr⟩, w, c, j, ab, g, f, rets⟩
  simp only [DenoiserSys.BarrierInv, DenoiserSys.ReturnStep, StatusTransition] at h ⊢
  rcases w with _ | _ | _ | (_ | _) | _ | _ | _ | _ <;> cases st <;> cases wi <;>
    cases wo <;> cases wl <;>
    simp [DenoiserSys.workerStep, DenoiserThreadCbCr.SignalOutput,
      DenoiserThreadCbCr.stopAndSignal, DenoiserThreadCbCr.SignalInput] at hs h <;>
    (try split at hs) <;> (try simp at hs) <;> (try subst hs) <;> simp_all

theorem denoiser_workerWork_barrier (s s1 : DenoiserSys) (nErr : Int) (h : s.BarrierInv)
    (hs : s.workerWork nErr = some s1) :
    s1.BarrierInv ∧ s.ReturnStep s1
      ∧ StatusTransition (.workerWork nErr) s.thread.m_eWorkStatus
          s1.thread.m_eWorkStatus := by
  rcases s with ⟨⟨wi, wo, wl, rv, st, ptr⟩, w, c, j, ab, g, f, rets⟩
  simp only [DenoiserSys.BarrierInv, DenoiserSys.ReturnStep, StatusTransition] at h ⊢
  cases w <;> simp [DenoiserSys.workerWork] at hs h
  subst hs
  simp_all

set_option maxHeartbeats 1000000 in
theorem denoiser_addFrame_barrier (s s1 : DenoiserSys) (p : PlanePointers)
    (h : s.BarrierInv) (hs : s.addFrame p = some s1) :
    s1.BarrierInv ∧ s.ReturnStep s1
      ∧ StatusTransition (.AddFrame p) s.thread.m_eWorkStatus
          s1.thread.m_eWorkStatus := by
  rcases s with ⟨⟨wi, wo, wl, rv, st, ptr⟩, w, c, j, ab, g, f, rets⟩
  simp only [DenoiserSys.BarrierInv, DenoiserSys.ReturnStep, StatusTransition] at h ⊢
  cases c <;> cases st <;> cases wi <;>
    simp [DenoiserSys.addFrame, DenoiserThreadCbCr.SignalInput] at hs h <;>
    (try split at hs) <;> (try split at hs) <;>
    (try simp at hs) <;> (try subst hs) <;> simp_all

theorem denoiser_waitFinish_barrier (s : DenoiserSys) (a : DenoiserAction)
    (ha : a = .WaitForAddFrame ∨ a = .clientStep) (h : s.BarrierInv) :
    s.waitFinish.BarrierInv ∧ s.ReturnStep s.waitFinish
      ∧ StatusTransition a s.thread.m_eWorkStatus s.waitFinish.thread.m_eWorkStatus := by
  rcases s with ⟨⟨wi, wo, wl, rv, st, ptr⟩, w, c, j, ab, g, f, rets⟩
  simp only [DenoiserSys.BarrierInv, DenoiserSys.ReturnStep, StatusTransition,
    ReturnRecord.Barrier] at h ⊢
  cases st <;> simp [DenoiserSys.waitFinish] at h ⊢ <;> simp_all

set_option maxHeartbeats 1000000 in
theorem denoiser_waitForAddFrame_barrier (s s1 : DenoiserSys) (h : s.BarrierInv)
    (hs : s.waitForAddFrame = some s1) :
    s1.BarrierInv ∧ s.ReturnStep s1
      ∧ StatusTransition .WaitForAddFrame s.thread.m_eWorkStatus
          s1.thread.m_eWorkStatus := by
  have hfin := denoiser_waitFinish_barrier s .WaitForAddFrame (Or.inl rfl) h
  rcases s with ⟨⟨wi, wo, wl, rv, st, ptr⟩, w, c, j, ab, g, f, rets⟩
  cases c <;> simp only [DenoiserSys.waitForAddFrame] at hs
  · split at hs
    · simp only [Option.some.injEq] at hs
      subst hs
      exact ⟨h, Or.inl rfl, Or.inl rfl⟩
    split at hs
    · simp only [Option.some.injEq] at hs
      subst hs
      exact ⟨h, Or.inl rfl, Or.inl rfl⟩
    split at hs
    · split at hs <;>
      · simp only [Option.some.injEq] at hs
        subst hs
        exact ⟨h, Or.inl rfl, Or.inl rfl⟩
    · simp only [Option.some.injEq] at hs
      subst hs
      exact hfin
  all_goals exact Option.noConfusion hs

theorem denoiser_clientStep_barrier (s s1 : DenoiserSys) (h : s.BarrierInv)
    (hs : s.clientStep = some s1) :
    s1.BarrierInv ∧ s.ReturnStep s1
      ∧ StatusTransition .clientStep s.thread.m_eWorkStatus
          s1.thread.m_eWorkStatus := by
  have hfin := denoiser_waitFinish_barrier s .clientStep (Or.inr rfl) h
  rcases s with ⟨⟨wi, wo, wl, rv, st, ptr⟩, w, c, j, ab, g, f, rets⟩
  cases c <;> simp only [DenoiserSys.clientStep] at hs
  · exact Option.noConfusion hs
  · split at hs
    · exact Option.noConfusion hs
    · simp only [Option.some.injEq] at hs
      subst hs
      exact hfin
  · split at hs
    · simp only [Option.some.injEq] at hs
      subst hs
      exact ⟨h, Or.inl rfl, Or.inl rfl⟩
    · exact Option.noConfusion hs

theorem denoiser_forceShutdown_barrier (s s1 : DenoiserSys) (h : s.BarrierInv)
    (hs : s.forceShutdown = some s1) :
    s1.BarrierInv ∧ s.ReturnStep s1
      ∧ StatusTransition .ForceShutdown s.thread.m_eWorkStatus
          s1.thread.m_eWorkStatus := by
  rcases s with ⟨⟨wi, wo, wl, rv, st, ptr⟩, w, c, j, ab, g, f, rets⟩
  simp only [DenoiserSys.BarrierInv, DenoiserSys.ReturnStep, StatusTransition] at h ⊢
  cases c <;> cases j <;> cases wi <;> cases wo <;>
    simp [DenoiserSys.forceShutdown, DenoiserThreadCbCr.stopAndSignal,
      DenoiserThreadCbCr.SignalInput, DenoiserThreadCbCr.SignalOutput] at hs <;>
    subst hs <;> simp_all

theorem denoiser_step_barrier (s s1 : DenoiserSys) (a : DenoiserAction)
    (h : s.BarrierInv) (hs : s.step a = some s1) :
    s1.BarrierInv ∧ s.ReturnStep s1
      ∧ StatusTransition a s.thread.m_eWorkStatus s1.thread.m_eWorkStatus := by
  unfold DenoiserSys.step at hs
  split at hs
  · exact Option.noConfusion hs
  · cases a with
    | workerStep => exact denoiser_workerStep_barrier s s1 h hs
    | workerWork nErr => exact denoiser_workerWork_barrier s s1 nErr h hs
    | AddFrame p => exact denoiser_addFrame_barrier s s1 p h hs
    | WaitForAddFrame => exact denoiser_waitForAddFrame_barrier s s1 h hs
    | clientStep => exact denoiser_clientStep_barrier s s1 h hs
    | ForceShutdown => exact denoiser_forceShutdown_barrier s s1 h hs

theorem denoiser_init_barrier : DenoiserSys.init.BarrierInv := by
  simp [DenoiserSys.BarrierInv, DenoiserSys.init, DenoiserThreadCbCr.Initialize,
    DenoiserThreadCbCr.constructed]

theorem denoiser_run_barrier (acts : List DenoiserAction) (s s2 : DenoiserSys)
    (h : s.BarrierInv) (hr : ∀ r ∈ s.returns, r.Barrier) (hs : s.run acts = some s2) :
    s2.BarrierInv ∧ ∀ r ∈ s2.returns, r.Barrier := by
  induction acts generalizing s with
  | nil =>
    simp only [DenoiserSys.run, Option.some.injEq] at hs
    subst hs
    exact ⟨h, hr⟩
  | cons a rest ih =>
    simp only [DenoiserSys.run] at hs
    split at hs
    · exact Option.noConfusion hs
    · rename_i s1 h1
      obtain ⟨hb, hret, -⟩ := denoiser_step_barrier s s1 a h h1
      refine ih s1 hb ?_ hs
      rcases hret with e | ⟨r0, e, hr0⟩
      · rw [e]
        exact hr
      · rw [e]
        intro r hmem
        rcases List.mem_append.mp hmem with hm | hm
        · exact hr r hm
        · rw [List.mem_singleton.mp hm]
          exact hr0

set_option maxHeartbeats 2000000 in
theorem denoiser_workerStep_order (e : Bool) (s s1 : DenoiserSys) (h : s.OrderInv e)
    (hs : s.workerStep = some s1) : s1.OrderInv e := by
  rcases s with ⟨⟨wi, wo, wl, rv, st, ptr⟩, w, c, j, ab, g, f, rets⟩
  simp only [DenoiserSys.OrderInv] at h ⊢
  obtain ⟨h1, h2, h3, h4, h5, h6, h7, h8, h9, h10⟩ := h
  rcases w with _ | _ | _ | (_ | _) | _ | _ | _ | _ <;> cases st <;> cases wi <;>
    cases wo <;> cases wl <;> cases c <;> cases e <;>
    simp [DenoiserSys.workerStep, DenoiserThreadCbCr.SignalOutput,
      DenoiserThreadCbCr.stopAndSignal, DenoiserThreadCbCr.SignalInput] at hs <;>
    (try split at hs) <;> (try simp at hs) <;> (try subst hs) <;> simp_all

theorem denoiser_workerWork_order (e : Bool) (s s1 : DenoiserSys) (nErr : Int)
    (h : s.OrderInv e) (hs : s.workerWork nErr = some s1) : s1.OrderInv e := by
  rcases s with ⟨⟨wi, wo, wl, rv, st, ptr⟩, w, c, j, ab, g, f, rets⟩
  simp only [DenoiserSys.OrderInv] at h ⊢
  obtain ⟨h1, h2, h3, h4, h5, h6, h7, h8, h9, h10⟩ := h
  cases w <;> simp [DenoiserSys.workerWork] at hs
  subst hs
  cases st <;> cases e <;> cases c <;> simp_all

set_option maxHeartbeats 2000000 in
theorem denoiser_addFrame_order (s s1 : DenoiserSys) (p : PlanePointers)
    (h : s.OrderInv false) (hs : s.addFrame p = some s1) :
    s1.OrderInv true ∨ s1.aborted = some .pointers := by
  rcases s with ⟨⟨wi, wo, wl, rv, st, ptr⟩, w, c, j, ab, g, f, rets⟩
  simp only [DenoiserSys.OrderInv] at h ⊢
  obtain ⟨h1, h2, h3, h4, h5, h6, h7, h8, h9, h10⟩ := h
  by_cases hp : p.valid = true
  · left
    cases c <;> cases st <;> cases wi <;> cases wo <;> cases wl <;>
      simp [DenoiserSys.addFrame, DenoiserThreadCbCr.SignalInput, hp] at hs <;>
      (try split at hs) <;> (try simp at hs) <;> (try subst hs) <;> simp_all
  · right
    cases c <;> simp [DenoiserSys.addFrame, hp] at hs
    subst hs
    rfl

set_option maxHeartbeats 2000000 in
theorem denoiser_waitForAddFrame_order (s s1 : DenoiserSys) (h : s.OrderInv true)
    (hs : s.waitForAddFrame = some s1) : s1.OrderInv false := by
  rcases s with ⟨⟨wi, wo, wl, rv, st, ptr⟩, w, c, j, ab, g, f, rets⟩
  simp only [DenoiserSys.OrderInv] at h ⊢
  obtain ⟨h1, h2, h3, h4, h5, h6, h7, h8, h9, h10⟩ := h
  cases c <;> cases st <;> cases wi <;> cases wo <;> cases wl <;>
    simp [DenoiserSys.waitForAddFrame, DenoiserSys.waitFinish] at hs <;>
    (try split at hs) <;> (try simp at hs) <;> (try subst hs) <;> simp_all

set_option maxHeartbeats 2000000 in
theorem denoiser_clientStep_order (e : Bool) (s s1 : DenoiserSys) (h : s.OrderInv e)
    (hs : s.clientStep = some s1) : s1.OrderInv e := by
  rcases s with ⟨⟨wi, wo, wl, rv, st, ptr⟩, w, c, j, ab, g, f, rets⟩
  simp only [DenoiserSys.OrderInv] at h ⊢
  obtain ⟨h1, h2, h3, h4, h5, h6, h7, h8, h9, h10⟩ := h
  cases c <;> cases st <;> cases wi <;> cases wo <;> cases wl <;> cases e <;>
    simp [DenoiserSys.clientStep, DenoiserSys.waitFinish] at hs <;>
    (try (obtain ⟨hw, hs⟩ := hs)) <;> (try subst hs) <;> simp_all

set_option maxHeartbeats 2000000 in
theorem denoiser_forceShutdown_order (e : Bool) (s s1 : DenoiserSys) (h : s.OrderInv e)
    (hs : s.forceShutdown = some s1) : s1.OrderInv e := by
  rcases s with ⟨⟨wi, wo, wl, rv, st, ptr⟩, w, c, j, ab, g, f, rets⟩
  simp only [DenoiserSys.OrderInv] at h ⊢
  obtain ⟨h1, h2, h3, h4, h5, h6, h7, h8, h9, h10⟩ := h
  cases c <;> cases j <;> cases wi <;> cases wo <;> cases wl <;> cases e <;>
    simp [DenoiserSys.forceShutdown, DenoiserThreadCbCr.stopAndSignal,
      DenoiserThreadCbCr.SignalInput, DenoiserThreadCbCr.SignalOutput] at hs <;>
    (try subst hs) <;> simp_all

theorem denoiser_init_order : DenoiserSys.init.OrderInv false := by
  simp [DenoiserSys.OrderInv, DenoiserSys.init, DenoiserThreadCbCr.Initialize,
    DenoiserThreadCbCr.constructed]

theorem denoiser_run_of_aborted (acts : List DenoiserAction) (s s2 : DenoiserSys)
    (x : Assertion) (h : s.aborted = some x) (hs : s.run acts = some s2) : s2 = s := by
  cases acts with
  | nil =>
    simp only [DenoiserSys.run, Option.some.injEq] at hs
    exact hs.symm
  | cons a rest =>
    simp [DenoiserSys.run, DenoiserSys.step, h] at hs

theorem denoiser_run_order (acts : List DenoiserAction) (e : Bool) (s s2 : DenoiserSys)
    (h : s.OrderInv e) (hal : Alternates e acts = true) (hs : s.run acts = some s2) :
    s2.OrderInv (expectAfter e acts) ∨ s2.aborted = some .pointers := by
  induction acts generalizing s e with
  | nil =>
    simp only [DenoiserSys.run, Option.some.injEq] at hs
    subst hs
    exact Or.inl h
  | cons a rest ih =>
    simp only [DenoiserSys.run] at hs
    split at hs
    · exact Option.noConfusion hs
    · rename_i s1 h1
      unfold DenoiserSys.step at h1
      split at h1
      · exact Option.noConfusion h1
      · cases a with
        | workerStep =>
          exact ih e s1 (denoiser_workerStep_order e s s1 h h1)
            (by simpa [Alternates] using hal) hs
        | workerWork nErr =>
          exact ih e s1 (denoiser_workerWork_order e s s1 nErr h h1)
            (by simpa [Alternates] using hal) hs
        | AddFrame p =>
          simp only [Alternates, Bool.and_eq_true, Bool.not_eq_true'] at hal
          obtain ⟨he, hrest⟩ := hal
          subst he
          rcases denoiser_addFrame_order s s1 p h h1 with h2 | h2
          · exact ih true s1 h2 hrest hs
          · rw [denoiser_run_of_aborted rest s1 s2 _ h2 hs]
            exact Or.inr h2
        | WaitForAddFrame =>
          simp only [Alternates, Bool.and_eq_true] at hal
          obtain ⟨he, hrest⟩ := hal
          subst he
          exact ih false s1 (denoiser_waitForAddFrame_order s s1 h h1) hrest hs
        | clientStep =>
          exact ih e s1 (denoiser_clientStep_order e s s1 h h1)
            (by simpa [Alternates] using hal) hs
        | ForceShutdown =>
          exact ih e s1 (denoiser_forceShutdown_order e s s1 h h1)
            (by simpa [Alternates] using hal) hs

/-- C29 (worker state machine): in every run of the denoise worker after `Initialize`
the status starts at `m_kWaitingForFrame`, and a step changes it only by
`m_kWaitingForFrame -> m_kGivenFrame` (the client's `AddFrame`),
`m_kGivenFrame -> m_kFinishedFrame` (the worker loop after `Work`) or
`m_kFinishedFrame -> m_kWaitingForFrame` (the client's `WaitForAddFrame`); and when the
client alternates `AddFrame` and `WaitForAddFrame`, no assertion on the status (in
`AddFrame`, `WaitForAddFrame` and `WorkLoop`) and no assertion at the entry of a wait has
failed: the only assertion that can fail is the one on the pointers passed to
`AddFrame`. -/
theorem C29_worker_state_machine (acts : List DenoiserAction) (s : DenoiserSys)
    (hrun : DenoiserSys.init.run acts = some s) :
    DenoiserSys.init.thread.m_eWorkStatus = .m_kWaitingForFrame
    ∧ (∀ a s1, s.step a = some s1 →
        StatusTransition a s.thread.m_eWorkStatus s1.thread.m_eWorkStatus)
    ∧ (Alternates false acts = true →
        s.aborted ≠ some .status ∧ s.aborted ≠ some .waiting
        ∧ (s.aborted = none ∨ s.aborted = some .pointers)) := by
  obtain ⟨hb, -⟩ := denoiser_run_barrier acts _ s denoiser_init_barrier
    (fun r hr => by simp [DenoiserSys.init] at hr) hrun
  refine ⟨rfl, fun a s1 hs => (denoiser_step_barrier s s1 a hb hs).2.2, fun hal => ?_⟩
  rcases denoiser_run_order acts false _ s denoiser_init_order hal hrun with h | h
  · have h0 := h.1
    rw [h0]
    exact ⟨fun x => Option.noConfusion x, fun x => Option.noConfusion x, Or.inl rfl⟩
  · rw [h]
    exact ⟨by decide, by decide, Or.inr rfl⟩

theorem C29_worker_state_machine_witness :
    Alternates false denoiserTwoFrames = true
    ∧ (DenoiserSys.init.run denoiserTwoFrames).map
        (fun s => (s.aborted, s.thread.m_eWorkStatus, s.given, s.finished))
      = some (none, .m_kWaitingForFrame, 2, 2)
    ∧ ∀ s, DenoiserSys.init.run denoiserTwoFrames = some s →
      s.aborted ≠ some .status ∧ s.aborted ≠ some .waiting
        ∧ (s.aborted = none ∨ s.aborted = some .pointers) :=
  ⟨rfl, rfl, fun s hs => (C29_worker_state_machine denoiserTwoFrames s hs).2.2 rfl⟩

/-- C30 (per-frame barrier): with the chroma worker, a call of `newdenoise_frame` or
`newdenoise_interlaced_frame` is `AddFrame` at its start and `WaitForAddFrame` at its
end. In every run, each return of `WaitForAddFrame` finds that the worker has set
`m_kFinishedFrame` for every submission so far, the one of this call included; on
return the status is `m_kWaitingForFrame` and the four stored pointers are `NULL`. So
when the calls follow one another, the `AddFrame` of the next call finds no frame
pending: none of its assertions fails, and it stores its pointers and sets
`m_kGivenFrame`. -/
theorem C30_per_frame_barrier (acts : List DenoiserAction) (s : DenoiserSys)
    (hrun : DenoiserSys.init.run acts = some s) :
    (∀ r ∈ s.returns, r.finished = r.given ∧ r.m_eWorkStatus = .m_kWaitingForFrame
        ∧ r.pointers = PlanePointers.null)
    ∧ (∀ p s1, Alternates false acts = true → expectAfter false acts = false →
        p.valid = true → s.step (.AddFrame p) = some s1 →
        s1.aborted = none ∧ s1.thread.m_eWorkStatus = .m_kGivenFrame
          ∧ s1.thread.pointers = p ∧ s1.given = s1.finished + 1) := by
  obtain ⟨hb, hret⟩ := denoiser_run_barrier acts _ s denoiser_init_barrier
    (fun r hr => by simp [DenoiserSys.init] at hr) hrun
  refine ⟨hret, fun p s1 hal hex hp hs => ?_⟩
  have hb1 := (denoiser_step_barrier s s1 _ hb hs).1
  unfold DenoiserSys.step at hs
  split at hs
  · exact Option.noConfusion hs
  rename_i hab
  rcases denoiser_run_order acts false _ s denoiser_init_order hal hrun with h | h
  · rw [hex] at h
    rcases denoiser_addFrame_order s s1 p h hs with h2 | h2
    · have hst : s1.thread.m_eWorkStatus = .m_kGivenFrame
          ∧ s1.thread.pointers = p := by
        rcases s with ⟨⟨wi, wo, wl, rv, st, ptr⟩, w, c, j, ab, g, f, rets⟩
        cases c <;> cases wi <;>
          simp [DenoiserSys.addFrame, DenoiserThreadCbCr.SignalInput, hp] at hs <;>
          (try split at hs) <;> (try split at hs) <;> (try simp at hs) <;>
          (try subst hs) <;> simp_all [DenoiserSys.OrderInv]
      exact ⟨h2.1, hst.1, hst.2, hb1.2.1 hst.1⟩
    · exfalso
      rcases s with ⟨⟨wi, wo, wl, rv, st, ptr⟩, w, c, j, ab, g, f, rets⟩
      simp only [DenoiserSys.OrderInv] at h
      obtain ⟨h1, -, h3, -⟩ := h
      cases c <;> cases st <;> cases wi <;>
        simp [DenoiserSys.addFrame, DenoiserThreadCbCr.SignalInput, hp] at hs <;>
        (try split at hs) <;> (try simp at hs) <;> (try subst hs) <;> simp_all
  · rw [h] at hab
    simp at hab

theorem C30_per_frame_barrier_witness :
    (DenoiserSys.init.run denoiserTwoFrames).map (fun s => s.returns)
      = some [{ retval := 1, m_eWorkStatus := .m_kWaitingForFrame,
                pointers := PlanePointers.null, given := 1, finished := 1 },
              { retval := 0, m_eWorkStatus := .m_kWaitingForFrame,
                pointers := PlanePointers.null, given := 2, finished := 2 }]
    ∧ ∀ s, DenoiserSys.init.run denoiserTwoFrames = some s →
      ∀ r ∈ s.returns, r.finished = r.given ∧ r.m_eWorkStatus = .m_kWaitingForFrame
        ∧ r.pointers = PlanePointers.null :=
  ⟨rfl, fun s hs => (C30_per_frame_barrier denoiserTwoFrames s hs).1⟩

/-! ### Initialisation and shutdown -/

/-- C22, the code at two failing inputs. With `denoiser.threads = 1` and a luma engine
whose `Init` reports an error, `newdenoise_init` returns -1 after `delete[] g_pPixelsY`:
the staging array is released, but `g_bMotionSearcherY` is still true, and the reader
and writer threads started by the call are still running (their loop flag is set, the
worker threads stand in `WorkLoop`, `ForceShutdown` has not been called). With a chroma
engine whose `Init` reports an error, both staging arrays are released and both plane
groups are still marked enabled. -/
theorem C22_init_failure_leaves_state :
    (newdenoise_init (sampleInit 1) (sampleInit 0) true true (freshState { threads := 1 })
        2 4 2 2 1 (some 1) (some 2)).map
      (fun r => (r.1, r.2.g_bMotionSearcherY, r.2.g_pPixelsY,
        r.2.g_oDenoiserThreadRead.map (fun t => (t.thread.m_bWorkLoop, t.worker, t.joined)),
        r.2.g_oDenoiserThreadWrite.map
          (fun t => (t.thread.m_bWorkLoop, t.worker, t.joined))))
      = some (-1, true, .released, some (true, .loopHead, false),
          some (true, .loopHead, false))
    ∧ (newdenoise_init (sampleInit 0) (sampleInit 1) true true
        (freshState { threads := 1 }) 2 4 2 2 1 (some 1) (some 2)).map
      (fun r => (r.1, r.2.g_bMotionSearcherY, r.2.g_pPixelsY, r.2.g_bMotionSearcherCbCr,
        r.2.g_pPixelsCbCr, r.2.g_oDenoiserThreadRead.map (fun t => t.thread.m_bWorkLoop)))
      = some (-1, true, .released, true, .released, some true) :=
  ⟨rfl, rfl⟩

theorem shutdown_bit0_clear {σY σC : Type} (g : FacadeState σY σC)
    (stepsCbCr : List DenoiserAction) (stepsRead : List ReaderAction)
    (stepsWrite : List WriterAction) (h0 : Int.land g.denoiser.threads 1 = 0) :
    ((g.g_bMotionSearcherCbCr = false ∨ Int.land g.denoiser.threads 2 = 0) →
      newdenoise_shutdown g stepsCbCr stepsRead stepsWrite = some (0, g))
    ∧ (∀ ret g1, newdenoise_shutdown g stepsCbCr stepsRead stepsWrite = some (ret, g1) →
      ret = 0
      ∧ g1.g_oDenoiserThreadRead = g.g_oDenoiserThreadRead
      ∧ g1.g_oDenoiserThreadWrite = g.g_oDenoiserThreadWrite
      ∧ g1.g_oMotionSearcherY = g.g_oMotionSearcherY
      ∧ g1.g_oMotionSearcherCbCr = g.g_oMotionSearcherCbCr
      ∧ g1.g_pPixelsY = g.g_pPixelsY ∧ g1.g_pPixelsCbCr = g.g_pPixelsCbCr
      ∧ g1.g_bMotionSearcherY = g.g_bMotionSearcherY
      ∧ g1.g_bMotionSearcherCbCr = g.g_bMotionSearcherCbCr
      ∧ g1.denoiser = g.denoiser) := by
  constructor
  · intro hc
    unfold newdenoise_shutdown
    rcases hc with hc | hc <;> simp [hc, h0]
  · intro ret g1 h
    unfold newdenoise_shutdown at h
    simp only at h
    split at h
    · exact Option.noConfusion h
    rename_i g2 h2
    have hg2 : g2.denoiser = g.denoiser
        ∧ g2.g_oDenoiserThreadRead = g.g_oDenoiserThreadRead
        ∧ g2.g_oDenoiserThreadWrite = g.g_oDenoiserThreadWrite
        ∧ g2.g_oMotionSearcherY = g.g_oMotionSearcherY
        ∧ g2.g_oMotionSearcherCbCr = g.g_oMotionSearcherCbCr
        ∧ g2.g_pPixelsY = g.g_pPixelsY ∧ g2.g_pPixelsCbCr = g.g_pPixelsCbCr
        ∧ g2.g_bMotionSearcherY = g.g_bMotionSearcherY
        ∧ g2.g_bMotionSearcherCbCr = g.g_bMotionSearcherCbCr := by
      (repeat' split at h2) <;> simp_all
      subst h2
      simp
    obtain ⟨d2, r2, w2, y2, c2, py2, pc2, by2, bc2⟩ := hg2
    rw [d2] at h
    simp only [h0, bne_self_eq_false, Bool.false_eq_true, if_false, Option.some.injEq,
      Prod.mk.injEq] at h
    obtain ⟨hr, hg⟩ := h
    subst hr hg
    exact ⟨rfl, r2, w2, y2, c2, py2, pc2, by2, bc2, d2⟩

/-- C23, amended (shutdown without threads): when `denoiser.threads` has bit 0 clear (no
reader and no writer) and the chroma worker is not in use either (chroma is disabled, or
`denoiser.threads` has bit 1 clear), `newdenoise_shutdown` returns 0 and leaves the
globals as they are: no worker, pool, engine or staging state is changed. -/
theorem C23_shutdown_without_io_amended {σY σC : Type} (g : FacadeState σY σC)
    (stepsCbCr : List DenoiserAction) (stepsRead : List ReaderAction)
    (stepsWrite : List WriterAction) (h0 : Int.land g.denoiser.threads 1 = 0)
    (hc : g.g_bMotionSearcherCbCr = false ∨ Int.land g.denoiser.threads 2 = 0) :
    newdenoise_shutdown g stepsCbCr stepsRead stepsWrite = some (0, g) :=
  (shutdown_bit0_clear g stepsCbCr stepsRead stepsWrite h0).1 hc

/-- C23, amended, witness: the globals after a successful `newdenoise_init` with
`denoiser.threads = 0`, chroma enabled. -/
theorem C23_shutdown_without_io_amended_witness :
    Int.land stateWithoutThreads.denoiser.threads 1 = 0
    ∧ stateWithoutThreads.g_bMotionSearcherCbCr = true
    ∧ Int.land stateWithoutThreads.denoiser.threads 2 = 0
    ∧ newdenoise_shutdown stateWithoutThreads [] [] [] = some (0, stateWithoutThreads) :=
  ⟨rfl, rfl, rfl,
    C23_shutdown_without_io_amended stateWithoutThreads [] [] [] rfl (Or.inr rfl)⟩

/-- C23, the claim as written fails when the chroma worker is in use: after a
successful `newdenoise_init` with `denoiser.threads = 2` (bit 0 clear, no reader and no
writer) the chroma worker runs, its loop flag set. `newdenoise_shutdown` calls
`ForceShutdown` on it; in the run where the worker thread then takes two steps and ends,
the call returns 0 with the worker's loop flag cleared and its thread joined: the state
of the worker has changed. -/
theorem C23_shutdown_without_io_counterexample :
    Int.land stateWithChromaWorker.denoiser.threads 1 = 0
    ∧ stateWithChromaWorker.g_oDenoiserThreadCbCr.map
        (fun d => (d.thread.m_bWorkLoop, d.worker, d.joined))
      = some (true, .loopHead, false)
    ∧ (newdenoise_shutdown stateWithChromaWorker [.workerStep, .workerStep] [] []).map
        (fun r => (r.1, r.2.g_oDenoiserThreadCbCr.map
          (fun d => (d.thread.m_bWorkLoop, d.worker, d.joined))))
      = some (0, some (false, .done, true)) :=
  ⟨rfl, rfl, rfl⟩

/-! ### The size of a staged field -/

theorem fieldLoop_stageFieldY (inputY : Plane) (W H m : Nat) (hm : m < 2)
    (pixels : Nat → PixelY) :
    ∃ staged, fieldLoop (stageFieldY inputY) W H m pixels = some (fieldPixels W H m, staged)
      ∧ RowsStaged W H m (fun i => PixelY.mk (inputY i)) staged :=
  fieldLoop_stage (stageFieldY inputY) (fun (s : Nat → PixelY) j => s j)
    (fun i => PixelY.mk (inputY i)) (fun _ _ _ => ⟨_, rfl, fun _ => rfl⟩) W H m hm pixels

theorem fieldLoop_stageFieldCbCr (inputCb inputCr : Plane) (W H m : Nat) (hm : m < 2)
    (pixels : Nat → PixelCbCr) :
    ∃ staged, fieldLoop (stageFieldCbCr inputCb inputCr) W H m pixels
        = some (fieldPixels W H m, staged)
      ∧ RowsStaged W H m (fun i => PixelCbCr.mk (inputCb i) (inputCr i)) staged :=
  fieldLoop_stage (stageFieldCbCr inputCb inputCr) (fun (s : Nat → PixelCbCr) j => s j)
    (fun i => PixelCbCr.mk (inputCb i) (inputCr i)) (fun _ _ _ => ⟨_, rfl, fun _ => rfl⟩)
    W H m hm pixels

theorem fieldPixels_even (W H m : Nat) (hm : m < 2) (hH : H % 2 = 0) :
    fieldPixels W H m = (W * H) / 2 := by
  obtain ⟨k, rfl⟩ : ∃ k, H = 2 * k := ⟨H / 2, by omega⟩
  have e1 : (2 * k + 1 - m) / 2 = k := by omega
  have e2 : W * (2 * k) / 2 = k * W := by
    rw [Nat.mul_comm W, Nat.mul_assoc, Nat.mul_div_cancel_left _ (by decide : 0 < 2)]
  rw [fieldPixels, e1, e2]

theorem fieldPixels_odd (W H : Nat) (hW : 0 < W) (hH : H % 2 = 1) :
    (W * H) / 2 < fieldPixels W H 0 := by
  obtain ⟨k, rfl⟩ : ∃ k, H = 2 * k + 1 := ⟨H / 2, by omega⟩
  have e1 : (2 * k + 1 + 1 - 0) / 2 = k + 1 := by omega
  rw [fieldPixels, e1]
  have e2 : W * (2 * k + 1) = 2 * (k * W) + W := by ring
  rw [e2]
  have e3 : (k + 1) * W = k * W + W := by ring
  rw [e3]
  omega

theorem addFieldY_assert {σY σC : Type} (E : Engines σY σC) (g : Globals σY σC)
    (inputY : Plane) (m : Nat) (hm : m < 2) :
    (addFieldY E g inputY m).isSome = true
      ↔ fieldPixels g.g_nWidthY g.g_nHeightY m = g.g_nPixelsY := by
  obtain ⟨staged, h1, -⟩ := fieldLoop_stageFieldY inputY g.g_nWidthY g.g_nHeightY m hm
    g.g_pPixelsY
  by_cases hN : fieldPixels g.g_nWidthY g.g_nHeightY m = g.g_nPixelsY
  · simp [addFieldY, h1, hN]
  · simp [addFieldY, h1, hN]

theorem addFieldCbCr_assert {σY σC : Type} (E : Engines σY σC) (g : Globals σY σC)
    (inputCb inputCr : Plane) (m : Nat) (hm : m < 2) :
    (addFieldCbCr E g inputCb inputCr m).isSome = true
      ↔ fieldPixels g.g_nWidthCbCr g.g_nHeightCbCr m = g.g_nPixelsCbCr := by
  obtain ⟨staged, h1, -⟩ := fieldLoop_stageFieldCbCr inputCb inputCr g.g_nWidthCbCr
    g.g_nHeightCbCr m hm g.g_pPixelsCbCr
  by_cases hN : fieldPixels g.g_nWidthCbCr g.g_nHeightCbCr m = g.g_nPixelsCbCr
  · simp [addFieldCbCr, h1, hN]
  · simp [addFieldCbCr, h1, hN]

/-- C31, the code at the failing input. The field-extraction loop of mask `m` always ends
with `i = ((height + 1 - m) / 2) * width`, so the assertion `i == g_nPixelsY` (resp.
`i == g_nPixelsCbCr`) of a sub-event holds exactly when that number is the pixel count
`newdenoise_init` stored. For an even height it is `(width * height) / 2`, for both masks.
For an odd height and mask 0 it is larger. `newdenoise_init` accepts an interlaced 4x3
luma plane with a 2x3 chroma plane (it returns 0 and stores `g_nPixelsY = 6`,
`g_nPixelsCbCr = 3`); in the first per-frame call the loop of mask 0 ends with `i = 8`
(resp. `i = 4`), the assertion fails and the routines do not return. -/
theorem C31_staged_field_size :
    (∀ (inputY : Plane) (W H m : Nat) (pixels : Nat → PixelY), m < 2 →
      (fieldLoop (stageFieldY inputY) W H m pixels).map Prod.fst
        = some (fieldPixels W H m))
    ∧ (∀ (inputCb inputCr : Plane) (W H m : Nat) (pixels : Nat → PixelCbCr), m < 2 →
      (fieldLoop (stageFieldCbCr inputCb inputCr) W H m pixels).map Prod.fst
        = some (fieldPixels W H m))
    ∧ (∀ {σY σC : Type} (E : Engines σY σC) (g : Globals σY σC)
        (inputY inputCb inputCr : Plane) (m : Nat), m < 2 →
      ((addFieldY E g inputY m).isSome = true
          ↔ fieldPixels g.g_nWidthY g.g_nHeightY m = g.g_nPixelsY)
      ∧ ((addFieldCbCr E g inputCb inputCr m).isSome = true
          ↔ fieldPixels g.g_nWidthCbCr g.g_nHeightCbCr m = g.g_nPixelsCbCr))
    ∧ (∀ W H m, m < 2 → H % 2 = 0 → fieldPixels W H m = (W * H) / 2)
    ∧ (∀ W H, 0 < W → H % 2 = 1 → (W * H) / 2 < fieldPixels W H 0)
    ∧ (newdenoise_init (sampleInit 0) (sampleInit 0) true true
          (freshState { interlaced := 1, threads := 0 }) 2 4 3 2 3 (some 1) (some 2)).map
        (fun r => (r.1, r.2.g_bMotionSearcherY, r.2.g_nPixelsY, r.2.g_pPixelsY,
          r.2.g_bMotionSearcherCbCr, r.2.g_nPixelsCbCr, r.2.g_pPixelsCbCr))
      = some (0, true, 6, .allocated 6, true, 3, .allocated 3)
    ∧ (sampleGlobalsOddHeight.g_nWidthY, sampleGlobalsOddHeight.g_nHeightY,
        sampleGlobalsOddHeight.g_nPixelsY, fieldMask sampleGlobalsOddHeight) = (4, 3, 6, 0)
    ∧ (fieldLoop (stageFieldY samplePlaneOddY) 4 3 0
          sampleGlobalsOddHeight.g_pPixelsY).map Prod.fst = some 8
    ∧ addFieldY (sampleEngines 1 none none) sampleGlobalsOddHeight samplePlaneOddY 0 = none
    ∧ newdenoise_interlaced_frame_intensity (sampleEngines 1 none none)
        sampleGlobalsOddHeight (some samplePlaneOddY) (some blankPlane) = none
    ∧ (fieldLoop (stageFieldCbCr samplePlaneOddC samplePlaneOddC) 2 3 0
          sampleGlobalsOddHeight.g_pPixelsCbCr).map Prod.fst = some 4
    ∧ newdenoise_interlaced_frame_color (sampleEngines 1 none none)
        sampleGlobalsOddHeight (some samplePlaneOddC) (some samplePlaneOddC)
        (some blankPlane) (some blankPlane) = none
    ∧ (newdenoise_interlaced_frame (sampleEngines 1 none none)
        sampleGlobalsOddHeight (some samplePlaneOddY) (some samplePlaneOddC)
        (some samplePlaneOddC) (some blankPlane) (some blankPlane) (some blankPlane)).isNone
      = true := by
  refine ⟨fun inputY W H m pixels hm => ?_, fun inputCb inputCr W H m pixels hm => ?_,
    fun E g inputY inputCb inputCr m hm =>
      ⟨addFieldY_assert E g inputY m hm, addFieldCbCr_assert E g inputCb inputCr m hm⟩,
    fieldPixels_even, fieldPixels_odd, by rfl, by rfl, by rfl, by rfl, by rfl, by rfl,
    by rfl, by rfl⟩
  · obtain ⟨staged, h, -⟩ := fieldLoop_stageFieldY inputY W H m hm pixels
    rw [h]
    rfl
  · obtain ⟨staged, h, -⟩ := fieldLoop_stageFieldCbCr inputCb inputCr W H m hm pixels
    rw [h]
    rfl

/-! ### The calls of the progressive per-plane routines -/

theorem stageFrameY_spec (inputY : Plane) (n : Nat) (pixels : Nat → PixelY) :
    ∀ i, (i < n → stageFrameY inputY n pixels i = PixelY.mk (inputY i))
      ∧ (n ≤ i → stageFrameY inputY n pixels i = pixels i) := by
  induction n with
  | zero => exact fun i => ⟨fun h => absurd h (Nat.not_lt_zero _), fun _ => rfl⟩
  | succ k ih =>
    intro i
    refine ⟨fun h => ?_, fun h => ?_⟩
    · by_cases e : i = k
      · simp [stageFrameY, e]
      · simp only [stageFrameY, if_neg e]
        exact (ih i).1 (by omega)
    · have e : i ≠ k := by omega
      simp only [stageFrameY, if_neg e]
      exact (ih i).2 (by omega)

theorem stageFrameCbCr_spec (inputCb inputCr : Plane) (n : Nat)
    (pixels : Nat → PixelCbCr) :
    ∀ i, (i < n → stageFrameCbCr inputCb inputCr n pixels i
          = PixelCbCr.mk (inputCb i) (inputCr i))
      ∧ (n ≤ i → stageFrameCbCr inputCb inputCr n pixels i = pixels i) := by
  induction n with
  | zero => exact fun i => ⟨fun h => absurd h (Nat.not_lt_zero _), fun _ => rfl⟩
  | succ k ih =>
    intro i
    refine ⟨fun h => ?_, fun h => ?_⟩
    · by_cases e : i = k
      · simp [stageFrameCbCr, e]
      · simp only [stageFrameCbCr, if_neg e]
        exact (ih i).1 (by omega)
    · have e : i ≠ k := by omega
      simp only [stageFrameCbCr, if_neg e]
      exact (ih i).2 (by omega)

theorem output_frame_luma_part (nY nC : Nat) (F : Option (ReferenceFrame PixelY))
    (a_pOutputY : Option Plane) :
    output_frame nY nC F none a_pOutputY none none
      = (output_frame_luma nY F a_pOutputY).map (fun o => (o, none, none)) := by
  unfold output_frame
  cases output_frame_luma nY F a_pOutputY <;> rfl

theorem output_frame_chroma_part (nY nC : Nat) (F : Option (ReferenceFrame PixelCbCr))
    (a_pOutputCb a_pOutputCr : Option Plane) :
    output_frame nY nC none F none a_pOutputCb a_pOutputCr
      = (output_frame_chroma nC F a_pOutputCb a_pOutputCr).map
          (fun o => (none, o.1, o.2)) := by
  unfold output_frame
  simp only [output_frame_luma]
  cases output_frame_chroma nC F a_pOutputCb a_pOutputCr <;> rfl

theorem output_frame_luma_emitted (nY : Nat) (F : Option (ReferenceFrame PixelY))
    (oY : Plane) (hPixY : FrameComplete nY F) :
    ∃ o, output_frame_luma nY F (some oY) = some (some o) ∧ EmittedY nY F oY o := by
  cases F with
  | none => exact ⟨oY, rfl, fun f hf => by simp at hf, fun _ => rfl⟩
  | some f =>
    obtain ⟨o1, h1, hs1⟩ := forLoop_obs (fun i out => storeY f i i out)
      (fun (o : Plane) j => o j) (lumaOf f) nY oY
      (fun i hi s => storeY_storesAt f nY (hPixY f rfl) i hi i s)
    refine ⟨o1, by simp only [output_frame_luma, h1], fun g hg => ?_,
      fun h => by simp at h⟩
    simp only [Option.some.injEq] at hg
    subst hg
    exact ⟨fun i hi => (hs1 i).1 hi, fun i hi => (hs1 i).2 hi⟩

theorem output_frame_chroma_emitted (nC : Nat) (F : Option (ReferenceFrame PixelCbCr))
    (oCb oCr : Plane) (hPixC : FrameComplete nC F) :
    ∃ ocb ocr, output_frame_chroma nC F (some oCb) (some oCr) = some (some ocb, some ocr)
      ∧ EmittedCbCr nC F oCb oCr ocb ocr := by
  cases F with
  | none => exact ⟨oCb, oCr, rfl, fun f hf => by simp at hf, fun _ => ⟨rfl, rfl⟩⟩
  | some f =>
    have hP := hPixC f rfl
    obtain ⟨o1, h1, hs1⟩ := forLoop_obs (fun i out => storeCbCr f i i out)
      (fun (o : Plane × Plane) j => o.1 j) (cbOf f) nC (oCb, oCr)
      (fun i hi s => storeCbCr_storesAt_cb f nC hP i hi i s)
    obtain ⟨o2, h2, hs2⟩ := forLoop_obs (fun i out => storeCbCr f i i out)
      (fun (o : Plane × Plane) j => o.2 j) (crOf f) nC (oCb, oCr)
      (fun i hi s => storeCbCr_storesAt_cr f nC hP i hi i s)
    have e : o2 = o1 := Option.some.inj (h2.symm.trans h1)
    subst e
    refine ⟨o2.1, o2.2, by simp only [output_frame_chroma, h1], fun g hg => ?_,
      fun h => by simp at h⟩
    simp only [Option.some.injEq] at hg
    subst hg
    exact ⟨fun i hi => ⟨(hs1 i).1 hi, (hs2 i).1 hi⟩,
      fun i hi => ⟨(hs1 i).2 hi, (hs2 i).2 hi⟩⟩

theorem frame_intensity_calls {σY σC : Type} (E : Engines σY σC)
    (g : Globals (σY × List (EngineCall PixelY)) (σC × List (EngineCall PixelCbCr)))
    (a_pInputY : Option Plane) (oY : Plane)
    (hY : g.g_bMotionSearcherY = true) (hframes : PurgeTestDefined g)
    (hE : ∀ s, FrameComplete g.g_nPixelsY (E.Y.GetFrameReadyForOutput s).1
      ∧ FrameComplete g.g_nPixelsY (E.Y.GetRemainingFrames s).1) :
    ∃ r emitted calls,
      newdenoise_frame_intensity E.recording g a_pInputY (some oY) = some r
      ∧ r.globals.g_oMotionSearcherY.2 = g.g_oMotionSearcherY.2
          ++ (if g.frame % g.denoiser.frames = 0 then [EngineCall.Purge] else []) ++ calls
      ∧ ProgressiveCalls g.g_nPixelsY
          (a_pInputY.map (fun inputY i => PixelY.mk (inputY i))) emitted calls
      ∧ ∃ o, r.a_pOutputY = some o ∧ EmittedY g.g_nPixelsY emitted oY o := by
  have hQ : ∀ s, FrameComplete g.g_nPixelsY (E.recording.Y.GetFrameReadyForOutput s).1 :=
    fun s => (hE s.1).1
  have hR : ∀ s, FrameComplete g.g_nPixelsY (E.recording.Y.GetRemainingFrames s).1 :=
    fun s => (hE s.1).2
  generalize hres : newdenoise_frame_intensity E.recording g a_pInputY (some oY) = res
  unfold newdenoise_frame_intensity at hres
  rw [timeToPurge_eq g hframes] at hres
  simp only [hY, Bool.not_true, Bool.false_eq_true, if_false, output_frame_luma_part]
    at hres
  cases a_pInputY with
  | none =>
    by_cases hp : g.frame % g.denoiser.frames = 0 <;>
      simp only [hp, if_true, if_false, decide_True, decide_False, Bool.false_eq_true]
        at hres ⊢
    all_goals
      split at hres
      · rename_i ho
        obtain ⟨o, h1, -⟩ := output_frame_luma_emitted g.g_nPixelsY _ oY (hR _)
        rw [h1] at ho
        exact Option.noConfusion ho
      rename_i out ho
      subst hres
      obtain ⟨o, h1, hem⟩ := output_frame_luma_emitted g.g_nPixelsY _ oY (hR _)
      rw [h1] at ho
      simp only [Option.map_some', Option.some.injEq] at ho
      subst ho
      exact ⟨_, _, _, rfl, by
        simp only [Engines.recording, MotionSearcher.recording, List.append_assoc] <;> rfl,
        rfl, ⟨o, rfl, hem⟩⟩
  | some inputY =>
    by_cases hp : g.frame % g.denoiser.frames = 0 <;>
      simp only [hp, if_true, if_false, decide_True, decide_False, Bool.false_eq_true]
        at hres ⊢
    all_goals
      split at hres
      · rename_i ho
        obtain ⟨o, h1, -⟩ := output_frame_luma_emitted g.g_nPixelsY _ oY (hQ _)
        rw [h1] at ho
        exact Option.noConfusion ho
      rename_i out ho
      obtain ⟨o, h1, hem⟩ := output_frame_luma_emitted g.g_nPixelsY _ oY (hQ _)
      rw [h1] at ho
      simp only [Option.map_some', Option.some.injEq] at ho
      subst ho
      split at hres
      all_goals
        subst hres
        exact ⟨_, _, _, rfl, by
          simp only [Engines.recording, MotionSearcher.recording, List.append_assoc]
          rfl, ⟨_, _, rfl, fun i hi => (stageFrameY_spec inputY _ _ i).1 hi⟩, ⟨o, rfl, hem⟩⟩

theorem frame_color_calls {σY σC : Type} (E : Engines σY σC)
    (g : Globals (σY × List (EngineCall PixelY)) (σC × List (EngineCall PixelCbCr)))
    (input : Option (Plane × Plane)) (oCb oCr : Plane)
    (hC : g.g_bMotionSearcherCbCr = true) (hframes : PurgeTestDefined g)
    (hE : ∀ s, FrameComplete g.g_nPixelsCbCr (E.CbCr.GetFrameReadyForOutput s).1
      ∧ FrameComplete g.g_nPixelsCbCr (E.CbCr.GetRemainingFrames s).1) :
    ∃ r emitted calls,
      newdenoise_frame_color E.recording g (input.map Prod.fst) (input.map Prod.snd)
        (some oCb) (some oCr) = some r
      ∧ r.globals.g_oMotionSearcherCbCr.2 = g.g_oMotionSearcherCbCr.2
          ++ (if g.frame % g.denoiser.frames = 0 then [EngineCall.Purge] else []) ++ calls
      ∧ ProgressiveCalls g.g_nPixelsCbCr
          (input.map (fun p i => PixelCbCr.mk (p.1 i) (p.2 i))) emitted calls
      ∧ ∃ ocb ocr, r.a_pOutputCb = some ocb ∧ r.a_pOutputCr = some ocr
          ∧ EmittedCbCr g.g_nPixelsCbCr emitted oCb oCr ocb ocr := by
  have hQ : ∀ s,
      FrameComplete g.g_nPixelsCbCr (E.recording.CbCr.GetFrameReadyForOutput s).1 :=
    fun s => (hE s.1).1
  have hR : ∀ s, FrameComplete g.g_nPixelsCbCr (E.recording.CbCr.GetRemainingFrames s).1 :=
    fun s => (hE s.1).2
  generalize hres : newdenoise_frame_color E.recording g (input.map Prod.fst)
    (input.map Prod.snd) (some oCb) (some oCr) = res
  unfold newdenoise_frame_color at hres
  rw [timeToPurge_eq g hframes] at hres
  simp only [hC, Bool.not_true, Bool.false_eq_true, if_false, output_frame_chroma_part]
    at hres
  cases input with
  | none =>
    simp only [Option.map_none'] at hres ⊢
    by_cases hp : g.frame % g.denoiser.frames = 0 <;>
      simp only [hp, if_true, if_false, decide_True, decide_False, Bool.false_eq_true]
        at hres ⊢
    all_goals
      split at hres
      · rename_i ho
        obtain ⟨ocb, ocr, h1, -⟩ := output_frame_chroma_emitted g.g_nPixelsCbCr _ oCb oCr
          (hR _)
        rw [h1] at ho
        exact Option.noConfusion ho
      rename_i out ho
      subst hres
      obtain ⟨ocb, ocr, h1, hem⟩ := output_frame_chroma_emitted g.g_nPixelsCbCr _ oCb oCr
        (hR _)
      rw [h1] at ho
      simp only [Option.map_some', Option.some.injEq] at ho
      subst ho
      exact ⟨_, _, _, rfl, by
        simp only [Engines.recording, MotionSearcher.recording, List.append_assoc] <;> rfl,
        rfl, ⟨ocb, ocr, rfl, rfl, hem⟩⟩
  | some p =>
    simp only [Option.map_some', stageFrameCbCrFrom] at hres ⊢
    by_cases hp : g.frame % g.denoiser.frames = 0 <;>
      simp only [hp, if_true, if_false, decide_True, decide_False, Bool.false_eq_true]
        at hres ⊢
    all_goals
      split at hres
      · rename_i ho
        obtain ⟨ocb, ocr, h1, -⟩ := output_frame_chroma_emitted g.g_nPixelsCbCr _ oCb oCr
          (hQ _)
        rw [h1] at ho
        exact Option.noConfusion ho
      rename_i out ho
      obtain ⟨ocb, ocr, h1, hem⟩ := output_frame_chroma_emitted g.g_nPixelsCbCr _ oCb oCr
        (hQ _)
      rw [h1] at ho
      simp only [Option.map_some', Option.some.injEq] at ho
      subst ho
      split at hres
      all_goals
        subst hres
        exact ⟨_, _, _, rfl, by
          simp only [Engines.recording, MotionSearcher.recording, List.append_assoc]
          rfl, ⟨_, _, rfl, fun i hi => (stageFrameCbCr_spec p.1 p.2 _ _ i).1 hi⟩,
          ⟨ocb, ocr, rfl, rfl, hem⟩⟩
/-- C32 (progressive engine call sequence), one statement for each routine, each under
the conditions of its own plane group only. Let `newdenoise_frame_intensity` run with
engines that record their calls, luma enabled, `frame % denoiser.frames` defined, the
luma engine handing back complete frames and the output buffer not `NULL`. Then it
returns, and after the purge, if one is due, it has made these calls to its engine and no
other: on the submit path (input not `NULL`) `GetFrameReadyForOutput` and then
`AddFrame`, once, with a staging array that holds `a_pInputY[i]` at every `i` below
`g_nPixelsY`; on the flush path (input `NULL`) `GetRemainingFrames`, once, and no
`AddFrame`. The frame the query returned has been emitted (`EmittedY`): if it is not
`NULL`, the output buffer holds the values of its pixels below `g_nPixelsY` and is as
before from there on; if it is `NULL`, the output buffer is as before. Likewise
`newdenoise_frame_color` with the pairs `(a_pInputCb[i], a_pInputCr[i])` below
`g_nPixelsCbCr` and the two chroma buffers. -/
theorem C32_progressive_call_sequence {σY σC : Type} (E : Engines σY σC)
    (g : Globals (σY × List (EngineCall PixelY)) (σC × List (EngineCall PixelCbCr)))
    (a_pInputY : Option Plane) (a_pInputCbCr : Option (Plane × Plane))
    (oY oCb oCr : Plane) :
    (g.g_bMotionSearcherY = true → PurgeTestDefined g →
      (∀ s, FrameComplete g.g_nPixelsY (E.Y.GetFrameReadyForOutput s).1
        ∧ FrameComplete g.g_nPixelsY (E.Y.GetRemainingFrames s).1) →
      ∃ r emitted calls,
        newdenoise_frame_intensity E.recording g a_pInputY (some oY) = some r
        ∧ r.globals.g_oMotionSearcherY.2 = g.g_oMotionSearcherY.2
            ++ (if g.frame % g.denoiser.frames = 0 then [EngineCall.Purge] else [])
            ++ calls
        ∧ ProgressiveCalls g.g_nPixelsY
            (a_pInputY.map (fun inputY i => PixelY.mk (inputY i))) emitted calls
        ∧ ∃ o, r.a_pOutputY = some o ∧ EmittedY g.g_nPixelsY emitted oY o)
    ∧ (g.g_bMotionSearcherCbCr = true → PurgeTestDefined g →
      (∀ s, FrameComplete g.g_nPixelsCbCr (E.CbCr.GetFrameReadyForOutput s).1
        ∧ FrameComplete g.g_nPixelsCbCr (E.CbCr.GetRemainingFrames s).1) →
      ∃ r emitted calls,
        newdenoise_frame_color E.recording g (a_pInputCbCr.map Prod.fst)
          (a_pInputCbCr.map Prod.snd) (some oCb) (some oCr) = some r
        ∧ r.globals.g_oMotionSearcherCbCr.2 = g.g_oMotionSearcherCbCr.2
            ++ (if g.frame % g.denoiser.frames = 0 then [EngineCall.Purge] else [])
            ++ calls
        ∧ ProgressiveCalls g.g_nPixelsCbCr
            (a_pInputCbCr.map (fun p i => PixelCbCr.mk (p.1 i) (p.2 i))) emitted calls
        ∧ ∃ ocb ocr, r.a_pOutputCb = some ocb ∧ r.a_pOutputCr = some ocr
            ∧ EmittedCbCr g.g_nPixelsCbCr emitted oCb oCr ocb ocr) :=
  ⟨fun hY hframes hEY => frame_intensity_calls E g a_pInputY oY hY hframes hEY,
   fun hC hframes hEC => frame_color_calls E g a_pInputCbCr oCb oCr hC hframes hEC⟩

/-- C32, witness: the sample engines, each holding one frame, `frame = 0` and
`denoiser.frames = 1`. In a luma-only configuration, on the submit path, the luma
routine calls `Purge`, `GetFrameReadyForOutput` and `AddFrame`, the staging array holds
the eight input bytes, and the output buffer, filled with 255 before, holds the eight
bytes of the frame that was ready and 255 from there on; on the flush path it calls
`Purge` and `GetRemainingFrames`. With both plane groups enabled the chroma routine
leaves the two bytes of each chroma plane of the frame that was ready in its output
buffers. The luma statement holds in the luma-only configuration, the chroma statement
with both plane groups enabled. -/
theorem C32_progressive_call_sequence_witness :
    sampleGlobalsLumaOnly.withRecords.g_bMotionSearcherCbCr = false
    ∧ (newdenoise_frame_intensity (sampleEngines 1 none none).recording
        sampleGlobalsLumaOnly.withRecords (some samplePlaneY) (some blankPlane)).map
      (fun r => (r.globals.g_oMotionSearcherY.2.map EngineCall.kind,
        (stagedFields r.globals.g_oMotionSearcherY.2).map
          (fun st => (List.range 8).map (fun i => (st i).m_atnVal0)),
        r.a_pOutputY.map (fun o => (List.range 9).map o)))
      = some ([.Purge, .GetFrameReadyForOutput, .AddFrame],
          [[10, 20, 30, 40, 50, 60, 70, 80]],
          some [10, 20, 30, 40, 50, 60, 70, 80, 255])
    ∧ (newdenoise_frame_intensity (sampleEngines 1 none none).recording
        sampleGlobalsLumaOnly.withRecords none (some blankPlane)).map
      (fun r => r.globals.g_oMotionSearcherY.2.map EngineCall.kind)
      = some [.Purge, .GetRemainingFrames]
    ∧ (newdenoise_frame_color (sampleEngines 1 none none).recording
        sampleGlobalsLoaded.withRecords (some samplePlaneCb) (some samplePlaneCr)
        (some blankPlane) (some blankPlane)).map
      (fun r => (r.globals.g_oMotionSearcherCbCr.2.map EngineCall.kind,
        r.a_pOutputCb.map (fun o => (List.range 3).map o),
        r.a_pOutputCr.map (fun o => (List.range 3).map o)))
      = some ([.Purge, .GetFrameReadyForOutput, .AddFrame], some [100, 110, 255],
          some [200, 210, 255])
    ∧ (∃ r emitted calls,
        newdenoise_frame_intensity (sampleEngines 1 none none).recording
          sampleGlobalsLumaOnly.withRecords (some samplePlaneY) (some blankPlane) = some r
        ∧ r.globals.g_oMotionSearcherY.2
          = sampleGlobalsLumaOnly.withRecords.g_oMotionSearcherY.2
            ++ (if sampleGlobalsLumaOnly.withRecords.frame
                % sampleGlobalsLumaOnly.withRecords.denoiser.frames = 0
              then [EngineCall.Purge] else [])
            ++ calls
        ∧ ProgressiveCalls sampleGlobalsLumaOnly.withRecords.g_nPixelsY
            ((some samplePlaneY).map (fun inputY i => PixelY.mk (inputY i))) emitted calls
        ∧ ∃ o, r.a_pOutputY = some o
          ∧ EmittedY sampleGlobalsLumaOnly.withRecords.g_nPixelsY emitted blankPlane o)
    ∧ (∃ r emitted calls,
        newdenoise_frame_color (sampleEngines 1 none none).recording
          sampleGlobalsLoaded.withRecords
          ((some (samplePlaneCb, samplePlaneCr)).map Prod.fst)
          ((some (samplePlaneCb, samplePlaneCr)).map Prod.snd)
          (some blankPlane) (some blankPlane) = some r
        ∧ r.globals.g_oMotionSearcherCbCr.2
          = sampleGlobalsLoaded.withRecords.g_oMotionSearcherCbCr.2
            ++ (if sampleGlobalsLoaded.withRecords.frame
                % sampleGlobalsLoaded.withRecords.denoiser.frames = 0
              then [EngineCall.Purge] else [])
            ++ calls
        ∧ ProgressiveCalls sampleGlobalsLoaded.withRecords.g_nPixelsCbCr
            ((some (samplePlaneCb, samplePlaneCr)).map
              (fun p i => PixelCbCr.mk (p.1 i) (p.2 i))) emitted calls
        ∧ ∃ ocb ocr, r.a_pOutputCb = some ocb ∧ r.a_pOutputCr = some ocr
          ∧ EmittedCbCr sampleGlobalsLoaded.withRecords.g_nPixelsCbCr emitted
              blankPlane blankPlane ocb ocr) :=
  ⟨rfl, rfl, rfl, rfl,
    (C32_progressive_call_sequence (sampleEngines 1 none none)
      sampleGlobalsLumaOnly.withRecords (some samplePlaneY) none
      blankPlane blankPlane blankPlane).1 rfl (by decide)
      (fun s => sampleSearcher_complete 1 none 8 s),
    (C32_progressive_call_sequence (sampleEngines 1 none none)
      sampleGlobalsLoaded.withRecords (some samplePlaneY)
      (some (samplePlaneCb, samplePlaneCr)) blankPlane blankPlane blankPlane).2
      rfl (by decide) (fun s => sampleSearcher_complete 1 none 2 s)⟩

/-! ### Splitting a plane into fields and weaving them back -/

theorem field_index_lt (W H m y x : Nat) (hy : y < H) (hp : y % 2 = m) (hx : x < W) :
    ((y - m) / 2) * W + x < fieldPixels W H m := by
  have h1 : (y - m) / 2 + 1 ≤ (H + 1 - m) / 2 := by omega
  have h2 := Nat.mul_le_mul_right W h1
  rw [Nat.add_mul, Nat.one_mul] at h2
  unfold fieldPixels
  omega

theorem plane_index_split (W H i : Nat) (hi : i < W * H) :
    ∃ y x, y < H ∧ x < W ∧ i = y * W + x := by
  have hW : 0 < W := by
    rcases Nat.eq_zero_or_pos W with h | h
    · rw [h, Nat.zero_mul] at hi
      exact absurd hi (Nat.not_lt_zero _)
    · exact h
  refine ⟨i / W, i % W, ?_, Nat.mod_lt _ hW, ?_⟩
  · rw [Nat.div_lt_iff_lt_mul hW, Nat.mul_comm]
    exact hi
  · rw [Nat.mul_comm]
    exact (Nat.div_add_mod i W).symm

theorem luma_field_written (W H m : Nat) (hm : m < 2) (F o0 : Plane)
    (pixels staged : Nat → PixelY) (n : Nat) (f : ReferenceFrame PixelY)
    (hs : fieldLoop (stageFieldY F) W H m pixels = some (n, staged))
    (hf : HoldsField n staged f) :
    ∃ o, output_field_luma W H m (some f) (some o0) = some (some o)
      ∧ ∀ y x, y < H → x < W →
        (y % 2 = m → o (y * W + x) = F (y * W + x))
        ∧ (y % 2 ≠ m → o (y * W + x) = o0 (y * W + x)) := by
  obtain ⟨staged1, h1, hrows⟩ := fieldLoop_stageFieldY F W H m hm pixels
  rw [h1] at hs
  simp only [Option.some.injEq, Prod.mk.injEq] at hs
  obtain ⟨hn, hst⟩ := hs
  subst hn hst
  have hcomplete : FrameComplete (fieldPixels W H m) (some f) := by
    intro f1 hf1 i hi
    cases hf1
    have := hf i hi
    cases hg : f.GetPixel i with
    | none => simp [hg] at this
    | some p => rfl
  obtain ⟨outY, ho, hspec, -⟩ := output_field_luma_spec W H m hm (some f) (some o0)
    (fun _ => rfl) hcomplete
  obtain ⟨o, e, hw⟩ := hspec f o0 rfl rfl
  subst e
  refine ⟨o, ho, fun y x hy hx => ⟨fun hp => ?_, (hw y x hy hx).2⟩⟩
  have e1 := (hw y x hy hx).1 hp
  have e2 := hf _ (field_index_lt W H m y x hy hp hx)
  have e3 := hrows y x hy hp hx
  simp only [lumaOf] at e1
  cases hg : f.GetPixel ((y - m) / 2 * W + x) with
  | none => simp [hg] at e2
  | some p =>
    simp only [hg, Option.map_some', Option.some.injEq] at e1 e2
    rw [← e1, e2, e3]

theorem chroma_field_written (W H m : Nat) (hm : m < 2) (FCb FCr cb0 cr0 : Plane)
    (pixels staged : Nat → PixelCbCr) (n : Nat) (f : ReferenceFrame PixelCbCr)
    (hs : fieldLoop (stageFieldCbCr FCb FCr) W H m pixels = some (n, staged))
    (hf : HoldsField n staged f) :
    ∃ ocb ocr, output_field_chroma W H m (some f) (some cb0) (some cr0)
        = some (some ocb, some ocr)
      ∧ ∀ y x, y < H → x < W →
        (y % 2 = m → ocb (y * W + x) = FCb (y * W + x) ∧ ocr (y * W + x) = FCr (y * W + x))
        ∧ (y % 2 ≠ m →
            ocb (y * W + x) = cb0 (y * W + x) ∧ ocr (y * W + x) = cr0 (y * W + x)) := by
  obtain ⟨staged1, h1, hrows⟩ := fieldLoop_stageFieldCbCr FCb FCr W H m hm pixels
  rw [h1] at hs
  simp only [Option.some.injEq, Prod.mk.injEq] at hs
  obtain ⟨hn, hst⟩ := hs
  subst hn hst
  have hcomplete : FrameComplete (fieldPixels W H m) (some f) := by
    intro f1 hf1 i hi
    cases hf1
    have := hf i hi
    cases hg : f.GetPixel i with
    | none => simp [hg] at this
    | some p => rfl
  obtain ⟨outCb, outCr, ho, hspec, -⟩ := output_field_chroma_spec W H m hm (some f)
    (some cb0) (some cr0) (fun _ => ⟨rfl, rfl⟩) hcomplete
  obtain ⟨ocb, ocr, e1, e2, hw⟩ := hspec f cb0 cr0 rfl rfl rfl
  subst e1 e2
  refine ⟨ocb, ocr, ho, fun y x hy hx => ⟨fun hp => ?_, (hw y x hy hx).2⟩⟩
  obtain ⟨a1, a2⟩ := (hw y x hy hx).1 hp
  have b := hf _ (field_index_lt W H m y x hy hp hx)
  have c := hrows y x hy hp hx
  simp only [cbOf, crOf] at a1 a2
  cases hg : f.GetPixel ((y - m) / 2 * W + x) with
  | none => simp [hg] at b
  | some p =>
    simp only [hg, Option.map_some', Option.some.injEq] at a1 a2 b
    rw [← a1, ← a2, b, c]
    exact ⟨rfl, rfl⟩

theorem parity_cases (m0 m1 y : Nat) (h0 : m0 < 2) (h1 : m1 < 2) (hne : m0 ≠ m1) :
    (y % 2 = m0 ∧ y % 2 ≠ m1) ∨ y % 2 = m1 := by
  omega

/-- C34 (field split/weave round trip). Take a luma plane `F` of width `W` and height
`H` (any height, an even one in particular) and the two field masks in either order.
If the field of each mask is staged from `F` by the field-extraction loop and written
back by `output_field` with the same mask from a reference frame that holds the staged
field, the two calls return and the output plane equals `F` at every index below
`W * H`. The same holds for the two chroma planes `FCb` and `FCr` with the chroma
staging loop. -/
theorem C34_split_weave_round_trip (W H Wc Hc m0 m1 : Nat)
    (hm0 : m0 < 2) (hm1 : m1 < 2) (hne : m0 ≠ m1)
    (F FCb FCr oY oCb oCr : Plane)
    (pixels0 pixels1 staged0 staged1 : Nat → PixelY) (n0 n1 : Nat)
    (pixelsC0 pixelsC1 stagedC0 stagedC1 : Nat → PixelCbCr) (c0 c1 : Nat)
    (f0 f1 : ReferenceFrame PixelY) (fc0 fc1 : ReferenceFrame PixelCbCr)
    (hs0 : fieldLoop (stageFieldY F) W H m0 pixels0 = some (n0, staged0))
    (hs1 : fieldLoop (stageFieldY F) W H m1 pixels1 = some (n1, staged1))
    (hc0 : fieldLoop (stageFieldCbCr FCb FCr) Wc Hc m0 pixelsC0 = some (c0, stagedC0))
    (hc1 : fieldLoop (stageFieldCbCr FCb FCr) Wc Hc m1 pixelsC1 = some (c1, stagedC1))
    (hf0 : HoldsField n0 staged0 f0) (hf1 : HoldsField n1 staged1 f1)
    (hfc0 : HoldsField c0 stagedC0 fc0) (hfc1 : HoldsField c1 stagedC1 fc1) :
    ∃ y1 cb1 cr1 y2 cb2 cr2,
      output_field W H Wc Hc m0 (some f0) (some fc0) (some oY) (some oCb) (some oCr)
        = some (some y1, some cb1, some cr1)
      ∧ output_field W H Wc Hc m1 (some f1) (some fc1) (some y1) (some cb1) (some cr1)
        = some (some y2, some cb2, some cr2)
      ∧ (∀ i, i < W * H → y2 i = F i)
      ∧ (∀ i, i < Wc * Hc → cb2 i = FCb i ∧ cr2 i = FCr i) := by
  obtain ⟨y1, e1, w1⟩ := luma_field_written W H m0 hm0 F oY pixels0 staged0 n0 f0 hs0 hf0
  obtain ⟨y2, e2, w2⟩ := luma_field_written W H m1 hm1 F y1 pixels1 staged1 n1 f1 hs1 hf1
  obtain ⟨cb1, cr1, e3, w3⟩ := chroma_field_written Wc Hc m0 hm0 FCb FCr oCb oCr
    pixelsC0 stagedC0 c0 fc0 hc0 hfc0
  obtain ⟨cb2, cr2, e4, w4⟩ := chroma_field_written Wc Hc m1 hm1 FCb FCr cb1 cr1
    pixelsC1 stagedC1 c1 fc1 hc1 hfc1
  refine ⟨y1, cb1, cr1, y2, cb2, cr2, by simp only [output_field, e1, e3],
    by simp only [output_field, e2, e4], fun i hi => ?_, fun i hi => ?_⟩
  · obtain ⟨y, x, hy, hx, rfl⟩ := plane_index_split W H i hi
    rcases parity_cases m0 m1 y hm0 hm1 hne with ⟨p0, p1⟩ | p1
    · rw [(w2 y x hy hx).2 p1]
      exact (w1 y x hy hx).1 p0
    · exact (w2 y x hy hx).1 p1
  · obtain ⟨y, x, hy, hx, rfl⟩ := plane_index_split Wc Hc i hi
    rcases parity_cases m0 m1 y hm0 hm1 hne with ⟨p0, p1⟩ | p1
    · rw [((w4 y x hy hx).2 p1).1, ((w4 y x hy hx).2 p1).2]
      exact (w3 y x hy hx).1 p0
    · exact (w4 y x hy hx).1 p1
/-- C34, witness: the sample 4x2 luma plane and the sample 2x2 chroma planes, bottom
field first (mask 1, then mask 0); each staged field is handed back as a reference
frame. -/
theorem C34_split_weave_round_trip_witness :
    ∃ y1 cb1 cr1 y2 cb2 cr2,
      output_field 4 2 2 2 1 (some (sampleFrame (stagedLumaField samplePlaneY 4 2 1)))
          (some (sampleFrame (stagedChromaField samplePlaneCb samplePlaneCr 2 2 1)))
          (some blankPlane) (some blankPlane) (some blankPlane)
        = some (some y1, some cb1, some cr1)
      ∧ output_field 4 2 2 2 0 (some (sampleFrame (stagedLumaField samplePlaneY 4 2 0)))
          (some (sampleFrame (stagedChromaField samplePlaneCb samplePlaneCr 2 2 0)))
          (some y1) (some cb1) (some cr1)
        = some (some y2, some cb2, some cr2)
      ∧ (∀ i, i < 4 * 2 → y2 i = samplePlaneY i)
      ∧ (∀ i, i < 2 * 2 → cb2 i = samplePlaneCb i ∧ cr2 i = samplePlaneCr i) :=
  C34_split_weave_round_trip 4 2 2 2 1 0 (by decide) (by decide) (by decide)
    samplePlaneY samplePlaneCb samplePlaneCr blankPlane blankPlane blankPlane
    (fun _ => PixelY.mk 0) (fun _ => PixelY.mk 0)
    (stagedLumaField samplePlaneY 4 2 1) (stagedLumaField samplePlaneY 4 2 0) 4 4
    (fun _ => PixelCbCr.mk 0 0) (fun _ => PixelCbCr.mk 0 0)
    (stagedChromaField samplePlaneCb samplePlaneCr 2 2 1)
    (stagedChromaField samplePlaneCb samplePlaneCr 2 2 0) 2 2
    (sampleFrame (stagedLumaField samplePlaneY 4 2 1))
    (sampleFrame (stagedLumaField samplePlaneY 4 2 0))
    (sampleFrame (stagedChromaField samplePlaneCb samplePlaneCr 2 2 1))
    (sampleFrame (stagedChromaField samplePlaneCb samplePlaneCr 2 2 0))
    rfl rfl rfl rfl (fun _ _ => rfl) (fun _ _ => rfl) (fun _ _ => rfl) (fun _ _ => rfl)

/-! ### `ReadFrame` with no frame to hand out -/

set_option maxHeartbeats 2000000 in
theorem reader_step_quiet (s s1 : ReaderSys) (a : ReaderAction)
    (ha : a ≠ .ForceShutdown) (h : s.QuietInv) (hs : s.step a = some s1) :
    s1.QuietInv := by
  rcases s with ⟨⟨wi, wo, wl, rv, pl, vl, cur, fl⟩, w, c, j, ab, fr, ho, st⟩
  simp only [ReaderSys.QuietInv] at h ⊢
  obtain ⟨h1, h2, h3⟩ := h
  cases ab
  swap
  · simp [ReaderSys.step] at hs
  cases a with
  | workerStep =>
    cases w with
    | loopHead =>
      cases wl <;> simp [ReaderSys.step, ReaderSys.workerStep] at hs <;> subst hs <;>
        simp_all
    | workStart =>
      cases fl <;> cases wl <;> cases wi <;>
        simp [ReaderSys.step, ReaderSys.workerStep, ReaderSys.workTakeFree,
          ReadWriteThread.GetFreeFrame, ReadWriteThread.WaitForInput] at hs <;>
        subst hs <;> simp_all
    | waiting =>
      cases fl <;> cases wi <;>
        simp [ReaderSys.step, ReaderSys.workerStep, ReaderSys.workTakeFree,
          ReadWriteThread.GetFreeFrame] at hs <;>
        subst hs <;> simp_all
    | holding f => simp [ReaderSys.step, ReaderSys.workerStep] at hs
    | returned n =>
      by_cases hn : n = Y4M_OK <;>
        simp [ReaderSys.step, ReaderSys.workerStep, hn] at hs <;> subst hs <;> simp_all
    | exiting =>
      by_cases hr : rv = Y4M_OK <;> cases wi <;> cases wo <;>
        simp [ReaderSys.step, ReaderSys.workerStep, ReadWriteThread.stopAndSignal,
          ReadWriteThread.SignalInput, ReadWriteThread.SignalOutput, hr] at hs <;>
        subst hs <;> simp_all
    | done => simp [ReaderSys.step, ReaderSys.workerStep] at hs
  | workerRead nErr data =>
    cases w with
    | holding f =>
      by_cases hn : nErr = Y4M_OK <;> cases wo <;> cases wi <;>
        simp [ReaderSys.step, ReaderSys.workerRead, ReadWriteThread.AddFrameToValidList,
          ReadWriteThread.AddFrameToFreeList, ReadWriteThread.SignalOutput, hn] at hs <;>
        subst hs <;> simp_all
    | _ => simp [ReaderSys.step, ReaderSys.workerRead] at hs
  | ReadFrame =>
    cases c with
    | idle =>
      cases cur <;> cases vl <;> cases wl <;> cases wi <;> cases wo <;>
        simp [ReaderSys.step, ReaderSys.readFrame, ReaderSys.readFrameFinish,
          ReadWriteThread.MoveCurrentFrameToFreeList, ReadWriteThread.AddFrameToFreeList,
          ReadWriteThread.SignalInput, ReadWriteThread.WaitForOutput,
          ReadWriteThread.MoveValidFrameToCurrent, ReadWriteThread.GetFirstValidFrame]
          at hs <;>
        subst hs <;> simp_all
    | _ => simp [ReaderSys.step, ReaderSys.readFrame] at hs
  | clientStep =>
    cases c with
    | idle => simp [ReaderSys.step, ReaderSys.clientStep] at hs
    | waiting =>
      cases cur <;> cases vl <;> cases wo <;>
        simp [ReaderSys.step, ReaderSys.clientStep, ReaderSys.readFrameFinish,
          ReadWriteThread.MoveValidFrameToCurrent, ReadWriteThread.GetFirstValidFrame]
          at hs <;>
        subst hs <;> simp_all
    | failing =>
      by_cases hr : rv = Y4M_OK <;>
        simp [ReaderSys.step, ReaderSys.clientStep, hr] at hs <;> subst hs <;> simp_all
    | joining => exact absurd rfl h1
  | ForceShutdown => exact absurd rfl ha

theorem reader_run_quiet (acts : List ReaderAction) (s s1 : ReaderSys)
    (hacts : ∀ a ∈ acts, a ≠ .ForceShutdown)
    (h : s.ControlInv ∧ s.QuietInv) (hs : s.run acts = some s1) :
    s1.ControlInv ∧ s1.QuietInv := by
  induction acts generalizing s with
  | nil =>
    simp only [ReaderSys.run, Option.some.injEq] at hs
    exact hs ▸ h
  | cons a rest ih =>
    simp only [ReaderSys.run] at hs
    split at hs
    · exact absurd hs (by simp)
    · rename_i s2 h2
      exact ih s2 (fun b hb => hacts b (List.mem_cons_of_mem _ hb))
        ⟨(reader_step_control s s2 a h.1 h2).1,
          reader_step_quiet s s2 a (hacts a (List.mem_cons_self _ _)) h.2 h2⟩ hs

theorem reader_init_quiet : ReaderSys.init.QuietInv := by
  simp [ReaderSys.QuietInv, ReaderSys.init, ReadWriteThread.Initialize,
    ReadWriteThread.allocateFrames, ReadWriteThread.constructed]

/-- C35, the code at the failing input. After `ForceShutdown` (right after `Initialize`,
or after a frame has been read and handed out) the worker leaves its loop with
`m_nWorkRetval` still `Y4M_OK`; a `ReadFrame` call then finds no valid frame, does not
wait (the work loop is off), has no current frame, and reaches
`assert (m_nWorkRetval != Y4M_OK)` with `m_nWorkRetval == Y4M_OK`: the assertion fails.
In runs without `ForceShutdown` the assertion holds whenever `ReadFrame` reaches it. -/
theorem C35_read_after_shutdown :
    ((ReaderSys.init.run readerShutdownThenRead).map
        (fun s => (s.client, s.thread.m_pValidFrames, s.thread.m_pCurrentFrame,
          s.thread.m_bWorkLoop, s.thread.m_nWorkRetval, s.aborted))
      = some (.failing, [], none, false, Y4M_OK, false))
    ∧ ((ReaderSys.init.run (readerShutdownThenRead ++ [.clientStep])).map
        (fun s => (s.aborted, s.statuses)) = some (true, []))
    ∧ ((ReaderSys.init.run readerReadShutdownRead).map
        (fun s => (s.client, s.thread.m_pValidFrames, s.thread.m_pCurrentFrame,
          s.thread.m_bWorkLoop, s.thread.m_nWorkRetval, s.aborted))
      = some (.failing, [], none, false, Y4M_OK, false))
    ∧ ((ReaderSys.init.run (readerReadShutdownRead ++ [.clientStep])).map
        (fun s => (s.aborted, s.statuses)) = some (true, [Y4M_OK]))
    ∧ (∀ (acts : List ReaderAction) (s : ReaderSys),
        (∀ a ∈ acts, a ≠ .ForceShutdown) → ReaderSys.init.run acts = some s →
        s.client = .failing → s.thread.m_nWorkRetval ≠ Y4M_OK) := by
  refine ⟨by rfl, by rfl, by rfl, by rfl, fun acts s hacts hs hc => ?_⟩
  obtain ⟨hctl, -, hq, -⟩ := reader_run_quiet acts _ s hacts
    ⟨reader_init_sticky.1, reader_init_quiet⟩ hs
  exact hq (Or.inr (hctl.2.2.2.2.2 hc).1)

/-! ### The return value of the interlaced per-plane routines -/

theorem noEngineError_getLast {Pixel_t : Type} {calls : List (EngineCall Pixel_t)}
    (h : NoEngineError calls) (staged : Nat → Pixel_t) (eStatus : Status_t)
    (hl : calls.getLast? = some (EngineCall.AddFrame staged eStatus)) :
    eStatus = g_kNoError :=
  h staged eStatus (List.mem_of_getLast?_eq_some hl)

set_option maxHeartbeats 1000000 in
theorem interlaced_intensity_retval {σY σC : Type} (E : Engines σY σC)
    (g : Globals (σY × List (EngineCall PixelY)) (σC × List (EngineCall PixelCbCr)))
    (a_pInputY : Option Plane) (oY : Plane)
    (hY : g.g_bMotionSearcherY = true) (hframes : PurgeTestDefined g)
    (hN : ∀ m, m < 2 → fieldPixels g.g_nWidthY g.g_nHeightY m = g.g_nPixelsY)
    (hE : ∀ s, FrameComplete g.g_nPixelsY (E.Y.GetFrameReadyForOutput s).1
      ∧ FrameComplete g.g_nPixelsY (E.Y.GetRemainingFrames s).1) :
    ∃ r calls,
      newdenoise_interlaced_frame_intensity E.recording g a_pInputY (some oY) = some r
      ∧ r.globals.g_oMotionSearcherY.2 = g.g_oMotionSearcherY.2 ++ calls
      ∧ (NoEngineError calls → SecondFieldDecides r.ret calls) := by
  obtain ⟨hm0, hm1, hne⟩ := fieldMask_lt g
  have hQ : ∀ m, m < 2 → ∀ s,
      FrameComplete (fieldPixels g.g_nWidthY g.g_nHeightY m)
        (E.Y.GetFrameReadyForOutput s).1 := fun m hm s => (hN m hm) ▸ (hE s).1
  have hR : ∀ m, m < 2 → ∀ s,
      FrameComplete (fieldPixels g.g_nWidthY g.g_nHeightY m)
        (E.Y.GetRemainingFrames s).1 := fun m hm s => (hN m hm) ▸ (hE s).2
  generalize hres :
    newdenoise_interlaced_frame_intensity E.recording g a_pInputY (some oY) = res
  unfold newdenoise_interlaced_frame_intensity at hres
  rw [timeToPurge_eq g hframes] at hres
  simp only [hY, Bool.not_true, Bool.false_eq_true, if_false] at hres
  cases a_pInputY with
  | none =>
    by_cases hp : g.frame % g.denoiser.frames = 0 <;>
      simp only [hp, if_true, if_false, decide_True, decide_False, Bool.false_eq_true]
        at hres
    all_goals
      split at hres
      · rename_i ho1
        exact absurd ho1 (outputFieldY_ne_none hm0 (hR _ hm0 _))
      rename_i out1 ho1
      obtain ⟨o1, e1, -⟩ := outputFieldY_some ho1 hm0 (hR _ hm0 _)
      subst e1
      split at hres
      · rename_i ho2
        exact absurd ho2 (outputFieldY_ne_none hm1 (hR _ hm1 _))
      rename_i out2 ho2
      subst hres
      refine ⟨_, _, rfl, by
        simp only [Engines.recording, MotionSearcher.recording, List.append_assoc]
        rfl, fun _ => ?_⟩
      cases hf : (E.Y.GetRemainingFrames
          (E.Y.GetRemainingFrames _).2).1 <;>
        simp [SecondFieldDecides, returnedFrames, Engines.recording,
          MotionSearcher.recording, hf]
  | some inputY =>
    by_cases hp : g.frame % g.denoiser.frames = 0 <;>
      simp only [hp, if_true, if_false, decide_True, decide_False, Bool.false_eq_true]
        at hres
    all_goals
      split at hres
      · rename_i ho1
        exact absurd ho1 (outputFieldY_ne_none hm0 (hQ _ hm0 _))
      rename_i out1 ho1
      obtain ⟨o1, e1, -⟩ := outputFieldY_some ho1 hm0 (hQ _ hm0 _)
      subst e1
      split at hres
      · rename_i ha1
        exact absurd ha1 (addFieldY_ne_none hm0 (hN _ hm0))
      rename_i eStatus1 g3 ha1
      obtain ⟨st1, hs1, e2, e3⟩ := addFieldY_some ha1 hm0 (hN _ hm0)
      subst e2 e3
      split at hres
      · rename_i herr
        subst hres
        refine ⟨_, _, rfl, by
          simp only [Engines.recording, MotionSearcher.recording, List.append_assoc]
          rfl, fun hno => ?_⟩
        have := noEngineError_getLast hno _ _ rfl
        simp only [bne_iff_ne, ne_eq] at herr
        exact absurd this herr
      split at hres
      · rename_i ho2
        exact absurd ho2 (outputFieldY_ne_none hm1 (hQ _ hm1 _))
      rename_i out2 ho2
      obtain ⟨o2, e4, -⟩ := outputFieldY_some ho2 hm1 (hQ _ hm1 _)
      subst e4
      split at hres
      · rename_i ha2
        exact absurd ha2 (addFieldY_ne_none hm1 (hN _ hm1))
      rename_i eStatus2 g5 ha2
      obtain ⟨st2, hs2, e5, e6⟩ := addFieldY_some ha2 hm1 (hN _ hm1)
      subst e5 e6
      split at hres
      · rename_i herr
        subst hres
        refine ⟨_, _, rfl, by
          simp only [Engines.recording, MotionSearcher.recording, List.append_assoc]
          rfl, fun hno => ?_⟩
        have := noEngineError_getLast hno _ _ rfl
        simp only [bne_iff_ne, ne_eq] at herr
        exact absurd this herr
      · subst hres
        refine ⟨_, _, rfl, by
          simp only [Engines.recording, MotionSearcher.recording, List.append_assoc]
          rfl, fun _ => ?_⟩
        cases hf : (E.Y.GetFrameReadyForOutput
            (E.Y.AddFrame _ st1).2).1 <;>
          simp [SecondFieldDecides, returnedFrames, Engines.recording,
            MotionSearcher.recording, hf]
set_option maxHeartbeats 1000000 in
theorem interlaced_color_retval {σY σC : Type} (E : Engines σY σC)
    (g : Globals (σY × List (EngineCall PixelY)) (σC × List (EngineCall PixelCbCr)))
    (a_pInputCb a_pInputCr : Option Plane) (oCb oCr : Plane)
    (hC : g.g_bMotionSearcherCbCr = true) (hframes : PurgeTestDefined g)
    (hN : ∀ m, m < 2 → fieldPixels g.g_nWidthCbCr g.g_nHeightCbCr m = g.g_nPixelsCbCr)
    (hE : ∀ s, FrameComplete g.g_nPixelsCbCr (E.CbCr.GetFrameReadyForOutput s).1
      ∧ FrameComplete g.g_nPixelsCbCr (E.CbCr.GetRemainingFrames s).1)
    (hIn : a_pInputCr.isSome = true → a_pInputCb.isSome = true) :
    ∃ r calls,
      newdenoise_interlaced_frame_color E.recording g a_pInputCb a_pInputCr
        (some oCb) (some oCr) = some r
      ∧ r.globals.g_oMotionSearcherCbCr.2 = g.g_oMotionSearcherCbCr.2 ++ calls
      ∧ (NoEngineError calls → SecondFieldDecides r.ret calls) := by
  obtain ⟨hm0, hm1, hne⟩ := fieldMask_lt g
  have hQ : ∀ m, m < 2 → ∀ s,
      FrameComplete (fieldPixels g.g_nWidthCbCr g.g_nHeightCbCr m)
        (E.CbCr.GetFrameReadyForOutput s).1 := fun m hm s => (hN m hm) ▸ (hE s).1
  have hR : ∀ m, m < 2 → ∀ s,
      FrameComplete (fieldPixels g.g_nWidthCbCr g.g_nHeightCbCr m)
        (E.CbCr.GetRemainingFrames s).1 := fun m hm s => (hN m hm) ▸ (hE s).2
  generalize hres :
    newdenoise_interlaced_frame_color E.recording g a_pInputCb a_pInputCr
      (some oCb) (some oCr) = res
  unfold newdenoise_interlaced_frame_color at hres
  rw [timeToPurge_eq g hframes] at hres
  simp only [hC, Bool.not_true, Bool.false_eq_true, if_false] at hres
  cases a_pInputCr with
  | none =>
    by_cases hp : g.frame % g.denoiser.frames = 0 <;>
      simp only [hp, if_true, if_false, decide_True, decide_False, Bool.false_eq_true]
        at hres
    all_goals
      split at hres
      · rename_i ho1
        exact absurd ho1 (outputFieldCbCr_ne_none hm0 (hR _ hm0 _))
      rename_i out1 ho1
      obtain ⟨cb1, cr1, e1, -⟩ := outputFieldCbCr_some ho1 hm0 (hR _ hm0 _)
      subst e1
      split at hres
      · rename_i ho2
        exact absurd ho2 (outputFieldCbCr_ne_none hm1 (hR _ hm1 _))
      rename_i out2 ho2
      subst hres
      refine ⟨_, _, rfl, by
        simp only [Engines.recording, MotionSearcher.recording, List.append_assoc]
        rfl, fun _ => ?_⟩
      cases hf : (E.CbCr.GetRemainingFrames
          (E.CbCr.GetRemainingFrames _).2).1 <;>
        simp [SecondFieldDecides, returnedFrames, Engines.recording,
          MotionSearcher.recording, hf]
  | some inputCr =>
    obtain ⟨inputCb, hcb⟩ := Option.isSome_iff_exists.mp (hIn rfl)
    subst hcb
    by_cases hp : g.frame % g.denoiser.frames = 0 <;>
      simp only [hp, if_true, if_false, decide_True, decide_False, Bool.false_eq_true]
        at hres
    all_goals
      split at hres
      · rename_i ho1
        exact absurd ho1 (outputFieldCbCr_ne_none hm0 (hQ _ hm0 _))
      rename_i out1 ho1
      obtain ⟨cb1, cr1, e1, -⟩ := outputFieldCbCr_some ho1 hm0 (hQ _ hm0 _)
      subst e1
      split at hres
      · rename_i ha1
        exact absurd ha1 (addFieldCbCr_ne_none hm0 (hN _ hm0))
      rename_i eStatus1 g3 ha1
      obtain ⟨st1, hs1, e2, e3⟩ := addFieldCbCr_some ha1 hm0 (hN _ hm0)
      subst e2 e3
      split at hres
      · rename_i herr
        subst hres
        refine ⟨_, _, rfl, by
          simp only [Engines.recording, MotionSearcher.recording, List.append_assoc]
          rfl, fun hno => ?_⟩
        have := noEngineError_getLast hno _ _ rfl
        simp only [bne_iff_ne, ne_eq] at herr
        exact absurd this herr
      split at hres
      · rename_i ho2
        exact absurd ho2 (outputFieldCbCr_ne_none hm1 (hQ _ hm1 _))
      rename_i out2 ho2
      obtain ⟨cb2, cr2, e4, -⟩ := outputFieldCbCr_some ho2 hm1 (hQ _ hm1 _)
      subst e4
      split at hres
      · rename_i ha2
        exact absurd ha2 (addFieldCbCr_ne_none hm1 (hN _ hm1))
      rename_i eStatus2 g5 ha2
      obtain ⟨st2, hs2, e5, e6⟩ := addFieldCbCr_some ha2 hm1 (hN _ hm1)
      subst e5 e6
      split at hres
      · rename_i herr
        subst hres
        refine ⟨_, _, rfl, by
          simp only [Engines.recording, MotionSearcher.recording, List.append_assoc]
          rfl, fun hno => ?_⟩
        have := noEngineError_getLast hno _ _ rfl
        simp only [bne_iff_ne, ne_eq] at herr
        exact absurd this herr
      · subst hres
        refine ⟨_, _, rfl, by
          simp only [Engines.recording, MotionSearcher.recording, List.append_assoc]
          rfl, fun _ => ?_⟩
        cases hf : (E.CbCr.GetFrameReadyForOutput
            (E.CbCr.AddFrame _ st1).2).1 <;>
          simp [SecondFieldDecides, returnedFrames, Engines.recording,
            MotionSearcher.recording, hf]

/-- C36 (the interlaced return value reflects the second field only), one statement for
each routine, each under the conditions of its own plane group only. Let
`newdenoise_interlaced_frame_intensity` run with engines that record their calls, luma
enabled, `frame % denoiser.frames` defined, each field holding `g_nPixelsY` pixels, the
luma engine handing back complete frames and the output buffer not `NULL`. Then it
returns, and if no `AddFrame` call of the routine reported an error, the routine has
made two queries and its return value is 0 exactly when the second query returned a
reference frame, and 1 exactly when it returned `NULL`; the frame returned by the first
query does not enter. Likewise `newdenoise_interlaced_frame_color`, with chroma enabled
and `a_pInputCb` not `NULL` when `a_pInputCr` is not. Neither statement asks anything of
the other plane group. -/
theorem C36_interlaced_return_value {σY σC : Type} (E : Engines σY σC)
    (g : Globals (σY × List (EngineCall PixelY)) (σC × List (EngineCall PixelCbCr)))
    (a_pInputY a_pInputCb a_pInputCr : Option Plane) (oY oCb oCr : Plane) :
    (g.g_bMotionSearcherY = true → PurgeTestDefined g →
      (∀ m, m < 2 → fieldPixels g.g_nWidthY g.g_nHeightY m = g.g_nPixelsY) →
      (∀ s, FrameComplete g.g_nPixelsY (E.Y.GetFrameReadyForOutput s).1
        ∧ FrameComplete g.g_nPixelsY (E.Y.GetRemainingFrames s).1) →
      ∃ r calls,
        newdenoise_interlaced_frame_intensity E.recording g a_pInputY (some oY) = some r
        ∧ r.globals.g_oMotionSearcherY.2 = g.g_oMotionSearcherY.2 ++ calls
        ∧ (NoEngineError calls → SecondFieldDecides r.ret calls))
    ∧ (g.g_bMotionSearcherCbCr = true → PurgeTestDefined g →
      (∀ m, m < 2 → fieldPixels g.g_nWidthCbCr g.g_nHeightCbCr m = g.g_nPixelsCbCr) →
      (∀ s, FrameComplete g.g_nPixelsCbCr (E.CbCr.GetFrameReadyForOutput s).1
        ∧ FrameComplete g.g_nPixelsCbCr (E.CbCr.GetRemainingFrames s).1) →
      (a_pInputCr.isSome = true → a_pInputCb.isSome = true) →
      ∃ r calls,
        newdenoise_interlaced_frame_color E.recording g a_pInputCb a_pInputCr
          (some oCb) (some oCr) = some r
        ∧ r.globals.g_oMotionSearcherCbCr.2 = g.g_oMotionSearcherCbCr.2 ++ calls
        ∧ (NoEngineError calls → SecondFieldDecides r.ret calls)) :=
  ⟨fun hY hframes hNY hEY =>
      interlaced_intensity_retval E g a_pInputY oY hY hframes hNY hEY,
   fun hC hframes hNC hEC hIn =>
      interlaced_color_retval E g a_pInputCb a_pInputCr oCb oCr hC hframes hNC hEC hIn⟩

/-- C36, witness: the sample engines (window of one frame), interlaced 4x2 luma plane.
In a luma-only configuration, on the submit path with nothing held, the first query
returns `NULL`, the second returns the field just added, which is written to the row of
parity 1, and the routine returns 0. With both plane groups, on the flush path with one
field held, the first query returns that field, which is written to the row of parity 0
of the output, the second query returns `NULL`, and the routine returns 1. The luma
statement holds in the luma-only configuration, the chroma statement with both plane
groups enabled. -/
theorem C36_interlaced_return_value_witness :
    sampleGlobalsInterlacedLumaOnly.withRecords.g_bMotionSearcherCbCr = false
    ∧ (newdenoise_interlaced_frame_intensity (sampleEngines 1 none none).recording
        sampleGlobalsInterlacedLumaOnly.withRecords (some samplePlaneY)
        (some blankPlane)).map
      (fun r => (r.ret, (returnedFrames r.globals.g_oMotionSearcherY.2).map Option.isSome,
        r.a_pOutputY.map (fun o => (List.range 8).map o)))
      = some (0, [false, true], some [255, 255, 255, 255, 10, 20, 30, 40])
    ∧ (newdenoise_interlaced_frame_intensity (sampleEngines 1 none none).recording
        sampleGlobalsInterlacedLoaded.withRecords none (some blankPlane)).map
      (fun r => (r.ret, (returnedFrames r.globals.g_oMotionSearcherY.2).map Option.isSome,
        r.a_pOutputY.map (fun o => (List.range 8).map o)))
      = some (1, [true, false], some [10, 20, 30, 40, 255, 255, 255, 255])
    ∧ (∃ r calls,
        newdenoise_interlaced_frame_intensity (sampleEngines 1 none none).recording
          sampleGlobalsInterlacedLumaOnly.withRecords (some samplePlaneY)
          (some blankPlane) = some r
        ∧ r.globals.g_oMotionSearcherY.2
          = sampleGlobalsInterlacedLumaOnly.withRecords.g_oMotionSearcherY.2 ++ calls
        ∧ (NoEngineError calls → SecondFieldDecides r.ret calls))
    ∧ (∃ r calls,
        newdenoise_interlaced_frame_color (sampleEngines 1 none none).recording
          sampleGlobalsInterlacedLoaded.withRecords none none
          (some blankPlane) (some blankPlane) = some r
        ∧ r.globals.g_oMotionSearcherCbCr.2
          = sampleGlobalsInterlacedLoaded.withRecords.g_oMotionSearcherCbCr.2 ++ calls
        ∧ (NoEngineError calls → SecondFieldDecides r.ret calls)) :=
  ⟨rfl, rfl, rfl,
    (C36_interlaced_return_value (sampleEngines 1 none none)
      sampleGlobalsInterlacedLumaOnly.withRecords (some samplePlaneY) none none
      blankPlane blankPlane blankPlane).1 rfl (by decide) (by decide)
      (fun s => sampleSearcher_complete 1 none 4 s),
    (C36_interlaced_return_value (sampleEngines 1 none none)
      sampleGlobalsInterlacedLoaded.withRecords none none none
      blankPlane blankPlane blankPlane).2 rfl (by decide) (by decide)
      (fun s => sampleSearcher_complete 1 none 2 s) (fun h => h)⟩


/-! ### A `NULL` input and the flush path -/

theorem frame_color_flush_ignores_cb {σY σC : Type} (E : Engines σY σC)
    (g : Globals σY σC) (a_pInputCb a_pOutputCb a_pOutputCr : Option Plane) :
    newdenoise_frame_color E g a_pInputCb none a_pOutputCb a_pOutputCr
      = newdenoise_frame_color E g none none a_pOutputCb a_pOutputCr := rfl

theorem interlaced_color_flush_ignores_cb {σY σC : Type} (E : Engines σY σC)
    (g : Globals σY σC) (a_pInputCb a_pOutputCb a_pOutputCr : Option Plane) :
    newdenoise_interlaced_frame_color E g a_pInputCb none a_pOutputCb a_pOutputCr
      = newdenoise_interlaced_frame_color E g none none a_pOutputCb a_pOutputCr := rfl

theorem frame_intensity_flush {σY σC : Type} (E : Engines σY σC)
    (g : Globals (σY × List (EngineCall PixelY)) (σC × List (EngineCall PixelCbCr)))
    (oY : Plane)
    (hY : g.g_bMotionSearcherY = true) (hframes : PurgeTestDefined g)
    (hE : ∀ s, FrameComplete g.g_nPixelsY (E.Y.GetFrameReadyForOutput s).1
      ∧ FrameComplete g.g_nPixelsY (E.Y.GetRemainingFrames s).1) :
    ∃ r calls,
      newdenoise_frame_intensity E.recording g none (some oY) = some r
      ∧ r.globals.g_oMotionSearcherY.2 = g.g_oMotionSearcherY.2
          ++ (if g.frame % g.denoiser.frames = 0 then [EngineCall.Purge] else []) ++ calls
      ∧ FlushCalls 1 calls := by
  obtain ⟨r, emitted, calls, h1, h2, h3, -⟩ :=
    frame_intensity_calls E g none oY hY hframes hE
  simp only [Option.map_none', ProgressiveCalls] at h3
  subst h3
  exact ⟨r, _, h1, h2, rfl, fun c hc => by
    simp only [List.mem_singleton] at hc
    subst hc
    rfl⟩

theorem frame_color_flush {σY σC : Type} (E : Engines σY σC)
    (g : Globals (σY × List (EngineCall PixelY)) (σC × List (EngineCall PixelCbCr)))
    (a_pInputCb : Option Plane) (oCb oCr : Plane)
    (hC : g.g_bMotionSearcherCbCr = true) (hframes : PurgeTestDefined g)
    (hE : ∀ s, FrameComplete g.g_nPixelsCbCr (E.CbCr.GetFrameReadyForOutput s).1
      ∧ FrameComplete g.g_nPixelsCbCr (E.CbCr.GetRemainingFrames s).1) :
    ∃ r calls,
      newdenoise_frame_color E.recording g a_pInputCb none (some oCb) (some oCr) = some r
      ∧ r.globals.g_oMotionSearcherCbCr.2 = g.g_oMotionSearcherCbCr.2
          ++ (if g.frame % g.denoiser.frames = 0 then [EngineCall.Purge] else []) ++ calls
      ∧ FlushCalls 1 calls := by
  obtain ⟨r, emitted, calls, h1, h2, h3, -⟩ :=
    frame_color_calls E g none oCb oCr hC hframes hE
  simp only [Option.map_none', ProgressiveCalls] at h1 h3
  subst h3
  rw [frame_color_flush_ignores_cb]
  exact ⟨r, _, h1, h2, rfl, fun c hc => by
    simp only [List.mem_singleton] at hc
    subst hc
    rfl⟩

theorem interlaced_intensity_flush {σY σC : Type} (E : Engines σY σC)
    (g : Globals (σY × List (EngineCall PixelY)) (σC × List (EngineCall PixelCbCr)))
    (oY : Plane)
    (hY : g.g_bMotionSearcherY = true) (hframes : PurgeTestDefined g)
    (hE : ∀ s m, m < 2 →
      FrameComplete (fieldPixels g.g_nWidthY g.g_nHeightY m) (E.Y.GetRemainingFrames s).1) :
    ∃ r calls,
      newdenoise_interlaced_frame_intensity E.recording g none (some oY) = some r
      ∧ r.globals.g_oMotionSearcherY.2 = g.g_oMotionSearcherY.2
          ++ (if g.frame % g.denoiser.frames = 0 then [EngineCall.Purge] else []) ++ calls
      ∧ FlushCalls 2 calls := by
  obtain ⟨hm0, hm1, hne⟩ := fieldMask_lt g
  have hR : ∀ m, m < 2 → ∀ s,
      FrameComplete (fieldPixels g.g_nWidthY g.g_nHeightY m)
        (E.recording.Y.GetRemainingFrames s).1 := fun m hm s => hE s.1 m hm
  generalize hres :
    newdenoise_interlaced_frame_intensity E.recording g none (some oY) = res
  unfold newdenoise_interlaced_frame_intensity at hres
  rw [timeToPurge_eq g hframes] at hres
  simp only [hY, Bool.not_true, Bool.false_eq_true, if_false] at hres
  by_cases hp : g.frame % g.denoiser.frames = 0 <;>
    simp only [hp, if_true, if_false, decide_True, decide_False, Bool.false_eq_true]
      at hres ⊢
  all_goals
    split at hres
    · rename_i ho1
      exact absurd ho1 (outputFieldY_ne_none hm0 (hR _ hm0 _))
    rename_i out1 ho1
    obtain ⟨o1, e1, -⟩ := outputFieldY_some ho1 hm0 (hR _ hm0 _)
    subst e1
    split at hres
    · rename_i ho2
      exact absurd ho2 (outputFieldY_ne_none hm1 (hR _ hm1 _))
    rename_i out2 ho2
    subst hres
    refine ⟨_, [EngineCall.GetRemainingFrames _, EngineCall.GetRemainingFrames _], rfl, by
      simp only [Engines.recording, MotionSearcher.recording, List.append_assoc]
      rfl,
      rfl, fun c hc => ?_⟩
    simp only [List.mem_cons, List.mem_singleton, List.not_mem_nil, or_false] at hc
    rcases hc with hc | hc <;> subst hc <;> rfl

theorem interlaced_color_flush {σY σC : Type} (E : Engines σY σC)
    (g : Globals (σY × List (EngineCall PixelY)) (σC × List (EngineCall PixelCbCr)))
    (a_pInputCb : Option Plane) (oCb oCr : Plane)
    (hC : g.g_bMotionSearcherCbCr = true) (hframes : PurgeTestDefined g)
    (hE : ∀ s m, m < 2 →
      FrameComplete (fieldPixels g.g_nWidthCbCr g.g_nHeightCbCr m)
        (E.CbCr.GetRemainingFrames s).1) :
    ∃ r calls,
      newdenoise_interlaced_frame_color E.recording g a_pInputCb none (some oCb)
        (some oCr) = some r
      ∧ r.globals.g_oMotionSearcherCbCr.2 = g.g_oMotionSearcherCbCr.2
          ++ (if g.frame % g.denoiser.frames = 0 then [EngineCall.Purge] else []) ++ calls
      ∧ FlushCalls 2 calls := by
  obtain ⟨hm0, hm1, hne⟩ := fieldMask_lt g
  have hR : ∀ m, m < 2 → ∀ s,
      FrameComplete (fieldPixels g.g_nWidthCbCr g.g_nHeightCbCr m)
        (E.recording.CbCr.GetRemainingFrames s).1 := fun m hm s => hE s.1 m hm
  generalize hres :
    newdenoise_interlaced_frame_color E.recording g a_pInputCb none (some oCb)
      (some oCr) = res
  unfold newdenoise_interlaced_frame_color at hres
  rw [timeToPurge_eq g hframes] at hres
  simp only [hC, Bool.not_true, Bool.false_eq_true, if_false] at hres
  by_cases hp : g.frame % g.denoiser.frames = 0 <;>
    simp only [hp, if_true, if_false, decide_True, decide_False, Bool.false_eq_true]
      at hres ⊢
  all_goals
    split at hres
    · rename_i ho1
      exact absurd ho1 (outputFieldCbCr_ne_none hm0 (hR _ hm0 _))
    rename_i out1 ho1
    obtain ⟨ocb1, ocr1, e1, -⟩ := outputFieldCbCr_some ho1 hm0 (hR _ hm0 _)
    subst e1
    split at hres
    · rename_i ho2
      exact absurd ho2 (outputFieldCbCr_ne_none hm1 (hR _ hm1 _))
    rename_i out2 ho2
    subst hres
    refine ⟨_, [EngineCall.GetRemainingFrames _, EngineCall.GetRemainingFrames _], rfl, by
      simp only [Engines.recording, MotionSearcher.recording, List.append_assoc]
      rfl,
      rfl, fun c hc => ?_⟩
    simp only [List.mem_cons, List.mem_singleton, List.not_mem_nil, or_false] at hc
    rcases hc with hc | hc <;> subst hc <;> rfl

/-- C20, amended (a `NULL` input pointer that the routine tests means flush), one
statement for each per-plane routine, each under the conditions of its own plane group
only. The luma routines test `a_pInputY`, the chroma routines test `a_pInputCr`. Let the
routine run with engines that record their calls, its plane group enabled,
`frame % denoiser.frames` defined, the engine handing back complete frames and the
output buffers not `NULL`. If the pointer it tests is `NULL`, the routine returns and,
after the purge if one is due, has called `GetRemainingFrames` (once in the progressive
routines, twice in the interlaced ones) and nothing else: no `AddFrame`, no
`GetFrameReadyForOutput`. It reads through no input pointer: the luma routines have no
other input, and the chroma routines give the same result whatever `a_pInputCb` is,
`NULL` included. -/
theorem C20_null_input_is_flush_amended {σY σC : Type} (E : Engines σY σC)
    (g : Globals (σY × List (EngineCall PixelY)) (σC × List (EngineCall PixelCbCr)))
    (a_pInputCb : Option Plane) (oY oCb oCr : Plane) :
    (g.g_bMotionSearcherY = true → PurgeTestDefined g →
      (∀ s, FrameComplete g.g_nPixelsY (E.Y.GetFrameReadyForOutput s).1
        ∧ FrameComplete g.g_nPixelsY (E.Y.GetRemainingFrames s).1) →
      ∃ r calls,
        newdenoise_frame_intensity E.recording g none (some oY) = some r
        ∧ r.globals.g_oMotionSearcherY.2 = g.g_oMotionSearcherY.2
            ++ (if g.frame % g.denoiser.frames = 0 then [EngineCall.Purge] else [])
            ++ calls
        ∧ FlushCalls 1 calls)
    ∧ (g.g_bMotionSearcherCbCr = true → PurgeTestDefined g →
      (∀ s, FrameComplete g.g_nPixelsCbCr (E.CbCr.GetFrameReadyForOutput s).1
        ∧ FrameComplete g.g_nPixelsCbCr (E.CbCr.GetRemainingFrames s).1) →
      ∃ r calls,
        newdenoise_frame_color E.recording g a_pInputCb none (some oCb) (some oCr)
          = some r
        ∧ r.globals.g_oMotionSearcherCbCr.2 = g.g_oMotionSearcherCbCr.2
            ++ (if g.frame % g.denoiser.frames = 0 then [EngineCall.Purge] else [])
            ++ calls
        ∧ FlushCalls 1 calls
        ∧ newdenoise_frame_color E.recording g none none (some oCb) (some oCr) = some r)
    ∧ (g.g_bMotionSearcherY = true → PurgeTestDefined g →
      (∀ s m, m < 2 → FrameComplete (fieldPixels g.g_nWidthY g.g_nHeightY m)
        (E.Y.GetRemainingFrames s).1) →
      ∃ r calls,
        newdenoise_interlaced_frame_intensity E.recording g none (some oY) = some r
        ∧ r.globals.g_oMotionSearcherY.2 = g.g_oMotionSearcherY.2
            ++ (if g.frame % g.denoiser.frames = 0 then [EngineCall.Purge] else [])
            ++ calls
        ∧ FlushCalls 2 calls)
    ∧ (g.g_bMotionSearcherCbCr = true → PurgeTestDefined g →
      (∀ s m, m < 2 → FrameComplete (fieldPixels g.g_nWidthCbCr g.g_nHeightCbCr m)
        (E.CbCr.GetRemainingFrames s).1) →
      ∃ r calls,
        newdenoise_interlaced_frame_color E.recording g a_pInputCb none (some oCb)
          (some oCr) = some r
        ∧ r.globals.g_oMotionSearcherCbCr.2 = g.g_oMotionSearcherCbCr.2
            ++ (if g.frame % g.denoiser.frames = 0 then [EngineCall.Purge] else [])
            ++ calls
        ∧ FlushCalls 2 calls
        ∧ newdenoise_interlaced_frame_color E.recording g none none (some oCb)
            (some oCr) = some r) := by
  refine ⟨fun hY hp hE => frame_intensity_flush E g oY hY hp hE, fun hC hp hE => ?_,
    fun hY hp hE => interlaced_intensity_flush E g oY hY hp hE, fun hC hp hE => ?_⟩
  · obtain ⟨r, calls, h1, h2, h3⟩ := frame_color_flush E g a_pInputCb oCb oCr hC hp hE
    exact ⟨r, calls, h1, h2, h3, (frame_color_flush_ignores_cb _ _ _ _ _).symm.trans h1⟩
  · obtain ⟨r, calls, h1, h2, h3⟩ :=
      interlaced_color_flush E g a_pInputCb oCb oCr hC hp hE
    exact ⟨r, calls, h1, h2, h3,
      (interlaced_color_flush_ignores_cb _ _ _ _ _).symm.trans h1⟩

/-- C20, amended, witness: the sample engines, each holding one frame. With `a_pInputCr`
`NULL` and `a_pInputCb` not `NULL` the progressive chroma routine returns 0, having
called `Purge` and `GetRemainingFrames`; the interlaced one returns 1, having called
`Purge` and `GetRemainingFrames` twice. The chroma statements hold there, and the luma
statement in a luma-only configuration. -/
theorem C20_null_input_is_flush_amended_witness :
    (newdenoise_frame_color (sampleEngines 1 none none).recording
        sampleGlobalsLoaded.withRecords (some samplePlaneCb) none (some blankPlane)
        (some blankPlane)).map
      (fun r => (r.ret, r.globals.g_oMotionSearcherCbCr.2.map EngineCall.kind))
      = some (0, [.Purge, .GetRemainingFrames])
    ∧ (newdenoise_interlaced_frame_color (sampleEngines 1 none none).recording
        sampleGlobalsInterlaced.withRecords (some samplePlaneCb) none (some blankPlane)
        (some blankPlane)).map
      (fun r => (r.ret, r.globals.g_oMotionSearcherCbCr.2.map EngineCall.kind))
      = some (1, [.Purge, .GetRemainingFrames, .GetRemainingFrames])
    ∧ (∃ r calls,
        newdenoise_frame_intensity (sampleEngines 1 none none).recording
          sampleGlobalsLumaOnly.withRecords none (some blankPlane) = some r
        ∧ r.globals.g_oMotionSearcherY.2
          = sampleGlobalsLumaOnly.withRecords.g_oMotionSearcherY.2
            ++ (if sampleGlobalsLumaOnly.withRecords.frame
                % sampleGlobalsLumaOnly.withRecords.denoiser.frames = 0
              then [EngineCall.Purge] else [])
            ++ calls
        ∧ FlushCalls 1 calls)
    ∧ (∃ r calls,
        newdenoise_frame_color (sampleEngines 1 none none).recording
          sampleGlobalsLoaded.withRecords (some samplePlaneCb) none (some blankPlane)
          (some blankPlane) = some r
        ∧ r.globals.g_oMotionSearcherCbCr.2
          = sampleGlobalsLoaded.withRecords.g_oMotionSearcherCbCr.2
            ++ (if sampleGlobalsLoaded.withRecords.frame
                % sampleGlobalsLoaded.withRecords.denoiser.frames = 0
              then [EngineCall.Purge] else [])
            ++ calls
        ∧ FlushCalls 1 calls
        ∧ newdenoise_frame_color (sampleEngines 1 none none).recording
            sampleGlobalsLoaded.withRecords none none (some blankPlane)
            (some blankPlane) = some r)
    ∧ (∃ r calls,
        newdenoise_interlaced_frame_color (sampleEngines 1 none none).recording
          sampleGlobalsInterlaced.withRecords (some samplePlaneCb) none
          (some blankPlane) (some blankPlane) = some r
        ∧ r.globals.g_oMotionSearcherCbCr.2
          = sampleGlobalsInterlaced.withRecords.g_oMotionSearcherCbCr.2
            ++ (if sampleGlobalsInterlaced.withRecords.frame
                % sampleGlobalsInterlaced.withRecords.denoiser.frames = 0
              then [EngineCall.Purge] else [])
            ++ calls
        ∧ FlushCalls 2 calls
        ∧ newdenoise_interlaced_frame_color (sampleEngines 1 none none).recording
            sampleGlobalsInterlaced.withRecords none none (some blankPlane)
            (some blankPlane) = some r) :=
  ⟨rfl, rfl,
    (C20_null_input_is_flush_amended (sampleEngines 1 none none)
      sampleGlobalsLumaOnly.withRecords none blankPlane blankPlane blankPlane).1
      rfl (by decide) (fun s => sampleSearcher_complete 1 none 8 s),
    (C20_null_input_is_flush_amended (sampleEngines 1 none none)
      sampleGlobalsLoaded.withRecords (some samplePlaneCb) blankPlane blankPlane
      blankPlane).2.1 rfl (by decide) (fun s => sampleSearcher_complete 1 none 2 s),
    (C20_null_input_is_flush_amended (sampleEngines 1 none none)
      sampleGlobalsInterlaced.withRecords (some samplePlaneCb) blankPlane blankPlane
      blankPlane).2.2.2 rfl (by decide)
      (fun s m hm => by
        have h2 : fieldPixels sampleGlobalsInterlaced.withRecords.g_nWidthCbCr
            sampleGlobalsInterlaced.withRecords.g_nHeightCbCr m = 2 := by
          have : m = 0 ∨ m = 1 := by omega
          rcases this with h | h <;> subst h <;> rfl
        rw [h2]
        exact (sampleSearcher_complete 1 none 2 s).2)⟩

/-- C20, the claim as written fails for `a_pInputCb`: the chroma routines are called
with `a_pInputCb = NULL` and `a_pInputCr` not `NULL`, each sample engine holding one
frame. The test `a_pInputCr == NULL` fails and the routines take the submit path. With a
chroma plane of no pixels the progressive routine returns, having called `Purge`,
`GetFrameReadyForOutput` and `AddFrame`, and not `GetRemainingFrames`. With a chroma
plane of two pixels the staging loop reads through the `NULL` pointer `a_pInputCb` and
the routines do not return, where the flush call (both chroma inputs `NULL`) returns
after `Purge` and `GetRemainingFrames`. -/
theorem C20_null_input_is_flush_counterexample :
    (newdenoise_frame_color (sampleEngines 1 none none).recording
        sampleGlobalsNoChromaPixels.withRecords none (some samplePlaneCr)
        (some blankPlane) (some blankPlane)).map
      (fun r => (r.ret, r.globals.g_oMotionSearcherCbCr.2.map EngineCall.kind))
      = some (0, [.Purge, .GetFrameReadyForOutput, .AddFrame])
    ∧ (newdenoise_frame_color (sampleEngines 1 none none).recording
        sampleGlobalsLoaded.withRecords none none (some blankPlane) (some blankPlane)).map
      (fun r => (r.ret, r.globals.g_oMotionSearcherCbCr.2.map EngineCall.kind))
      = some (0, [.Purge, .GetRemainingFrames])
    ∧ (newdenoise_frame_color (sampleEngines 1 none none).recording
        sampleGlobalsLoaded.withRecords none (some samplePlaneCr) (some blankPlane)
        (some blankPlane)).isNone = true
    ∧ (newdenoise_interlaced_frame_color (sampleEngines 1 none none).recording
        sampleGlobalsInterlaced.withRecords none none (some blankPlane)
        (some blankPlane)).map
      (fun r => (r.ret, r.globals.g_oMotionSearcherCbCr.2.map EngineCall.kind))
      = some (1, [.Purge, .GetRemainingFrames, .GetRemainingFrames])
    ∧ (newdenoise_interlaced_frame_color (sampleEngines 1 none none).recording
        sampleGlobalsInterlaced.withRecords none (some samplePlaneCr) (some blankPlane)
        (some blankPlane)).isNone = true := by
  refine ⟨?_, ?_, ?_, ?_, ?_⟩ <;> rfl

/-! ### The waiter flags agree with the lists -/

set_option maxHeartbeats 2000000 in
theorem reader_step_flags (s s1 : ReaderSys) (a : ReaderAction) (h : s.FlagInv)
    (hs : s.step a = some s1) : s1.FlagInv := by
  rcases s with ⟨⟨wi, wo, wl, rv, pl, vl, cur, fl⟩, w, c, j, ab, fr, ho, st⟩
  simp only [ReaderSys.FlagInv, ReadWriteThread.FlagsAgree] at h ⊢
  obtain ⟨⟨h1, h2⟩, h3⟩ := h
  cases ab
  swap
  · simp [ReaderSys.step] at hs
  cases a with
  | workerStep =>
    cases w with
    | loopHead =>
      cases wl <;> simp [ReaderSys.step, ReaderSys.workerStep] at hs <;> subst hs <;>
        simp_all
    | workStart =>
      cases fl <;> cases wl <;> cases wi <;>
        simp [ReaderSys.step, ReaderSys.workerStep, ReaderSys.workTakeFree,
          ReadWriteThread.GetFreeFrame, ReadWriteThread.WaitForInput] at hs <;>
        subst hs <;> simp_all
    | waiting =>
      cases fl <;> cases wi <;>
        simp [ReaderSys.step, ReaderSys.workerStep, ReaderSys.workTakeFree,
          ReadWriteThread.GetFreeFrame] at hs <;>
        subst hs <;> simp_all
    | holding f => simp [ReaderSys.step, ReaderSys.workerStep] at hs
    | returned n =>
      by_cases hn : n = Y4M_OK <;>
        simp [ReaderSys.step, ReaderSys.workerStep, hn] at hs <;> subst hs <;> simp_all
    | exiting =>
      by_cases hr : rv = Y4M_OK <;> cases wi <;> cases wo <;>
        simp [ReaderSys.step, ReaderSys.workerStep, ReadWriteThread.stopAndSignal,
          ReadWriteThread.SignalInput, ReadWriteThread.SignalOutput, hr] at hs <;>
        subst hs <;> simp_all
    | done => simp [ReaderSys.step, ReaderSys.workerStep] at hs
  | workerRead nErr data =>
    cases w with
    | holding f =>
      by_cases hn : nErr = Y4M_OK <;> cases wo <;> cases wi <;>
        simp [ReaderSys.step, ReaderSys.workerRead, ReadWriteThread.AddFrameToValidList,
          ReadWriteThread.AddFrameToFreeList, ReadWriteThread.SignalOutput, hn] at hs <;>
        subst hs <;> simp_all
    | _ => simp [ReaderSys.step, ReaderSys.workerRead] at hs
  | ReadFrame =>
    cases c with
    | idle =>
      cases cur <;> cases vl <;> cases wl <;> cases wi <;> cases wo <;>
        simp [ReaderSys.step, ReaderSys.readFrame, ReaderSys.readFrameFinish,
          ReadWriteThread.MoveCurrentFrameToFreeList, ReadWriteThread.AddFrameToFreeList,
          ReadWriteThread.SignalInput, ReadWriteThread.WaitForOutput,
          ReadWriteThread.MoveValidFrameToCurrent, ReadWriteThread.GetFirstValidFrame]
          at hs <;>
        subst hs <;> simp_all
    | _ => simp [ReaderSys.step, ReaderSys.readFrame] at hs
  | clientStep =>
    cases c with
    | idle => simp [ReaderSys.step, ReaderSys.clientStep] at hs
    | waiting =>
      cases cur <;> cases vl <;> cases wo <;>
        simp [ReaderSys.step, ReaderSys.clientStep, ReaderSys.readFrameFinish,
          ReadWriteThread.MoveValidFrameToCurrent, ReadWriteThread.GetFirstValidFrame]
          at hs <;>
        subst hs <;> simp_all
    | failing =>
      by_cases hr : rv = Y4M_OK <;>
        simp [ReaderSys.step, ReaderSys.clientStep, hr] at hs <;> subst hs <;> simp_all
    | joining =>
      by_cases hw : w = .done
      · simp [ReaderSys.step, ReaderSys.clientStep, hw] at hs
        subst hs
        simp_all
      · simp [ReaderSys.step, ReaderSys.clientStep, hw] at hs
  | ForceShutdown =>
    cases c <;> cases j <;> cases wi <;> cases wo <;>
      simp [ReaderSys.step, ReaderSys.forceShutdown, ReadWriteThread.stopAndSignal,
        ReadWriteThread.SignalInput, ReadWriteThread.SignalOutput] at hs <;>
      subst hs <;> simp_all

theorem reader_run_flags (acts : List ReaderAction) (s s1 : ReaderSys)
    (h : s.FlagInv) (hs : s.run acts = some s1) : s1.FlagInv := by
  induction acts generalizing s with
  | nil =>
    simp only [ReaderSys.run, Option.some.injEq] at hs
    exact hs ▸ h
  | cons a rest ih =>
    simp only [ReaderSys.run] at hs
    split at hs
    · exact absurd hs (by simp)
    · rename_i s2 h2
      exact ih s2 (reader_step_flags s s2 a h h2) hs

theorem reader_init_flags : ReaderSys.init.FlagInv := by
  simp [ReaderSys.FlagInv, ReadWriteThread.FlagsAgree, ReaderSys.init,
    ReadWriteThread.Initialize, ReadWriteThread.allocateFrames,
    ReadWriteThread.constructed]

set_option maxHeartbeats 2000000 in
theorem writer_step_flags (s s1 : WriterSys) (a : WriterAction)
    (h : s.thread.FlagsAgree) (hs : s.step a = some s1) : s1.thread.FlagsAgree := by
  rcases s with ⟨⟨wi, wo, wl, rv, pl, vl, cur, fl⟩, w, c, j, ab, pu, wr, st⟩
  simp only [ReadWriteThread.FlagsAgree] at h ⊢
  obtain ⟨h1, h2⟩ := h
  cases ab
  swap
  · simp [WriterSys.step] at hs
  cases a with
  | workerStep =>
    cases w with
    | loopHead =>
      cases wl <;> cases vl <;>
        simp [WriterSys.step, WriterSys.workerStep] at hs <;> subst hs <;> simp_all
    | workStart =>
      cases vl <;> cases wl <;> cases wo <;>
        simp [WriterSys.step, WriterSys.workerStep, WriterSys.workTakeValid,
          ReadWriteThread.GetFirstValidFrame, ReadWriteThread.WaitForOutput] at hs <;>
        subst hs <;> simp_all
    | waiting =>
      cases vl <;> cases wo <;>
        simp [WriterSys.step, WriterSys.workerStep, WriterSys.workTakeValid,
          ReadWriteThread.GetFirstValidFrame] at hs <;>
        subst hs <;> simp_all
    | holding f => simp [WriterSys.step, WriterSys.workerStep] at hs
    | returned n =>
      by_cases hn : n = Y4M_OK <;>
        simp [WriterSys.step, WriterSys.workerStep, hn] at hs <;> subst hs <;> simp_all
    | exiting =>
      by_cases hr : rv = Y4M_OK <;> cases wi <;> cases wo <;>
        simp [WriterSys.step, WriterSys.workerStep, ReadWriteThread.stopAndSignal,
          ReadWriteThread.SignalInput, ReadWriteThread.SignalOutput, hr] at hs <;>
        subst hs <;> simp_all
    | done => simp [WriterSys.step, WriterSys.workerStep] at hs
  | workerWrite nErr =>
    cases w with
    | holding f =>
      cases wo <;> cases wi <;>
        simp [WriterSys.step, WriterSys.workerWrite, ReadWriteThread.AddFrameToFreeList,
          ReadWriteThread.SignalInput] at hs <;>
        subst hs <;> simp_all
    | _ => simp [WriterSys.step, WriterSys.workerWrite] at hs
  | GetSpaceToWriteFrame =>
    cases c with
    | idle =>
      cases cur <;> cases fl <;> cases wl <;> cases wi <;> cases wo <;>
        simp [WriterSys.step, WriterSys.getSpaceToWriteFrame, WriterSys.getSpaceFinish,
          ReadWriteThread.WaitForInput, ReadWriteThread.MoveFreeFrameToCurrent,
          ReadWriteThread.GetFreeFrame] at hs <;>
        subst hs <;> simp_all
    | _ => simp [WriterSys.step, WriterSys.getSpaceToWriteFrame] at hs
  | WriteFrame data =>
    cases c with
    | idle =>
      cases cur <;> cases wi <;> cases wo <;>
        simp [WriterSys.step, WriterSys.writeFrame,
          ReadWriteThread.MoveCurrentFrameToValidList, ReadWriteThread.AddFrameToValidList,
          ReadWriteThread.SignalOutput] at hs <;>
        subst hs <;> simp_all
    | _ => simp [WriterSys.step, WriterSys.writeFrame] at hs
  | clientStep =>
    cases c with
    | idle => simp [WriterSys.step, WriterSys.clientStep] at hs
    | waiting =>
      cases cur <;> cases fl <;> cases wi <;>
        simp [WriterSys.step, WriterSys.clientStep, WriterSys.getSpaceFinish,
          ReadWriteThread.MoveFreeFrameToCurrent, ReadWriteThread.GetFreeFrame] at hs <;>
        subst hs <;> simp_all
    | failing =>
      by_cases hr : rv = Y4M_OK <;>
        simp [WriterSys.step, WriterSys.clientStep, hr] at hs <;> subst hs <;> simp_all
    | joining =>
      by_cases hw : w = .done
      · simp [WriterSys.step, WriterSys.clientStep, hw] at hs
        subst hs
        simp_all
      · simp [WriterSys.step, WriterSys.clientStep, hw] at hs
  | ForceShutdown =>
    cases c <;> cases j <;> cases wi <;> cases wo <;>
      simp [WriterSys.step, WriterSys.forceShutdown, ReadWriteThread.stopAndSignal,
        ReadWriteThread.SignalInput, ReadWriteThread.SignalOutput] at hs <;>
      subst hs <;> simp_all

theorem writer_run_flags (acts : List WriterAction) (s s1 : WriterSys)
    (h : s.thread.FlagsAgree) (hs : s.run acts = some s1) : s1.thread.FlagsAgree := by
  induction acts generalizing s with
  | nil =>
    simp only [WriterSys.run, Option.some.injEq] at hs
    exact hs ▸ h
  | cons a rest ih =>
    simp only [WriterSys.run] at hs
    split at hs
    · exact absurd hs (by simp)
    · rename_i s2 h2
      exact ih s2 (writer_step_flags s s2 a h h2) hs

theorem writer_init_flags : WriterSys.init.thread.FlagsAgree := by
  simp [ReadWriteThread.FlagsAgree, WriterSys.init,
    ReadWriteThread.Initialize, ReadWriteThread.allocateFrames,
    ReadWriteThread.constructed]
/-- C37 (the waiter flags agree with the lists). In every state of the reader pool and
in every state of the writer pool that some interleaving of the worker's and the
client's steps reaches after `Initialize` (each step is a whole locked section, so the
mutex is free in every such state): if the waiting-for-input flag is set the free list
is empty, and if the waiting-for-output flag is set the valid list is empty. Both cases
occur: a reader whose worker has filled all four frames waits for input with the free
list empty, and a writer with nothing to write waits for output with the valid list
empty. -/
theorem C37_waiter_flags_agree :
    (∀ s : ReaderSys, s.Reachable →
      (s.thread.m_bWaitingForInput = true → s.thread.m_pFreeFrames = [])
      ∧ (s.thread.m_bWaitingForOutput = true → s.thread.m_pValidFrames = []))
    ∧ (∀ s : WriterSys, s.Reachable →
      (s.thread.m_bWaitingForInput = true → s.thread.m_pFreeFrames = [])
      ∧ (s.thread.m_bWaitingForOutput = true → s.thread.m_pValidFrames = []))
    ∧ (ReaderSys.init.run (readerFourReads 1 2 3 4) = some readerFullState
      ∧ readerFullState.thread.m_bWaitingForInput = true
      ∧ readerFullState.thread.m_pFreeFrames = []
      ∧ readerFullState.thread.m_pValidFrames = [3, 2, 1, 0])
    ∧ (WriterSys.init.run [.workerStep, .workerStep] = some writerIdleState
      ∧ writerIdleState.thread.m_bWaitingForOutput = true
      ∧ writerIdleState.thread.m_pValidFrames = []
      ∧ writerIdleState.thread.m_pFreeFrames = [3, 2, 1, 0]) := by
  refine ⟨fun s ⟨acts, h⟩ => (reader_run_flags acts _ s reader_init_flags h).1,
    fun s ⟨acts, h⟩ => writer_run_flags acts _ s writer_init_flags h,
    ⟨by rfl, by rfl, by rfl, by rfl⟩, ⟨by rfl, by rfl, by rfl, by rfl⟩⟩

/-! ### The luma plane does not depend on the chroma side -/

theorem frame_intensity_luma_side {σY σC : Type} (E : Engines σY σC)
    (g1 g2 : Globals σY σC) (a_pInputY a_pOutputY : Option Plane)
    (h : LumaAgree g1 g2) :
    (newdenoise_frame_intensity E g1 a_pInputY a_pOutputY).map LumaResult.lumaSide
      = (newdenoise_frame_intensity E g2 a_pInputY a_pOutputY).map LumaResult.lumaSide
    := by
  obtain ⟨d1, f1, sY1, sC1, bY1, bC1, nY1, wY1, hY1, pY1, nC1, wC1, hC1, pC1⟩ := g1
  obtain ⟨d2, f2, sY2, sC2, bY2, bC2, nY2, wY2, hY2, pY2, nC2, wC2, hC2, pC2⟩ := g2
  obtain ⟨e1, e2, e3, e4, e5, e6, e7, e8⟩ := h
  simp only at e1 e2 e3 e4 e5 e6 e7 e8
  subst e1 e2 e3 e4 e5 e6 e7 e8
  simp only [newdenoise_frame_intensity, timeToPurge, output_frame_luma_part]
  cases bY1 <;> simp only [Bool.not_true, Bool.not_false, if_true, if_false,
    Bool.false_eq_true, Option.map_none']
  by_cases hfr : d1.frames = 0 ∨ (f1 = -2147483648 ∧ d1.frames = -1)
  · simp only [hfr, if_true, Option.map_none']
  simp only [hfr, if_false]
  cases a_pInputY with
  | none =>
    cases hb : (Int.tmod f1 d1.frames == 0) <;>
      simp only [if_true, if_false, Bool.false_eq_true]
    all_goals
      generalize output_frame_luma nY1 _ a_pOutputY = res
      cases res <;> rfl
  | some inputY =>
    cases hb : (Int.tmod f1 d1.frames == 0) <;>
      simp only [if_true, if_false, Bool.false_eq_true]
    all_goals
      generalize output_frame_luma nY1 _ a_pOutputY = res
      cases res with
      | none => rfl
      | some out =>
        simp only [Option.map_some']
        split <;> rfl

theorem frame_color_keeps_luma {σY σC : Type} (E : Engines σY σC)
    (g : Globals σY σC) (a_pInputCb a_pInputCr a_pOutputCb a_pOutputCr : Option Plane)
    (r : ChromaResult σY σC)
    (h : newdenoise_frame_color E g a_pInputCb a_pInputCr a_pOutputCb a_pOutputCr
      = some r) :
    r.globals.g_oMotionSearcherY = g.g_oMotionSearcherY
    ∧ r.globals.g_pPixelsY = g.g_pPixelsY := by
  have key : (newdenoise_frame_color E g a_pInputCb a_pInputCr a_pOutputCb
        a_pOutputCr).map (fun r => (r.globals.g_oMotionSearcherY, r.globals.g_pPixelsY))
      = (newdenoise_frame_color E g a_pInputCb a_pInputCr a_pOutputCb
        a_pOutputCr).map (fun _ => (g.g_oMotionSearcherY, g.g_pPixelsY)) := by
    simp only [newdenoise_frame_color, timeToPurge]
    cases g.g_bMotionSearcherCbCr <;> simp only [Bool.not_true, Bool.not_false, if_true,
      if_false, Bool.false_eq_true, Option.map_none']
    by_cases hfr : g.denoiser.frames = 0 ∨ (g.frame = -2147483648 ∧ g.denoiser.frames = -1)
    · simp only [hfr, if_true, Option.map_none']
    simp only [hfr, if_false]
    cases a_pInputCr with
    | none =>
      cases hb : (Int.tmod g.frame g.denoiser.frames == 0) <;>
        simp only [if_true, if_false, Bool.false_eq_true]
      all_goals
        generalize output_frame g.g_nPixelsY g.g_nPixelsCbCr none _ none a_pOutputCb
          a_pOutputCr = res
        cases res <;> rfl
    | some inputCr =>
      cases hb : (Int.tmod g.frame g.denoiser.frames == 0) <;>
        simp only [if_true, if_false, Bool.false_eq_true]
      all_goals
        generalize output_frame g.g_nPixelsY g.g_nPixelsCbCr none _ none a_pOutputCb
          a_pOutputCr = res
        cases res with
        | none => rfl
        | some out =>
          simp only [Option.map_some']
          generalize stageFrameCbCrFrom a_pInputCb inputCr _ _ = st
          cases st with
          | none => rfl
          | some staged =>
            dsimp only
            split <;> rfl
  rw [h] at key
  simp only [Option.map_some', Option.some.injEq, Prod.mk.injEq] at key
  exact key
theorem frame_intensity_keeps_config {σY σC : Type} (E : Engines σY σC)
    (g : Globals σY σC) (a_pInputY a_pOutputY : Option Plane) (r : LumaResult σY σC)
    (h : newdenoise_frame_intensity E g a_pInputY a_pOutputY = some r) :
    r.globals.denoiser = g.denoiser := by
  have key : (newdenoise_frame_intensity E g a_pInputY a_pOutputY).map
        (fun r => r.globals.denoiser)
      = (newdenoise_frame_intensity E g a_pInputY a_pOutputY).map
        (fun _ => g.denoiser) := by
    simp only [newdenoise_frame_intensity, timeToPurge]
    cases g.g_bMotionSearcherY <;> simp only [Bool.not_true, Bool.not_false, if_true,
      if_false, Bool.false_eq_true, Option.map_none']
    by_cases hfr : g.denoiser.frames = 0 ∨ (g.frame = -2147483648 ∧ g.denoiser.frames = -1)
    · simp only [hfr, if_true, Option.map_none']
    simp only [hfr, if_false]
    cases a_pInputY with
    | none =>
      cases hb : (Int.tmod g.frame g.denoiser.frames == 0) <;>
        simp only [if_true, if_false, Bool.false_eq_true]
      all_goals
        generalize output_frame g.g_nPixelsY g.g_nPixelsCbCr _ none a_pOutputY none none
          = res
        cases res <;> rfl
    | some inputY =>
      cases hb : (Int.tmod g.frame g.denoiser.frames == 0) <;>
        simp only [if_true, if_false, Bool.false_eq_true]
      all_goals
        generalize output_frame g.g_nPixelsY g.g_nPixelsCbCr _ none a_pOutputY none none
          = res
        cases res with
        | none => rfl
        | some out =>
          simp only [Option.map_some']
          split <;> rfl
  rw [h] at key
  simpa using key

theorem frameLumaPart_luma_side {σY σC : Type} (E : Engines σY σC)
    (g1 g2 : Globals σY σC) (a_pInputY a_pOutputY : Option Plane)
    (h : LumaAgree g1 g2) :
    (frameLumaPart E g1 a_pInputY a_pOutputY).map LumaResult.lumaSide
      = (frameLumaPart E g2 a_pInputY a_pOutputY).map LumaResult.lumaSide := by
  unfold frameLumaPart
  rw [← h.2.2.2.1]
  cases g1.g_bMotionSearcherY
  · simp only [Bool.false_eq_true, if_false, Option.map_some', LumaResult.lumaSide,
      h.2.2.1, h.2.2.2.2.2.2.2]
  · simp only [if_true]
    exact frame_intensity_luma_side E g1 g2 a_pInputY a_pOutputY h

theorem frame_luma_part {σY σC : Type} (E : Engines σY σC) (g : Globals σY σC)
    (a_pInputY a_pInputCb a_pInputCr a_pOutputY a_pOutputCb a_pOutputCr : Option Plane)
    (hthreads : Int.land g.denoiser.threads 2 = 0) (r : FrameResult σY σC)
    (h : newdenoise_frame E g a_pInputY a_pInputCb a_pInputCr a_pOutputY a_pOutputCb
      a_pOutputCr = some r) :
    ∃ rY, frameLumaPart E g a_pInputY a_pOutputY = some rY
      ∧ r.a_pOutputY = rY.a_pOutputY
      ∧ r.globals.g_oMotionSearcherY = rY.globals.g_oMotionSearcherY := by
  unfold newdenoise_frame facadeFrame at h
  simp only at h
  split at h
  · exact Option.noConfusion h
  rename_i rY hY
  have hden : rY.globals.denoiser = g.denoiser := by
    cases hb : g.g_bMotionSearcherY
    · simp only [hb, Bool.false_eq_true, if_false, Option.some.injEq] at hY
      subst hY
      rfl
    · simp only [hb, if_true] at hY
      exact frame_intensity_keeps_config E g _ _ rY hY
  split at h
  · exact Option.noConfusion h
  rename_i rC hC
  have hkeep : rC.globals.g_oMotionSearcherY = rY.globals.g_oMotionSearcherY := by
    cases hb : rY.globals.g_bMotionSearcherCbCr
    · simp only [hb, Bool.false_eq_true, if_false, Option.some.injEq] at hC
      subst hC
      rfl
    · simp only [hb, if_true, hden, hthreads, bne_self_eq_false, Bool.false_eq_true,
        if_false] at hC
      exact (frame_color_keeps_luma E _ _ _ _ _ rC hC).1
  split at h
  · exact Option.noConfusion h
  simp only [Option.some.injEq] at h
  subst h
  exact ⟨rY, hY, rfl, hkeep⟩

/-- C38 (plane independence). Take two calls of `newdenoise_frame` with the chroma worker
disabled (`denoiser.threads` bit 1 clear), with engines that record their calls, whose
globals agree on the luma side (configuration, frame counter, luma engine state with its
record, luma flag, dimensions and staging array) and which get the same luma input and
output buffers; the chroma engine state, the chroma staging array and the chroma input
and output buffers are arbitrary. Then the luma statement of the two calls gives the
same result on the luma side (return value, luma output buffer, luma engine state with
the record of its calls, luma staging array), and if both calls return, they leave the
same bytes in the luma output buffer and the same luma engine state, with the same
record of calls. -/
theorem C38_plane_independence {σY σC : Type} (E : Engines σY σC)
    (g1 g2 : Globals (σY × List (EngineCall PixelY)) (σC × List (EngineCall PixelCbCr)))
    (a_pInputY a_pOutputY : Option Plane)
    (a_pInputCb1 a_pInputCr1 a_pOutputCb1 a_pOutputCr1 : Option Plane)
    (a_pInputCb2 a_pInputCr2 a_pOutputCb2 a_pOutputCr2 : Option Plane)
    (hthreads : Int.land g1.denoiser.threads 2 = 0)
    (hagree : LumaAgree g1 g2) :
    (frameLumaPart E.recording g1 a_pInputY a_pOutputY).map LumaResult.lumaSide
      = (frameLumaPart E.recording g2 a_pInputY a_pOutputY).map LumaResult.lumaSide
    ∧ ∀ r1 r2,
      newdenoise_frame E.recording g1 a_pInputY a_pInputCb1 a_pInputCr1
        a_pOutputY a_pOutputCb1 a_pOutputCr1 = some r1 →
      newdenoise_frame E.recording g2 a_pInputY a_pInputCb2 a_pInputCr2
        a_pOutputY a_pOutputCb2 a_pOutputCr2 = some r2 →
      r1.a_pOutputY = r2.a_pOutputY
      ∧ r1.globals.g_oMotionSearcherY = r2.globals.g_oMotionSearcherY := by
  have hside := frameLumaPart_luma_side E.recording g1 g2 a_pInputY a_pOutputY hagree
  refine ⟨hside, fun r1 r2 h1 h2 => ?_⟩
  have ht2 : Int.land g2.denoiser.threads 2 = 0 := hagree.1 ▸ hthreads
  obtain ⟨rY1, e1, o1, s1⟩ := frame_luma_part E.recording g1 _ _ _ _ _ _ hthreads r1 h1
  obtain ⟨rY2, e2, o2, s2⟩ := frame_luma_part E.recording g2 _ _ _ _ _ _ ht2 r2 h2
  rw [e1, e2] at hside
  simp only [Option.map_some', Option.some.injEq, LumaResult.lumaSide, Prod.mk.injEq]
    at hside
  exact ⟨by rw [o1, o2, hside.2.1], by rw [s1, s2, hside.2.2.1]⟩
/-- C38, witness: the sample engines with a window of two frames; the second call has
another chroma engine state, another chroma staging array and other chroma buffers. Both
calls return, with the same luma record `Purge`, `GetFrameReadyForOutput`, `AddFrame`. -/
theorem C38_plane_independence_witness :
    (newdenoise_frame (sampleEngines 2 none none).recording sampleGlobals.withRecords
        (some samplePlaneY) (some samplePlaneCb) (some samplePlaneCr)
        (some blankPlane) (some blankPlane) (some blankPlane)).map
      (fun r => (r.ret, r.globals.g_oMotionSearcherY.2.map EngineCall.kind,
        r.globals.g_oMotionSearcherCbCr.1.held.length))
      = some (1, [.Purge, .GetFrameReadyForOutput, .AddFrame], 1)
    ∧ (newdenoise_frame (sampleEngines 2 none none).recording
        sampleGlobalsOtherChroma.withRecords
        (some samplePlaneY) (some samplePlaneCr) (some samplePlaneCb)
        (some blankPlane) (some samplePlaneY) (some samplePlaneY)).map
      (fun r => (r.ret, r.globals.g_oMotionSearcherY.2.map EngineCall.kind,
        r.globals.g_oMotionSearcherCbCr.1.held.length))
      = some (1, [.Purge, .GetFrameReadyForOutput, .AddFrame], 2)
    ∧ ((frameLumaPart (sampleEngines 2 none none).recording sampleGlobals.withRecords
          (some samplePlaneY) (some blankPlane)).map LumaResult.lumaSide
        = (frameLumaPart (sampleEngines 2 none none).recording
          sampleGlobalsOtherChroma.withRecords
          (some samplePlaneY) (some blankPlane)).map LumaResult.lumaSide
      ∧ ∀ r1 r2,
        newdenoise_frame (sampleEngines 2 none none).recording sampleGlobals.withRecords
          (some samplePlaneY) (some samplePlaneCb) (some samplePlaneCr)
          (some blankPlane) (some blankPlane) (some blankPlane) = some r1 →
        newdenoise_frame (sampleEngines 2 none none).recording
          sampleGlobalsOtherChroma.withRecords
          (some samplePlaneY) (some samplePlaneCr) (some samplePlaneCb)
          (some blankPlane) (some samplePlaneY) (some samplePlaneY) = some r2 →
        r1.a_pOutputY = r2.a_pOutputY
        ∧ r1.globals.g_oMotionSearcherY = r2.globals.g_oMotionSearcherY) :=
  ⟨rfl, rfl, C38_plane_independence (sampleEngines 2 none none)
    sampleGlobals.withRecords sampleGlobalsOtherChroma.withRecords
    (some samplePlaneY) (some blankPlane)
    (some samplePlaneCb) (some samplePlaneCr) (some blankPlane) (some blankPlane)
    (some samplePlaneCr) (some samplePlaneCb) (some samplePlaneY) (some samplePlaneY)
    (by decide) ⟨rfl, rfl, rfl, rfl, rfl, rfl, rfl, rfl⟩⟩

/-! ### The routines without the chroma worker against the facade -/

theorem output_frame_luma_null (n : Nat) (o : Option Plane) :
    output_frame_luma n none o = some o := rfl

theorem output_frame_chroma_null (n : Nat) (a b : Option Plane) :
    output_frame_chroma n none a b = some (a, b) := rfl

set_option maxHeartbeats 4000000 in
theorem frame0_eq_frame {σY σC : Type} (E : Engines σY σC) (g : Globals σY σC)
    (a_pInputY a_pInputCb a_pInputCr a_pOutputY a_pOutputCb a_pOutputCr : Option Plane)
    (hY : g.g_bMotionSearcherY = true) (hC : g.g_bMotionSearcherCbCr = true)
    (hthreads : Int.land g.denoiser.threads 2 = 0)
    (hnull : a_pInputY.isNone = a_pInputCr.isNone)
    (hEY : ∀ s p, (E.Y.AddFrame s p).1 = g_kNoError)
    (hEC : ∀ s p, (E.CbCr.AddFrame s p).1 = g_kNoError) :
    newdenoise_frame0 E g a_pInputY a_pInputCb a_pInputCr a_pOutputY a_pOutputCb
        a_pOutputCr
      = newdenoise_frame E g a_pInputY a_pInputCb a_pInputCr a_pOutputY a_pOutputCb
        a_pOutputCr := by
  obtain ⟨d, f, sY, sC, bY, bC, nY, wY, hhY, pY, nC, wC, hhC, pC⟩ := g
  simp only at hY hC hthreads
  subst hY hC
  simp only [newdenoise_frame0, newdenoise_frame, facadeFrame, newdenoise_frame_intensity,
    newdenoise_frame_color, timeToPurge, purgeBoth, queryBoth, stageAddY, stageAddCbCr,
    output_frame, output_frame_luma_null, output_frame_chroma_null, hthreads, hEY, hEC,
    if_true, if_false, Bool.not_true, Bool.false_eq_true, Bool.true_and, bne_self_eq_false]
  by_cases hfr : d.frames = 0 ∨ (f = -2147483648 ∧ d.frames = -1)
  · simp only [hfr, if_true]
  simp only [hfr, if_false]
  cases hb : (Int.tmod f d.frames == 0) <;>
    simp only [if_true, if_false, Bool.false_eq_true]
  all_goals
    cases a_pInputY <;> cases a_pInputCr <;> simp at hnull <;>
      simp only [Option.isNone_none, Option.isNone_some, Bool.or_self, Bool.or_false,
        Bool.false_or, if_true, if_false, Bool.false_eq_true]
  all_goals
    first
    | (generalize (E.Y.GetRemainingFrames _).1 = fY
       generalize output_frame_luma nY fY a_pOutputY = L
       cases L with
       | none => simp
       | some outY =>
         simp only [hfr, hb, hthreads, if_true, if_false, Bool.not_true,
           Bool.false_eq_true, bne_self_eq_false, Bool.and_self]
         generalize (E.CbCr.GetRemainingFrames _).1 = fC
         generalize output_frame_chroma nC fC a_pOutputCb a_pOutputCr = C
         cases C with
         | none => simp
         | some outC =>
           cases fY <;> cases fC <;> simp [frame0Return, sanityCheck])
    | (generalize (E.Y.GetFrameReadyForOutput _).1 = fY
       generalize output_frame_luma nY fY a_pOutputY = L
       cases L with
       | none => simp
       | some outY =>
         simp only [hfr, hb, hthreads, hEY, hEC, if_true, if_false, Bool.not_true,
           Bool.false_eq_true, bne_self_eq_false, Bool.and_self]
         generalize (E.CbCr.GetFrameReadyForOutput _).1 = fC
         generalize output_frame_chroma nC fC a_pOutputCb a_pOutputCr = C
         cases C with
         | none => simp
         | some outC =>
           generalize stageFrameCbCrFrom a_pInputCb _ nC pC = S
           cases S <;> cases fY <;> cases fC <;>
             simp [frame0Return, sanityCheck, hEY, hEC])

theorem output_field_luma_null (W H m : Nat) (o : Option Plane) :
    output_field_luma W H m none o = some o := rfl

theorem output_field_chroma_null (W H m : Nat) (a b : Option Plane) :
    output_field_chroma W H m none a b = some (a, b) := rfl

theorem fieldLoop_stage_total {α β : Type} (body : Nat → Nat → α → Option α)
    (obs : α → Nat → β) (src : Nat → β)
    (hbody : ∀ index i s, ∃ s1, body index i s = some s1
      ∧ ∀ j, obs s1 j = if j = i then src index else obs s j)
    (W H m : Nat) (s : α) :
    ∃ s1, fieldLoop body W H m s = some (fieldPixels W H m, s1) := by
  obtain ⟨s1, h1, -, -⟩ := fieldRows_stage body obs src hbody W H H m 0 s (by omega)
  exact ⟨s1, by simpa [fieldLoop, fieldPixels] using h1⟩

theorem addFieldY_eq {σY σC : Type} (E : Engines σY σC) (g : Globals σY σC)
    (inputY : Plane) (m : Nat) :
    addFieldY E g inputY m
      = if (fieldPixels g.g_nWidthY g.g_nHeightY m != g.g_nPixelsY) = true then none
        else
          some ((E.Y.AddFrame g.g_oMotionSearcherY
              ((fieldLoop (stageFieldY inputY) g.g_nWidthY g.g_nHeightY m
                g.g_pPixelsY).getD (0, g.g_pPixelsY)).2).1,
            { g with
              g_pPixelsY := ((fieldLoop (stageFieldY inputY) g.g_nWidthY g.g_nHeightY m
                g.g_pPixelsY).getD (0, g.g_pPixelsY)).2,
              g_oMotionSearcherY := (E.Y.AddFrame g.g_oMotionSearcherY
                ((fieldLoop (stageFieldY inputY) g.g_nWidthY g.g_nHeightY m
                  g.g_pPixelsY).getD (0, g.g_pPixelsY)).2).2 }) := by
  obtain ⟨staged, h1⟩ := fieldLoop_stage_total (stageFieldY inputY)
    (fun (s : Nat → PixelY) j => s j) (fun i => PixelY.mk (inputY i))
    (fun index i s => ⟨_, rfl, fun j => rfl⟩) g.g_nWidthY g.g_nHeightY m g.g_pPixelsY
  by_cases hN : fieldPixels g.g_nWidthY g.g_nHeightY m = g.g_nPixelsY
  · simp [addFieldY, h1, hN]
  · simp [addFieldY, h1, hN]

theorem addFieldCbCrFrom_eq {σY σC : Type} (E : Engines σY σC) (g : Globals σY σC)
    (a_pInputCb : Option Plane) (inputCr : Plane) (m : Nat) :
    addFieldCbCrFrom E g a_pInputCb inputCr m
      = (stagedFieldCbCr a_pInputCb inputCr g.g_nWidthCbCr g.g_nHeightCbCr
          g.g_nPixelsCbCr m g.g_pPixelsCbCr).map
        (fun st => ((E.CbCr.AddFrame g.g_oMotionSearcherCbCr st).1,
          { g with
            g_pPixelsCbCr := st,
            g_oMotionSearcherCbCr := (E.CbCr.AddFrame g.g_oMotionSearcherCbCr st).2 })) := by
  unfold addFieldCbCrFrom stagedFieldCbCr
  cases fieldLoop (stageFieldCbCrFrom a_pInputCb inputCr) g.g_nWidthCbCr g.g_nHeightCbCr m
      g.g_pPixelsCbCr with
  | none => rfl
  | some staged =>
    dsimp only
    split <;> rfl

set_option maxHeartbeats 8000000 in
theorem interlaced_frame0_eq_frame {σY σC : Type} (E : Engines σY σC) (g : Globals σY σC)
    (a_pInputY a_pInputCb a_pInputCr a_pOutputY a_pOutputCb a_pOutputCr : Option Plane)
    (hY : g.g_bMotionSearcherY = true) (hC : g.g_bMotionSearcherCbCr = true)
    (hthreads : Int.land g.denoiser.threads 2 = 0)
    (hnull : a_pInputY.isNone = a_pInputCr.isNone)
    (hEY : ∀ s p, (E.Y.AddFrame s p).1 = g_kNoError)
    (hEC : ∀ s p, (E.CbCr.AddFrame s p).1 = g_kNoError) :
    newdenoise_interlaced_frame0 E g a_pInputY a_pInputCb a_pInputCr a_pOutputY
        a_pOutputCb a_pOutputCr
      = newdenoise_interlaced_frame E g a_pInputY a_pInputCb a_pInputCr a_pOutputY
        a_pOutputCb a_pOutputCr := by
  obtain ⟨d, f, sY, sC, bY, bC, nY, wY, hhY, pY, nC, wC, hhC, pC⟩ := g
  simp only at hY hC hthreads
  subst hY hC
  simp only [newdenoise_interlaced_frame0, newdenoise_interlaced_frame, facadeFrame,
    newdenoise_interlaced_frame_intensity, newdenoise_interlaced_frame_color, timeToPurge,
    purgeBoth, queryBoth, stageAddFields, stageAddFieldY, stageAddFieldCbCr,
    outputFieldY, outputFieldCbCr, addFieldY_eq, addFieldCbCrFrom_eq,
    output_field, output_field_luma_null, output_field_chroma_null, hthreads, hEY, hEC,
    if_true, if_false, Bool.not_true, Bool.false_eq_true, Bool.true_and, bne_self_eq_false]
  by_cases hfr : d.frames = 0 ∨ (f = -2147483648 ∧ d.frames = -1)
  · simp only [hfr, if_true]
  simp only [hfr, if_false]
  cases hb : (Int.tmod f d.frames == 0) <;>
    simp only [if_true, if_false, Bool.false_eq_true, fieldMask]
  all_goals
    cases a_pInputY <;> cases a_pInputCr <;> simp at hnull <;>
      simp only [Option.isNone_none, Option.isNone_some, Bool.or_self, Bool.or_false,
        Bool.false_or, Bool.and_true, Bool.and_false, Bool.and_self, if_true, if_false,
        Bool.false_eq_true]
  · -- flush
    generalize hL1 : output_field_luma wY hhY _ _ a_pOutputY = L1
    cases L1 with
    | none => simp
    | some outY1 =>
      simp only [hfr, hb, hthreads, if_true, if_false, Bool.not_true,
        Bool.false_eq_true, bne_self_eq_false, Bool.and_self]
      generalize hC1 : output_field_chroma wC hhC _ _ a_pOutputCb a_pOutputCr = C1
      generalize hL2 : output_field_luma wY hhY _ _ outY1 = L2
      rcases C1 with _ | outC1 <;> rcases L2 with _ | outY2 <;>
        simp only [hfr, hb, hthreads, hC1, hL2, if_true, if_false, Bool.not_true,
          Bool.false_eq_true, bne_self_eq_false, Bool.and_self]
      generalize hC2 : output_field_chroma wC hhC _ _ outC1.1 outC1.2 = C2
      rcases C2 with _ | outC2 <;>
        simp only [hfr, hb, hthreads, hC1, hL2, if_true, if_false, Bool.not_true,
          Bool.false_eq_true, bne_self_eq_false, Bool.and_self]
      generalize (E.Y.GetRemainingFrames _).1 = fY2
      generalize (E.CbCr.GetRemainingFrames _).1 = fC2
      cases fY2 <;> cases fC2 <;> simp [frame0Return, sanityCheck]
  · -- submit
    rename_i inputY inputCr
    generalize hL1 : output_field_luma wY hhY _ _ a_pOutputY = L1
    rcases L1 with _ | outY1 <;>
      simp only [*, if_true, if_false, Bool.not_true, Bool.false_eq_true,
        bne_self_eq_false, Bool.and_self, Option.map_none', Option.map_some']
    generalize hPY0 : (fieldPixels wY hhY (_ ^^^ 0) != nY) = b0
    generalize hC1 : output_field_chroma wC hhC (_ ^^^ 0) _ a_pOutputCb a_pOutputCr = C1
    rcases b0 with _ | _ <;> rcases C1 with _ | outC1 <;>
      simp only [*, if_true, if_false, Bool.not_true, Bool.false_eq_true,
        bne_self_eq_false, Bool.and_self, Option.map_none', Option.map_some']
    · -- the first chroma field cannot be written
      generalize hL2 : output_field_luma wY hhY (_ ^^^ 1) _ outY1 = L2
      rcases L2 with _ | outY2 <;>
        simp only [*, if_true, if_false, Bool.not_true, Bool.false_eq_true,
          bne_self_eq_false, Bool.and_self, Option.map_none', Option.map_some']
      generalize hPY1 : (fieldPixels wY hhY (_ ^^^ 1) != nY) = b1
      rcases b1 with _ | _ <;>
        simp only [*, if_true, if_false, Bool.not_true, Bool.false_eq_true,
          bne_self_eq_false, Bool.and_self, Option.map_none', Option.map_some']
    generalize hS0 : stagedFieldCbCr a_pInputCb inputCr wC hhC nC (_ ^^^ 0) pC = S0
    rcases S0 with _ | st0 <;>
      simp only [*, if_true, if_false, Bool.not_true, Bool.false_eq_true,
        bne_self_eq_false, Bool.and_self, Option.map_none', Option.map_some']
    · -- the first chroma field cannot be staged
      generalize hL2 : output_field_luma wY hhY (_ ^^^ 1) _ outY1 = L2
      rcases L2 with _ | outY2 <;>
        simp only [*, if_true, if_false, Bool.not_true, Bool.false_eq_true,
          bne_self_eq_false, Bool.and_self, Option.map_none', Option.map_some']
      generalize hPY1 : (fieldPixels wY hhY (_ ^^^ 1) != nY) = b1
      rcases b1 with _ | _ <;>
        simp only [*, if_true, if_false, Bool.not_true, Bool.false_eq_true,
          bne_self_eq_false, Bool.and_self, Option.map_none', Option.map_some']
    generalize hL2 : output_field_luma wY hhY (_ ^^^ 1) _ outY1 = L2
    rcases L2 with _ | outY2 <;>
      simp only [*, if_true, if_false, Bool.not_true, Bool.false_eq_true,
        bne_self_eq_false, Bool.and_self, Option.map_none', Option.map_some']
    generalize hC2 : output_field_chroma wC hhC (_ ^^^ 1) _ outC1.1 outC1.2 = C2
    generalize hPY1 : (fieldPixels wY hhY (_ ^^^ 1) != nY) = b1
    rcases C2 with _ | outC2 <;> rcases b1 with _ | _ <;>
      simp only [*, if_true, if_false, Bool.not_true, Bool.false_eq_true,
        bne_self_eq_false, Bool.and_self, Option.map_none', Option.map_some']
    generalize hS1 : stagedFieldCbCr a_pInputCb inputCr wC hhC nC (_ ^^^ 1) st0 = S1
    rcases S1 with _ | st1 <;>
      simp only [*, if_true, if_false, Bool.not_true, Bool.false_eq_true,
        bne_self_eq_false, Bool.and_self, Option.map_none', Option.map_some']
    generalize (E.Y.GetFrameReadyForOutput (E.Y.AddFrame _ _).2).1 = fY2
    generalize (E.CbCr.GetFrameReadyForOutput (E.CbCr.AddFrame _ _).2).1 = fC2
    cases fY2 <;> cases fC2 <;> simp [frame0Return, sanityCheck]
  · -- flush, after a purge
    generalize hL1 : output_field_luma wY hhY _ _ a_pOutputY = L1
    cases L1 with
    | none => simp
    | some outY1 =>
      simp only [hfr, hb, hthreads, if_true, if_false, Bool.not_true,
        Bool.false_eq_true, bne_self_eq_false, Bool.and_self]
      generalize hC1 : output_field_chroma wC hhC _ _ a_pOutputCb a_pOutputCr = C1
      generalize hL2 : output_field_luma wY hhY _ _ outY1 = L2
      rcases C1 with _ | outC1 <;> rcases L2 with _ | outY2 <;>
        simp only [hfr, hb, hthreads, hC1, hL2, if_true, if_false, Bool.not_true,
          Bool.false_eq_true, bne_self_eq_false, Bool.and_self]
      generalize hC2 : output_field_chroma wC hhC _ _ outC1.1 outC1.2 = C2
      rcases C2 with _ | outC2 <;>
        simp only [hfr, hb, hthreads, hC1, hL2, if_true, if_false, Bool.not_true,
          Bool.false_eq_true, bne_self_eq_false, Bool.and_self]
      generalize (E.Y.GetRemainingFrames _).1 = fY2
      generalize (E.CbCr.GetRemainingFrames _).1 = fC2
      cases fY2 <;> cases fC2 <;> simp [frame0Return, sanityCheck]
  · -- submit, after a purge
    rename_i inputY inputCr
    generalize hL1 : output_field_luma wY hhY _ _ a_pOutputY = L1
    rcases L1 with _ | outY1 <;>
      simp only [*, if_true, if_false, Bool.not_true, Bool.false_eq_true,
        bne_self_eq_false, Bool.and_self, Option.map_none', Option.map_some']
    generalize hPY0 : (fieldPixels wY hhY (_ ^^^ 0) != nY) = b0
    generalize hC1 : output_field_chroma wC hhC (_ ^^^ 0) _ a_pOutputCb a_pOutputCr = C1
    rcases b0 with _ | _ <;> rcases C1 with _ | outC1 <;>
      simp only [*, if_true, if_false, Bool.not_true, Bool.false_eq_true,
        bne_self_eq_false, Bool.and_self, Option.map_none', Option.map_some']
    · -- the first chroma field cannot be written
      generalize hL2 : output_field_luma wY hhY (_ ^^^ 1) _ outY1 = L2
      rcases L2 with _ | outY2 <;>
        simp only [*, if_true, if_false, Bool.not_true, Bool.false_eq_true,
          bne_self_eq_false, Bool.and_self, Option.map_none', Option.map_some']
      generalize hPY1 : (fieldPixels wY hhY (_ ^^^ 1) != nY) = b1
      rcases b1 with _ | _ <;>
        simp only [*, if_true, if_false, Bool.not_true, Bool.false_eq_true,
          bne_self_eq_false, Bool.and_self, Option.map_none', Option.map_some']
    generalize hS0 : stagedFieldCbCr a_pInputCb inputCr wC hhC nC (_ ^^^ 0) pC = S0
    rcases S0 with _ | st0 <;>
      simp only [*, if_true, if_false, Bool.not_true, Bool.false_eq_true,
        bne_self_eq_false, Bool.and_self, Option.map_none', Option.map_some']
    · -- the first chroma field cannot be staged
      generalize hL2 : output_field_luma wY hhY (_ ^^^ 1) _ outY1 = L2
      rcases L2 with _ | outY2 <;>
        simp only [*, if_true, if_false, Bool.not_true, Bool.false_eq_true,
          bne_self_eq_false, Bool.and_self, Option.map_none', Option.map_some']
      generalize hPY1 : (fieldPixels wY hhY (_ ^^^ 1) != nY) = b1
      rcases b1 with _ | _ <;>
        simp only [*, if_true, if_false, Bool.not_true, Bool.false_eq_true,
          bne_self_eq_false, Bool.and_self, Option.map_none', Option.map_some']
    generalize hL2 : output_field_luma wY hhY (_ ^^^ 1) _ outY1 = L2
    rcases L2 with _ | outY2 <;>
      simp only [*, if_true, if_false, Bool.not_true, Bool.false_eq_true,
        bne_self_eq_false, Bool.and_self, Option.map_none', Option.map_some']
    generalize hC2 : output_field_chroma wC hhC (_ ^^^ 1) _ outC1.1 outC1.2 = C2
    generalize hPY1 : (fieldPixels wY hhY (_ ^^^ 1) != nY) = b1
    rcases C2 with _ | outC2 <;> rcases b1 with _ | _ <;>
      simp only [*, if_true, if_false, Bool.not_true, Bool.false_eq_true,
        bne_self_eq_false, Bool.and_self, Option.map_none', Option.map_some']
    generalize hS1 : stagedFieldCbCr a_pInputCb inputCr wC hhC nC (_ ^^^ 1) st0 = S1
    rcases S1 with _ | st1 <;>
      simp only [*, if_true, if_false, Bool.not_true, Bool.false_eq_true,
        bne_self_eq_false, Bool.and_self, Option.map_none', Option.map_some']
    generalize (E.Y.GetFrameReadyForOutput (E.Y.AddFrame _ _).2).1 = fY2
    generalize (E.CbCr.GetFrameReadyForOutput (E.CbCr.AddFrame _ _).2).1 = fC2
    cases fY2 <;> cases fC2 <;> simp [frame0Return, sanityCheck]

/-- Claim C33, amended: `newdenoise_frame0` and `newdenoise_interlaced_frame0` against
the facades `newdenoise_frame` and `newdenoise_interlaced_frame` with the chroma worker
disabled (`denoiser.threads` bit 1 clear). When both plane groups are enabled, the luma
input and the `Cr` input are both `NULL` or both present, and the engines' `AddFrame`
never reports an error, each routine and its facade give the same result for every
engine state, frame counter and buffers: both abort, or both return with the same return
value, the same output buffers and the same globals, engine states included. Run with
recording engines, the record of the calls made to each engine is part of the engine
state, so the two make the same sequence of calls to each engine. -/
theorem C33_dead_path_equivalence_amended {σY σC : Type} (E : Engines σY σC)
    (g : Globals σY σC)
    (a_pInputY a_pInputCb a_pInputCr a_pOutputY a_pOutputCb a_pOutputCr : Option Plane)
    (hY : g.g_bMotionSearcherY = true) (hC : g.g_bMotionSearcherCbCr = true)
    (hthreads : Int.land g.denoiser.threads 2 = 0)
    (hnull : a_pInputY.isNone = a_pInputCr.isNone)
    (hEY : ∀ s p, (E.Y.AddFrame s p).1 = g_kNoError)
    (hEC : ∀ s p, (E.CbCr.AddFrame s p).1 = g_kNoError) :
    newdenoise_frame0 E g a_pInputY a_pInputCb a_pInputCr a_pOutputY a_pOutputCb
        a_pOutputCr
      = newdenoise_frame E g a_pInputY a_pInputCb a_pInputCr a_pOutputY a_pOutputCb
        a_pOutputCr
    ∧ newdenoise_interlaced_frame0 E g a_pInputY a_pInputCb a_pInputCr a_pOutputY
        a_pOutputCb a_pOutputCr
      = newdenoise_interlaced_frame E g a_pInputY a_pInputCb a_pInputCr a_pOutputY
        a_pOutputCb a_pOutputCr
    ∧ newdenoise_frame0 E.recording g.withRecords a_pInputY a_pInputCb a_pInputCr
        a_pOutputY a_pOutputCb a_pOutputCr
      = newdenoise_frame E.recording g.withRecords a_pInputY a_pInputCb a_pInputCr
        a_pOutputY a_pOutputCb a_pOutputCr
    ∧ newdenoise_interlaced_frame0 E.recording g.withRecords a_pInputY a_pInputCb
        a_pInputCr a_pOutputY a_pOutputCb a_pOutputCr
      = newdenoise_interlaced_frame E.recording g.withRecords a_pInputY a_pInputCb
        a_pInputCr a_pOutputY a_pOutputCb a_pOutputCr :=
  ⟨frame0_eq_frame E g _ _ _ _ _ _ hY hC hthreads hnull hEY hEC,
    interlaced_frame0_eq_frame E g _ _ _ _ _ _ hY hC hthreads hnull hEY hEC,
    frame0_eq_frame E.recording g.withRecords _ _ _ _ _ _ hY hC hthreads hnull
      (fun s p => hEY s.1 p) (fun s p => hEC s.1 p),
    interlaced_frame0_eq_frame E.recording g.withRecords _ _ _ _ _ _ hY hC hthreads hnull
      (fun s p => hEY s.1 p) (fun s p => hEC s.1 p)⟩

/-- Witness for claim C33, amended: the pass-through sample engines with a window of one
frame, none of whose `AddFrame` calls fails, on the loaded 4x2 sample globals. The
hypotheses hold there; `newdenoise_frame0` returns 0 after the luma calls `Purge`,
`GetFrameReadyForOutput`, `AddFrame` and the same chroma calls, and the facade gives
the same result. -/
theorem C33_dead_path_equivalence_amended_witness :
    (newdenoise_frame0 (sampleEngines 1 none none).recording
        sampleGlobalsLoaded.withRecords
        (some samplePlaneY) (some samplePlaneCb) (some samplePlaneCr)
        (some blankPlane) (some blankPlane) (some blankPlane)).map
      (fun r => (r.ret, r.globals.g_oMotionSearcherY.2.map EngineCall.kind,
        r.globals.g_oMotionSearcherCbCr.2.map EngineCall.kind))
      = some (0, [.Purge, .GetFrameReadyForOutput, .AddFrame],
          [.Purge, .GetFrameReadyForOutput, .AddFrame])
    ∧ (newdenoise_frame0 (sampleEngines 1 none none) sampleGlobalsLoaded
        (some samplePlaneY) (some samplePlaneCb) (some samplePlaneCr)
        (some blankPlane) (some blankPlane) (some blankPlane)
      = newdenoise_frame (sampleEngines 1 none none) sampleGlobalsLoaded
        (some samplePlaneY) (some samplePlaneCb) (some samplePlaneCr)
        (some blankPlane) (some blankPlane) (some blankPlane)
    ∧ newdenoise_interlaced_frame0 (sampleEngines 1 none none) sampleGlobalsLoaded
        (some samplePlaneY) (some samplePlaneCb) (some samplePlaneCr)
        (some blankPlane) (some blankPlane) (some blankPlane)
      = newdenoise_interlaced_frame (sampleEngines 1 none none) sampleGlobalsLoaded
        (some samplePlaneY) (some samplePlaneCb) (some samplePlaneCr)
        (some blankPlane) (some blankPlane) (some blankPlane)
    ∧ newdenoise_frame0 (sampleEngines 1 none none).recording
        sampleGlobalsLoaded.withRecords
        (some samplePlaneY) (some samplePlaneCb) (some samplePlaneCr)
        (some blankPlane) (some blankPlane) (some blankPlane)
      = newdenoise_frame (sampleEngines 1 none none).recording
        sampleGlobalsLoaded.withRecords
        (some samplePlaneY) (some samplePlaneCb) (some samplePlaneCr)
        (some blankPlane) (some blankPlane) (some blankPlane)
    ∧ newdenoise_interlaced_frame0 (sampleEngines 1 none none).recording
        sampleGlobalsLoaded.withRecords
        (some samplePlaneY) (some samplePlaneCb) (some samplePlaneCr)
        (some blankPlane) (some blankPlane) (some blankPlane)
      = newdenoise_interlaced_frame (sampleEngines 1 none none).recording
        sampleGlobalsLoaded.withRecords
        (some samplePlaneY) (some samplePlaneCb) (some samplePlaneCr)
        (some blankPlane) (some blankPlane) (some blankPlane)) :=
  ⟨rfl, C33_dead_path_equivalence_amended (sampleEngines 1 none none) sampleGlobalsLoaded
    (some samplePlaneY) (some samplePlaneCb) (some samplePlaneCr)
    (some blankPlane) (some blankPlane) (some blankPlane) rfl rfl rfl rfl
    (fun _ _ => rfl) (fun _ _ => rfl)⟩

/-- Claim C33, counterexample: the chroma worker is disabled (`denoiser.threads = 0`) in
all four runs, on the 4x2 sample globals with the pass-through sample engines.
When the luma `AddFrame` reports an error, `newdenoise_frame0` returns -1 before the
chroma input is passed on, while `newdenoise_frame` still runs the chroma routine: the
chroma engine sees `Purge`, `GetFrameReadyForOutput` in the first and `Purge`,
`GetFrameReadyForOutput`, `AddFrame` in the second.
When only the chroma `AddFrame` reports an error, `newdenoise_frame0` returns -1 and
`newdenoise_frame` returns 1. -/
theorem C33_dead_path_equivalence_counterexample :
    Int.land sampleGlobals.withRecords.denoiser.threads 2 = 0
    ∧ (newdenoise_frame0 (sampleEngines 1 (some 0) none).recording
        sampleGlobals.withRecords
        (some samplePlaneY) (some samplePlaneCb) (some samplePlaneCr)
        (some blankPlane) (some blankPlane) (some blankPlane)).map
      (fun r => (r.ret, r.globals.g_oMotionSearcherCbCr.2.map EngineCall.kind))
      = some (-1, [.Purge, .GetFrameReadyForOutput])
    ∧ (newdenoise_frame (sampleEngines 1 (some 0) none).recording
        sampleGlobals.withRecords
        (some samplePlaneY) (some samplePlaneCb) (some samplePlaneCr)
        (some blankPlane) (some blankPlane) (some blankPlane)).map
      (fun r => (r.ret, r.globals.g_oMotionSearcherCbCr.2.map EngineCall.kind))
      = some (-1, [.Purge, .GetFrameReadyForOutput, .AddFrame])
    ∧ (newdenoise_frame0 (sampleEngines 1 none (some 0)) sampleGlobals
        (some samplePlaneY) (some samplePlaneCb) (some samplePlaneCr)
        (some blankPlane) (some blankPlane) (some blankPlane)).map (fun r => r.ret)
      = some (-1)
    ∧ (newdenoise_frame (sampleEngines 1 none (some 0)) sampleGlobals
        (some samplePlaneY) (some samplePlaneCb) (some samplePlaneCr)
        (some blankPlane) (some blankPlane) (some blankPlane)).map (fun r => r.ret)
      = some 1 :=
  ⟨rfl, rfl, rfl, rfl, rfl⟩

end NewDenoise
